import Mathlib

/-!
# LokiSDK: the Azure IoT Hub serializer header (`serializer.h`)

A shallow embedding of the marshalling layer that `serializer.h` generates:
the primitive codec table (`ToAGENT_DATA_TYPE_T`, `FromAGENT_DATA_TYPE_T`,
`GlobalInitialize_T`, `GlobalDeinitialize_T`, `destroyLocalParameterT`), the
struct marshaller produced by `DECLARE_STRUCT`, and the action and method
wrappers produced by `DECLARE_MODEL`.

Conventions of the embedding.

* A C function that writes through a pointer takes the old pointee and
  returns the new one.
* The heap, the outcome of every allocation request, the calls to `free`
  and the calls one generated function makes to another are kept in a
  `World` that is passed through explicitly.
* A macro that pastes a type name into a function name
  (`FromAGENT_DATA_TYPE_##type`) becomes a function that takes the type as a
  `CType` and selects the function of that name.
-/

namespace LokiSDK

/-! ## Result codes and tags -/

/-- Result of a conversion. `agenttypesystem.h` declares the enumeration; the
three codes the serializer produces are `AGENT_DATA_TYPES_OK`,
`AGENT_DATA_TYPES_ERROR` and `AGENT_DATA_TYPES_INVALID_ARG`. -/
inductive AGENT_DATA_TYPES_RESULT where
  | AGENT_DATA_TYPES_OK
  | AGENT_DATA_TYPES_ERROR
  | AGENT_DATA_TYPES_INVALID_ARG
  | AGENT_DATA_TYPES_NOT_IMPLEMENTED
  | AGENT_DATA_TYPES_JSON_ENCODER_ERRROR
  deriving DecidableEq, Repr

open AGENT_DATA_TYPES_RESULT

/-- Modelled from the spec: the numbering of `AGENT_DATA_TYPES_RESULT`
(`agenttypesystem.h` is not part of the sources). The spec lists the result
taxonomy as `Result{OK, INVALID_ARG, ERROR}`, with OK first, and a C
enumeration numbers its first enumerator 0; only the number of
`AGENT_DATA_TYPES_OK` is used below. -/
def AGENT_DATA_TYPES_RESULT.toInt : AGENT_DATA_TYPES_RESULT → Int
  | AGENT_DATA_TYPES_OK => 0
  | AGENT_DATA_TYPES_ERROR => 1
  | AGENT_DATA_TYPES_INVALID_ARG => 2
  | AGENT_DATA_TYPES_NOT_IMPLEMENTED => 3
  | AGENT_DATA_TYPES_JSON_ENCODER_ERRROR => 4

/-- Modelled from the spec: the tag of a generic value (`agenttypesystem.h`
is not part of the sources), one tag per kind of section 3 of the spec. -/
inductive AGENT_DATA_TYPE_TYPE where
  | EDM_SBYTE_TYPE
  | EDM_BYTE_TYPE
  | EDM_INT16_TYPE
  | EDM_INT32_TYPE
  | EDM_INT64_TYPE
  | EDM_SINGLE_TYPE
  | EDM_DOUBLE_TYPE
  | EDM_BOOLEAN_TYPE
  | EDM_STRING_TYPE
  | EDM_STRING_NO_QUOTES_TYPE
  | EDM_BINARY_TYPE
  | EDM_GUID_TYPE
  | EDM_DATE_TIME_OFFSET_TYPE
  | EDM_DURATION_TYPE
  | EDM_DECIMAL_TYPE
  | EDM_TIME_OF_DAY_TYPE
  | EDM_COMPLEX_TYPE_TYPE
  deriving DecidableEq, Repr

open AGENT_DATA_TYPE_TYPE

/-- Payload of an `EDM_BOOLEAN_TYPE` value. -/
inductive EDM_BOOLEANS where
  | EDM_TRUE
  | EDM_FALSE
  deriving DecidableEq, Repr

open EDM_BOOLEANS

/-- The C type `EDM_GUID`: `uint8_t GUID[16]`. -/
structure EDM_GUID where
  GUID : List Nat
  size_eq : GUID.length = 16
  deriving DecidableEq

/-- The C type `EDM_DATE_TIME_OFFSET`, kept as the bytes of its object
representation: the serializer only copies it whole and clears it with
`memset`. -/
structure EDM_DATE_TIME_OFFSET where
  bytes : List Nat
  deriving DecidableEq, Repr

/-- The C type `EDM_BINARY`: a byte count and a pointer to the bytes
(0 is `NULL`). -/
structure EDM_BINARY where
  size : Nat
  data : Nat
  deriving DecidableEq, Repr

/-- Modelled from the spec: the generic tagged value `AGENT_DATA_TYPE`
(`agenttypesystem.h` is not part of the sources). One constructor per tag,
carrying the member of the `value` union that the tag selects; a complex
record carries its ordered list of named members, `nMembers` being the
length of that list. The payloads of durations, decimals and times of day
are never read by the serializer and are left out. -/
inductive AGENT_DATA_TYPE where
  | edmSbyte (value : Int)
  | edmByte (value : Nat)
  | edmInt16 (value : Int)
  | edmInt32 (value : Int)
  | edmInt64 (value : Int)
  | edmSingle (value : Nat)
  | edmDouble (value : Nat)
  | edmBoolean (value : EDM_BOOLEANS)
  | edmString (chars : String)
  | edmStringNoQuotes (chars : String)
  | edmBinary (data : List Nat)
  | edmGuid (value : EDM_GUID)
  | edmDateTimeOffset (value : EDM_DATE_TIME_OFFSET)
  | edmDuration
  | edmDecimal
  | edmTimeOfDay
  | edmComplexType (fields : List (String × AGENT_DATA_TYPE))

namespace AGENT_DATA_TYPE

/-- The field `type` of a generic value. -/
def type : AGENT_DATA_TYPE → AGENT_DATA_TYPE_TYPE
  | edmSbyte _ => EDM_SBYTE_TYPE
  | edmByte _ => EDM_BYTE_TYPE
  | edmInt16 _ => EDM_INT16_TYPE
  | edmInt32 _ => EDM_INT32_TYPE
  | edmInt64 _ => EDM_INT64_TYPE
  | edmSingle _ => EDM_SINGLE_TYPE
  | edmDouble _ => EDM_DOUBLE_TYPE
  | edmBoolean _ => EDM_BOOLEAN_TYPE
  | edmString _ => EDM_STRING_TYPE
  | edmStringNoQuotes _ => EDM_STRING_NO_QUOTES_TYPE
  | edmBinary _ => EDM_BINARY_TYPE
  | edmGuid _ => EDM_GUID_TYPE
  | edmDateTimeOffset _ => EDM_DATE_TIME_OFFSET_TYPE
  | edmDuration => EDM_DURATION_TYPE
  | edmDecimal => EDM_DECIMAL_TYPE
  | edmTimeOfDay => EDM_TIME_OF_DAY_TYPE
  | edmComplexType _ => EDM_COMPLEX_TYPE_TYPE

/-- The members `value.edmComplexType.fields[0 .. nMembers-1]` of a complex
record, each a `fieldName` and a `value`; empty for any other tag. -/
def fields : AGENT_DATA_TYPE → List (String × AGENT_DATA_TYPE)
  | edmComplexType fs => fs
  | _ => []

/-- The count `value.edmComplexType.nMembers`. -/
def nMembers (a : AGENT_DATA_TYPE) : Nat := a.fields.length

end AGENT_DATA_TYPE

/-! ## Declared types and their native values -/

mutual
/-- A type that may appear in a declaration: one of the fifteen primitive
codec types, or a struct introduced by `DECLARE_STRUCT(name, t1, n1, ...)`. -/
inductive CType where
  | double
  | float
  | int
  | long
  | int8_t
  | uint8_t
  | int16_t
  | int32_t
  | int64_t
  | bool
  | ascii_char_ptr
  | ascii_char_ptr_no_quotes
  | EDM_DATE_TIME_OFFSET
  | EDM_GUID
  | EDM_BINARY
  | struct (name : String) (fields : CFields)
/-- The variadic `type1, name1, type2, name2, ...` list of a declaration. -/
inductive CFields where
  | nil
  | cons (type : CType) (name : String) (rest : CFields)
end

namespace CFields

/-- The number of (type, name) pairs. -/
def length : CFields → Nat
  | nil => 0
  | cons _ _ rest => rest.length + 1

/-- The names, in declared order. -/
def names : CFields → List String
  | nil => []
  | cons _ n rest => n :: rest.names

end CFields

/-- The (type, name) pairs of a declaration, in declared order. -/
def CFields.toList : CFields → List (CType × String)
  | .nil => []
  | .cons t n rest => (t, n) :: rest.toList

/-- The declaration with the given (type, name) pairs. -/
def CFields.ofList : List (CType × String) → CFields
  | [] => .nil
  | (t, n) :: rest => .cons t n (CFields.ofList rest)

/-- `MU_COUNT_ARG(__VA_ARGS__)` for a list of (type, name) pairs: two macro
arguments per pair. -/
def MU_COUNT_ARG (fs : CFields) : Nat := 2 * fs.length

/-- `MU_DIV2(n)`. -/
def MU_DIV2 (n : Nat) : Nat := n / 2

/-- True for the fifteen primitive codec types. -/
def CType.isPrimitive : CType → Bool
  | .struct _ _ => false
  | _ => true

mutual
/-- The values of a declared type. Floating-point values are kept as their
bit patterns, integers as mathematical integers, pointers as addresses with
0 for `NULL`. -/
def Native : CType → Type
  | .double => Nat
  | .float => Nat
  | .int => Int
  | .long => Int
  | .int8_t => Int
  | .uint8_t => Nat
  | .int16_t => Int
  | .int32_t => Int
  | .int64_t => Int
  | .bool => Bool
  | .ascii_char_ptr => Nat
  | .ascii_char_ptr_no_quotes => Nat
  | .EDM_DATE_TIME_OFFSET => LokiSDK.EDM_DATE_TIME_OFFSET
  | .EDM_GUID => LokiSDK.EDM_GUID
  | .EDM_BINARY => LokiSDK.EDM_BINARY
  | .struct _ fs => NativeFields fs
/-- The fields of a struct (or the locals of a wrapper), in declared
order. -/
def NativeFields : CFields → Type
  | .nil => Unit
  | .cons t _ rest => Native t × NativeFields rest
end

/-- Quantities fixed by the C implementation and by headers that are not
part of the sources. `LONG_BIT` is the width of `long` (32 or 64 on the
platforms of the SDK); `int` is taken to be 32 bits wide, as `int32_t`. -/
structure Platform where
  LONG_BIT : Nat
  sizeof_EDM_DATE_TIME_OFFSET : Nat

/-- Conversion of an integer to a signed type of `w` bits (two's
complement). -/
def wrapSigned (w : Nat) (v : Int) : Int :=
  (v + 2 ^ (w - 1)) % 2 ^ w - 2 ^ (w - 1)

/-! ## The heap and the call trace -/

/-- The content of an allocated block. -/
inductive Block where
  | chars (s : String)
  | bytes (b : List Nat)
  deriving DecidableEq, Repr

/-- The block at address `p`: block `k` lives at address `k + 1`, and 0 is
`NULL`. -/
def blockAt (blocks : List Block) (p : Nat) : Option Block :=
  if p = 0 then none else blocks.get? (p - 1)

/-- The string at address `p`. -/
def stringAt (blocks : List Block) (p : Nat) : Option String :=
  match blockAt blocks p with
  | some (.chars s) => some s
  | _ => none

/-- The first `n` bytes at address `p`. -/
def bytesAt (blocks : List Block) (p : Nat) (n : Nat) : Option (List Nat) :=
  match blockAt blocks p with
  | some (.bytes b) => if n ≤ b.length then some (b.take n) else none
  | _ => none

/-- The bytes an `EDM_BINARY` value designates: none for `NULL` with size 0,
otherwise the first `size` bytes of the block at `data`. -/
def binaryAt (blocks : List Block) (v : EDM_BINARY) : Option (List Nat) :=
  if v.data = 0 then (if v.size = 0 then some [] else none) else bytesAt blocks v.data v.size

/-- A call that one function of the serializer makes to another, or to a
collaborator. A destination or source object is named by its access path:
`[i]` is the i-th local of a wrapper or the i-th field of the struct being
converted, `[i, j]` the j-th field of that, and so on (counting from 0). -/
inductive Event where
  | LogError (format : String) (args : List Nat)
  | FromAGENT_DATA_TYPE (dest : List Nat)
  | ToAGENT_DATA_TYPE (source : List Nat)
  | destroyLocalParameter (value : List Nat)
  | Create_AGENT_DATA_TYPE_from_Members (typeName : String) (nMembers : Nat)
      (memberNames : List (Option String)) (memberValues : List (Option AGENT_DATA_TYPE))
  | Destroy_AGENT_DATA_TYPE (jMember : Nat)
  | invoke (device : Nat) (params : CFields) (args : NativeFields params)

/-- The heap. Block `k` of `blocks` lives at address `k + 1`; `oracle`
lists the outcomes of the allocation requests still to come (a request
beyond the list succeeds); `freed` lists the non-null pointers passed to
`free`, oldest first. -/
structure Heap where
  blocks : List Block
  oracle : List Bool
  freed : List Nat

/-- The state the generated code runs in: the heap, and in `trace` the
calls made by the generated code, oldest first. -/
structure World extends Heap where
  trace : List Event

namespace World

/-- The outcome of the next allocation request. -/
def request (w : World) : Bool × World :=
  match w.oracle with
  | [] => (true, w)
  | b :: rest => (b, { w with oracle := rest })

/-- The call `malloc` followed by the copy that fills the block: returns
`NULL` (0) when the request fails, and the address of the new block
otherwise. -/
def malloc (w : World) (content : Block) : Nat × World :=
  match w.request with
  | (false, w1) => (0, w1)
  | (true, w1) => (w1.blocks.length + 1, { w1 with blocks := w1.blocks ++ [content] })

/-- The call `free(p)`; `free(NULL)` does nothing. -/
def free (w : World) (p : Nat) : World :=
  if p = 0 then w else { w with freed := w.freed ++ [p] }

/-- Appends a call to the trace. -/
def log (w : World) (e : Event) : World :=
  { w with trace := w.trace ++ [e] }

/-- The string at address `p`. -/
def string (w : World) (p : Nat) : Option String := stringAt w.blocks p

/-- The bytes an `EDM_BINARY` value designates. -/
def binary (w : World) (v : EDM_BINARY) : Option (List Nat) := binaryAt w.blocks v

end World

/-! ## Collaborators of the serializer

The constructors of generic values and `mallocAndStrcpy_s` are declared in
headers outside the sources. -/

/-- Modelled from the spec: `mallocAndStrcpy_s(destination, source)` of
`crt_abstractions.h`, which is not part of the sources. Allocates a copy of
`source` and stores its address through `destination`, returning 0; when
the allocation fails it returns a non-zero code and leaves `*destination`
as it was (the spec: "if the copy fails, the destination must end up
NULL/empty, not partially written"). -/
def mallocAndStrcpy_s (destination : Nat) (source : String) (w : World) : Int × Nat × World :=
  match w.malloc (.chars source) with
  | (0, w1) => (12, destination, w1)
  | (p, w1) => (0, p, w1)

/-- Modelled from the spec: `Create_AGENT_DATA_TYPE_from_DOUBLE` (section 6,
`from_double`; `agenttypesystem.c` is not part of the sources): "never fails
for in-range native values". -/
def Create_AGENT_DATA_TYPE_from_DOUBLE (v : Nat) : AGENT_DATA_TYPES_RESULT × Option AGENT_DATA_TYPE :=
  (AGENT_DATA_TYPES_OK, some (.edmDouble v))

/-- Modelled from the spec: `Create_AGENT_DATA_TYPE_from_FLOAT` (section 6,
`from_float`). -/
def Create_AGENT_DATA_TYPE_from_FLOAT (v : Nat) : AGENT_DATA_TYPES_RESULT × Option AGENT_DATA_TYPE :=
  (AGENT_DATA_TYPES_OK, some (.edmSingle v))

/-- Modelled from the spec: `Create_AGENT_DATA_TYPE_from_SINT8` (section 6,
`from_sint8`). -/
def Create_AGENT_DATA_TYPE_from_SINT8 (v : Int) : AGENT_DATA_TYPES_RESULT × Option AGENT_DATA_TYPE :=
  (AGENT_DATA_TYPES_OK, some (.edmSbyte v))

/-- Modelled from the spec: `Create_AGENT_DATA_TYPE_from_UINT8` (section 6,
`from_uint8`). -/
def Create_AGENT_DATA_TYPE_from_UINT8 (v : Nat) : AGENT_DATA_TYPES_RESULT × Option AGENT_DATA_TYPE :=
  (AGENT_DATA_TYPES_OK, some (.edmByte v))

/-- Modelled from the spec: `Create_AGENT_DATA_TYPE_from_SINT16` (section 6,
`from_sint16`). -/
def Create_AGENT_DATA_TYPE_from_SINT16 (v : Int) : AGENT_DATA_TYPES_RESULT × Option AGENT_DATA_TYPE :=
  (AGENT_DATA_TYPES_OK, some (.edmInt16 v))

/-- Modelled from the spec: `Create_AGENT_DATA_TYPE_from_SINT32` (section 6,
`from_sint32`). -/
def Create_AGENT_DATA_TYPE_from_SINT32 (v : Int) : AGENT_DATA_TYPES_RESULT × Option AGENT_DATA_TYPE :=
  (AGENT_DATA_TYPES_OK, some (.edmInt32 v))

/-- Modelled from the spec: `Create_AGENT_DATA_TYPE_from_SINT64` (section 6,
`from_sint64`). -/
def Create_AGENT_DATA_TYPE_from_SINT64 (v : Int) : AGENT_DATA_TYPES_RESULT × Option AGENT_DATA_TYPE :=
  (AGENT_DATA_TYPES_OK, some (.edmInt64 v))

/-- Modelled from the spec: `Create_EDM_BOOLEAN_from_int` (section 6,
`from_boolean`): a non-zero `int` gives `EDM_TRUE`, zero gives
`EDM_FALSE`. -/
def Create_EDM_BOOLEAN_from_int (v : Int) : AGENT_DATA_TYPES_RESULT × Option AGENT_DATA_TYPE :=
  (AGENT_DATA_TYPES_OK, some (.edmBoolean (if v ≠ 0 then EDM_TRUE else EDM_FALSE)))

/-- Modelled from the spec: `Create_AGENT_DATA_TYPE_from_charz` (section 6,
`from_charz`, the quoted string). The generic value owns a copy of the
characters, so the constructor fails with `AGENT_DATA_TYPES_ERROR` when the
allocation of that copy fails; a `NULL` source, or one that does not point
to a string, is not a value of the type and gives
`AGENT_DATA_TYPES_INVALID_ARG`. -/
def Create_AGENT_DATA_TYPE_from_charz (v : Nat) (w : World) :
    AGENT_DATA_TYPES_RESULT × Option AGENT_DATA_TYPE × World :=
  match w.string v with
  | none => (AGENT_DATA_TYPES_INVALID_ARG, none, w)
  | some s =>
      match w.request with
      | (false, w1) => (AGENT_DATA_TYPES_ERROR, none, w1)
      | (true, w1) => (AGENT_DATA_TYPES_OK, some (.edmString s), w1)

/-- Modelled from the spec: `Create_AGENT_DATA_TYPE_from_charz_no_quotes`
(section 6, `from_charz_no_quotes`); as `Create_AGENT_DATA_TYPE_from_charz`
with the tag of unquoted strings. -/
def Create_AGENT_DATA_TYPE_from_charz_no_quotes (v : Nat) (w : World) :
    AGENT_DATA_TYPES_RESULT × Option AGENT_DATA_TYPE × World :=
  match w.string v with
  | none => (AGENT_DATA_TYPES_INVALID_ARG, none, w)
  | some s =>
      match w.request with
      | (false, w1) => (AGENT_DATA_TYPES_ERROR, none, w1)
      | (true, w1) => (AGENT_DATA_TYPES_OK, some (.edmStringNoQuotes s), w1)

/-- Modelled from the spec: `Create_AGENT_DATA_TYPE_from_EDM_DATE_TIME_OFFSET`
(section 6, `from_date_time_offset`): the value is stored as it is. -/
def Create_AGENT_DATA_TYPE_from_EDM_DATE_TIME_OFFSET (v : EDM_DATE_TIME_OFFSET) :
    AGENT_DATA_TYPES_RESULT × Option AGENT_DATA_TYPE :=
  (AGENT_DATA_TYPES_OK, some (.edmDateTimeOffset v))

/-- Modelled from the spec: `Create_AGENT_DATA_TYPE_from_EDM_GUID` (section
6, `from_guid`): the sixteen bytes are stored. -/
def Create_AGENT_DATA_TYPE_from_EDM_GUID (v : EDM_GUID) :
    AGENT_DATA_TYPES_RESULT × Option AGENT_DATA_TYPE :=
  (AGENT_DATA_TYPES_OK, some (.edmGuid v))

/-- Modelled from the spec: `Create_AGENT_DATA_TYPE_from_EDM_BINARY` (section
6, `from_binary`): the generic value owns a copy of the `size` bytes at
`data`. An empty blob with a `NULL` pointer needs no allocation; a pointer
that does not designate `size` bytes is not a value of the type and gives
`AGENT_DATA_TYPES_INVALID_ARG`; a failed allocation gives
`AGENT_DATA_TYPES_ERROR`. -/
def Create_AGENT_DATA_TYPE_from_EDM_BINARY (v : EDM_BINARY) (w : World) :
    AGENT_DATA_TYPES_RESULT × Option AGENT_DATA_TYPE × World :=
  match w.binary v with
  | none => (AGENT_DATA_TYPES_INVALID_ARG, none, w)
  | some b =>
      if v.data = 0 then (AGENT_DATA_TYPES_OK, some (.edmBinary b), w)
      else
        match w.request with
        | (false, w1) => (AGENT_DATA_TYPES_ERROR, none, w1)
        | (true, w1) => (AGENT_DATA_TYPES_OK, some (.edmBinary b), w1)

/-- The entries of an array of pointers or of values, when none of them is
`NULL` or was left unset. -/
def allPresent {α : Type} : List (Option α) → Option (List α)
  | [] => some []
  | none :: _ => none
  | some x :: rest => (allPresent rest).map (fun xs => x :: xs)

/-- Modelled from the spec: `Create_AGENT_DATA_TYPE_from_Members(agentData,
typeName, nMembers, memberNames, memberValues)` (section 6, `from_members`,
"builds a ComplexRecord"). A record member has a name and a value, so a
count of 0, a `NULL` name or a value that was never created gives
`AGENT_DATA_TYPES_INVALID_ARG`; the record owns copies, so a failed
allocation gives `AGENT_DATA_TYPES_ERROR`; otherwise the record has the
first `nMembers` names and values, paired in order. -/
def Create_AGENT_DATA_TYPE_from_Members (typeName : String) (nMembers : Nat)
    (memberNames : List (Option String)) (memberValues : List (Option AGENT_DATA_TYPE))
    (w : World) : AGENT_DATA_TYPES_RESULT × Option AGENT_DATA_TYPE × World :=
  let _ := typeName
  if nMembers = 0 ∨ memberNames.length < nMembers ∨ memberValues.length < nMembers then
    (AGENT_DATA_TYPES_INVALID_ARG, none, w)
  else
    match (allPresent (memberNames.take nMembers), allPresent (memberValues.take nMembers)) with
    | (some ns, some vs) =>
        match w.request with
        | (false, w1) => (AGENT_DATA_TYPES_ERROR, none, w1)
        | (true, w1) => (AGENT_DATA_TYPES_OK, some (.edmComplexType (ns.zip vs)), w1)
    | _ => (AGENT_DATA_TYPES_INVALID_ARG, none, w)

/-! ## The primitive codec table (serializer.h, lines 791-1450)

Each `FromAGENT_DATA_TYPE_T` tests the tag and, when it is the expected one,
reads the member of the union that the tag selects; the match below does
both at once. -/

/-- `ToAGENT_DATA_TYPE_double(dest, source)`: returns the result and the value
stored through `dest`, if any. -/
def ToAGENT_DATA_TYPE_double (source : Nat) : AGENT_DATA_TYPES_RESULT × Option AGENT_DATA_TYPE :=
  Create_AGENT_DATA_TYPE_from_DOUBLE source

/-- `FromAGENT_DATA_TYPE_double(agentData, dest)`: `AGENT_DATA_TYPES_INVALID_ARG`
unless the tag is `EDM_DOUBLE_TYPE`, otherwise the payload is stored. -/
def FromAGENT_DATA_TYPE_double (agentData : AGENT_DATA_TYPE) (dest : Nat) :
    AGENT_DATA_TYPES_RESULT × Nat :=
  match agentData with
  | .edmDouble value => (AGENT_DATA_TYPES_OK, value)
  | _ => (AGENT_DATA_TYPES_INVALID_ARG, dest)

/-- `GlobalInitialize_double(dest)`: stores 0. -/
def GlobalInitialize_double (_dest : Nat) : Nat := 0

/-- `GlobalDeinitialize_double(dest)`: does nothing. -/
def GlobalDeinitialize_double (dest : Nat) : Nat := dest

/-- `destroyLocalParameterdouble(value)`: does nothing. -/
def destroyLocalParameterdouble (value : Nat) : Nat := value

/-- `ToAGENT_DATA_TYPE_float(dest, source)`: returns the result and the value
stored through `dest`, if any. -/
def ToAGENT_DATA_TYPE_float (source : Nat) : AGENT_DATA_TYPES_RESULT × Option AGENT_DATA_TYPE :=
  Create_AGENT_DATA_TYPE_from_FLOAT source

/-- `FromAGENT_DATA_TYPE_float(agentData, dest)`: `AGENT_DATA_TYPES_INVALID_ARG`
unless the tag is `EDM_SINGLE_TYPE`, otherwise the payload is stored. -/
def FromAGENT_DATA_TYPE_float (agentData : AGENT_DATA_TYPE) (dest : Nat) :
    AGENT_DATA_TYPES_RESULT × Nat :=
  match agentData with
  | .edmSingle value => (AGENT_DATA_TYPES_OK, value)
  | _ => (AGENT_DATA_TYPES_INVALID_ARG, dest)

/-- `GlobalInitialize_float(dest)`: stores 0. -/
def GlobalInitialize_float (_dest : Nat) : Nat := 0

/-- `GlobalDeinitialize_float(dest)`: does nothing. -/
def GlobalDeinitialize_float (dest : Nat) : Nat := dest

/-- `destroyLocalParameterfloat(value)`: does nothing. -/
def destroyLocalParameterfloat (value : Nat) : Nat := value

/-- `ToAGENT_DATA_TYPE_int(dest, source)`: returns the result and the value
stored through `dest`, if any. -/
def ToAGENT_DATA_TYPE_int (source : Int) : AGENT_DATA_TYPES_RESULT × Option AGENT_DATA_TYPE :=
  Create_AGENT_DATA_TYPE_from_SINT32 source

/-- `FromAGENT_DATA_TYPE_int(agentData, dest)`: `AGENT_DATA_TYPES_INVALID_ARG`
unless the tag is `EDM_INT32_TYPE`, otherwise the payload is stored. -/
def FromAGENT_DATA_TYPE_int (agentData : AGENT_DATA_TYPE) (dest : Int) :
    AGENT_DATA_TYPES_RESULT × Int :=
  match agentData with
  | .edmInt32 value => (AGENT_DATA_TYPES_OK, value)
  | _ => (AGENT_DATA_TYPES_INVALID_ARG, dest)

/-- `GlobalInitialize_int(dest)`: stores 0. -/
def GlobalInitialize_int (_dest : Int) : Int := 0

/-- `GlobalDeinitialize_int(dest)`: does nothing. -/
def GlobalDeinitialize_int (dest : Int) : Int := dest

/-- `destroyLocalParameterint(value)`: does nothing. -/
def destroyLocalParameterint (value : Int) : Int := value

/-- `ToAGENT_DATA_TYPE_long(dest, source)`: the `long` is converted to the
`int64_t` parameter of the constructor (a `long` of at most 64 bits keeps
its value). -/
def ToAGENT_DATA_TYPE_long (source : Int) : AGENT_DATA_TYPES_RESULT × Option AGENT_DATA_TYPE :=
  Create_AGENT_DATA_TYPE_from_SINT64 (wrapSigned 64 source)

/-- `FromAGENT_DATA_TYPE_long(agentData, dest)`: `AGENT_DATA_TYPES_INVALID_ARG`
unless the tag is `EDM_INT64_TYPE`, otherwise stores
`(long)agentData->value.edmInt64.value`. -/
def FromAGENT_DATA_TYPE_long (P : Platform) (agentData : AGENT_DATA_TYPE) (dest : Int) :
    AGENT_DATA_TYPES_RESULT × Int :=
  match agentData with
  | .edmInt64 value => (AGENT_DATA_TYPES_OK, wrapSigned P.LONG_BIT value)
  | _ => (AGENT_DATA_TYPES_INVALID_ARG, dest)

/-- `GlobalInitialize_long(dest)`: stores 0. -/
def GlobalInitialize_long (_dest : Int) : Int := 0

/-- `GlobalDeinitialize_long(dest)`: does nothing. -/
def GlobalDeinitialize_long (dest : Int) : Int := dest

/-- `destroyLocalParameterlong(value)`: does nothing. -/
def destroyLocalParameterlong (value : Int) : Int := value

/-- `ToAGENT_DATA_TYPE_int8_t(dest, source)`: returns the result and the value
stored through `dest`, if any. -/
def ToAGENT_DATA_TYPE_int8_t (source : Int) : AGENT_DATA_TYPES_RESULT × Option AGENT_DATA_TYPE :=
  Create_AGENT_DATA_TYPE_from_SINT8 source

/-- `FromAGENT_DATA_TYPE_int8_t(agentData, dest)`: `AGENT_DATA_TYPES_INVALID_ARG`
unless the tag is `EDM_SBYTE_TYPE`, otherwise the payload is stored. -/
def FromAGENT_DATA_TYPE_int8_t (agentData : AGENT_DATA_TYPE) (dest : Int) :
    AGENT_DATA_TYPES_RESULT × Int :=
  match agentData with
  | .edmSbyte value => (AGENT_DATA_TYPES_OK, value)
  | _ => (AGENT_DATA_TYPES_INVALID_ARG, dest)

/-- `GlobalInitialize_int8_t(dest)`: stores 0. -/
def GlobalInitialize_int8_t (_dest : Int) : Int := 0

/-- `GlobalDeinitialize_int8_t(dest)`: does nothing. -/
def GlobalDeinitialize_int8_t (dest : Int) : Int := dest

/-- `destroyLocalParameterint8_t(value)`: does nothing. -/
def destroyLocalParameterint8_t (value : Int) : Int := value

/-- `ToAGENT_DATA_TYPE_uint8_t(dest, source)`: returns the result and the value
stored through `dest`, if any. -/
def ToAGENT_DATA_TYPE_uint8_t (source : Nat) : AGENT_DATA_TYPES_RESULT × Option AGENT_DATA_TYPE :=
  Create_AGENT_DATA_TYPE_from_UINT8 source

/-- `FromAGENT_DATA_TYPE_uint8_t(agentData, dest)`: `AGENT_DATA_TYPES_INVALID_ARG`
unless the tag is `EDM_BYTE_TYPE`, otherwise the payload is stored. -/
def FromAGENT_DATA_TYPE_uint8_t (agentData : AGENT_DATA_TYPE) (dest : Nat) :
    AGENT_DATA_TYPES_RESULT × Nat :=
  match agentData with
  | .edmByte value => (AGENT_DATA_TYPES_OK, value)
  | _ => (AGENT_DATA_TYPES_INVALID_ARG, dest)

/-- `GlobalInitialize_uint8_t(dest)`: stores 0. -/
def GlobalInitialize_uint8_t (_dest : Nat) : Nat := 0

/-- `GlobalDeinitialize_uint8_t(dest)`: does nothing. -/
def GlobalDeinitialize_uint8_t (dest : Nat) : Nat := dest

/-- `destroyLocalParameteruint8_t(value)`: does nothing. -/
def destroyLocalParameteruint8_t (value : Nat) : Nat := value

/-- `ToAGENT_DATA_TYPE_int16_t(dest, source)`: returns the result and the value
stored through `dest`, if any. -/
def ToAGENT_DATA_TYPE_int16_t (source : Int) : AGENT_DATA_TYPES_RESULT × Option AGENT_DATA_TYPE :=
  Create_AGENT_DATA_TYPE_from_SINT16 source

/-- `FromAGENT_DATA_TYPE_int16_t(agentData, dest)`: `AGENT_DATA_TYPES_INVALID_ARG`
unless the tag is `EDM_INT16_TYPE`, otherwise the payload is stored. -/
def FromAGENT_DATA_TYPE_int16_t (agentData : AGENT_DATA_TYPE) (dest : Int) :
    AGENT_DATA_TYPES_RESULT × Int :=
  match agentData with
  | .edmInt16 value => (AGENT_DATA_TYPES_OK, value)
  | _ => (AGENT_DATA_TYPES_INVALID_ARG, dest)

/-- `GlobalInitialize_int16_t(dest)`: stores 0. -/
def GlobalInitialize_int16_t (_dest : Int) : Int := 0

/-- `GlobalDeinitialize_int16_t(dest)`: does nothing. -/
def GlobalDeinitialize_int16_t (dest : Int) : Int := dest

/-- `destroyLocalParameterint16_t(value)`: does nothing. -/
def destroyLocalParameterint16_t (value : Int) : Int := value

/-- `ToAGENT_DATA_TYPE_int32_t(dest, source)`: returns the result and the value
stored through `dest`, if any. -/
def ToAGENT_DATA_TYPE_int32_t (source : Int) : AGENT_DATA_TYPES_RESULT × Option AGENT_DATA_TYPE :=
  Create_AGENT_DATA_TYPE_from_SINT32 source

/-- `FromAGENT_DATA_TYPE_int32_t(agentData, dest)`: `AGENT_DATA_TYPES_INVALID_ARG`
unless the tag is `EDM_INT32_TYPE`, otherwise the payload is stored. -/
def FromAGENT_DATA_TYPE_int32_t (agentData : AGENT_DATA_TYPE) (dest : Int) :
    AGENT_DATA_TYPES_RESULT × Int :=
  match agentData with
  | .edmInt32 value => (AGENT_DATA_TYPES_OK, value)
  | _ => (AGENT_DATA_TYPES_INVALID_ARG, dest)

/-- `GlobalInitialize_int32_t(dest)`: stores 0. -/
def GlobalInitialize_int32_t (_dest : Int) : Int := 0

/-- `GlobalDeinitialize_int32_t(dest)`: does nothing. -/
def GlobalDeinitialize_int32_t (dest : Int) : Int := dest

/-- `destroyLocalParameterint32_t(value)`: does nothing. -/
def destroyLocalParameterint32_t (value : Int) : Int := value

/-- `ToAGENT_DATA_TYPE_int64_t(dest, source)`: returns the result and the value
stored through `dest`, if any. -/
def ToAGENT_DATA_TYPE_int64_t (source : Int) : AGENT_DATA_TYPES_RESULT × Option AGENT_DATA_TYPE :=
  Create_AGENT_DATA_TYPE_from_SINT64 source

/-- `FromAGENT_DATA_TYPE_int64_t(agentData, dest)`: `AGENT_DATA_TYPES_INVALID_ARG`
unless the tag is `EDM_INT64_TYPE`, otherwise the payload is stored. -/
def FromAGENT_DATA_TYPE_int64_t (agentData : AGENT_DATA_TYPE) (dest : Int) :
    AGENT_DATA_TYPES_RESULT × Int :=
  match agentData with
  | .edmInt64 value => (AGENT_DATA_TYPES_OK, value)
  | _ => (AGENT_DATA_TYPES_INVALID_ARG, dest)

/-- `GlobalInitialize_int64_t(dest)`: stores 0. -/
def GlobalInitialize_int64_t (_dest : Int) : Int := 0

/-- `GlobalDeinitialize_int64_t(dest)`: does nothing. -/
def GlobalDeinitialize_int64_t (dest : Int) : Int := dest

/-- `destroyLocalParameterint64_t(value)`: does nothing. -/
def destroyLocalParameterint64_t (value : Int) : Int := value

/-- `ToAGENT_DATA_TYPE_bool(dest, source)`: passes `source == true` to the
constructor. -/
def ToAGENT_DATA_TYPE_bool (source : Bool) : AGENT_DATA_TYPES_RESULT × Option AGENT_DATA_TYPE :=
  Create_EDM_BOOLEAN_from_int (if source = true then 1 else 0)

/-- `FromAGENT_DATA_TYPE_bool(agentData, dest)`: `AGENT_DATA_TYPES_INVALID_ARG`
unless the tag is `EDM_BOOLEAN_TYPE`, otherwise stores whether the payload
is `EDM_TRUE`. -/
def FromAGENT_DATA_TYPE_bool (agentData : AGENT_DATA_TYPE) (dest : Bool) :
    AGENT_DATA_TYPES_RESULT × Bool :=
  match agentData with
  | .edmBoolean value => (AGENT_DATA_TYPES_OK, if value = EDM_TRUE then true else false)
  | _ => (AGENT_DATA_TYPES_INVALID_ARG, dest)

/-- `GlobalInitialize_bool(dest)`: stores `false`. -/
def GlobalInitialize_bool (_dest : Bool) : Bool := false

/-- `GlobalDeinitialize_bool(dest)`: does nothing. -/
def GlobalDeinitialize_bool (dest : Bool) : Bool := dest

/-- `destroyLocalParameterbool(value)`: does nothing. -/
def destroyLocalParameterbool (value : Bool) : Bool := value

/-- `ToAGENT_DATA_TYPE_ascii_char_ptr(dest, source)`. -/
def ToAGENT_DATA_TYPE_ascii_char_ptr (source : Nat) (w : World) :
    AGENT_DATA_TYPES_RESULT × Option AGENT_DATA_TYPE × World :=
  Create_AGENT_DATA_TYPE_from_charz source w

/-- `FromAGENT_DATA_TYPE_ascii_char_ptr(agentData, dest)`:
`AGENT_DATA_TYPES_INVALID_ARG` unless the tag is `EDM_STRING_TYPE`; otherwise a
non-null `*dest` is freed and set to `NULL`, and the characters are copied
with `mallocAndStrcpy_s`, whose failure is logged and gives
`AGENT_DATA_TYPES_ERROR`. -/
def FromAGENT_DATA_TYPE_ascii_char_ptr (agentData : AGENT_DATA_TYPE) (dest : Nat) (w : World) :
    AGENT_DATA_TYPES_RESULT × Nat × World :=
  match agentData with
  | .edmString chars =>
      let (dest1, w1) := if dest ≠ 0 then (0, w.free dest) else (dest, w)
      match mallocAndStrcpy_s dest1 chars w1 with
      | (0, dest2, w2) => (AGENT_DATA_TYPES_OK, dest2, w2)
      | (_, dest2, w2) =>
          (AGENT_DATA_TYPES_ERROR, dest2, w2.log (.LogError "failure in mallocAndStrcpy_s" []))
  | _ => (AGENT_DATA_TYPES_INVALID_ARG, dest, w)

/-- `GlobalInitialize_ascii_char_ptr(dest)`: stores `NULL`. -/
def GlobalInitialize_ascii_char_ptr (_dest : Nat) : Nat := 0

/-- `GlobalDeinitialize_ascii_char_ptr(dest)`: frees a non-null `*dest` and leaves
the pointer as it is. -/
def GlobalDeinitialize_ascii_char_ptr (dest : Nat) (w : World) : Nat × World :=
  if dest ≠ 0 then (dest, w.free dest) else (dest, w)

/-- `destroyLocalParameterascii_char_ptr(value)`: `free(*value)`, the pointer is
left as it is (`value` itself, the address of a local or of a field, is
never `NULL`). -/
def destroyLocalParameterascii_char_ptr (value : Nat) (w : World) : Nat × World :=
  (value, w.free value)

/-- `ToAGENT_DATA_TYPE_ascii_char_ptr_no_quotes(dest, source)`. -/
def ToAGENT_DATA_TYPE_ascii_char_ptr_no_quotes (source : Nat) (w : World) :
    AGENT_DATA_TYPES_RESULT × Option AGENT_DATA_TYPE × World :=
  Create_AGENT_DATA_TYPE_from_charz_no_quotes source w

/-- `FromAGENT_DATA_TYPE_ascii_char_ptr_no_quotes(agentData, dest)`:
`AGENT_DATA_TYPES_INVALID_ARG` unless the tag is `EDM_STRING_NO_QUOTES_TYPE`; otherwise a
non-null `*dest` is freed and set to `NULL`, and the characters are copied
with `mallocAndStrcpy_s`, whose failure is logged and gives
`AGENT_DATA_TYPES_ERROR`. -/
def FromAGENT_DATA_TYPE_ascii_char_ptr_no_quotes (agentData : AGENT_DATA_TYPE) (dest : Nat) (w : World) :
    AGENT_DATA_TYPES_RESULT × Nat × World :=
  match agentData with
  | .edmStringNoQuotes chars =>
      let (dest1, w1) := if dest ≠ 0 then (0, w.free dest) else (dest, w)
      match mallocAndStrcpy_s dest1 chars w1 with
      | (0, dest2, w2) => (AGENT_DATA_TYPES_OK, dest2, w2)
      | (_, dest2, w2) =>
          (AGENT_DATA_TYPES_ERROR, dest2, w2.log (.LogError "failure in mallocAndStrcpy_s" []))
  | _ => (AGENT_DATA_TYPES_INVALID_ARG, dest, w)

/-- `GlobalInitialize_ascii_char_ptr_no_quotes(dest)`: stores `NULL`. -/
def GlobalInitialize_ascii_char_ptr_no_quotes (_dest : Nat) : Nat := 0

/-- `GlobalDeinitialize_ascii_char_ptr_no_quotes(dest)`: frees a non-null `*dest` and leaves
the pointer as it is. -/
def GlobalDeinitialize_ascii_char_ptr_no_quotes (dest : Nat) (w : World) : Nat × World :=
  if dest ≠ 0 then (dest, w.free dest) else (dest, w)

/-- `destroyLocalParameterascii_char_ptr_no_quotes(value)`: `free(*value)`, the pointer is
left as it is (`value` itself, the address of a local or of a field, is
never `NULL`). -/
def destroyLocalParameterascii_char_ptr_no_quotes (value : Nat) (w : World) : Nat × World :=
  (value, w.free value)

/-- `ToAGENT_DATA_TYPE_EDM_DATE_TIME_OFFSET(dest, source)`. -/
def ToAGENT_DATA_TYPE_EDM_DATE_TIME_OFFSET (source : EDM_DATE_TIME_OFFSET) :
    AGENT_DATA_TYPES_RESULT × Option AGENT_DATA_TYPE :=
  Create_AGENT_DATA_TYPE_from_EDM_DATE_TIME_OFFSET source

/-- `FromAGENT_DATA_TYPE_EDM_DATE_TIME_OFFSET(agentData, dest)`:
`AGENT_DATA_TYPES_INVALID_ARG` unless the tag is `EDM_DATE_TIME_OFFSET_TYPE`,
otherwise the payload is assigned to `*dest`. -/
def FromAGENT_DATA_TYPE_EDM_DATE_TIME_OFFSET (agentData : AGENT_DATA_TYPE)
    (dest : EDM_DATE_TIME_OFFSET) : AGENT_DATA_TYPES_RESULT × EDM_DATE_TIME_OFFSET :=
  match agentData with
  | .edmDateTimeOffset value => (AGENT_DATA_TYPES_OK, value)
  | _ => (AGENT_DATA_TYPES_INVALID_ARG, dest)

/-- `GlobalInitialize_EDM_DATE_TIME_OFFSET(dest)`:
`memset(dest, 0, sizeof(EDM_DATE_TIME_OFFSET))`. -/
def GlobalInitialize_EDM_DATE_TIME_OFFSET (P : Platform) (_dest : EDM_DATE_TIME_OFFSET) :
    EDM_DATE_TIME_OFFSET :=
  ⟨List.replicate P.sizeof_EDM_DATE_TIME_OFFSET 0⟩

/-- `GlobalDeinitialize_EDM_DATE_TIME_OFFSET(dest)`: does nothing. -/
def GlobalDeinitialize_EDM_DATE_TIME_OFFSET (dest : EDM_DATE_TIME_OFFSET) :
    EDM_DATE_TIME_OFFSET := dest

/-- `destroyLocalParameterEDM_DATE_TIME_OFFSET(value)`: does nothing. -/
def destroyLocalParameterEDM_DATE_TIME_OFFSET (value : EDM_DATE_TIME_OFFSET) :
    EDM_DATE_TIME_OFFSET := value

/-- `ToAGENT_DATA_TYPE_EDM_GUID(dest, guid)`. -/
def ToAGENT_DATA_TYPE_EDM_GUID (guid : EDM_GUID) :
    AGENT_DATA_TYPES_RESULT × Option AGENT_DATA_TYPE :=
  Create_AGENT_DATA_TYPE_from_EDM_GUID guid

/-- `FromAGENT_DATA_TYPE_EDM_GUID(agentData, dest)`:
`AGENT_DATA_TYPES_INVALID_ARG` unless the tag is `EDM_GUID_TYPE`, otherwise
`memcpy(dest->GUID, agentData->value.edmGuid.GUID, 16)`, which replaces the
whole array. -/
def FromAGENT_DATA_TYPE_EDM_GUID (agentData : AGENT_DATA_TYPE) (dest : EDM_GUID) :
    AGENT_DATA_TYPES_RESULT × EDM_GUID :=
  match agentData with
  | .edmGuid value => (AGENT_DATA_TYPES_OK, value)
  | _ => (AGENT_DATA_TYPES_INVALID_ARG, dest)

/-- `GlobalInitialize_EDM_GUID(dest)`: `memset(dest, 0, sizeof(EDM_GUID))`. -/
def GlobalInitialize_EDM_GUID (_dest : EDM_GUID) : EDM_GUID :=
  ⟨List.replicate 16 0, List.length_replicate 16 0⟩

/-- `GlobalDeinitialize_EDM_GUID(dest)`: does nothing. -/
def GlobalDeinitialize_EDM_GUID (dest : EDM_GUID) : EDM_GUID := dest

/-- `destroyLocalParameterEDM_GUID(value)`: does nothing. -/
def destroyLocalParameterEDM_GUID (value : EDM_GUID) : EDM_GUID := value

/-- `ToAGENT_DATA_TYPE_EDM_BINARY(dest, edmBinary)`. -/
def ToAGENT_DATA_TYPE_EDM_BINARY (edmBinary : EDM_BINARY) (w : World) :
    AGENT_DATA_TYPES_RESULT × Option AGENT_DATA_TYPE × World :=
  Create_AGENT_DATA_TYPE_from_EDM_BINARY edmBinary w

/-- `FromAGENT_DATA_TYPE_EDM_BINARY(agentData, dest)`:
`AGENT_DATA_TYPES_INVALID_ARG` unless the tag is `EDM_BINARY_TYPE`;
otherwise `dest->data` receives the result of `malloc`; when that is `NULL`
the result is `AGENT_DATA_TYPES_ERROR` and `dest->size` is not written,
otherwise the bytes are copied and `dest->size` is set. -/
def FromAGENT_DATA_TYPE_EDM_BINARY (agentData : AGENT_DATA_TYPE) (dest : EDM_BINARY)
    (w : World) : AGENT_DATA_TYPES_RESULT × EDM_BINARY × World :=
  match agentData with
  | .edmBinary data =>
      match w.malloc (.bytes data) with
      | (0, w1) => (AGENT_DATA_TYPES_ERROR, { dest with data := 0 }, w1)
      | (p, w1) => (AGENT_DATA_TYPES_OK, { size := data.length, data := p }, w1)
  | _ => (AGENT_DATA_TYPES_INVALID_ARG, dest, w)

/-- `GlobalInitialize_EDM_BINARY(dest)`: `data = NULL` and `size = 0`. -/
def GlobalInitialize_EDM_BINARY (_dest : EDM_BINARY) : EDM_BINARY :=
  { size := 0, data := 0 }

/-- `GlobalDeinitialize_EDM_BINARY(dest)`: frees a non-null `data` and
leaves the value as it is. -/
def GlobalDeinitialize_EDM_BINARY (dest : EDM_BINARY) (w : World) : EDM_BINARY × World :=
  if dest.data ≠ 0 then (dest, w.free dest.data) else (dest, w)

/-- `destroyLocalParameterEDM_BINARY(value)`: `free(value->data)`, then
`data = NULL` and `size = 0`. -/
def destroyLocalParameterEDM_BINARY (value : EDM_BINARY) (w : World) : EDM_BINARY × World :=
  ({ size := 0, data := 0 }, w.free value.data)

/-! ## Functions selected by type name, and the struct marshaller

`DECLARE_STRUCT(name, t1, n1, ..., tN, nN)` (serializer.h, lines 98-135)
defines `ToAGENT_DATA_TYPE_name`, `FromAGENT_DATA_TYPE_name`,
`destroyLocalParametername`, `GlobalInitialize_name` and
`GlobalDeinitialize_name` from the functions of the field types. -/

mutual
/-- `GlobalInitialize_##type(dest)`. -/
def GlobalInitialize (P : Platform) : (t : CType) → Native t → Native t
  | .double, d => GlobalInitialize_double d
  | .float, d => GlobalInitialize_float d
  | .int, d => GlobalInitialize_int d
  | .long, d => GlobalInitialize_long d
  | .int8_t, d => GlobalInitialize_int8_t d
  | .uint8_t, d => GlobalInitialize_uint8_t d
  | .int16_t, d => GlobalInitialize_int16_t d
  | .int32_t, d => GlobalInitialize_int32_t d
  | .int64_t, d => GlobalInitialize_int64_t d
  | .bool, d => GlobalInitialize_bool d
  | .ascii_char_ptr, d => GlobalInitialize_ascii_char_ptr d
  | .ascii_char_ptr_no_quotes, d => GlobalInitialize_ascii_char_ptr_no_quotes d
  | .EDM_DATE_TIME_OFFSET, d => GlobalInitialize_EDM_DATE_TIME_OFFSET P d
  | .EDM_GUID, d => GlobalInitialize_EDM_GUID d
  | .EDM_BINARY, d => GlobalInitialize_EDM_BINARY d
  | .struct _ fs, d => GLOBAL_INITIALIZE_STRUCT_FIELD P fs d
/-- `MU_FOR_EACH_2_KEEP_2(GLOBAL_INITIALIZE_STRUCT_FIELD, name, destination,
...)`: `GlobalInitialize_##type` on every field, at its offset. -/
def GLOBAL_INITIALIZE_STRUCT_FIELD (P : Platform) :
    (fs : CFields) → NativeFields fs → NativeFields fs
  | .nil, d => d
  | .cons t _ rest, (d, ds) => (GlobalInitialize P t d, GLOBAL_INITIALIZE_STRUCT_FIELD P rest ds)
end

mutual
/-- `GlobalDeinitialize_##type(dest)`. -/
def GlobalDeinitialize : (t : CType) → Native t → World → Native t × World
  | .double, d, w => (GlobalDeinitialize_double d, w)
  | .float, d, w => (GlobalDeinitialize_float d, w)
  | .int, d, w => (GlobalDeinitialize_int d, w)
  | .long, d, w => (GlobalDeinitialize_long d, w)
  | .int8_t, d, w => (GlobalDeinitialize_int8_t d, w)
  | .uint8_t, d, w => (GlobalDeinitialize_uint8_t d, w)
  | .int16_t, d, w => (GlobalDeinitialize_int16_t d, w)
  | .int32_t, d, w => (GlobalDeinitialize_int32_t d, w)
  | .int64_t, d, w => (GlobalDeinitialize_int64_t d, w)
  | .bool, d, w => (GlobalDeinitialize_bool d, w)
  | .ascii_char_ptr, d, w => GlobalDeinitialize_ascii_char_ptr d w
  | .ascii_char_ptr_no_quotes, d, w => GlobalDeinitialize_ascii_char_ptr_no_quotes d w
  | .EDM_DATE_TIME_OFFSET, d, w => (GlobalDeinitialize_EDM_DATE_TIME_OFFSET d, w)
  | .EDM_GUID, d, w => (GlobalDeinitialize_EDM_GUID d, w)
  | .EDM_BINARY, d, w => GlobalDeinitialize_EDM_BINARY d w
  | .struct _ fs, d, w => GLOBAL_DEINITIALIZE_STRUCT_FIELD fs d w
/-- `MU_FOR_EACH_2_KEEP_2(GLOBAL_DEINITIALIZE_STRUCT_FIELD, name,
destination, ...)`: `GlobalDeinitialize_##type` on every field, in declared
order. -/
def GLOBAL_DEINITIALIZE_STRUCT_FIELD :
    (fs : CFields) → NativeFields fs → World → NativeFields fs × World
  | .nil, d, w => (d, w)
  | .cons t _ rest, (d, ds), w =>
      let r1 := GlobalDeinitialize t d w
      let r2 := GLOBAL_DEINITIALIZE_STRUCT_FIELD rest ds r1.2
      ((r1.1, r2.1), r2.2)
end

mutual
/-- `destroyLocalParameter##type(value)`, `value` being the object at access
path `path`. -/
def destroyLocalParameter : (t : CType) → List Nat → Native t → World → Native t × World
  | .double, _, v, w => (destroyLocalParameterdouble v, w)
  | .float, _, v, w => (destroyLocalParameterfloat v, w)
  | .int, _, v, w => (destroyLocalParameterint v, w)
  | .long, _, v, w => (destroyLocalParameterlong v, w)
  | .int8_t, _, v, w => (destroyLocalParameterint8_t v, w)
  | .uint8_t, _, v, w => (destroyLocalParameteruint8_t v, w)
  | .int16_t, _, v, w => (destroyLocalParameterint16_t v, w)
  | .int32_t, _, v, w => (destroyLocalParameterint32_t v, w)
  | .int64_t, _, v, w => (destroyLocalParameterint64_t v, w)
  | .bool, _, v, w => (destroyLocalParameterbool v, w)
  | .ascii_char_ptr, _, v, w => destroyLocalParameterascii_char_ptr v w
  | .ascii_char_ptr_no_quotes, _, v, w => destroyLocalParameterascii_char_ptr_no_quotes v w
  | .EDM_DATE_TIME_OFFSET, _, v, w => (destroyLocalParameterEDM_DATE_TIME_OFFSET v, w)
  | .EDM_GUID, _, v, w => (destroyLocalParameterEDM_GUID v, w)
  | .EDM_BINARY, _, v, w => destroyLocalParameterEDM_BINARY v w
  | .struct _ fs, path, v, w => UNBUILD_DESTINATION_FIELD fs path 0 v w
/-- `MU_FOR_EACH_2_KEEP_1(UNBUILD_DESTINATION_FIELD, value, ...)` from field
number `j` on: `destroyLocalParameter##type(&(value->name))` for every field,
in declared order. -/
def UNBUILD_DESTINATION_FIELD :
    (fs : CFields) → List Nat → Nat → NativeFields fs → World → NativeFields fs × World
  | .nil, _, _, v, w => (v, w)
  | .cons t _ rest, path, j, (v, vs), w =>
      let r1 := destroyLocalParameter t (path ++ [j]) v
        (w.log (.destroyLocalParameter (path ++ [j])))
      let r2 := UNBUILD_DESTINATION_FIELD rest path (j + 1) vs r1.2
      ((r1.1, r2.1), r2.2)
end

/-- The search loop of `BUILD_DESTINATION_FIELD`: the first member of the
record whose `fieldName` compares equal (`strcmp`) to the field's name. -/
def findMember (source : AGENT_DATA_TYPE) (name : String) : Option (String × AGENT_DATA_TYPE) :=
  source.fields.find? (fun m => m.1 == name)

mutual
/-- `FromAGENT_DATA_TYPE_##type(source, dest)`, `dest` being the object at
access path `path`. For a struct this is the function that `DECLARE_STRUCT`
defines (serializer.h, lines 105-123). -/
def FromAGENT_DATA_TYPE (P : Platform) :
    (t : CType) → AGENT_DATA_TYPE → List Nat → Native t → World →
      AGENT_DATA_TYPES_RESULT × Native t × World
  | .double, a, _, d, w => ((FromAGENT_DATA_TYPE_double a d).1, (FromAGENT_DATA_TYPE_double a d).2, w)
  | .float, a, _, d, w => ((FromAGENT_DATA_TYPE_float a d).1, (FromAGENT_DATA_TYPE_float a d).2, w)
  | .int, a, _, d, w => ((FromAGENT_DATA_TYPE_int a d).1, (FromAGENT_DATA_TYPE_int a d).2, w)
  | .long, a, _, d, w =>
      ((FromAGENT_DATA_TYPE_long P a d).1, (FromAGENT_DATA_TYPE_long P a d).2, w)
  | .int8_t, a, _, d, w => ((FromAGENT_DATA_TYPE_int8_t a d).1, (FromAGENT_DATA_TYPE_int8_t a d).2, w)
  | .uint8_t, a, _, d, w =>
      ((FromAGENT_DATA_TYPE_uint8_t a d).1, (FromAGENT_DATA_TYPE_uint8_t a d).2, w)
  | .int16_t, a, _, d, w =>
      ((FromAGENT_DATA_TYPE_int16_t a d).1, (FromAGENT_DATA_TYPE_int16_t a d).2, w)
  | .int32_t, a, _, d, w =>
      ((FromAGENT_DATA_TYPE_int32_t a d).1, (FromAGENT_DATA_TYPE_int32_t a d).2, w)
  | .int64_t, a, _, d, w =>
      ((FromAGENT_DATA_TYPE_int64_t a d).1, (FromAGENT_DATA_TYPE_int64_t a d).2, w)
  | .bool, a, _, d, w => ((FromAGENT_DATA_TYPE_bool a d).1, (FromAGENT_DATA_TYPE_bool a d).2, w)
  | .ascii_char_ptr, a, _, d, w => FromAGENT_DATA_TYPE_ascii_char_ptr a d w
  | .ascii_char_ptr_no_quotes, a, _, d, w => FromAGENT_DATA_TYPE_ascii_char_ptr_no_quotes a d w
  | .EDM_DATE_TIME_OFFSET, a, _, d, w =>
      ((FromAGENT_DATA_TYPE_EDM_DATE_TIME_OFFSET a d).1,
        (FromAGENT_DATA_TYPE_EDM_DATE_TIME_OFFSET a d).2, w)
  | .EDM_GUID, a, _, d, w =>
      ((FromAGENT_DATA_TYPE_EDM_GUID a d).1, (FromAGENT_DATA_TYPE_EDM_GUID a d).2, w)
  | .EDM_BINARY, a, _, d, w => FromAGENT_DATA_TYPE_EDM_BINARY a d w
  | .struct _ fs, source, path, destination, w =>
      if source.type ≠ EDM_COMPLEX_TYPE_TYPE then
        (AGENT_DATA_TYPES_INVALID_ARG, destination, w)
      else if MU_DIV2 (MU_COUNT_ARG fs) ≠ source.nMembers then
        (AGENT_DATA_TYPES_INVALID_ARG, destination, w)
      else
        BUILD_DESTINATION_FIELD P fs source path 0 AGENT_DATA_TYPES_OK destination w
/-- `MU_FOR_EACH_2(BUILD_DESTINATION_FIELD, ...)` from field number `j` on
(serializer.h, lines 620-639). While `result` is `AGENT_DATA_TYPES_OK`, the
field is looked up by name among the members of the record and the member
found is converted into `destination->name`; `result` becomes
`AGENT_DATA_TYPES_INVALID_ARG` unless that conversion returned
`AGENT_DATA_TYPES_OK`. Once `result` is not OK the remaining fields fall
through. -/
def BUILD_DESTINATION_FIELD (P : Platform) :
    (fs : CFields) → AGENT_DATA_TYPE → List Nat → Nat → AGENT_DATA_TYPES_RESULT →
      NativeFields fs → World → AGENT_DATA_TYPES_RESULT × NativeFields fs × World
  | .nil, _, _, _, result, destination, w => (result, destination, w)
  | .cons t name rest, source, path, j, result, (d, ds), w =>
      if result = AGENT_DATA_TYPES_OK then
        match findMember source name with
        | some m =>
            let r1 := FromAGENT_DATA_TYPE P t m.2 (path ++ [j]) d
              (w.log (.FromAGENT_DATA_TYPE (path ++ [j])))
            let wasFieldConverted := decide (r1.1 = AGENT_DATA_TYPES_OK)
            let r2 := BUILD_DESTINATION_FIELD P rest source path (j + 1)
              (if wasFieldConverted = true then AGENT_DATA_TYPES_OK
               else AGENT_DATA_TYPES_INVALID_ARG) ds r1.2.2
            (r2.1, (r1.2.1, r2.2.1), r2.2.2)
        | none =>
            let r2 := BUILD_DESTINATION_FIELD P rest source path (j + 1)
              AGENT_DATA_TYPES_INVALID_ARG ds w
            (r2.1, (d, r2.2.1), r2.2.2)
      else
        let r2 := BUILD_DESTINATION_FIELD P rest source path (j + 1) result ds w
        (r2.1, (d, r2.2.1), r2.2.2)
end

/-- `MU_IF(condition, trueBranch, falseBranch)` on numbers: the true branch
when the condition is not 0. -/
def MU_IF (condition trueBranch falseBranch : Nat) : Nat :=
  if condition ≠ 0 then trueBranch else falseBranch

/-- `MU_FOR_EACH_2(FIELD_AS_STRING, ...)`: `memberNames[iMember++] = #y` for
every field; returns the array. -/
def FIELD_AS_STRING : CFields → Nat → List (Option String) → List (Option String)
  | .nil, _, memberNames => memberNames
  | .cons _ name rest, iMember, memberNames =>
      FIELD_AS_STRING rest (iMember + 1) (memberNames.set iMember (some name))

/-- The loop `for (jMember = 0; jMember < iMember; jMember++)
Destroy_AGENT_DATA_TYPE(&members[jMember])`, from `jMember` on. -/
def destroyMembers (w : World) (jMember : Nat) : Nat → World
  | 0 => w
  | n + 1 => destroyMembers (w.log (.Destroy_AGENT_DATA_TYPE jMember)) (jMember + 1) n

mutual
/-- `ToAGENT_DATA_TYPE_##type(destination, value)`, `value` being the object
at access path `path`: returns the result and the value stored through
`destination`, if any. For a struct this is the function `TO_AGENT_DATA_TYPE`
defines (serializer.h, lines 377-409). -/
def ToAGENT_DATA_TYPE :
    (t : CType) → List Nat → Native t → World →
      AGENT_DATA_TYPES_RESULT × Option AGENT_DATA_TYPE × World
  | .double, _, v, w => ((ToAGENT_DATA_TYPE_double v).1, (ToAGENT_DATA_TYPE_double v).2, w)
  | .float, _, v, w => ((ToAGENT_DATA_TYPE_float v).1, (ToAGENT_DATA_TYPE_float v).2, w)
  | .int, _, v, w => ((ToAGENT_DATA_TYPE_int v).1, (ToAGENT_DATA_TYPE_int v).2, w)
  | .long, _, v, w => ((ToAGENT_DATA_TYPE_long v).1, (ToAGENT_DATA_TYPE_long v).2, w)
  | .int8_t, _, v, w => ((ToAGENT_DATA_TYPE_int8_t v).1, (ToAGENT_DATA_TYPE_int8_t v).2, w)
  | .uint8_t, _, v, w => ((ToAGENT_DATA_TYPE_uint8_t v).1, (ToAGENT_DATA_TYPE_uint8_t v).2, w)
  | .int16_t, _, v, w => ((ToAGENT_DATA_TYPE_int16_t v).1, (ToAGENT_DATA_TYPE_int16_t v).2, w)
  | .int32_t, _, v, w => ((ToAGENT_DATA_TYPE_int32_t v).1, (ToAGENT_DATA_TYPE_int32_t v).2, w)
  | .int64_t, _, v, w => ((ToAGENT_DATA_TYPE_int64_t v).1, (ToAGENT_DATA_TYPE_int64_t v).2, w)
  | .bool, _, v, w => ((ToAGENT_DATA_TYPE_bool v).1, (ToAGENT_DATA_TYPE_bool v).2, w)
  | .ascii_char_ptr, _, v, w => ToAGENT_DATA_TYPE_ascii_char_ptr v w
  | .ascii_char_ptr_no_quotes, _, v, w => ToAGENT_DATA_TYPE_ascii_char_ptr_no_quotes v w
  | .EDM_DATE_TIME_OFFSET, _, v, w =>
      ((ToAGENT_DATA_TYPE_EDM_DATE_TIME_OFFSET v).1,
        (ToAGENT_DATA_TYPE_EDM_DATE_TIME_OFFSET v).2, w)
  | .EDM_GUID, _, v, w => ((ToAGENT_DATA_TYPE_EDM_GUID v).1, (ToAGENT_DATA_TYPE_EDM_GUID v).2, w)
  | .EDM_BINARY, _, v, w => ToAGENT_DATA_TYPE_EDM_BINARY v w
  | .struct name fs, path, value, w =>
      let memberNames0 : List (Option String) :=
        List.replicate (MU_IF (MU_DIV2 (MU_COUNT_ARG fs)) (MU_DIV2 (MU_COUNT_ARG fs)) 1) none
      let memberCount := memberNames0.length
      if memberCount = 0 then
        (AGENT_DATA_TYPES_OK, none, w)
      else
        let members0 : List (Option AGENT_DATA_TYPE) := List.replicate memberCount none
        let memberNames := FIELD_AS_STRING fs 0 memberNames0
        let r1 := CREATE_AGENT_DATA_TYPE fs path 0 value AGENT_DATA_TYPES_OK 0 members0 w
        if r1.1 = AGENT_DATA_TYPES_OK then
          let r2 := Create_AGENT_DATA_TYPE_from_Members name memberCount memberNames r1.2.2.1
            (r1.2.2.2.log
              (.Create_AGENT_DATA_TYPE_from_Members name memberCount memberNames r1.2.2.1))
          ((if r2.1 = AGENT_DATA_TYPES_OK then AGENT_DATA_TYPES_OK else AGENT_DATA_TYPES_ERROR),
            r2.2.1, destroyMembers r2.2.2 0 r1.2.1)
        else
          (AGENT_DATA_TYPES_ERROR, none, destroyMembers r1.2.2.2 0 r1.2.1)
/-- `MU_FOR_EACH_2(CREATE_AGENT_DATA_TYPE, ...)` from field number `j` on
(serializer.h, lines 616-618), on the variables `result`, `iMember` and
`members`: while `result` is OK the field is converted into
`members[iMember]`; `result` becomes `AGENT_DATA_TYPES_ERROR` unless that
conversion returned OK, and `iMember` advances only when `result` is OK. -/
def CREATE_AGENT_DATA_TYPE :
    (fs : CFields) → List Nat → Nat → NativeFields fs → AGENT_DATA_TYPES_RESULT → Nat →
      List (Option AGENT_DATA_TYPE) → World →
      AGENT_DATA_TYPES_RESULT × Nat × List (Option AGENT_DATA_TYPE) × World
  | .nil, _, _, _, result, iMember, members, w => (result, iMember, members, w)
  | .cons t _ rest, path, j, (v, vs), result, iMember, members, w =>
      if result = AGENT_DATA_TYPES_OK then
        let r1 := ToAGENT_DATA_TYPE t (path ++ [j]) v (w.log (.ToAGENT_DATA_TYPE (path ++ [j])))
        let result1 :=
          if r1.1 = AGENT_DATA_TYPES_OK then AGENT_DATA_TYPES_OK else AGENT_DATA_TYPES_ERROR
        let members1 :=
          match r1.2.1 with
          | some g => members.set iMember (some g)
          | none => members
        CREATE_AGENT_DATA_TYPE rest path (j + 1) vs result1
          (iMember + (if result1 = AGENT_DATA_TYPES_OK then 1 else 0)) members1 r1.2.2
      else
        CREATE_AGENT_DATA_TYPE rest path (j + 1) vs AGENT_DATA_TYPES_ERROR iMember members w
end

/-! ## Models: `FromAGENT_DATA_TYPE_<model>` and the wrappers -/

/-- `FromAGENT_DATA_TYPE_##name` of `DECLARE_MODEL` (serializer.h, lines
171-177): ignores both arguments, logs "SHOULD NOT GET CALLED... EVER" and
returns the `int` 0. -/
def FromAGENT_DATA_TYPE_model {Destination : Type} (_source : AGENT_DATA_TYPE)
    (_destination : Destination) (w : World) : Int × World :=
  (0, w.log (.LogError "SHOULD NOT GET CALLED... EVER" []))

/-- Modelled from the spec: the result of an action (`iotdevice.h` is not
part of the sources): the user function's own status, or
`EXECUTE_COMMAND_ERROR` for a malformed call. -/
inductive EXECUTE_COMMAND_RESULT where
  | EXECUTE_COMMAND_SUCCESS
  | EXECUTE_COMMAND_FAILED
  | EXECUTE_COMMAND_ERROR
  deriving DecidableEq, Repr

open EXECUTE_COMMAND_RESULT

/-- `MU_FOR_EACH_2(DEFINE_LOCAL_PARAMETER, ...)` (serializer.h, line 755):
every local `name_local` is declared and `GlobalInitialize_##type` is applied
to it; `stack` is what the locals hold before. -/
def DEFINE_LOCAL_PARAMETER (P : Platform) : (ps : CFields) → NativeFields ps → NativeFields ps
  | .nil, stack => stack
  | .cons t _ rest, (l, ls) => (GlobalInitialize P t l, DEFINE_LOCAL_PARAMETER P rest ls)

/-- The value read at `values[iParameter]`. Reading past the end of the
array is undefined in C; here it yields a value that no codec accepts. -/
def valueAt (values : List AGENT_DATA_TYPE) (iParameter : Nat) : AGENT_DATA_TYPE :=
  values.getD iParameter .edmDuration

/-- `MU_FOR_EACH_2_KEEP_1(START_BUILD_LOCAL_PARAMETER, errorWhenItFails,
...)`, the body, and `MU_FOR_EACH_2_REVERSE(END_BUILD_LOCAL_PARAMETER, ...)`
(serializer.h, lines 757-768), from parameter `iParameter` on. Each
parameter opens `if (FromAGENT_DATA_TYPE_type(&values[iParameter],
&name_local) != AGENT_DATA_TYPES_OK) { result = errorWhenItFails; } else {
iParameter++;`, and is closed, after the inner parameters and the body, by
`destroyLocalParametertype(&name_local); }`. -/
def BUILD_LOCAL_PARAMETER {R : Type} (P : Platform) (errorWhenItFails : R)
    (values : List AGENT_DATA_TYPE) :
    (ps : CFields) → Nat → NativeFields ps → (NativeFields ps → World → R × World) →
      World → R × World
  | .nil, _, locals, body, w => body locals w
  | .cons t _ rest, iParameter, (l, ls), body, w =>
      let r1 := FromAGENT_DATA_TYPE P t (valueAt values iParameter) [iParameter] l
        (w.log (.FromAGENT_DATA_TYPE [iParameter]))
      if r1.1 ≠ AGENT_DATA_TYPES_OK then
        (errorWhenItFails, r1.2.2)
      else
        let r2 := BUILD_LOCAL_PARAMETER P errorWhenItFails values rest (iParameter + 1) ls
          (fun ls1 => body (r1.2.1, ls1)) r1.2.2
        let r3 := destroyLocalParameter t [iParameter] r1.2.1
          (r2.2.log (.destroyLocalParameter [iParameter]))
        (r2.1, r3.2)

/-- The call `name((modelName*)device, locals...)` of the user function:
the call is recorded, and the function acts on the heap. -/
def callUser {R : Type} (params : CFields) (fn : Nat → NativeFields params → Heap → R × Heap)
    (device : Nat) (args : NativeFields params) (w : World) : R × World :=
  let r := fn device args w.toHeap
  (r.1, { toHeap := r.2, trace := w.trace ++ [.invoke device params args] })

/-- `actionName##WRAPPER(device, ParameterCount, values)` of
`CREATE_MODEL_ACTION` (serializer.h, lines 543-573) for an action declared
with the parameters `params` and implemented by `actionName`. -/
def actionWRAPPER (P : Platform) (params : CFields)
    (actionName : Nat → NativeFields params → Heap → EXECUTE_COMMAND_RESULT × Heap)
    (stack : NativeFields params) (device : Nat) (ParameterCount : Nat)
    (values : List AGENT_DATA_TYPE) (w : World) : EXECUTE_COMMAND_RESULT × World :=
  if ParameterCount ≠ MU_DIV2 (MU_COUNT_ARG params) then
    (EXECUTE_COMMAND_ERROR, w)
  else
    BUILD_LOCAL_PARAMETER P EXECUTE_COMMAND_ERROR values params 0
      (DEFINE_LOCAL_PARAMETER P params stack) (callUser params actionName device) w

/-- `methodName##WRAPPER(device, ParameterCount, values)` of
`CREATE_MODEL_METHOD` (serializer.h, lines 583-614) for a method declared
with the parameters `params` and implemented by `methodName`; a
`METHODRETURN_HANDLE` is a pointer, 0 being `NULL`. The arguments of
`LogError` are `(unsigned long)ParameterCount` and
`(unsigned long)MU_COUNT_ARG(__VA_ARGS__)`, in this order. -/
def methodWRAPPER (P : Platform) (params : CFields)
    (methodName : Nat → NativeFields params → Heap → Nat × Heap)
    (stack : NativeFields params) (device : Nat) (ParameterCount : Nat)
    (values : List AGENT_DATA_TYPE) (w : World) : Nat × World :=
  if ParameterCount ≠ MU_DIV2 (MU_COUNT_ARG params) then
    (0, w.log (.LogError
      "expected parameter count (%lu) does not match the actual parameter count (%lu)"
      [ParameterCount % 2 ^ P.LONG_BIT, MU_COUNT_ARG params % 2 ^ P.LONG_BIT]))
  else
    BUILD_LOCAL_PARAMETER P 0 values params 0
      (DEFINE_LOCAL_PARAMETER P params stack) (callUser params methodName device) w

/-! ## Model declarations (serializer.h, lines 165-187, 216-244, 362-375) -/

/-- An element of the argument list of `DECLARE_MODEL`, as the `WITH_...`
macros leave it. The change callback of a desired property is optional
(`WITH_DESIRED_PROPERTY(type, name, ...)`); it is kept as the identifier of
the function. -/
inductive ModelElement where
  | MODEL_PROPERTY (type : CType) (name : String)
  | MODEL_REPORTED_PROPERTY (type : CType) (name : String)
  | MODEL_DESIRED_PROPERTY (type : CType) (name : String)
      (onDesiredPropertyChange : Option String)
  | MODEL_ACTION (name : String) (params : CFields)
  | MODEL_METHOD (name : String) (params : CFields)

/-- `WITH_DATA(type, name)`. -/
def WITH_DATA (type : CType) (name : String) : ModelElement := .MODEL_PROPERTY type name

/-- `WITH_REPORTED_PROPERTY(type, name)`. -/
def WITH_REPORTED_PROPERTY (type : CType) (name : String) : ModelElement :=
  .MODEL_REPORTED_PROPERTY type name

/-- `WITH_DESIRED_PROPERTY(type, name, ...)`. -/
def WITH_DESIRED_PROPERTY (type : CType) (name : String)
    (onDesiredPropertyChange : Option String) : ModelElement :=
  .MODEL_DESIRED_PROPERTY type name onDesiredPropertyChange

/-- `WITH_ACTION(name, ...)`. -/
def WITH_ACTION (name : String) (params : CFields) : ModelElement := .MODEL_ACTION name params

/-- `WITH_METHOD(name, ...)`. -/
def WITH_METHOD (name : String) (params : CFields) : ModelElement := .MODEL_METHOD name params

/-- `TO_AGENT_DT_EXPAND_ELEMENT_ARGS(N, elem)`, that is
`TO_AGENT_DT_EXPAND_##elem` (serializer.h, lines 362-372): `,x,y` for the
three kinds of property and nothing for an action or a method. The result
lists the (type, name) pairs of the expansion. -/
def TO_AGENT_DT_EXPAND_ELEMENT_ARGS : ModelElement → List (CType × String)
  | .MODEL_PROPERTY x y => [(x, y)]
  | .MODEL_REPORTED_PROPERTY x y => [(x, y)]
  | .MODEL_DESIRED_PROPERTY x y _ => [(x, y)]
  | .MODEL_ACTION _ _ => []
  | .MODEL_METHOD _ _ => []

/-- `EXPAND_MODEL_ARGS(...)`: `MU_FOR_EACH_1_COUNTED` puts the expansions of
the elements one after the other. -/
def EXPAND_MODEL_ARGS : List ModelElement → List (CType × String)
  | [] => []
  | elem :: rest => TO_AGENT_DT_EXPAND_ELEMENT_ARGS elem ++ EXPAND_MODEL_ARGS rest

/-- `DROP_FIRST_COMMA_FROM_ARGS(...)` removes the comma that leads the list
`,x1,y1,x2,y2`; what is left is an argument list of (type, name) pairs. -/
def DROP_FIRST_COMMA_FROM_ARGS (args : List (CType × String)) : CFields := CFields.ofList args

/-- The argument list that `DECLARE_MODEL(name, ...)` hands to
`TO_AGENT_DATA_TYPE` (serializer.h, line 170). -/
def modelMembers (elements : List ModelElement) : CFields :=
  DROP_FIRST_COMMA_FROM_ARGS (EXPAND_MODEL_ARGS elements)

/-- `ToAGENT_DATA_TYPE_<model>(destination, value)`: the function that
`TO_AGENT_DATA_TYPE(name, DROP_FIRST_COMMA_FROM_ARGS(EXPAND_MODEL_ARGS(...)))`
defines in `DECLARE_MODEL`. `value` is the struct of the model; its fields are
those of the three kinds of property (`BUILD_MODEL_STRUCT`, serializer.h,
lines 456, 475-494). -/
def ToAGENT_DATA_TYPE_model (name : String) (elements : List ModelElement) (path : List Nat)
    (value : NativeFields (modelMembers elements)) (w : World) :
    AGENT_DATA_TYPES_RESULT × Option AGENT_DATA_TYPE × World :=
  ToAGENT_DATA_TYPE (.struct name (modelMembers elements)) path value w

/-! ## The reflection registry (serializer.h, lines 77-86, 102-103, 166-169, 413-444)

The macros `MU_INC`, `MU_DEC`, `MU_IF` and `MU_C2` come from a header that is
not part of the sources; they are read as their names say. Every occurrence
of `__COUNTER__` is expanded once, in the order of the text. -/

/-- `MU_INC(x)`. -/
def MU_INC (x : Nat) : Nat := x + 1

/-- `MU_DEC(x)`. -/
def MU_DEC (x : Nat) : Nat := x - 1

/-- `MU_TOSTRING(type)` for a declared type: the spelling of the type. For
`bool` it is the spelling that results where `bool` is a keyword (C++); where
`bool` is the macro of `<stdbool.h>` the argument is expanded first and the
string is "_Bool". -/
def MU_TOSTRING : CType → String
  | .double => "double"
  | .float => "float"
  | .int => "int"
  | .long => "long"
  | .int8_t => "int8_t"
  | .uint8_t => "uint8_t"
  | .int16_t => "int16_t"
  | .int32_t => "int32_t"
  | .int64_t => "int64_t"
  | .bool => "bool"
  | .ascii_char_ptr => "ascii_char_ptr"
  | .ascii_char_ptr_no_quotes => "ascii_char_ptr_no_quotes"
  | .EDM_DATE_TIME_OFFSET => "EDM_DATE_TIME_OFFSET"
  | .EDM_GUID => "EDM_GUID"
  | .EDM_BINARY => "EDM_BINARY"
  | .struct name _ => name

/-- The kinds of record of the registry. -/
inductive REFLECTION_TYPE where
  | REFLECTION_METHOD_TYPE
  | REFLECTION_DESIRED_PROPERTY_TYPE
  | REFLECTION_REPORTED_PROPERTY_TYPE
  | REFLECTION_STRUCT_TYPE
  | REFLECTION_FIELD_TYPE
  | REFLECTION_PROPERTY_TYPE
  | REFLECTION_ACTION_TYPE
  | REFLECTION_MODEL_TYPE
  | REFLECTION_NOTHING
  deriving DecidableEq, Repr

open REFLECTION_TYPE

/-- An entry `{type, name}` of a `WRAPPERARGUMENTS` array; `{0}` has neither. -/
structure WRAPPER_ARGUMENT where
  type : Option String
  name : Option String
  deriving DecidableEq, Repr

/-- The constant expression `offsetof(aggregate, member)`, kept as written. -/
structure Offsetof where
  aggregate : String
  member : String
  deriving DecidableEq, Repr

/-- The constant expression `sizeof(type)`, kept as written. -/
structure Sizeof where
  type : String
  deriving DecidableEq, Repr

/-- The member `what` of a record. An initialiser of the registry macros
fills one of the eight members (method, desired property, reported property,
struct, field, property, action, model, in this order) and leaves the others
`{0}`; the terminator leaves all of them `{0}`. Functions are kept as their
identifiers, `NULL` as `none`. -/
inductive REFLECTED_WHAT where
  | method (name : String) (nArguments : Nat) (arguments : List WRAPPER_ARGUMENT)
      (wrapper : String) (modelName : String)
  | desiredProperty (onDesiredProperty : Option String) (initializeFunction : String)
      (deinitializeFunction : String) (name : String) (type : String)
      (FromAGENT_DATA_TYPE : String) (offset : Offsetof) (size : Sizeof) (modelName : String)
  | reportedProperty (name : String) (type : String)
      (Create_AGENT_DATA_TYPE_from_Ptr : String) (offset : Offsetof) (size : Sizeof)
      (modelName : String)
  | struct (name : String)
  | field (fieldName : String) (fieldType : String) (structName : String)
  | property (name : String) (type : String) (Create_AGENT_DATA_TYPE_from_Ptr : String)
      (offset : Offsetof) (size : Sizeof) (modelName : String)
  | action (name : String) (nArguments : Nat) (arguments : List WRAPPER_ARGUMENT)
      (wrapper : String) (modelName : String)
  | model (name : String)
  | nothing
  deriving DecidableEq, Repr

/-- A record `{ type, next, what }` of the registry; `next` is `NULL` or
`&REFLECTED_n`, kept as the number `n`. -/
structure REFLECTED_SOMETHING where
  type : REFLECTION_TYPE
  next : Option Nat
  what : REFLECTED_WHAT
  deriving DecidableEq, Repr

/-- What the preprocessor and the compiler have seen of a translation unit:
the value the next `__COUNTER__` expands to, the definitions
`static const REFLECTED_SOMETHING REFLECTED_n = ...` in the order they were
emitted (as pairs of `n` and the record), and the list heads
`ALL_REFLECTED(name) = { &REFLECTED_n }`. -/
structure TranslationUnit where
  COUNTER : Nat
  REFLECTED : List (Nat × REFLECTED_SOMETHING)
  ALL_REFLECTED : List (String × Nat)
  deriving DecidableEq, Repr

/-- One expansion of `__COUNTER__`: its value, and the unit afterwards. -/
def TranslationUnit.readCounter (u : TranslationUnit) : Nat × TranslationUnit :=
  (u.COUNTER, { u with COUNTER := u.COUNTER + 1 })

/-- The definition `static const REFLECTED_SOMETHING REFLECTED_n = record`. -/
def TranslationUnit.define (u : TranslationUnit) (n : Nat) (record : REFLECTED_SOMETHING) : TranslationUnit :=
  { u with REFLECTED := u.REFLECTED ++ [(n, record)] }

/-- `REFLECTED_END_OF_LIST` (serializer.h, lines 443-444). -/
def REFLECTED_END_OF_LIST (u : TranslationUnit) : TranslationUnit :=
  let c := u.readCounter
  c.2.define c.1 { type := REFLECTION_NOTHING, next := none, what := .nothing }

/-- `REFLECTED_LIST_HEAD(name)` (serializer.h, lines 413-414). -/
def REFLECTED_LIST_HEAD (name : String) (u : TranslationUnit) : TranslationUnit :=
  let c := u.readCounter
  { c.2 with ALL_REFLECTED := c.2.ALL_REFLECTED ++ [(name, MU_DEC c.1)] }

/-- The shape shared by the record macros that read `__COUNTER__` themselves:
the record is named `REFLECTED_<MU_INC(__COUNTER__)>` and its `next` is
`&REFLECTED_<MU_DEC(MU_DEC(__COUNTER__))>`, the second `__COUNTER__` being
expanded after the first. -/
def reflect (type : REFLECTION_TYPE) (what : REFLECTED_WHAT) (u : TranslationUnit) :
    TranslationUnit :=
  let c1 := u.readCounter
  let c2 := c1.2.readCounter
  c2.2.define (MU_INC c1.1) { type := type, next := some (MU_DEC (MU_DEC c2.1)), what := what }

/-- `REFLECTED_STRUCT(name)` (serializer.h, lines 415-416). -/
def REFLECTED_STRUCT (name : String) : TranslationUnit → TranslationUnit :=
  reflect REFLECTION_STRUCT_TYPE (.struct name)

/-- `REFLECTED_FIELD(XstructName, XfieldType, XfieldName)` (serializer.h,
lines 417-418). -/
def REFLECTED_FIELD (XstructName : String) (XfieldType : CType) (XfieldName : String) :
    TranslationUnit → TranslationUnit :=
  reflect REFLECTION_FIELD_TYPE (.field XfieldName (MU_TOSTRING XfieldType) XstructName)

/-- `REFLECTED_MODEL(name)` (serializer.h, lines 419-420). -/
def REFLECTED_MODEL (name : String) : TranslationUnit → TranslationUnit :=
  reflect REFLECTION_MODEL_TYPE (.model name)

/-- `REFLECTED_PROPERTY(type, name, modelName)` (serializer.h, lines
421-422). -/
def REFLECTED_PROPERTY (type : CType) (name : String) (modelName : String) :
    TranslationUnit → TranslationUnit :=
  reflect REFLECTION_PROPERTY_TYPE
    (.property name (MU_TOSTRING type) ("Create_AGENT_DATA_TYPE_From_Ptr_" ++ modelName ++ name)
      { aggregate := modelName, member := name } { type := MU_TOSTRING type } modelName)

/-- `REFLECTED_REPORTED_PROPERTY(type, name, modelName)` (serializer.h, lines
423-424). -/
def REFLECTED_REPORTED_PROPERTY (type : CType) (name : String) (modelName : String) :
    TranslationUnit → TranslationUnit :=
  reflect REFLECTION_REPORTED_PROPERTY_TYPE
    (.reportedProperty name (MU_TOSTRING type)
      ("Create_AGENT_DATA_TYPE_From_Ptr_" ++ modelName ++ name)
      { aggregate := modelName, member := name } { type := MU_TOSTRING type } modelName)

/-- `REFLECTED_DESIRED_PROPERTY_WITH_ON_DESIRED_PROPERTY_CHANGE(type, name,
modelName, COUNTER, onDesiredPropertyChange)` (serializer.h, lines 427-428):
the record is named `REFLECTED_<MU_INC(COUNTER)>` and its `next` is
`&REFLECTED_<MU_DEC(COUNTER)>`. -/
def REFLECTED_DESIRED_PROPERTY_WITH_ON_DESIRED_PROPERTY_CHANGE (type : CType) (name : String)
    (modelName : String) (COUNTER : Nat) (onDesiredPropertyChange : Option String)
    (u : TranslationUnit) : TranslationUnit :=
  u.define (MU_INC COUNTER)
    { type := REFLECTION_DESIRED_PROPERTY_TYPE, next := some (MU_DEC COUNTER),
      what := .desiredProperty onDesiredPropertyChange
        ("DesiredPropertyInitialize_" ++ modelName ++ name)
        ("DesiredPropertyDeinitialize_" ++ modelName ++ name) name (MU_TOSTRING type)
        ("FromAGENT_DATA_TYPE_" ++ MU_TOSTRING type)
        { aggregate := modelName, member := name } { type := MU_TOSTRING type } modelName }

/-- `REFLECTED_DESIRED_PROPERTY(type, name, modelName, ...)` (serializer.h,
lines 430-434). Both branches are arguments of `MU_IF`, and the arguments of
a macro are expanded before the macro is: `__COUNTER__` is read once for the
first branch and once more for `MU_DEC(__COUNTER__)` in the second, whichever
branch `MU_IF` selects. The optional argument is the change callback. -/
def REFLECTED_DESIRED_PROPERTY (type : CType) (name : String) (modelName : String)
    (onDesiredPropertyChange : Option String) (u : TranslationUnit) : TranslationUnit :=
  let c1 := u.readCounter
  let c2 := c1.2.readCounter
  match onDesiredPropertyChange with
  | some callback =>
      REFLECTED_DESIRED_PROPERTY_WITH_ON_DESIRED_PROPERTY_CHANGE type name modelName c1.1
        (some callback) c2.2
  | none =>
      REFLECTED_DESIRED_PROPERTY_WITH_ON_DESIRED_PROPERTY_CHANGE type name modelName
        (MU_DEC c2.1) none c2.2

/-- `REFLECTED_ACTION(name, argc, argv, fn, modelName)` (serializer.h, lines
436-437). -/
def REFLECTED_ACTION (name : String) (argc : Nat) (argv : List WRAPPER_ARGUMENT) (fn : String)
    (modelName : String) : TranslationUnit → TranslationUnit :=
  reflect REFLECTION_ACTION_TYPE (.action name argc argv fn modelName)

/-- `REFLECTED_METHOD(name, argc, argv, fn, modelName)` (serializer.h, lines
439-440). -/
def REFLECTED_METHOD (name : String) (argc : Nat) (argv : List WRAPPER_ARGUMENT) (fn : String)
    (modelName : String) : TranslationUnit → TranslationUnit :=
  reflect REFLECTION_METHOD_TYPE (.method name argc argv fn modelName)

/-- `MU_FOR_EACH_2_COUNTED(MAKE_WRAPPER_ARGUMENT, ...)` (serializer.h, line
789): an entry `{MU_TOSTRING(type), MU_TOSTRING(name)}` per parameter. -/
def MAKE_WRAPPER_ARGUMENT : CFields → List WRAPPER_ARGUMENT
  | .nil => []
  | .cons type name rest =>
      { type := some (MU_TOSTRING type), name := some name } :: MAKE_WRAPPER_ARGUMENT rest

/-- The array `<name>WRAPPERARGUMENTS` (serializer.h, lines 541, 581): the
entries of the parameters followed by `{0}`. -/
def WRAPPERARGUMENTS (params : CFields) : List WRAPPER_ARGUMENT :=
  MAKE_WRAPPER_ARGUMENT params ++ [{ type := none, name := none }]

/-- `BEGIN_NAMESPACE(schemaNamespace)` (serializer.h, lines 77-78). -/
def BEGIN_NAMESPACE (_schemaNamespace : String) : TranslationUnit → TranslationUnit :=
  REFLECTED_END_OF_LIST

/-- `END_NAMESPACE(schemaNamespace)` (serializer.h, lines 85-86). -/
def END_NAMESPACE (schemaNamespace : String) : TranslationUnit → TranslationUnit :=
  REFLECTED_LIST_HEAD schemaNamespace

/-- `MU_FOR_EACH_2_KEEP_1(REFLECTED_FIELD, name, ...)`. -/
def REFLECTED_FIELDS (name : String) : CFields → TranslationUnit → TranslationUnit
  | .nil, u => u
  | .cons type field rest, u => REFLECTED_FIELDS name rest (REFLECTED_FIELD name type field u)

/-- The registry records of `DECLARE_STRUCT(name, ...)` (serializer.h, lines
102-103). -/
def DECLARE_STRUCT (name : String) (fields : CFields) (u : TranslationUnit) : TranslationUnit :=
  REFLECTED_FIELDS name fields (REFLECTED_STRUCT name u)

/-- The registry record of `CREATE_MODEL_ELEMENT(modelName, elem)`
(serializer.h, lines 458-462, 501-614). -/
def CREATE_MODEL_ELEMENT (modelName : String) : ModelElement → TranslationUnit → TranslationUnit
  | .MODEL_PROPERTY type name => REFLECTED_PROPERTY type name modelName
  | .MODEL_REPORTED_PROPERTY type name => REFLECTED_REPORTED_PROPERTY type name modelName
  | .MODEL_DESIRED_PROPERTY type name callback =>
      REFLECTED_DESIRED_PROPERTY type name modelName callback
  | .MODEL_ACTION name params =>
      REFLECTED_ACTION name (MU_DIV2 (MU_COUNT_ARG params)) (WRAPPERARGUMENTS params)
        (name ++ "WRAPPER") modelName
  | .MODEL_METHOD name params =>
      REFLECTED_METHOD name (MU_DIV2 (MU_COUNT_ARG params)) (WRAPPERARGUMENTS params)
        (name ++ "WRAPPER") modelName

/-- The registry records of `DECLARE_MODEL(name, ...)` (serializer.h, lines
166-169). -/
def DECLARE_MODEL (name : String) (elements : List ModelElement) (u : TranslationUnit) :
    TranslationUnit :=
  elements.foldl (fun u1 elem => CREATE_MODEL_ELEMENT name elem u1) (REFLECTED_MODEL name u)

/-- A declaration inside a namespace. -/
inductive Declaration where
  | struct (name : String) (fields : CFields)
  | model (name : String) (elements : List ModelElement)

/-- The registry records of a declaration. -/
def Declaration.expand : Declaration → TranslationUnit → TranslationUnit
  | .struct name fields => DECLARE_STRUCT name fields
  | .model name elements => DECLARE_MODEL name elements

/-- `BEGIN_NAMESPACE(ns)`, the declarations, `END_NAMESPACE(ns)`. -/
def declareNamespace (schemaNamespace : String) (declarations : List Declaration)
    (u : TranslationUnit) : TranslationUnit :=
  END_NAMESPACE schemaNamespace
    (declarations.foldl (fun u1 d => d.expand u1) (BEGIN_NAMESPACE schemaNamespace u))

/-- A translation unit in which nothing was declared yet and the next
`__COUNTER__` is `k`. -/
def TranslationUnit.startingAt (k : Nat) : TranslationUnit :=
  { COUNTER := k, REFLECTED := [], ALL_REFLECTED := [] }

/-! ## Property accessors and desired-property hooks (serializer.h, lines 510-533) -/

/-- `Create_AGENT_DATA_TYPE_From_Ptr_<modelName><propertyName>(param, dest)`,
the function that `IMPL_PROPERTY` and `IMPL_REPORTED_PROPERTY` define
(serializer.h, lines 510-522): `return
ToAGENT_DATA_TYPE_<propertyType>(dest, *(propertyType*)param)`, the result
being converted to `int`. `param` points to the object at access path `path`
and is given by the value of that object; the function returns the result,
the value stored through `dest`, if any, the value of the object afterwards
and the state. -/
def Create_AGENT_DATA_TYPE_From_Ptr_ (propertyType : CType) (path : List Nat)
    (param : Native propertyType) (w : World) :
    Int × Option AGENT_DATA_TYPE × Native propertyType × World :=
  let r := ToAGENT_DATA_TYPE propertyType path param w
  (r.1.toInt, r.2.1, param, r.2.2)

/-- `DesiredPropertyInitialize_<modelName><propertyName>(destination)` of
`IMPL_DESIRED_PROPERTY` (serializer.h, lines 525-528). -/
def DesiredPropertyInitialize_ (P : Platform) (propertyType : CType)
    (destination : Native propertyType) : Native propertyType :=
  GlobalInitialize P propertyType destination

/-- `DesiredPropertyDeinitialize_<modelName><propertyName>(destination)` of
`IMPL_DESIRED_PROPERTY` (serializer.h, lines 529-532). -/
def DesiredPropertyDeinitialize_ (propertyType : CType) (destination : Native propertyType)
    (w : World) : Native propertyType × World :=
  GlobalDeinitialize propertyType destination w

/-! ## The initialiser of the argument table (serializer.h, lines 541, 581, 688-753, 789)

`MU_FOR_EACH_2_COUNTED` comes from a header that is not part of the sources.
It is read as its use with `MU_IFCOMMA(N)` requires: the macro is applied to
every (type, name) pair together with the number of arguments from that pair
on, so that the last pair is given the count 2. -/

/-- A token of the initialiser list of a `WRAPPERARGUMENTS` array: an entry
`{...}` or a comma. -/
inductive InitializerToken where
  | entry (argument : WRAPPER_ARGUMENT)
  | comma
  deriving DecidableEq, Repr

/-- `MU_IFCOMMA(N)` (serializer.h, lines 688-753): nothing for `N` 0 and 2, a
comma for the even `N` from 4 to 128; `MU_IFCOMMA_N` is not defined for any
other `N`. -/
def MU_IFCOMMA (N : Nat) : Option (List InitializerToken) :=
  if N = 0 ∨ N = 2 then some []
  else if N % 2 = 0 ∧ N ≤ 128 then some [.comma]
  else none

/-- `MAKE_WRAPPER_ARGUMENT(N, type, name)` (serializer.h, line 789):
`{MU_TOSTRING(type), MU_TOSTRING(name)} MU_IFCOMMA(N)`. -/
def MAKE_WRAPPER_ARGUMENT_N (N : Nat) (type : CType) (name : String) :
    Option (List InitializerToken) :=
  (MU_IFCOMMA N).map
    (fun c => .entry { type := some (MU_TOSTRING type), name := some name } :: c)

/-- `MU_FOR_EACH_2_COUNTED(MAKE_WRAPPER_ARGUMENT, ...)`: the macro is applied
to every (type, name) pair together with the number of arguments from that
pair on. -/
def MU_FOR_EACH_2_COUNTED_MAKE_WRAPPER_ARGUMENT : CFields → Option (List InitializerToken)
  | .nil => some []
  | .cons type name rest =>
      match MAKE_WRAPPER_ARGUMENT_N (MU_COUNT_ARG (.cons type name rest)) type name,
          MU_FOR_EACH_2_COUNTED_MAKE_WRAPPER_ARGUMENT rest with
      | some a, some b => some (a ++ b)
      | _, _ => none

/-- The initialiser list of `<name>WRAPPERARGUMENTS` (serializer.h, lines 541,
581): `MU_FOR_EACH_2_COUNTED(MAKE_WRAPPER_ARGUMENT, ...)
MU_IFCOMMA(MU_INC(MU_INC(MU_COUNT_ARG(...)))) {0}`. -/
def WRAPPERARGUMENTS_tokens (params : CFields) : Option (List InitializerToken) :=
  match MU_FOR_EACH_2_COUNTED_MAKE_WRAPPER_ARGUMENT params,
      MU_IFCOMMA (MU_INC (MU_INC (MU_COUNT_ARG params))) with
  | some a, some c => some (a ++ c ++ [.entry { type := none, name := none }])
  | _, _ => none

/-- The declared length of `<name>WRAPPERARGUMENTS` (serializer.h, lines 541,
581): `MU_DIV2(MU_INC(MU_INC(MU_COUNT_ARG(...))))`. -/
def WRAPPERARGUMENTS_length (params : CFields) : Nat :=
  MU_DIV2 (MU_INC (MU_INC (MU_COUNT_ARG params)))

/-! ## Wire constants (iothub_internal_consts.h, lines 12-19) -/

/-- The constant `IOTHUB_API_VERSION` (iothub_internal_consts.h, line 12). -/
def IOTHUB_API_VERSION : String := "2020-09-30"

/-- The constant `SECURITY_INTERFACE_INTERNAL_ID` (iothub_internal_consts.h, line 13). -/
def SECURITY_INTERFACE_INTERNAL_ID : String := "iothub-interface-internal-id"

/-- The constant `SECURITY_INTERFACE_INTERNAL_ID_VALUE` (iothub_internal_consts.h, line 14). -/
def SECURITY_INTERFACE_INTERNAL_ID_VALUE : String := "security*azureiot*com^SecurityAgent^1*0*0"

/-- The constant `SECURITY_INTERFACE_ID` (iothub_internal_consts.h, line 15). -/
def SECURITY_INTERFACE_ID : String := "iothub-interface-id"

/-- The constant `SECURITY_INTERFACE_ID_MQTT` (iothub_internal_consts.h, line 16). -/
def SECURITY_INTERFACE_ID_MQTT : String := "ifid"

/-- The constant `SECURITY_INTERFACE_ID_VALUE` (iothub_internal_consts.h, line 17). -/
def SECURITY_INTERFACE_ID_VALUE : String := "urn:azureiot:Security:SecurityAgent:1"

/-- The constant `SECURITY_MESSAGE_SCHEMA` (iothub_internal_consts.h, line 18). -/
def SECURITY_MESSAGE_SCHEMA : String := "iothub-message-schema"

/-- The constant `SECURITY_MESSAGE_SCHEMA_VALUE` (iothub_internal_consts.h, line 19). -/
def SECURITY_MESSAGE_SCHEMA_VALUE : String := "sevent"

/-! ## Model-level initialisation (serializer.h, lines 178-187, 465-499) -/

/-- `GlobalInitialize_<model>(destination)` of `DECLARE_MODEL` (serializer.h,
lines 178-182): `MU_FOR_EACH_1_KEEP_1(CREATE_MODEL_ELEMENT_GLOBAL_INITIALIZE,
name, ...)`. For a reported property the element expands to
`GlobalInitialize_##type((char*)destination+offsetof(modelName, name));`
(line 484); for a property, a desired property, an action and a method it
expands to nothing (lines 479, 489, 495, 498). `destination` is the struct
of the model, whose fields are those of the three kinds of property. -/
def GlobalInitialize_model (P : Platform) :
    (elements : List ModelElement) → NativeFields (modelMembers elements) →
      NativeFields (modelMembers elements)
  | [], destination => destination
  | .MODEL_PROPERTY _ _ :: rest, (d, ds) => (d, GlobalInitialize_model P rest ds)
  | .MODEL_REPORTED_PROPERTY type _ :: rest, (d, ds) =>
      (GlobalInitialize P type d, GlobalInitialize_model P rest ds)
  | .MODEL_DESIRED_PROPERTY _ _ _ :: rest, (d, ds) => (d, GlobalInitialize_model P rest ds)
  | .MODEL_ACTION _ _ :: rest, destination => GlobalInitialize_model P rest destination
  | .MODEL_METHOD _ _ :: rest, destination => GlobalInitialize_model P rest destination

/-- `GlobalDeinitialize_<model>(destination)` of `DECLARE_MODEL`
(serializer.h, lines 183-187):
`MU_FOR_EACH_1_KEEP_1(CREATE_MODEL_ELEMENT_GLOBAL_DEINITIALIZE, name, ...)`.
For a reported property the element expands to
`GlobalDeinitialize_##type((char*)destination+offsetof(modelName, name));`
(line 485); for every other element it expands to nothing (lines 480, 490,
496, 499). -/
def GlobalDeinitialize_model :
    (elements : List ModelElement) → NativeFields (modelMembers elements) → World →
      NativeFields (modelMembers elements) × World
  | [], destination, w => (destination, w)
  | .MODEL_PROPERTY _ _ :: rest, (d, ds), w =>
      let r := GlobalDeinitialize_model rest ds w
      ((d, r.1), r.2)
  | .MODEL_REPORTED_PROPERTY type _ :: rest, (d, ds), w =>
      let r1 := GlobalDeinitialize type d w
      let r2 := GlobalDeinitialize_model rest ds r1.2
      ((r1.1, r2.1), r2.2)
  | .MODEL_DESIRED_PROPERTY _ _ _ :: rest, (d, ds), w =>
      let r := GlobalDeinitialize_model rest ds w
      ((d, r.1), r.2)
  | .MODEL_ACTION _ _ :: rest, destination, w => GlobalDeinitialize_model rest destination w
  | .MODEL_METHOD _ _ :: rest, destination, w => GlobalDeinitialize_model rest destination w

/-! ## Notions used to state the properties -/

/-- The tag each codec expects (the table of the tag-check property); a
struct expects a complex record. -/
def expectedTag : CType → AGENT_DATA_TYPE_TYPE
  | .double => EDM_DOUBLE_TYPE
  | .float => EDM_SINGLE_TYPE
  | .int => EDM_INT32_TYPE
  | .long => EDM_INT64_TYPE
  | .int8_t => EDM_SBYTE_TYPE
  | .uint8_t => EDM_BYTE_TYPE
  | .int16_t => EDM_INT16_TYPE
  | .int32_t => EDM_INT32_TYPE
  | .int64_t => EDM_INT64_TYPE
  | .bool => EDM_BOOLEAN_TYPE
  | .ascii_char_ptr => EDM_STRING_TYPE
  | .ascii_char_ptr_no_quotes => EDM_STRING_NO_QUOTES_TYPE
  | .EDM_DATE_TIME_OFFSET => EDM_DATE_TIME_OFFSET_TYPE
  | .EDM_GUID => EDM_GUID_TYPE
  | .EDM_BINARY => EDM_BINARY_TYPE
  | .struct _ _ => EDM_COMPLEX_TYPE_TYPE

/-- Every allocation request still to come succeeds. -/
def allocationsSucceed (w : World) : Prop := ∀ b ∈ w.oracle, b = true

mutual
/-- The value is one the C type can hold: a `long` lies in the range of a
signed integer of `LONG_BIT` bits, `LONG_BIT` being between 1 and 64, in
every field of a struct too. -/
def InRange (P : Platform) : (t : CType) → Native t → Prop
  | .double, _ => True
  | .float, _ => True
  | .int, _ => True
  | .long, (v : Int) =>
      1 ≤ P.LONG_BIT ∧ P.LONG_BIT ≤ 64 ∧
        -(2 : Int) ^ (P.LONG_BIT - 1) ≤ v ∧ v < (2 : Int) ^ (P.LONG_BIT - 1)
  | .int8_t, _ => True
  | .uint8_t, _ => True
  | .int16_t, _ => True
  | .int32_t, _ => True
  | .int64_t, _ => True
  | .bool, _ => True
  | .ascii_char_ptr, _ => True
  | .ascii_char_ptr_no_quotes, _ => True
  | .EDM_DATE_TIME_OFFSET, _ => True
  | .EDM_GUID, _ => True
  | .EDM_BINARY, _ => True
  | .struct _ fs, v => InRangeFields P fs v
/-- `InRange` for every field. -/
def InRangeFields (P : Platform) : (fs : CFields) → NativeFields fs → Prop
  | .nil, _ => True
  | .cons t _ rest, (v, vs) => InRange P t v ∧ InRangeFields P rest vs
end

mutual
/-- The type can be declared in C: the field names of every struct in it are
pairwise distinct. -/
def WellDeclared : CType → Prop
  | .struct _ fs => fs.names.Nodup ∧ WellDeclaredFields fs
  | _ => True
/-- `WellDeclared` for every field type. -/
def WellDeclaredFields : CFields → Prop
  | .nil => True
  | .cons t _ rest => WellDeclared t ∧ WellDeclaredFields rest
end

mutual
/-- Equality of two native values of a type, each read in its own heap:
scalars, GUIDs and date-time offsets are equal; two strings have the same
characters; two binary blobs have the same size and the same bytes; two
structs are equal field for field. -/
def SameValue : (t : CType) → List Block → Native t → List Block → Native t → Prop
  | .double, _, v1, _, v2 => v1 = v2
  | .float, _, v1, _, v2 => v1 = v2
  | .int, _, v1, _, v2 => v1 = v2
  | .long, _, v1, _, v2 => v1 = v2
  | .int8_t, _, v1, _, v2 => v1 = v2
  | .uint8_t, _, v1, _, v2 => v1 = v2
  | .int16_t, _, v1, _, v2 => v1 = v2
  | .int32_t, _, v1, _, v2 => v1 = v2
  | .int64_t, _, v1, _, v2 => v1 = v2
  | .bool, _, v1, _, v2 => v1 = v2
  | .ascii_char_ptr, b1, p1, b2, p2 => ∃ s, stringAt b1 p1 = some s ∧ stringAt b2 p2 = some s
  | .ascii_char_ptr_no_quotes, b1, p1, b2, p2 =>
      ∃ s, stringAt b1 p1 = some s ∧ stringAt b2 p2 = some s
  | .EDM_DATE_TIME_OFFSET, _, v1, _, v2 => v1 = v2
  | .EDM_GUID, _, v1, _, v2 => v1 = v2
  | .EDM_BINARY, b1, v1, b2, v2 =>
      EDM_BINARY.size v1 = EDM_BINARY.size v2 ∧
        ∃ b, binaryAt b1 v1 = some b ∧ binaryAt b2 v2 = some b
  | .struct _ fs, b1, v1, b2, v2 => SameFields fs b1 v1 b2 v2
/-- `SameValue` for every field. -/
def SameFields : (fs : CFields) → List Block → NativeFields fs → List Block → NativeFields fs → Prop
  | .nil, _, _, _, _ => True
  | .cons t _ rest, b1, (v1, vs1), b2, (v2, vs2) =>
      SameValue t b1 v1 b2 v2 ∧ SameFields rest b1 vs1 b2 vs2
end

mutual
/-- The generic value that holds the content of a native value, when its
pointers designate what they should: what `ToAGENT_DATA_TYPE_##type` builds
when no allocation fails. -/
def content : (t : CType) → List Block → Native t → Option AGENT_DATA_TYPE
  | .double, _, v => some (.edmDouble v)
  | .float, _, v => some (.edmSingle v)
  | .int, _, v => some (.edmInt32 v)
  | .long, _, v => some (.edmInt64 (wrapSigned 64 v))
  | .int8_t, _, v => some (.edmSbyte v)
  | .uint8_t, _, v => some (.edmByte v)
  | .int16_t, _, v => some (.edmInt16 v)
  | .int32_t, _, v => some (.edmInt32 v)
  | .int64_t, _, v => some (.edmInt64 v)
  | .bool, _, (v : Bool) => some (.edmBoolean (if v = true then EDM_TRUE else EDM_FALSE))
  | .ascii_char_ptr, b, p => (stringAt b p).map .edmString
  | .ascii_char_ptr_no_quotes, b, p => (stringAt b p).map .edmStringNoQuotes
  | .EDM_DATE_TIME_OFFSET, _, v => some (.edmDateTimeOffset v)
  | .EDM_GUID, _, v => some (.edmGuid v)
  | .EDM_BINARY, b, v => (binaryAt b v).map .edmBinary
  | .struct _ fs, b, v =>
      match contentFields fs b v with
      | some gs => if fs.length = 0 then none else some (.edmComplexType (fs.names.zip gs))
      | none => none
/-- The contents of the fields, in declared order. -/
def contentFields : (fs : CFields) → List Block → NativeFields fs → Option (List AGENT_DATA_TYPE)
  | .nil, _, _ => some []
  | .cons t _ rest, b, (v, vs) =>
      match content t b v, contentFields rest b vs with
      | some g, some gs => some (g :: gs)
      | _, _ => none
end

/-- Every field of `fs`, looked up by name in `source`, yields the member of
that name whose value is the corresponding element of `gs`. -/
def Lookup (source : AGENT_DATA_TYPE) : CFields → List AGENT_DATA_TYPE → Prop
  | .nil, [] => True
  | .cons _ name rest, g :: gs => findMember source name = some (name, g) ∧ Lookup source rest gs
  | _, _ => False

/-- The conversions of a wrapper, one after the other as the spec words
them: for each declared parameter, from parameter `iParameter` on,
`from_generic` is run against the positional argument of the same index
into the local of the parameter, and the first failure stops the sequence.
Returns how many conversions succeeded, the locals and the state reached. -/
def convertLocals (P : Platform) (values : List AGENT_DATA_TYPE) :
    (ps : CFields) → Nat → NativeFields ps → World → Nat × NativeFields ps × World
  | .nil, _, locals, w => (0, locals, w)
  | .cons t _ rest, iParameter, (l, ls), w =>
      let r1 := FromAGENT_DATA_TYPE P t (valueAt values iParameter) [iParameter] l
        (w.log (.FromAGENT_DATA_TYPE [iParameter]))
      if r1.1 = AGENT_DATA_TYPES_OK then
        let r2 := convertLocals P values rest (iParameter + 1) ls r1.2.2
        (r2.1 + 1, (r1.2.1, r2.2.1), r2.2.2)
      else
        (0, (r1.2.1, ls), r1.2.2)

/-- The release of the first `count` locals of a wrapper, the last of them
first: `destroyLocalParameter##type(&name_local)` for each. -/
def releaseLocals : (ps : CFields) → Nat → Nat → NativeFields ps → World → World
  | .nil, _, _, _, w => w
  | .cons _ _ _, _, 0, _, w => w
  | .cons t _ rest, iParameter, count + 1, (l, ls), w =>
      (destroyLocalParameter t [iParameter] l
        ((releaseLocals rest (iParameter + 1) count ls w).log
          (.destroyLocalParameter [iParameter]))).2

/-- The parameters whose conversion a trace records: `i` for every call of
`FromAGENT_DATA_TYPE_##type` on the i-th local. -/
def convertedParams (trace : List Event) : List Nat :=
  trace.filterMap (fun e => match e with
    | .FromAGENT_DATA_TYPE [i] => some i
    | _ => none)

/-- The locals whose release a trace records: `i` for every call of
`destroyLocalParameter##type` on the i-th local. -/
def destroyedParams (trace : List Event) : List Nat :=
  trace.filterMap (fun e => match e with
    | .destroyLocalParameter [i] => some i
    | _ => none)

/-- The calls of the user function a trace records. -/
def invocations (trace : List Event) : List Event :=
  trace.filter (fun e => match e with
    | .invoke _ _ _ => true
    | _ => false)

/-- The calls made since the trace had length `n`. -/
def callsSince (n : Nat) (w : World) : List Event := w.trace.drop n

/-- The array `slots` after `slots[i] = x0`, `slots[i + 1] = x1`, ... for the
elements of `xs`. -/
def writeFrom {α : Type} (slots : List (Option α)) (i : Nat) : List α → List (Option α)
  | [] => slots
  | x :: xs => writeFrom (slots.set i (some x)) (i + 1) xs

/-- An event that is not a call made by a wrapper body itself: neither a
conversion into a local, nor the release of a local, nor the call of the
user function. -/
def Event.deep : Event → Prop
  | .FromAGENT_DATA_TYPE p => 2 ≤ p.length
  | .destroyLocalParameter p => 2 ≤ p.length
  | .invoke _ _ _ => False
  | _ => True

/-- The trace of `w2` is the trace of `w1` followed by deep events only. -/
def DeepExt (w1 w2 : World) : Prop :=
  ∃ evs, w2.trace = w1.trace ++ evs ∧ ∀ e ∈ evs, e.deep

/-- Between `w1` and `w2` the trace grew by events whose conversions of
locals, releases of locals and calls of the user function are the given
ones, each in order. -/
def Calls (w1 w2 : World) (convs destroys : List Nat) (invs : List Event) : Prop :=
  ∃ evs, w2.trace = w1.trace ++ evs ∧ convertedParams evs = convs ∧
    destroyedParams evs = destroys ∧ invocations evs = invs

/-- The next allocation request fails. -/
def nextAllocationFails (w : World) : Prop := w.request.1 = false

/-- The conversions of the fields of a struct from a record, in the words of
the spec, from field number `j` on: the first member whose name is the
field name is converted into the field; the sequence stops at the first
field that has no such member or whose conversion does not return
`AGENT_DATA_TYPES_OK`. Returns the number of fields converted, the
destination and the state reached. -/
def convertFields (P : Platform) (source : AGENT_DATA_TYPE) (path : List Nat) :
    (fs : CFields) → Nat → NativeFields fs → World → Nat × NativeFields fs × World
  | .nil, _, destination, w => (0, destination, w)
  | .cons t name rest, j, (d, ds), w =>
      match findMember source name with
      | none => (0, (d, ds), w)
      | some m =>
          let r1 := FromAGENT_DATA_TYPE P t m.2 (path ++ [j]) d
            (w.log (.FromAGENT_DATA_TYPE (path ++ [j])))
          if r1.1 = AGENT_DATA_TYPES_OK then
            let r2 := convertFields P source path rest (j + 1) ds r1.2.2
            (r2.1 + 1, (r1.2.1, r2.2.1), r2.2.2)
          else (0, (r1.2.1, ds), r1.2.2)

/-- The array `slots` after the stores made through `&slots[i]`,
`&slots[i + 1]`, ...: element `k` of `xs` is what the `k`-th store wrote, and
`none` stands for a store that did not happen. -/
def storeFrom {α : Type} (slots : List (Option α)) (i : Nat) :
    List (Option α) → List (Option α)
  | [] => slots
  | x :: xs =>
      storeFrom (match x with
        | some g => slots.set i (some g)
        | none => slots) (i + 1) xs

/-- The conversions of the fields of a struct to member values, in the words
of the spec, from field number `j` on: each field is converted in turn and
the sequence stops at the first conversion that does not return
`AGENT_DATA_TYPES_OK`. Returns the number of members created, what each
conversion attempted stored through its destination, and the state reached. -/
def convertMembers :
    (fs : CFields) → List Nat → Nat → NativeFields fs → World →
      Nat × List (Option AGENT_DATA_TYPE) × World
  | .nil, _, _, _, w => (0, [], w)
  | .cons t _ rest, path, j, (v, vs), w =>
      let r1 := ToAGENT_DATA_TYPE t (path ++ [j]) v (w.log (.ToAGENT_DATA_TYPE (path ++ [j])))
      if r1.1 = AGENT_DATA_TYPES_OK then
        let r2 := convertMembers rest path (j + 1) vs r1.2.2
        (r2.1 + 1, r1.2.1 :: r2.2.1, r2.2.2)
      else (0, [r1.2.1], r1.2.2)

/-- The call of the record constructor that `ToAGENT_DATA_TYPE_<struct>`
makes once the members are converted, in the words of the spec: the type
name, the member count `max(N, 1)`, the names of the fields in declared order
and the values of the members; when the struct has no field the one name and
the one value are unset. `w` is the state after the conversions. -/
def constructorCall (name : String) (fs : CFields) (values : List (Option AGENT_DATA_TYPE))
    (w : World) : AGENT_DATA_TYPES_RESULT × Option AGENT_DATA_TYPE × World :=
  Create_AGENT_DATA_TYPE_from_Members name (max fs.length 1)
    (fs.names.map some ++ List.replicate (1 - fs.length) none)
    (values ++ List.replicate (1 - fs.length) none)
    (w.log (.Create_AGENT_DATA_TYPE_from_Members name (max fs.length 1)
      (fs.names.map some ++ List.replicate (1 - fs.length) none)
      (values ++ List.replicate (1 - fs.length) none)))

/-- The (type, name) pair a model element declares as a property (`WITH_DATA`,
`WITH_REPORTED_PROPERTY`, `WITH_DESIRED_PROPERTY`); an action or a method
declares none. -/
def ModelElement.property? : ModelElement → Option (CType × String)
  | .MODEL_PROPERTY type name => some (type, name)
  | .MODEL_REPORTED_PROPERTY type name => some (type, name)
  | .MODEL_DESIRED_PROPERTY type name _ => some (type, name)
  | .MODEL_ACTION _ _ => none
  | .MODEL_METHOD _ _ => none

/-- The kind of registry record a model element is declared to have. -/
def ModelElement.kind : ModelElement → REFLECTION_TYPE
  | .MODEL_PROPERTY _ _ => REFLECTION_PROPERTY_TYPE
  | .MODEL_REPORTED_PROPERTY _ _ => REFLECTION_REPORTED_PROPERTY_TYPE
  | .MODEL_DESIRED_PROPERTY _ _ _ => REFLECTION_DESIRED_PROPERTY_TYPE
  | .MODEL_ACTION _ _ => REFLECTION_ACTION_TYPE
  | .MODEL_METHOD _ _ => REFLECTION_METHOD_TYPE

/-- The name of a model element. -/
def ModelElement.name : ModelElement → String
  | .MODEL_PROPERTY _ name => name
  | .MODEL_REPORTED_PROPERTY _ name => name
  | .MODEL_DESIRED_PROPERTY _ name _ => name
  | .MODEL_ACTION name _ => name
  | .MODEL_METHOD name _ => name

/-- The entries `e_1, ..., e_n` of a declaration, by kind and name: a struct
gives its struct entry followed by one field entry per field in field order,
a model its model entry followed by one entry per element in element order. -/
def Declaration.entries : Declaration → List (REFLECTION_TYPE × String)
  | .struct name fields =>
      (REFLECTION_STRUCT_TYPE, name) :: fields.names.map (fun f => (REFLECTION_FIELD_TYPE, f))
  | .model name elements =>
      (REFLECTION_MODEL_TYPE, name) :: elements.map (fun e => (e.kind, e.name))

/-- The entries of the declarations of a namespace, in declaration order. -/
def entriesOf : List Declaration → List (REFLECTION_TYPE × String)
  | [] => []
  | d :: rest => d.entries ++ entriesOf rest

/-- The name a record holds: the struct, field, model, property, action or
method name; the terminator holds none. -/
def REFLECTED_WHAT.name : REFLECTED_WHAT → Option String
  | .method name _ _ _ _ => some name
  | .desiredProperty _ _ _ name _ _ _ _ _ => some name
  | .reportedProperty name _ _ _ _ _ => some name
  | .struct name => some name
  | .field fieldName _ _ => some fieldName
  | .property name _ _ _ _ _ => some name
  | .action name _ _ _ _ => some name
  | .model name => some name
  | .nothing => none

/-- The kind and the name of a record. -/
def REFLECTED_SOMETHING.entry (r : REFLECTED_SOMETHING) : REFLECTION_TYPE × Option String :=
  (r.type, r.what.name)

/-- The record defined under the name `REFLECTED_n`. -/
def lookupReflected (definitions : List (Nat × REFLECTED_SOMETHING)) (n : Nat) :
    Option REFLECTED_SOMETHING :=
  (definitions.find? (fun d => d.1 == n)).map (fun d => d.2)

/-- The records met by following `next` from a pointer (`NULL` or
`&REFLECTED_n`) until `NULL`, in at most `fuel` steps. -/
def walk (definitions : List (Nat × REFLECTED_SOMETHING)) :
    Nat → Option Nat → List REFLECTED_SOMETHING
  | 0, _ => []
  | _ + 1, none => []
  | fuel + 1, some n =>
      match lookupReflected definitions n with
      | none => []
      | some r => r :: walk definitions fuel r.next

/-- The pointer held by the list head `ALL_REFLECTED(schemaNamespace)`. -/
def TranslationUnit.listHead (u : TranslationUnit) (schemaNamespace : String) : Option Nat :=
  (u.ALL_REFLECTED.find? (fun h => h.1 == schemaNamespace)).map (fun h => h.2)

/-- The chain of definitions that follows the terminator `REFLECTED_k`. -/
def chainFrom (k : Nat) :
    List (REFLECTION_TYPE × REFLECTED_WHAT) → List (Nat × REFLECTED_SOMETHING)
  | [] => []
  | b :: bs => (k + 2, { type := b.1, next := some k, what := b.2 }) :: chainFrom (k + 2) bs

/-- The translation unit is the one reached when a namespace was opened at
the counter value `k` and records with the kinds and contents `bs` were
emitted since: the counter stands at `k + 2n + 1`, the definitions are the
terminator `REFLECTED_k` followed by the chain of the `n` records, and no
list head is defined yet. -/
def Registered (k : Nat) (bs : List (REFLECTION_TYPE × REFLECTED_WHAT)) (u : TranslationUnit) :
    Prop :=
  u.COUNTER = k + 2 * bs.length + 1 ∧
  u.REFLECTED =
    (k, { type := REFLECTION_NOTHING, next := none, what := .nothing }) :: chainFrom k bs ∧
  u.ALL_REFLECTED = []

/-- The kind and name of each record body. -/
def bodyEntries (bs : List (REFLECTION_TYPE × REFLECTED_WHAT)) :
    List (REFLECTION_TYPE × Option String) :=
  bs.map (fun b => (b.1, b.2.name))

mutual
/-- The zero value of a declared type, in the words of the spec: 0 for the
integers, 0.0 (all bits zero) for `float` and `double`, `false` for `bool`,
`NULL` for both string types, all-zero bytes for `EDM_GUID` (16 bytes) and
`EDM_DATE_TIME_OFFSET` (`sizeof(EDM_DATE_TIME_OFFSET)` bytes), `data = NULL`
and `size = 0` for `EDM_BINARY`, and for a struct the zero value of every
field. -/
def zeroValue (P : Platform) : (t : CType) → Native t
  | .double => (0 : Nat)
  | .float => (0 : Nat)
  | .int => (0 : Int)
  | .long => (0 : Int)
  | .int8_t => (0 : Int)
  | .uint8_t => (0 : Nat)
  | .int16_t => (0 : Int)
  | .int32_t => (0 : Int)
  | .int64_t => (0 : Int)
  | .bool => false
  | .ascii_char_ptr => (0 : Nat)
  | .ascii_char_ptr_no_quotes => (0 : Nat)
  | .EDM_DATE_TIME_OFFSET => ({ bytes := List.replicate P.sizeof_EDM_DATE_TIME_OFFSET 0 } :
      LokiSDK.EDM_DATE_TIME_OFFSET)
  | .EDM_GUID => ({ GUID := List.replicate 16 0, size_eq := List.length_replicate 16 0 } :
      LokiSDK.EDM_GUID)
  | .EDM_BINARY => ({ size := 0, data := 0 } : LokiSDK.EDM_BINARY)
  | .struct _ fs => zeroFields P fs
/-- The zero value of every field of a struct. -/
def zeroFields (P : Platform) : (fs : CFields) → NativeFields fs
  | .nil => ()
  | .cons t _ rest => (zeroValue P t, zeroFields P rest)
end

mutual
/-- The calls of releasers made inside `destroyLocalParameter<t>` for the
object at access path `path`, in the words of the spec: for a struct, one
call per declared field, in declared order, each followed by the calls made
inside it; none for a primitive type. -/
def releaseCalls : CType → List Nat → List Event
  | .struct _ fs, path => fieldReleaseCalls fs path 0
  | _, _ => []
/-- The calls for the fields from field number `j` on. -/
def fieldReleaseCalls : CFields → List Nat → Nat → List Event
  | .nil, _, _ => []
  | .cons t _ rest, path, j =>
      .destroyLocalParameter (path ++ [j]) ::
        (releaseCalls t (path ++ [j]) ++ fieldReleaseCalls rest path (j + 1))
end

/-- The record defined last in a translation unit. -/
def lastReflected (u : TranslationUnit) : Option REFLECTED_SOMETHING :=
  u.REFLECTED.getLast?.map (fun d => d.2)

/-- The elements that an initialiser list gives, in order: entries separated
by commas, with or without a comma after the last; `none` for a list that is
not of this form. -/
def initializedElements : List InitializerToken → Option (List WRAPPER_ARGUMENT)
  | [] => some []
  | [.entry a] => some [a]
  | .entry a :: .comma :: rest => (initializedElements rest).map (fun l => a :: l)
  | _ => none

/-- The entries `{type, name}` of the parameters, in declared order. -/
def argumentPairs (params : CFields) : List WRAPPER_ARGUMENT :=
  params.toList.map (fun p => { type := some (MU_TOSTRING p.1), name := some p.2 })

/-- A field descriptor in the words of the spec: the name of the type, the
name of the field, the byte offset within the owning aggregate, the size in
bytes and the name of the owning struct or model; `offset` and `size` are
`none` for a record that has no such member. -/
structure FieldDescriptor where
  type : String
  name : String
  offset : Option Offsetof
  size : Option Sizeof
  owner : String
  deriving DecidableEq, Repr

/-- The field descriptor that a record of a struct field or of a property
holds. -/
def REFLECTED_WHAT.fieldDescriptor : REFLECTED_WHAT → Option FieldDescriptor
  | .field fieldName fieldType structName =>
      some { type := fieldType, name := fieldName, offset := none, size := none,
             owner := structName }
  | .property name type _ offset size modelName =>
      some { type := type, name := name, offset := some offset, size := some size,
             owner := modelName }
  | .reportedProperty name type _ offset size modelName =>
      some { type := type, name := name, offset := some offset, size := some size,
             owner := modelName }
  | .desiredProperty _ _ _ name type _ offset size modelName =>
      some { type := type, name := name, offset := some offset, size := some size,
             owner := modelName }
  | _ => none

/-- The descriptor of the record defined last. -/
def lastDescriptor (u : TranslationUnit) : Option FieldDescriptor :=
  (lastReflected u).bind (fun r => r.what.fieldDescriptor)

/-- The member names of a record, in order. -/
def AGENT_DATA_TYPE.memberNames (source : AGENT_DATA_TYPE) : List String :=
  source.fields.map Prod.fst

/-- The fields of a struct value, in declared order, each with its type. -/
def fieldValues : (fs : CFields) → NativeFields fs → List ((t : CType) × Native t)
  | .nil, _ => []
  | .cons t _ rest, (v, vs) => ⟨t, v⟩ :: fieldValues rest vs

/-- For each field of the struct of a model, in order: whether the element
that declares it is a reported property (`WITH_REPORTED_PROPERTY`) rather
than a property (`WITH_DATA`) or a desired property
(`WITH_DESIRED_PROPERTY`). Actions and methods declare no field. -/
def reportedFlags : List ModelElement → List Bool
  | [] => []
  | .MODEL_PROPERTY _ _ :: rest => false :: reportedFlags rest
  | .MODEL_REPORTED_PROPERTY _ _ :: rest => true :: reportedFlags rest
  | .MODEL_DESIRED_PROPERTY _ _ _ :: rest => false :: reportedFlags rest
  | .MODEL_ACTION _ _ :: rest => reportedFlags rest
  | .MODEL_METHOD _ _ :: rest => reportedFlags rest

/-- `GlobalInitialize_<type>` applied to the fields that are flagged, every
other field being left as it is. -/
def initializeWhere (P : Platform) :
    List Bool → List ((t : CType) × Native t) → List ((t : CType) × Native t)
  | flag :: flags, x :: xs =>
      (if flag = true then ⟨x.1, GlobalInitialize P x.1 x.2⟩ else x) ::
        initializeWhere P flags xs
  | _, xs => xs

/-- `GlobalDeinitialize_<type>` applied, in order, to the fields that are
flagged, every other field being left as it is and giving rise to no call:
the fields and the state afterwards. -/
def releaseWhere :
    List Bool → List ((t : CType) × Native t) → World → List ((t : CType) × Native t) × World
  | flag :: flags, x :: xs, w =>
      if flag = true then
        ((⟨x.1, ( GlobalDeinitialize x.1 x.2 w).1⟩ : (t : CType) × Native t) ::
            (releaseWhere flags xs ( GlobalDeinitialize x.1 x.2 w).2).1,
          (releaseWhere flags xs ( GlobalDeinitialize x.1 x.2 w).2).2)
      else (x :: (releaseWhere flags xs w).1, (releaseWhere flags xs w).2)
  | _, xs, w => (xs, w)

mutual
/-- The number of allocations that the conversion of a generic value into a
zero-initialised destination of the type requests when none of them fails:
one for a string, one for a binary blob, none for the other primitive types,
and for a struct those of its fields, in declared order. -/
def allocationRequests : CType → Nat
  | .double => 0
  | .float => 0
  | .int => 0
  | .long => 0
  | .int8_t => 0
  | .uint8_t => 0
  | .int16_t => 0
  | .int32_t => 0
  | .int64_t => 0
  | .bool => 0
  | .ascii_char_ptr => 1
  | .ascii_char_ptr_no_quotes => 1
  | .EDM_DATE_TIME_OFFSET => 0
  | .EDM_GUID => 0
  | .EDM_BINARY => 1
  | .struct _ fs => allocationRequestsFields fs
/-- The allocations requested for the fields of a struct. -/
def allocationRequestsFields : CFields → Nat
  | .nil => 0
  | .cons t _ rest => allocationRequests t + allocationRequestsFields rest
end

/-- The next `n` allocation requests succeed. -/
def nextAllocationsSucceed (n : Nat) (w : World) : Prop := ∀ b ∈ w.oracle.take n, b = true

/-! ## Concrete inputs -/

/-- A platform with a 64-bit `long`. -/
def examplePlatform : Platform := { LONG_BIT := 64, sizeof_EDM_DATE_TIME_OFFSET := 40 }

/-- A state with nothing allocated, in which every allocation succeeds. -/
def emptyWorld : World := { blocks := [], oracle := [], freed := [], trace := [] }

/-- The parameters of the action `SetPrice(ascii_char_ptr itemId,
ascii_char_ptr price)` of the spec. -/
def SetPrice_params : CFields :=
  .cons .ascii_char_ptr "itemId" (.cons .ascii_char_ptr "price" .nil)

/-- An implementation of `SetPrice` that returns the given status and leaves
the heap as it is. -/
def SetPrice (status : EXECUTE_COMMAND_RESULT) :
    Nat → NativeFields SetPrice_params → Heap → EXECUTE_COMMAND_RESULT × Heap :=
  fun _ _ h => (status, h)

/-- A method with the parameters of `SetPrice` that returns the handle 1. -/
def SetPriceMethod : Nat → NativeFields SetPrice_params → Heap → Nat × Heap :=
  fun _ _ h => (1, h)

/-- The positional arguments "widget-7" and "19.99". -/
def SetPrice_values : List AGENT_DATA_TYPE := [.edmString "widget-7", .edmString "19.99"]

/-- The struct `S` with the fields `int a; ascii_char_ptr b`. -/
def exampleStruct : CType := .struct "S" (.cons .int "a" (.cons .ascii_char_ptr "b" .nil))

/-- A value of `exampleStruct`: `a = 5`, and `b` points to the first block. -/
def exampleValue : Native exampleStruct := ((5 : Int), ((1 : Nat), ()))

/-- A state whose first block holds the string "widget-7" and in which the
next allocation requests have the given outcomes. -/
def widgetWorld (oracle : List Bool) : World :=
  { blocks := [.chars "widget-7"], oracle := oracle, freed := [], trace := [] }

/-- A state whose first block holds the bytes 7, 8, 9 and in which the next
allocation request fails. -/
def blobWorld : World :=
  { blocks := [.bytes [7, 8, 9]], oracle := [false], freed := [], trace := [] }

/-- The model `Thermostat`: a property, an action, a desired property with a
change callback, a desired property without one, a method and a reported
property. -/
def exampleModel : List ModelElement :=
  [WITH_DATA .int "temperature",
   WITH_ACTION "SetPrice" SetPrice_params,
   WITH_DESIRED_PROPERTY .int "target" (some "onTarget"),
   WITH_DESIRED_PROPERTY .double "limit" none,
   WITH_METHOD "Reboot" .nil,
   WITH_REPORTED_PROPERTY .ascii_char_ptr "firmware"]

/-- A namespace that declares the struct `S` with the fields `A`, `B`, `C`
and the model `Thermostat`. -/
def exampleNamespace : List Declaration :=
  [.struct "S" (.cons .int "A" (.cons .int "B" (.cons .int "C" .nil))),
   .model "Thermostat" exampleModel]

/-- A namespace that declares only the struct `S` with the fields `A`, `B`,
`C`. -/
def abcNamespace : List Declaration :=
  [.struct "S" (.cons .int "A" (.cons .int "B" (.cons .int "C" .nil)))]

/-- A value of `exampleStruct` inside a struct with a binary blob: fields that
hold something. -/
def nestedStruct : CType :=
  .struct "T" (.cons exampleStruct "s" (.cons .EDM_BINARY "blob" (.cons .bool "flag" .nil)))

/-- A value of `nestedStruct` none of whose fields is zero. -/
def nestedValue : Native nestedStruct :=
  (exampleValue, (({ size := 3, data := 2 } : LokiSDK.EDM_BINARY), (true, ())))

/-- The fields of the struct `V { int a; int b; int c; }`. -/
def threeInts : CFields := .cons .int "a" (.cons .int "b" (.cons .int "c" .nil))

/-- A model with only actions and methods. -/
def actionsOnly : List ModelElement :=
  [WITH_ACTION "SetPrice" SetPrice_params, WITH_METHOD "Reboot" .nil]

/-- A platform with a 32-bit `long`. -/
def platform32 : Platform := { LONG_BIT := 32, sizeof_EDM_DATE_TIME_OFFSET := 40 }

/-- The parameter list of an action with one parameter `s` of the struct type
`L { ascii_char_ptr b; int a; }`. -/
def structParameter : CFields :=
  .cons (.struct "L" (.cons .ascii_char_ptr "b" (.cons .int "a" .nil))) "s" .nil

/-! ## Lemmas: the heap -/

theorem blockAt_append {blocks : List Block} {p : Nat} {b : Block} (extra : List Block)
    (h : blockAt blocks p = some b) : blockAt (blocks ++ extra) p = some b := by
  unfold blockAt at *
  split at h
  · simp at h
  · rename_i hp
    simp only [hp, if_false]
    rw [List.get?_eq_getElem?] at *
    exact List.getElem?_append_left (by
      have := List.getElem?_eq_some_iff.mp h
      obtain ⟨hlt, _⟩ := this
      exact hlt) ▸ h

theorem stringAt_append {blocks : List Block} {p : Nat} {s : String} (extra : List Block)
    (h : stringAt blocks p = some s) : stringAt (blocks ++ extra) p = some s := by
  unfold stringAt at *
  split at h
  · rename_i s' hb
    rw [blockAt_append extra hb]
    simpa using h
  · simp at h

theorem binaryAt_append {blocks : List Block} {v : EDM_BINARY} {b : List Nat} (extra : List Block)
    (h : binaryAt blocks v = some b) : binaryAt (blocks ++ extra) v = some b := by
  unfold binaryAt at *
  split
  · rename_i h0; simpa [h0] using h
  · rename_i h0
    simp only [h0, if_false] at h
    unfold bytesAt at *
    split at h
    · rename_i bs hb
      rw [blockAt_append extra hb]
      simpa using h
    · simp at h

mutual
theorem SameValue_append : ∀ (t : CType) (b1 : List Block) (v1 : Native t) (b2 : List Block)
    (v2 : Native t) (extra : List Block),
    SameValue t b1 v1 b2 v2 → SameValue t (b1 ++ extra) v1 b2 v2
  | .double, _, _, _, _, _, h => by simpa [SameValue] using h
  | .float, _, _, _, _, _, h => by simpa [SameValue] using h
  | .int, _, _, _, _, _, h => by simpa [SameValue] using h
  | .long, _, _, _, _, _, h => by simpa [SameValue] using h
  | .int8_t, _, _, _, _, _, h => by simpa [SameValue] using h
  | .uint8_t, _, _, _, _, _, h => by simpa [SameValue] using h
  | .int16_t, _, _, _, _, _, h => by simpa [SameValue] using h
  | .int32_t, _, _, _, _, _, h => by simpa [SameValue] using h
  | .int64_t, _, _, _, _, _, h => by simpa [SameValue] using h
  | .bool, _, _, _, _, _, h => by simpa [SameValue] using h
  | .ascii_char_ptr, _, _, _, _, extra, h => by
      simp only [SameValue] at h ⊢
      obtain ⟨s, h1, h2⟩ := h
      exact ⟨s, stringAt_append extra h1, h2⟩
  | .ascii_char_ptr_no_quotes, _, _, _, _, extra, h => by
      simp only [SameValue] at h ⊢
      obtain ⟨s, h1, h2⟩ := h
      exact ⟨s, stringAt_append extra h1, h2⟩
  | .EDM_DATE_TIME_OFFSET, _, _, _, _, _, h => by simpa [SameValue] using h
  | .EDM_GUID, _, _, _, _, _, h => by simpa [SameValue] using h
  | .EDM_BINARY, _, _, _, _, extra, h => by
      simp only [SameValue] at h ⊢
      obtain ⟨hs, b, h1, h2⟩ := h
      exact ⟨hs, b, binaryAt_append extra h1, h2⟩
  | .struct _ fs, b1, v1, b2, v2, extra, h => by
      simp only [SameValue] at h ⊢
      exact SameFields_append fs b1 v1 b2 v2 extra h
theorem SameFields_append : ∀ (fs : CFields) (b1 : List Block) (v1 : NativeFields fs)
    (b2 : List Block) (v2 : NativeFields fs) (extra : List Block),
    SameFields fs b1 v1 b2 v2 → SameFields fs (b1 ++ extra) v1 b2 v2
  | .nil, _, _, _, _, _, _ => by simp [SameFields]
  | .cons t _ rest, b1, (v1, vs1), b2, (v2, vs2), extra, h => by
      simp only [SameFields] at h ⊢
      exact ⟨SameValue_append t b1 v1 b2 v2 extra h.1, SameFields_append rest b1 vs1 b2 vs2 extra h.2⟩
end

theorem wrapSigned_of_inRange {w : Nat} {v : Int} (hw : 1 ≤ w)
    (h1 : -(2 : Int) ^ (w - 1) ≤ v) (h2 : v < (2 : Int) ^ (w - 1)) : wrapSigned w v = v := by
  unfold wrapSigned
  have hpow : (2 : Int) ^ w = 2 * 2 ^ (w - 1) := by
    obtain ⟨k, rfl⟩ : ∃ k, w = k + 1 := ⟨w - 1, by omega⟩
    simp [pow_succ, mul_comm]
  rw [hpow, Int.emod_eq_of_lt (by omega) (by omega)]
  omega

theorem request_of_ok {w : World} (h : allocationsSucceed w) :
    w.request.1 = true ∧ w.request.2.blocks = w.blocks ∧ allocationsSucceed w.request.2 := by
  unfold World.request
  rcases hw : w.oracle with _ | ⟨b, rest⟩
  · exact ⟨rfl, rfl, h⟩
  · have hb : b = true := h b (by simp [hw])
    refine ⟨hb, rfl, ?_⟩
    intro c hc
    exact h c (by simp [hw]; right; exact hc)

theorem malloc_of_ok {w : World} (h : allocationsSucceed w) (c : Block) :
    (w.malloc c).1 = w.blocks.length + 1 ∧ (w.malloc c).2.blocks = w.blocks ++ [c] ∧
      allocationsSucceed (w.malloc c).2 := by
  obtain ⟨h1, h2, h3⟩ := request_of_ok h
  unfold World.malloc
  rcases hr : w.request with ⟨b, w1⟩
  rw [hr] at h1 h2 h3
  simp only at h1 h2 h3
  subst h1
  simp only [h2]
  exact ⟨trivial, trivial, h3⟩

theorem blockAt_last (blocks : List Block) (c : Block) :
    blockAt (blocks ++ [c]) (blocks.length + 1) = some c := by
  simp [blockAt]

theorem mallocAndStrcpy_s_of_ok {w : World} (h : allocationsSucceed w) (d : Nat) (s : String) :
    mallocAndStrcpy_s d s w = (0, w.blocks.length + 1, (w.malloc (.chars s)).2) := by
  obtain ⟨h1, -, -⟩ := malloc_of_ok h (.chars s)
  unfold mallocAndStrcpy_s
  rcases hm : w.malloc (.chars s) with ⟨p, w1⟩
  rw [hm] at h1
  simp only at h1
  subst h1
  rfl

theorem From_ascii_char_ptr_zero {w : World} (h : allocationsSucceed w) (s : String) :
    FromAGENT_DATA_TYPE_ascii_char_ptr (.edmString s) 0 w =
      (AGENT_DATA_TYPES_OK, w.blocks.length + 1, (w.malloc (.chars s)).2) := by
  simp [FromAGENT_DATA_TYPE_ascii_char_ptr, mallocAndStrcpy_s_of_ok h]

theorem From_ascii_char_ptr_no_quotes_zero {w : World} (h : allocationsSucceed w) (s : String) :
    FromAGENT_DATA_TYPE_ascii_char_ptr_no_quotes (.edmStringNoQuotes s) 0 w =
      (AGENT_DATA_TYPES_OK, w.blocks.length + 1, (w.malloc (.chars s)).2) := by
  simp [FromAGENT_DATA_TYPE_ascii_char_ptr_no_quotes, mallocAndStrcpy_s_of_ok h]

theorem From_EDM_BINARY_ok {w : World} (h : allocationsSucceed w) (b : List Nat) (d : EDM_BINARY) :
    FromAGENT_DATA_TYPE_EDM_BINARY (.edmBinary b) d w =
      (AGENT_DATA_TYPES_OK, { size := b.length, data := w.blocks.length + 1 },
        (w.malloc (.bytes b)).2) := by
  obtain ⟨h1, -, -⟩ := malloc_of_ok h (.bytes b)
  rcases hm : w.malloc (.bytes b) with ⟨p, w1⟩
  rw [hm] at h1
  simp only at h1
  subst h1
  simp [FromAGENT_DATA_TYPE_EDM_BINARY, hm]

theorem binaryAt_length {blocks : List Block} {v : EDM_BINARY} {b : List Nat}
    (h : binaryAt blocks v = some b) : b.length = v.size := by
  unfold binaryAt at h
  split at h
  · split at h
    · rename_i h0; simp at h; subst h; simp [h0]
    · simp at h
  · unfold bytesAt at h
    split at h
    · split at h
      · rename_i hle; simp at h; subst h; simp [hle]
      · simp at h
    · simp at h

theorem stringAt_last (blocks : List Block) (s : String) :
    stringAt (blocks ++ [.chars s]) (blocks.length + 1) = some s := by
  simp [stringAt, blockAt_last]

theorem binaryAt_last (blocks : List Block) (b : List Nat) :
    binaryAt (blocks ++ [.bytes b]) { size := b.length, data := blocks.length + 1 } = some b := by
  simp [binaryAt, bytesAt, blockAt_last]

theorem find?_of_mem_nodup_keys {fields : List (String × AGENT_DATA_TYPE)}
    (hnd : (fields.map Prod.fst).Nodup) {n : String} {g : AGENT_DATA_TYPE}
    (hmem : (n, g) ∈ fields) : fields.find? (fun m => m.1 == n) = some (n, g) := by
  induction fields with
  | nil => simp at hmem
  | cons x rest ih =>
    simp only [List.map_cons, List.nodup_cons] at hnd
    rcases List.mem_cons.mp hmem with h | h
    · subst h; simp [List.find?]
    · have hne : x.1 ≠ n := by
        intro heq
        apply hnd.1
        rw [heq]
        exact List.mem_map.mpr ⟨(n, g), h, rfl⟩
      rw [List.find?_cons]
      have : (x.1 == n) = false := by simpa using hne
      rw [this]
      exact ih hnd.2 h

theorem CFields_length_names (fs : CFields) : fs.names.length = fs.length := by
  induction fs using CFields.rec (motive_1 := fun _ => True) with
  | nil => rfl
  | cons t n rest _ ih => simp [CFields.names, CFields.length, ih]
  | _ => trivial

theorem contentFields_length : ∀ (fs : CFields) (b : List Block) (vs : NativeFields fs)
    (gs : List AGENT_DATA_TYPE), contentFields fs b vs = some gs → gs.length = fs.length
  | .nil, _, _, gs, h => by simp [contentFields] at h; subst h; rfl
  | .cons t _ rest, b, (v, vs), gs, h => by
      simp only [contentFields] at h
      split at h
      · rename_i g gs' hg hgs
        simp at h; subst h
        simp [CFields.length, contentFields_length rest b vs gs' hgs]
      · simp at h

theorem lookup_of_mem {fields : List (String × AGENT_DATA_TYPE)}
    (hnd : (fields.map Prod.fst).Nodup) :
    ∀ (fs : CFields) (gs : List AGENT_DATA_TYPE), gs.length = fs.length →
      (∀ x ∈ fs.names.zip gs, x ∈ fields) → Lookup (.edmComplexType fields) fs gs
  | .nil, [], _, _ => by simp [Lookup]
  | .nil, _ :: _, h, _ => by simp [CFields.length] at h
  | .cons _ _ _, [], h, _ => by simp [CFields.length] at h
  | .cons t n rest, g :: gs, h, hm => by
      simp only [Lookup]
      constructor
      · simp only [findMember, AGENT_DATA_TYPE.fields]
        exact find?_of_mem_nodup_keys hnd (hm (n, g) (by simp [CFields.names]))
      · apply lookup_of_mem hnd rest gs (by simpa [CFields.length] using h)
        intro x hx
        exact hm x (by simp [CFields.names]; right; exact hx)

theorem allocationsSucceed_log {w : World} (e : Event) (h : allocationsSucceed w) :
    allocationsSucceed (w.log e) := h

mutual
theorem From_zero (P : Platform) : ∀ (t : CType) (b : List Block) (s : Native t)
    (g : AGENT_DATA_TYPE), content t b s = some g → InRange P t s → WellDeclared t →
    ∀ (path : List Nat) (garbage : Native t) (w2 : World), allocationsSucceed w2 →
      (FromAGENT_DATA_TYPE P t g path (GlobalInitialize P t garbage) w2).1 = AGENT_DATA_TYPES_OK ∧
      SameValue t (FromAGENT_DATA_TYPE P t g path (GlobalInitialize P t garbage) w2).2.2.blocks
        (FromAGENT_DATA_TYPE P t g path (GlobalInitialize P t garbage) w2).2.1 b s ∧
      allocationsSucceed (FromAGENT_DATA_TYPE P t g path (GlobalInitialize P t garbage) w2).2.2 ∧
      ∃ extra, (FromAGENT_DATA_TYPE P t g path (GlobalInitialize P t garbage) w2).2.2.blocks =
        w2.blocks ++ extra
  | .double, _, _, _, hc, _, _, _, _, _, hw => by
      simp only [content, Option.some.injEq] at hc; subst hc
      exact ⟨rfl, rfl, hw, [], by simp [FromAGENT_DATA_TYPE]⟩
  | .float, _, _, _, hc, _, _, _, _, _, hw => by
      simp only [content, Option.some.injEq] at hc; subst hc
      exact ⟨rfl, rfl, hw, [], by simp [FromAGENT_DATA_TYPE]⟩
  | .int, _, _, _, hc, _, _, _, _, _, hw => by
      simp only [content, Option.some.injEq] at hc; subst hc
      exact ⟨rfl, rfl, hw, [], by simp [FromAGENT_DATA_TYPE]⟩
  | .long, _, s, _, hc, hr, _, _, _, _, hw => by
      simp only [content, Option.some.injEq] at hc; subst hc
      simp only [InRange] at hr
      refine ⟨rfl, ?_, hw, [], by simp [FromAGENT_DATA_TYPE]⟩
      simp only [SameValue, FromAGENT_DATA_TYPE, FromAGENT_DATA_TYPE_long]
      obtain ⟨h1, h2, h3, h4⟩ := hr
      have hpow : (2 : Int) ^ (P.LONG_BIT - 1) ≤ 2 ^ (64 - 1) :=
        pow_le_pow_right₀ (by norm_num) (by omega)
      have e64 : wrapSigned 64 s = s :=
        wrapSigned_of_inRange (by norm_num) (by omega) (by omega)
      rw [e64]
      exact wrapSigned_of_inRange h1 h3 h4
  | .int8_t, _, _, _, hc, _, _, _, _, _, hw => by
      simp only [content, Option.some.injEq] at hc; subst hc
      exact ⟨rfl, rfl, hw, [], by simp [FromAGENT_DATA_TYPE]⟩
  | .uint8_t, _, _, _, hc, _, _, _, _, _, hw => by
      simp only [content, Option.some.injEq] at hc; subst hc
      exact ⟨rfl, rfl, hw, [], by simp [FromAGENT_DATA_TYPE]⟩
  | .int16_t, _, _, _, hc, _, _, _, _, _, hw => by
      simp only [content, Option.some.injEq] at hc; subst hc
      exact ⟨rfl, rfl, hw, [], by simp [FromAGENT_DATA_TYPE]⟩
  | .int32_t, _, _, _, hc, _, _, _, _, _, hw => by
      simp only [content, Option.some.injEq] at hc; subst hc
      exact ⟨rfl, rfl, hw, [], by simp [FromAGENT_DATA_TYPE]⟩
  | .int64_t, _, _, _, hc, _, _, _, _, _, hw => by
      simp only [content, Option.some.injEq] at hc; subst hc
      exact ⟨rfl, rfl, hw, [], by simp [FromAGENT_DATA_TYPE]⟩
  | .bool, _, s, _, hc, _, _, _, _, _, hw => by
      simp only [content, Option.some.injEq] at hc; subst hc
      refine ⟨rfl, ?_, hw, [], by simp [FromAGENT_DATA_TYPE]⟩
      simp only [SameValue, FromAGENT_DATA_TYPE, FromAGENT_DATA_TYPE_bool]
      cases s <;> simp
  | .ascii_char_ptr, b, s, _, hc, _, _, _, _, w2, hw => by
      simp only [content, Option.map_eq_some'] at hc
      obtain ⟨str, hstr, rfl⟩ := hc
      obtain ⟨-, h2, h3⟩ := malloc_of_ok hw (.chars str)
      simp only [FromAGENT_DATA_TYPE, GlobalInitialize, GlobalInitialize_ascii_char_ptr,
        From_ascii_char_ptr_zero hw, SameValue, h2]
      exact ⟨trivial, ⟨str, stringAt_last _ _, hstr⟩, h3, [.chars str], rfl⟩
  | .ascii_char_ptr_no_quotes, b, s, _, hc, _, _, _, _, w2, hw => by
      simp only [content, Option.map_eq_some'] at hc
      obtain ⟨str, hstr, rfl⟩ := hc
      obtain ⟨-, h2, h3⟩ := malloc_of_ok hw (.chars str)
      simp only [FromAGENT_DATA_TYPE, GlobalInitialize, GlobalInitialize_ascii_char_ptr_no_quotes,
        From_ascii_char_ptr_no_quotes_zero hw, SameValue, h2]
      exact ⟨trivial, ⟨str, stringAt_last _ _, hstr⟩, h3, [.chars str], rfl⟩
  | .EDM_DATE_TIME_OFFSET, _, _, _, hc, _, _, _, _, _, hw => by
      simp only [content, Option.some.injEq] at hc; subst hc
      exact ⟨rfl, rfl, hw, [], by simp [FromAGENT_DATA_TYPE]⟩
  | .EDM_GUID, _, _, _, hc, _, _, _, _, _, hw => by
      simp only [content, Option.some.injEq] at hc; subst hc
      exact ⟨rfl, rfl, hw, [], by simp [FromAGENT_DATA_TYPE]⟩
  | .EDM_BINARY, b, s, _, hc, _, _, _, _, w2, hw => by
      simp only [content, Option.map_eq_some'] at hc
      obtain ⟨bs, hbs, rfl⟩ := hc
      obtain ⟨-, h2, h3⟩ := malloc_of_ok hw (.bytes bs)
      simp only [FromAGENT_DATA_TYPE, From_EDM_BINARY_ok hw, SameValue, h2]
      exact ⟨trivial, ⟨binaryAt_length hbs, bs, binaryAt_last _ _, hbs⟩, h3, [.bytes bs], rfl⟩
  | .struct name fs, b, s, g, hc, hr, hd, path, garbage, w2, hw => by
      simp only [content] at hc
      split at hc
      · rename_i gs hgs
        split at hc
        · simp at hc
        · rename_i hlen
          simp only [Option.some.injEq] at hc; subst hc
          have hl := contentFields_length fs b s gs hgs
          simp only [WellDeclared] at hd
          simp only [InRange] at hr
          have hkeys : ((fs.names.zip gs).map Prod.fst) = fs.names := by
            apply List.map_fst_zip
            rw [CFields_length_names, hl]
          have hlook : Lookup (.edmComplexType (fs.names.zip gs)) fs gs :=
            lookup_of_mem (by rw [hkeys]; exact hd.1) fs gs hl (fun x hx => hx)
          have hcount : MU_DIV2 (MU_COUNT_ARG fs) =
              (AGENT_DATA_TYPE.edmComplexType (fs.names.zip gs)).nMembers := by
            simp [MU_DIV2, MU_COUNT_ARG, AGENT_DATA_TYPE.nMembers, AGENT_DATA_TYPE.fields,
              CFields_length_names, hl]
          simp only [FromAGENT_DATA_TYPE, GlobalInitialize, AGENT_DATA_TYPE.type, ne_eq,
            not_true_eq_false, if_false, hcount, SameValue]
          exact From_zero_fields P fs b s gs hgs hr hd.2 _ hlook path 0 garbage w2 hw
      · simp at hc
theorem From_zero_fields (P : Platform) : ∀ (fs : CFields) (b : List Block) (vs : NativeFields fs)
    (gs : List AGENT_DATA_TYPE), contentFields fs b vs = some gs → InRangeFields P fs vs →
    WellDeclaredFields fs → ∀ (source : AGENT_DATA_TYPE), Lookup source fs gs →
    ∀ (path : List Nat) (j : Nat) (garbage : NativeFields fs) (w2 : World), allocationsSucceed w2 →
      (BUILD_DESTINATION_FIELD P fs source path j AGENT_DATA_TYPES_OK
        (GLOBAL_INITIALIZE_STRUCT_FIELD P fs garbage) w2).1 = AGENT_DATA_TYPES_OK ∧
      SameFields fs (BUILD_DESTINATION_FIELD P fs source path j AGENT_DATA_TYPES_OK
          (GLOBAL_INITIALIZE_STRUCT_FIELD P fs garbage) w2).2.2.blocks
        (BUILD_DESTINATION_FIELD P fs source path j AGENT_DATA_TYPES_OK
          (GLOBAL_INITIALIZE_STRUCT_FIELD P fs garbage) w2).2.1 b vs ∧
      allocationsSucceed (BUILD_DESTINATION_FIELD P fs source path j AGENT_DATA_TYPES_OK
        (GLOBAL_INITIALIZE_STRUCT_FIELD P fs garbage) w2).2.2 ∧
      ∃ extra, (BUILD_DESTINATION_FIELD P fs source path j AGENT_DATA_TYPES_OK
        (GLOBAL_INITIALIZE_STRUCT_FIELD P fs garbage) w2).2.2.blocks = w2.blocks ++ extra
  | .nil, _, _, _, _, _, _, _, _, _, _, _, w2, hw => by
      simp only [BUILD_DESTINATION_FIELD, SameFields]
      exact ⟨trivial, trivial, hw, [], by simp⟩
  | .cons t n rest, b, (v, vs), gs, hc, hr, hd, source, hl, path, j, (g0, gs0), w2, hw => by
      simp only [contentFields] at hc
      split at hc
      · rename_i g gs' hg hgs
        simp only [Option.some.injEq] at hc; subst hc
        simp only [Lookup] at hl
        simp only [InRangeFields] at hr
        simp only [WellDeclaredFields] at hd
        obtain ⟨h1, h2, h3, extra1, h4⟩ := From_zero P t b v g hg hr.1 hd.1 (path ++ [j]) g0
          (w2.log (.FromAGENT_DATA_TYPE (path ++ [j]))) (allocationsSucceed_log _ hw)
        obtain ⟨k1, k2, k3, extra2, k4⟩ := From_zero_fields P rest b vs gs' hgs hr.2 hd.2 source
          hl.2 path (j + 1) gs0
          (FromAGENT_DATA_TYPE P t g (path ++ [j]) (GlobalInitialize P t g0)
            (w2.log (.FromAGENT_DATA_TYPE (path ++ [j])))).2.2 h3
        simp only [BUILD_DESTINATION_FIELD, GLOBAL_INITIALIZE_STRUCT_FIELD, hl.1, h1,
          if_true, decide_True, SameFields]
        refine ⟨k1, ⟨?_, k2⟩, k3, extra1 ++ extra2, ?_⟩
        · rw [k4]
          exact SameValue_append t _ _ _ _ extra2 h2
        · rw [k4, h4]
          simp [World.log]
      · simp at hc
end

/-! ## Lemmas: conversion to generic values -/

theorem allPresent_map_some {α : Type} (xs : List α) : allPresent (xs.map some) = some xs := by
  induction xs with
  | nil => rfl
  | cons x xs ih => simp [allPresent, ih]

theorem writeFrom_split {α : Type} : ∀ (xs : List α) (pre mid post : List (Option α)),
    mid.length = xs.length →
    writeFrom (pre ++ mid ++ post) pre.length xs = pre ++ xs.map some ++ post
  | [], pre, mid, post, h => by
      have : mid = [] := List.length_eq_zero.mp (by simpa using h)
      subst this; simp [writeFrom]
  | x :: xs, pre, mid, post, h => by
      cases mid with
      | nil => simp at h
      | cons m mid =>
        have hset : (pre ++ m :: mid ++ post).set pre.length (some x) =
            (pre ++ [some x]) ++ mid ++ post := by
          rw [List.append_assoc, List.set_append_right _ _ (Nat.le_refl _)]
          simp
        have hlen : pre.length + 1 = (pre ++ [some x]).length := by simp
        rw [writeFrom, hset, hlen, writeFrom_split xs (pre ++ [some x]) mid post
          (by simpa using h)]
        simp

theorem writeFrom_replicate {α : Type} (xs : List α) :
    writeFrom (List.replicate xs.length none) 0 xs = xs.map some := by
  have := writeFrom_split xs [] (List.replicate xs.length none) [] (by simp)
  simpa using this

theorem FIELD_AS_STRING_eq : ∀ (fs : CFields) (i : Nat) (m : List (Option String)),
    FIELD_AS_STRING fs i m = writeFrom m i fs.names
  | .nil, _, _ => rfl
  | .cons _ n rest, i, m => by
      simp only [FIELD_AS_STRING, CFields.names, writeFrom]
      exact FIELD_AS_STRING_eq rest (i + 1) _

theorem request_blocks (w : World) : w.request.2.blocks = w.blocks := by
  unfold World.request
  split <;> rfl

theorem destroyMembers_blocks : ∀ (n : Nat) (w : World) (j : Nat),
    (destroyMembers w j n).blocks = w.blocks
  | 0, _, _ => rfl
  | n + 1, w, j => by
      rw [destroyMembers, destroyMembers_blocks n]
      rfl

theorem Create_from_charz_spec (v : Nat) (w : World) :
    (Create_AGENT_DATA_TYPE_from_charz v w).2.2.blocks = w.blocks ∧
    ((Create_AGENT_DATA_TYPE_from_charz v w).1 = AGENT_DATA_TYPES_OK →
      ∃ s, stringAt w.blocks v = some s ∧
        (Create_AGENT_DATA_TYPE_from_charz v w).2.1 = some (.edmString s)) := by
  unfold Create_AGENT_DATA_TYPE_from_charz World.string
  split
  · simp
  · rename_i s hs
    have hb := request_blocks w
    rcases hr : w.request with ⟨b, w1⟩
    rw [hr] at hb
    cases b <;> simp [hs] <;> exact hb

theorem Create_from_charz_no_quotes_spec (v : Nat) (w : World) :
    (Create_AGENT_DATA_TYPE_from_charz_no_quotes v w).2.2.blocks = w.blocks ∧
    ((Create_AGENT_DATA_TYPE_from_charz_no_quotes v w).1 = AGENT_DATA_TYPES_OK →
      ∃ s, stringAt w.blocks v = some s ∧
        (Create_AGENT_DATA_TYPE_from_charz_no_quotes v w).2.1 = some (.edmStringNoQuotes s)) := by
  unfold Create_AGENT_DATA_TYPE_from_charz_no_quotes World.string
  split
  · simp
  · rename_i s hs
    have hb := request_blocks w
    rcases hr : w.request with ⟨b, w1⟩
    rw [hr] at hb
    cases b <;> simp [hs] <;> exact hb

theorem Create_from_EDM_BINARY_spec (v : EDM_BINARY) (w : World) :
    (Create_AGENT_DATA_TYPE_from_EDM_BINARY v w).2.2.blocks = w.blocks ∧
    ((Create_AGENT_DATA_TYPE_from_EDM_BINARY v w).1 = AGENT_DATA_TYPES_OK →
      ∃ b, binaryAt w.blocks v = some b ∧
        (Create_AGENT_DATA_TYPE_from_EDM_BINARY v w).2.1 = some (.edmBinary b)) := by
  unfold Create_AGENT_DATA_TYPE_from_EDM_BINARY World.binary
  split
  · simp
  · rename_i bs hs
    split
    · simp [hs]
    · have hb := request_blocks w
      rcases hr : w.request with ⟨b, w1⟩
      rw [hr] at hb
      cases b <;> simp [hs] <;> exact hb

theorem Create_from_Members_blocks (name : String) (n : Nat) (ns : List (Option String))
    (vs : List (Option AGENT_DATA_TYPE)) (w : World) :
    (Create_AGENT_DATA_TYPE_from_Members name n ns vs w).2.2.blocks = w.blocks := by
  unfold Create_AGENT_DATA_TYPE_from_Members
  simp only
  split
  · rfl
  · split
    · have hb := request_blocks w
      rcases hr : w.request with ⟨b, w1⟩
      rw [hr] at hb
      cases b <;> exact hb
    · rfl

theorem CREATE_error : ∀ (fs : CFields) (path : List Nat) (j : Nat) (vs : NativeFields fs)
    (i : Nat) (m : List (Option AGENT_DATA_TYPE)) (w : World),
    CREATE_AGENT_DATA_TYPE fs path j vs AGENT_DATA_TYPES_ERROR i m w =
      (AGENT_DATA_TYPES_ERROR, i, m, w)
  | .nil, _, _, _, _, _, _ => by simp [CREATE_AGENT_DATA_TYPE]
  | .cons _ _ rest, path, j, (_, vs), i, m, w => by
      simp [CREATE_AGENT_DATA_TYPE, CREATE_error rest path (j + 1) vs i m w]

mutual
theorem To_blocks : ∀ (t : CType) (path : List Nat) (s : Native t) (w : World),
    (ToAGENT_DATA_TYPE t path s w).2.2.blocks = w.blocks
  | .double, _, _, _ => rfl
  | .float, _, _, _ => rfl
  | .int, _, _, _ => rfl
  | .long, _, _, _ => rfl
  | .int8_t, _, _, _ => rfl
  | .uint8_t, _, _, _ => rfl
  | .int16_t, _, _, _ => rfl
  | .int32_t, _, _, _ => rfl
  | .int64_t, _, _, _ => rfl
  | .bool, _, _, _ => rfl
  | .ascii_char_ptr, _, s, w => (Create_from_charz_spec s w).1
  | .ascii_char_ptr_no_quotes, _, s, w => (Create_from_charz_no_quotes_spec s w).1
  | .EDM_DATE_TIME_OFFSET, _, _, _ => rfl
  | .EDM_GUID, _, _, _ => rfl
  | .EDM_BINARY, _, s, w => (Create_from_EDM_BINARY_spec s w).1
  | .struct name fs, path, s, w => by
      simp only [ToAGENT_DATA_TYPE]
      split
      · rfl
      · split
        · simp only [destroyMembers_blocks, Create_from_Members_blocks]
          exact CREATE_blocks fs path 0 s _ 0 _ w
        · simp only [destroyMembers_blocks]
          exact CREATE_blocks fs path 0 s _ 0 _ w
theorem CREATE_blocks : ∀ (fs : CFields) (path : List Nat) (j : Nat) (vs : NativeFields fs)
    (result : AGENT_DATA_TYPES_RESULT) (i : Nat) (m : List (Option AGENT_DATA_TYPE)) (w : World),
    (CREATE_AGENT_DATA_TYPE fs path j vs result i m w).2.2.2.blocks = w.blocks
  | .nil, _, _, _, _, _, _, _ => rfl
  | .cons t _ rest, path, j, (v, vs), result, i, m, w => by
      simp only [CREATE_AGENT_DATA_TYPE]
      split
      · rw [CREATE_blocks rest, To_blocks t]
        rfl
      · rw [CREATE_blocks rest]
end

theorem MU_IF_ne_zero (n : Nat) : MU_IF n n 1 ≠ 0 := by
  unfold MU_IF; split <;> simp_all

theorem Create_from_Members_ok {name : String} {n : Nat} {ns : List (Option String)}
    {vs : List (Option AGENT_DATA_TYPE)} {w : World}
    (h : (Create_AGENT_DATA_TYPE_from_Members name n ns vs w).1 = AGENT_DATA_TYPES_OK) :
    ∃ names values, allPresent (ns.take n) = some names ∧ allPresent (vs.take n) = some values ∧
      (Create_AGENT_DATA_TYPE_from_Members name n ns vs w).2.1 =
        some (.edmComplexType (names.zip values)) := by
  unfold Create_AGENT_DATA_TYPE_from_Members at h ⊢
  by_cases hcond : n = 0 ∨ ns.length < n ∨ vs.length < n
  · simp [hcond] at h
  · simp only [hcond, if_false] at h ⊢
    rcases hn : allPresent (ns.take n) with _ | names
    · simp [hn] at h
    · rcases hv : allPresent (vs.take n) with _ | values
      · simp [hn, hv] at h
      · refine ⟨names, values, rfl, rfl, ?_⟩
        rw [hn, hv] at h
        rcases hr : w.request with ⟨b, w1⟩
        rw [hr] at h
        cases b
        · simp at h
        · simp

mutual
theorem To_content : ∀ (t : CType) (path : List Nat) (s : Native t) (w : World),
    (ToAGENT_DATA_TYPE t path s w).1 = AGENT_DATA_TYPES_OK →
    ∃ g, (ToAGENT_DATA_TYPE t path s w).2.1 = some g ∧ content t w.blocks s = some g
  | .double, _, _, _, _ => ⟨_, rfl, rfl⟩
  | .float, _, _, _, _ => ⟨_, rfl, rfl⟩
  | .int, _, _, _, _ => ⟨_, rfl, rfl⟩
  | .long, _, _, _, _ => ⟨_, rfl, rfl⟩
  | .int8_t, _, _, _, _ => ⟨_, rfl, rfl⟩
  | .uint8_t, _, _, _, _ => ⟨_, rfl, rfl⟩
  | .int16_t, _, _, _, _ => ⟨_, rfl, rfl⟩
  | .int32_t, _, _, _, _ => ⟨_, rfl, rfl⟩
  | .int64_t, _, _, _, _ => ⟨_, rfl, rfl⟩
  | .bool, _, s, _, _ => by
      refine ⟨_, rfl, ?_⟩
      simp only [content, ToAGENT_DATA_TYPE, ToAGENT_DATA_TYPE_bool, Create_EDM_BOOLEAN_from_int]
      cases s <;> simp
  | .ascii_char_ptr, _, s, w, h => by
      obtain ⟨str, h1, h2⟩ := (Create_from_charz_spec s w).2 h
      exact ⟨_, h2, by simp [content, h1]⟩
  | .ascii_char_ptr_no_quotes, _, s, w, h => by
      obtain ⟨str, h1, h2⟩ := (Create_from_charz_no_quotes_spec s w).2 h
      exact ⟨_, h2, by simp [content, h1]⟩
  | .EDM_DATE_TIME_OFFSET, _, _, _, _ => ⟨_, rfl, rfl⟩
  | .EDM_GUID, _, _, _, _ => ⟨_, rfl, rfl⟩
  | .EDM_BINARY, _, s, w, h => by
      obtain ⟨b, h1, h2⟩ := (Create_from_EDM_BINARY_spec s w).2 h
      exact ⟨_, h2, by simp [content, h1]⟩
  | .struct name fs, path, s, w, h => by
      simp only [ToAGENT_DATA_TYPE, List.length_replicate, MU_IF_ne_zero, if_false] at h ⊢
      split at h
      · rename_i hc
        obtain ⟨gs, hgs, hm⟩ := CREATE_content fs path 0 s 0 _ w hc
        simp only [hc, if_true] at h ⊢
        split at h
        · rename_i hcm
          obtain ⟨names, values, hn, hv, hg⟩ := Create_from_Members_ok hcm
          refine ⟨_, hg, ?_⟩
          have hl := contentFields_length fs w.blocks s gs hgs
          have hdiv : MU_DIV2 (MU_COUNT_ARG fs) = fs.length := by simp [MU_DIV2, MU_COUNT_ARG]
          rw [hdiv] at hn hv hm
          by_cases h0 : fs.length = 0
          · exfalso
            cases fs with
            | nil => simp [MU_IF, FIELD_AS_STRING, allPresent] at hn
            | cons _ _ _ => simp [CFields.length] at h0
          · have hif : MU_IF fs.length fs.length 1 = fs.length := by simp [MU_IF, h0]
            rw [hif] at hn hv hm
            rw [FIELD_AS_STRING_eq] at hn
            have e1 := writeFrom_replicate fs.names
            rw [CFields_length_names] at e1
            rw [e1, List.take_of_length_le (by simp [CFields_length_names]),
              allPresent_map_some] at hn
            have e2 := writeFrom_replicate gs
            rw [hl] at e2
            rw [hm, e2, List.take_of_length_le (by simp [hl]), allPresent_map_some] at hv
            simp only [Option.some.injEq] at hn hv
            subst hn hv
            simp [content, hgs, h0]
        · simp at h
      · simp at h
theorem CREATE_content : ∀ (fs : CFields) (path : List Nat) (j : Nat) (vs : NativeFields fs)
    (i : Nat) (m : List (Option AGENT_DATA_TYPE)) (w : World),
    (CREATE_AGENT_DATA_TYPE fs path j vs AGENT_DATA_TYPES_OK i m w).1 = AGENT_DATA_TYPES_OK →
    ∃ gs, contentFields fs w.blocks vs = some gs ∧
      (CREATE_AGENT_DATA_TYPE fs path j vs AGENT_DATA_TYPES_OK i m w).2.2.1 = writeFrom m i gs
  | .nil, _, _, _, _, _, _, _ => ⟨[], rfl, rfl⟩
  | .cons t _ rest, path, j, (v, vs), i, m, w, h => by
      simp only [CREATE_AGENT_DATA_TYPE, if_true] at h ⊢
      by_cases h1 : (ToAGENT_DATA_TYPE t (path ++ [j]) v
          (w.log (.ToAGENT_DATA_TYPE (path ++ [j])))).1 = AGENT_DATA_TYPES_OK
      · obtain ⟨g, hg, hcg⟩ := To_content t (path ++ [j]) v _ h1
        simp only [h1, if_true, hg] at h ⊢
        obtain ⟨gs, hgs, hm⟩ := CREATE_content rest path (j + 1) vs _ _ _ h
        rw [To_blocks] at hgs
        refine ⟨g :: gs, ?_, ?_⟩
        · have hcg' : content t w.blocks v = some g := hcg
          have hgs' : contentFields rest w.blocks vs = some gs := hgs
          simp only [contentFields, hcg', hgs']
        · rw [hm]; rfl
      · simp only [h1, if_false, CREATE_error] at h
        simp at h
end

/-! ## Lemmas: the call trace and the wrappers -/

theorem DeepExt_refl (w : World) : DeepExt w w := ⟨[], by simp, by simp⟩

theorem DeepExt_trans {w1 w2 w3 : World} (h1 : DeepExt w1 w2) (h2 : DeepExt w2 w3) :
    DeepExt w1 w3 := by
  obtain ⟨e1, h1, d1⟩ := h1
  obtain ⟨e2, h2, d2⟩ := h2
  refine ⟨e1 ++ e2, by rw [h2, h1, List.append_assoc], ?_⟩
  intro e he
  rcases List.mem_append.mp he with h | h
  · exact d1 e h
  · exact d2 e h

theorem DeepExt_log {w : World} {e : Event} (h : e.deep) : DeepExt w (w.log e) :=
  ⟨[e], rfl, by simpa using h⟩

theorem DeepExt_of_trace_eq {w1 w2 : World} (h : w2.trace = w1.trace) : DeepExt w1 w2 :=
  ⟨[], by simp [h], by simp⟩

theorem request_trace (w : World) : w.request.2.trace = w.trace := by
  unfold World.request; split <;> rfl

theorem malloc_trace (w : World) (c : Block) : (w.malloc c).2.trace = w.trace := by
  have := request_trace w
  unfold World.malloc
  rcases hr : w.request with ⟨b, w1⟩
  rw [hr] at this
  cases b <;> exact this

theorem free_trace (w : World) (p : Nat) : (w.free p).trace = w.trace := by
  unfold World.free; split <;> rfl

theorem mallocAndStrcpy_s_trace (d : Nat) (s : String) (w : World) :
    (mallocAndStrcpy_s d s w).2.2.trace = w.trace := by
  have ht := malloc_trace w (.chars s)
  unfold mallocAndStrcpy_s
  rcases hm : w.malloc (.chars s) with ⟨p, w1⟩
  rw [hm] at ht
  cases p <;> exact ht

theorem strcpy_result_deep (w : World) (chars : String) (d1 : Nat) (w1 : World)
    (h1 : w1.trace = w.trace) :
    DeepExt w (match mallocAndStrcpy_s d1 chars w1 with
      | (0, dest2, w2) => (AGENT_DATA_TYPES_OK, dest2, w2)
      | (_, dest2, w2) =>
        (AGENT_DATA_TYPES_ERROR, dest2,
          w2.log (.LogError "failure in mallocAndStrcpy_s" []))).2.2 := by
  have ht := mallocAndStrcpy_s_trace d1 chars w1
  rcases hm : mallocAndStrcpy_s d1 chars w1 with ⟨c, d2, w2⟩
  rw [hm] at ht
  simp only at ht
  split
  · rename_i heq
    simp only [Prod.mk.injEq] at heq
    obtain ⟨-, -, rfl⟩ := heq
    exact DeepExt_of_trace_eq (ht.trans h1)
  · rename_i heq
    simp only [Prod.mk.injEq] at heq
    obtain ⟨-, -, rfl⟩ := heq
    exact ⟨[.LogError "failure in mallocAndStrcpy_s" []],
      by simp [World.log, ht, h1], by simp [Event.deep]⟩

theorem From_ascii_char_ptr_deep (g : AGENT_DATA_TYPE) (d : Nat) (w : World) :
    DeepExt w (FromAGENT_DATA_TYPE_ascii_char_ptr g d w).2.2 := by
  unfold FromAGENT_DATA_TYPE_ascii_char_ptr
  split
  · rename_i chars
    by_cases hd : d = 0
    · simp only [hd, ne_eq, not_true_eq_false, if_false]
      exact strcpy_result_deep w chars 0 w rfl
    · simp only [ne_eq, hd, not_false_eq_true, if_true]
      exact strcpy_result_deep w chars 0 (w.free d) (free_trace w d)
  · exact DeepExt_refl w

theorem From_ascii_char_ptr_no_quotes_deep (g : AGENT_DATA_TYPE) (d : Nat) (w : World) :
    DeepExt w (FromAGENT_DATA_TYPE_ascii_char_ptr_no_quotes g d w).2.2 := by
  unfold FromAGENT_DATA_TYPE_ascii_char_ptr_no_quotes
  split
  · rename_i chars
    by_cases hd : d = 0
    · simp only [hd, ne_eq, not_true_eq_false, if_false]
      exact strcpy_result_deep w chars 0 w rfl
    · simp only [ne_eq, hd, not_false_eq_true, if_true]
      exact strcpy_result_deep w chars 0 (w.free d) (free_trace w d)
  · exact DeepExt_refl w

theorem From_EDM_BINARY_deep (g : AGENT_DATA_TYPE) (d : EDM_BINARY) (w : World) :
    DeepExt w (FromAGENT_DATA_TYPE_EDM_BINARY g d w).2.2 := by
  unfold FromAGENT_DATA_TYPE_EDM_BINARY
  split
  · rename_i data
    have ht := malloc_trace w (.bytes data)
    rcases hm : w.malloc (.bytes data) with ⟨p, w1⟩
    rw [hm] at ht
    cases p <;> exact DeepExt_of_trace_eq ht
  · exact DeepExt_refl w

mutual
theorem From_deep (P : Platform) : ∀ (t : CType) (g : AGENT_DATA_TYPE) (path : List Nat)
    (d : Native t) (w : World), 1 ≤ path.length →
    DeepExt w (FromAGENT_DATA_TYPE P t g path d w).2.2
  | .double, _, _, _, w, _ => DeepExt_refl w
  | .float, _, _, _, w, _ => DeepExt_refl w
  | .int, _, _, _, w, _ => DeepExt_refl w
  | .long, _, _, _, w, _ => DeepExt_refl w
  | .int8_t, _, _, _, w, _ => DeepExt_refl w
  | .uint8_t, _, _, _, w, _ => DeepExt_refl w
  | .int16_t, _, _, _, w, _ => DeepExt_refl w
  | .int32_t, _, _, _, w, _ => DeepExt_refl w
  | .int64_t, _, _, _, w, _ => DeepExt_refl w
  | .bool, _, _, _, w, _ => DeepExt_refl w
  | .ascii_char_ptr, g, _, d, w, _ => From_ascii_char_ptr_deep g d w
  | .ascii_char_ptr_no_quotes, g, _, d, w, _ => From_ascii_char_ptr_no_quotes_deep g d w
  | .EDM_DATE_TIME_OFFSET, _, _, _, w, _ => DeepExt_refl w
  | .EDM_GUID, _, _, _, w, _ => DeepExt_refl w
  | .EDM_BINARY, g, _, d, w, _ => From_EDM_BINARY_deep g d w
  | .struct _ fs, g, path, d, w, hp => by
      simp only [FromAGENT_DATA_TYPE]
      split
      · exact DeepExt_refl w
      · split
        · exact DeepExt_refl w
        · exact BUILD_deep P fs g path 0 _ d w hp
theorem BUILD_deep (P : Platform) : ∀ (fs : CFields) (g : AGENT_DATA_TYPE) (path : List Nat)
    (j : Nat) (result : AGENT_DATA_TYPES_RESULT) (d : NativeFields fs) (w : World),
    1 ≤ path.length →
    DeepExt w (BUILD_DESTINATION_FIELD P fs g path j result d w).2.2
  | .nil, _, _, _, _, _, w, _ => DeepExt_refl w
  | .cons t n rest, g, path, j, result, (d, ds), w, hp => by
      simp only [BUILD_DESTINATION_FIELD]
      split
      · split
        · refine DeepExt_trans (DeepExt_trans (DeepExt_log ?_)
            (From_deep P t _ (path ++ [j]) d _ (by simp))) (BUILD_deep P rest g path _ _ _ _ hp)
          simp [Event.deep]; omega
        · exact BUILD_deep P rest g path _ _ _ _ hp
      · exact BUILD_deep P rest g path _ _ _ _ hp
end

mutual
theorem destroy_deep : ∀ (t : CType) (path : List Nat) (v : Native t) (w : World),
    1 ≤ path.length → DeepExt w (destroyLocalParameter t path v w).2
  | .double, _, _, w, _ => DeepExt_refl w
  | .float, _, _, w, _ => DeepExt_refl w
  | .int, _, _, w, _ => DeepExt_refl w
  | .long, _, _, w, _ => DeepExt_refl w
  | .int8_t, _, _, w, _ => DeepExt_refl w
  | .uint8_t, _, _, w, _ => DeepExt_refl w
  | .int16_t, _, _, w, _ => DeepExt_refl w
  | .int32_t, _, _, w, _ => DeepExt_refl w
  | .int64_t, _, _, w, _ => DeepExt_refl w
  | .bool, _, _, w, _ => DeepExt_refl w
  | .ascii_char_ptr, _, v, w, _ => DeepExt_of_trace_eq (free_trace w v)
  | .ascii_char_ptr_no_quotes, _, v, w, _ => DeepExt_of_trace_eq (free_trace w v)
  | .EDM_DATE_TIME_OFFSET, _, _, w, _ => DeepExt_refl w
  | .EDM_GUID, _, _, w, _ => DeepExt_refl w
  | .EDM_BINARY, _, v, w, _ => DeepExt_of_trace_eq (free_trace w (EDM_BINARY.data v))
  | .struct _ fs, path, v, w, hp => UNBUILD_deep fs path 0 v w hp
theorem UNBUILD_deep : ∀ (fs : CFields) (path : List Nat) (j : Nat) (v : NativeFields fs)
    (w : World), 1 ≤ path.length → DeepExt w (UNBUILD_DESTINATION_FIELD fs path j v w).2
  | .nil, _, _, _, w, _ => DeepExt_refl w
  | .cons t _ rest, path, j, (v, vs), w, hp => by
      simp only [UNBUILD_DESTINATION_FIELD]
      refine DeepExt_trans (DeepExt_trans (DeepExt_log ?_)
        (destroy_deep t (path ++ [j]) v _ (by simp))) (UNBUILD_deep rest path _ vs _ hp)
      simp [Event.deep]; omega
end

theorem deep_projections : ∀ (evs : List Event), (∀ e ∈ evs, e.deep) →
    convertedParams evs = [] ∧ destroyedParams evs = [] ∧ invocations evs = []
  | [], _ => ⟨rfl, rfl, rfl⟩
  | e :: evs, h => by
      obtain ⟨h1, h2, h3⟩ := deep_projections evs (fun e he => h e (List.mem_cons_of_mem _ he))
      have he := h e (List.mem_cons_self _ _)
      unfold convertedParams destroyedParams invocations at *
      cases e with
      | FromAGENT_DATA_TYPE p =>
        match p, he with
        | [], he => simp [Event.deep] at he
        | [_], he => simp [Event.deep] at he
        | _ :: _ :: _, _ => simp [h1, h2, h3]
      | destroyLocalParameter p =>
        match p, he with
        | [], he => simp [Event.deep] at he
        | [_], he => simp [Event.deep] at he
        | _ :: _ :: _, _ => simp [h1, h2, h3]
      | invoke _ _ _ => simp [Event.deep] at he
      | _ => simp [h1, h2, h3]

theorem Calls_of_deep {w1 w2 : World} (h : DeepExt w1 w2) : Calls w1 w2 [] [] [] := by
  obtain ⟨evs, h1, h2⟩ := h
  obtain ⟨a, b, c⟩ := deep_projections evs h2
  exact ⟨evs, h1, a, b, c⟩

theorem Calls_trans {w1 w2 w3 : World} {c1 c2 d1 d2 : List Nat} {i1 i2 : List Event}
    (h1 : Calls w1 w2 c1 d1 i1) (h2 : Calls w2 w3 c2 d2 i2) :
    Calls w1 w3 (c1 ++ c2) (d1 ++ d2) (i1 ++ i2) := by
  obtain ⟨e1, t1, a1, b1, g1⟩ := h1
  obtain ⟨e2, t2, a2, b2, g2⟩ := h2
  refine ⟨e1 ++ e2, by rw [t2, t1, List.append_assoc], ?_, ?_, ?_⟩
  · simp only [convertedParams, List.filterMap_append] at *; rw [a1, a2]
  · simp only [destroyedParams, List.filterMap_append] at *; rw [b1, b2]
  · simp only [invocations, List.filter_append] at *; rw [g1, g2]

theorem Calls_refl (w : World) : Calls w w [] [] [] := ⟨[], by simp, rfl, rfl, rfl⟩

theorem Calls_logFrom (w : World) (i : Nat) :
    Calls w (w.log (.FromAGENT_DATA_TYPE [i])) [i] [] [] := ⟨[_], rfl, rfl, rfl, rfl⟩

theorem Calls_logDestroy (w : World) (i : Nat) :
    Calls w (w.log (.destroyLocalParameter [i])) [] [i] [] := ⟨[_], rfl, rfl, rfl, rfl⟩

theorem convertLocals_calls (P : Platform) (values : List AGENT_DATA_TYPE) :
    ∀ (ps : CFields) (i : Nat) (locals : NativeFields ps) (w : World),
    Calls w (convertLocals P values ps i locals w).2.2
      (List.range' i (min ((convertLocals P values ps i locals w).1 + 1) ps.length)) [] []
  | .nil, i, _, w => by simpa [convertLocals, CFields.length] using Calls_refl w
  | .cons t _ rest, i, (l, ls), w => by
      simp only [convertLocals]
      have hconv := Calls_trans (Calls_logFrom w i)
        (Calls_of_deep (From_deep P t (valueAt values i) [i] l
          (w.log (.FromAGENT_DATA_TYPE [i])) (by simp)))
      split
      · have ih := convertLocals_calls P values rest (i + 1) ls
          (FromAGENT_DATA_TYPE P t (valueAt values i) [i] l
            (w.log (.FromAGENT_DATA_TYPE [i]))).2.2
        have := Calls_trans hconv ih
        simp only [List.append_nil, List.nil_append] at this
        simp only [CFields.length]
        rw [Nat.add_min_add_right, List.range'_succ]
        simpa using this
      · simp only [CFields.length]
        have : min (0 + 1) (rest.length + 1) = 1 := by omega
        rw [this]
        simpa using hconv

theorem releaseLocals_calls :
    ∀ (ps : CFields) (i : Nat) (count : Nat) (locals : NativeFields ps) (w : World),
    Calls w (releaseLocals ps i count locals w) []
      (List.range' i (min count ps.length)).reverse []
  | .nil, i, count, _, w => by simpa [releaseLocals, CFields.length] using Calls_refl w
  | .cons _ _ _, i, 0, _, w => by simpa [releaseLocals] using Calls_refl w
  | .cons t _ rest, i, count + 1, (l, ls), w => by
      simp only [releaseLocals]
      have ih := releaseLocals_calls rest (i + 1) count ls w
      have := Calls_trans (Calls_trans ih (Calls_logDestroy _ i))
        (Calls_of_deep (destroy_deep t [i] l _ (by simp)))
      simp only [List.append_nil, List.nil_append] at this
      simp only [CFields.length]
      rw [Nat.add_min_add_right, List.range'_succ, List.reverse_cons]
      exact this

theorem BUILD_LOCAL_PARAMETER_eq {R : Type} (P : Platform) (err : R)
    (values : List AGENT_DATA_TYPE) :
    ∀ (ps : CFields) (i : Nat) (locals : NativeFields ps)
      (body : NativeFields ps → World → R × World) (w : World),
    BUILD_LOCAL_PARAMETER P err values ps i locals body w =
      if (convertLocals P values ps i locals w).1 = ps.length then
        ((body (convertLocals P values ps i locals w).2.1
            (convertLocals P values ps i locals w).2.2).1,
          releaseLocals ps i ps.length (convertLocals P values ps i locals w).2.1
            (body (convertLocals P values ps i locals w).2.1
              (convertLocals P values ps i locals w).2.2).2)
      else
        (err, releaseLocals ps i (convertLocals P values ps i locals w).1
          (convertLocals P values ps i locals w).2.1 (convertLocals P values ps i locals w).2.2)
  | .nil, _, _, _, _ => by simp [BUILD_LOCAL_PARAMETER, convertLocals, releaseLocals, CFields.length]
  | .cons t _ rest, i, (l, ls), body, w => by
      simp only [BUILD_LOCAL_PARAMETER, convertLocals]
      by_cases h1 : (FromAGENT_DATA_TYPE P t (valueAt values i) [i] l
          (w.log (.FromAGENT_DATA_TYPE [i]))).1 = AGENT_DATA_TYPES_OK
      · simp only [h1, ne_eq, not_true_eq_false, if_false, if_true, CFields.length,
          Nat.add_right_cancel_iff]
        rw [BUILD_LOCAL_PARAMETER_eq P err values rest (i + 1) ls]
        split
        · simp only [releaseLocals]
        · simp only [releaseLocals]
      · simp [h1, CFields.length, releaseLocals]

theorem MU_DIV2_MU_COUNT_ARG (fs : CFields) : MU_DIV2 (MU_COUNT_ARG fs) = fs.length := by
  simp [MU_DIV2, MU_COUNT_ARG]

theorem callsSince_of_trace {w1 w2 : World} {evs : List Event}
    (h : w2.trace = w1.trace ++ evs) : callsSince w1.trace.length w2 = evs := by
  simp [callsSince, h]

/-- What a wrapper body does once the argument count is right. -/
theorem wrapper_body {R : Type} (P : Platform) (err : R) (params : CFields)
    (fn : Nat → NativeFields params → Heap → R × Heap) (locals : NativeFields params)
    (device : Nat) (values : List AGENT_DATA_TYPE) (w : World) :
    ((convertLocals P values params 0 locals w).1 = params.length →
      (BUILD_LOCAL_PARAMETER P err values params 0 locals (callUser params fn device) w).1 =
          (fn device (convertLocals P values params 0 locals w).2.1
            (convertLocals P values params 0 locals w).2.2.toHeap).1 ∧
        ∃ pre post,
          callsSince w.trace.length
              (BUILD_LOCAL_PARAMETER P err values params 0 locals (callUser params fn device) w).2 =
            pre ++ [.invoke device params (convertLocals P values params 0 locals w).2.1] ++ post ∧
          convertedParams pre = List.range params.length ∧ destroyedParams pre = [] ∧
          invocations pre = [] ∧ convertedParams post = [] ∧
          destroyedParams post = (List.range params.length).reverse ∧ invocations post = []) ∧
    ((convertLocals P values params 0 locals w).1 ≠ params.length →
      (BUILD_LOCAL_PARAMETER P err values params 0 locals (callUser params fn device) w).1 = err ∧
        convertedParams (callsSince w.trace.length
            (BUILD_LOCAL_PARAMETER P err values params 0 locals (callUser params fn device) w).2) =
          List.range (min ((convertLocals P values params 0 locals w).1 + 1) params.length) ∧
        destroyedParams (callsSince w.trace.length
            (BUILD_LOCAL_PARAMETER P err values params 0 locals (callUser params fn device) w).2) =
          (List.range (min (convertLocals P values params 0 locals w).1 params.length)).reverse ∧
        invocations (callsSince w.trace.length
            (BUILD_LOCAL_PARAMETER P err values params 0 locals (callUser params fn device) w).2) =
          []) := by
  rw [BUILD_LOCAL_PARAMETER_eq]
  obtain ⟨e1, t1, a1, b1, c1⟩ := convertLocals_calls P values params 0 locals w
  constructor
  · intro h
    simp only [h, if_true]
    refine ⟨rfl, ?_⟩
    obtain ⟨e3, t3, a3, b3, c3⟩ := releaseLocals_calls params 0 params.length
      (convertLocals P values params 0 locals w).2.1
      (callUser params fn device (convertLocals P values params 0 locals w).2.1
        (convertLocals P values params 0 locals w).2.2).2
    refine ⟨e1, e3, ?_, ?_, b1, c1, a3, ?_, c3⟩
    · apply callsSince_of_trace
      rw [t3]
      simp only [callUser, t1, List.append_assoc]
    · rw [a1, h]; simp [List.range_eq_range']
    · rw [b3]; simp [List.range_eq_range']
  · intro h
    simp only [h, if_false]
    refine ⟨trivial, ?_⟩
    obtain ⟨e3, t3, a3, b3, c3⟩ := releaseLocals_calls params 0
      (convertLocals P values params 0 locals w).1
      (convertLocals P values params 0 locals w).2.1
      (convertLocals P values params 0 locals w).2.2
    have ht : (releaseLocals params 0 (convertLocals P values params 0 locals w).1
        (convertLocals P values params 0 locals w).2.1
        (convertLocals P values params 0 locals w).2.2).trace = w.trace ++ (e1 ++ e3) := by
      rw [t3, t1, List.append_assoc]
    rw [callsSince_of_trace ht]
    refine ⟨?_, ?_, ?_⟩
    · simp only [convertedParams, List.filterMap_append] at *
      rw [a1, a3]; simp [List.range_eq_range']
    · simp only [destroyedParams, List.filterMap_append] at *
      rw [b1, b3]; simp [List.range_eq_range']
    · simp only [invocations, List.filter_append] at *
      rw [c1, c3]; rfl

theorem convertLocals_le (P : Platform) (values : List AGENT_DATA_TYPE) :
    ∀ (ps : CFields) (i : Nat) (locals : NativeFields ps) (w : World),
    (convertLocals P values ps i locals w).1 ≤ ps.length
  | .nil, _, _, _ => by simp [convertLocals]
  | .cons t _ rest, i, (l, ls), w => by
      simp only [convertLocals]
      split
      · simp only [CFields.length]
        exact Nat.succ_le_succ (convertLocals_le P values rest (i + 1) ls _)
      · simp

theorem From_ascii_char_ptr_tag (g : AGENT_DATA_TYPE) (d : Nat) (w : World) :
    ((FromAGENT_DATA_TYPE_ascii_char_ptr g d w).1 = AGENT_DATA_TYPES_INVALID_ARG ↔
        g.type ≠ EDM_STRING_TYPE) ∧
      (g.type = EDM_STRING_TYPE →
        (FromAGENT_DATA_TYPE_ascii_char_ptr g d w).1 = AGENT_DATA_TYPES_OK ∨
        (FromAGENT_DATA_TYPE_ascii_char_ptr g d w).1 = AGENT_DATA_TYPES_ERROR) := by
  cases g <;> simp [FromAGENT_DATA_TYPE_ascii_char_ptr, AGENT_DATA_TYPE.type]
  split <;> simp

theorem From_ascii_char_ptr_no_quotes_tag (g : AGENT_DATA_TYPE) (d : Nat) (w : World) :
    ((FromAGENT_DATA_TYPE_ascii_char_ptr_no_quotes g d w).1 = AGENT_DATA_TYPES_INVALID_ARG ↔
        g.type ≠ EDM_STRING_NO_QUOTES_TYPE) ∧
      (g.type = EDM_STRING_NO_QUOTES_TYPE →
        (FromAGENT_DATA_TYPE_ascii_char_ptr_no_quotes g d w).1 = AGENT_DATA_TYPES_OK ∨
        (FromAGENT_DATA_TYPE_ascii_char_ptr_no_quotes g d w).1 = AGENT_DATA_TYPES_ERROR) := by
  cases g <;> simp [FromAGENT_DATA_TYPE_ascii_char_ptr_no_quotes, AGENT_DATA_TYPE.type]
  split <;> simp

theorem From_EDM_BINARY_tag (g : AGENT_DATA_TYPE) (d : EDM_BINARY) (w : World) :
    ((FromAGENT_DATA_TYPE_EDM_BINARY g d w).1 = AGENT_DATA_TYPES_INVALID_ARG ↔
        g.type ≠ EDM_BINARY_TYPE) ∧
      (g.type = EDM_BINARY_TYPE →
        (FromAGENT_DATA_TYPE_EDM_BINARY g d w).1 = AGENT_DATA_TYPES_OK ∨
        (FromAGENT_DATA_TYPE_EDM_BINARY g d w).1 = AGENT_DATA_TYPES_ERROR) := by
  cases g <;> simp [FromAGENT_DATA_TYPE_EDM_BINARY, AGENT_DATA_TYPE.type]
  split <;> simp

theorem invocations_nonempty_success {R : Type} (P : Platform) (err : R) (params : CFields)
    (fn : Nat → NativeFields params → Heap → R × Heap) (locals : NativeFields params)
    (device : Nat) (values : List AGENT_DATA_TYPE) (w : World)
    (h : invocations (callsSince w.trace.length
      (BUILD_LOCAL_PARAMETER P err values params 0 locals (callUser params fn device) w).2) ≠ []) :
    ∃ pre args post,
      callsSince w.trace.length
          (BUILD_LOCAL_PARAMETER P err values params 0 locals (callUser params fn device) w).2 =
        pre ++ [.invoke device params args] ++ post ∧
      destroyedParams pre = [] ∧
      destroyedParams post = (List.range params.length).reverse ∧ invocations post = [] := by
  by_cases hc : (convertLocals P values params 0 locals w).1 = params.length
  · obtain ⟨-, pre, post, h2, -, h3, -, -, h4, h5⟩ :=
      (wrapper_body P err params fn locals device values w).1 hc
    exact ⟨pre, _, post, h2, h3, h4, h5⟩
  · exact absurd ((wrapper_body P err params fn locals device values w).2 hc).2.2.2 h

theorem content_of_To {t : CType} {path : List Nat} {s : Native t} {w w1 : World}
    {g : AGENT_DATA_TYPE}
    (hto : ToAGENT_DATA_TYPE t path s w = (AGENT_DATA_TYPES_OK, some g, w1)) :
    content t w.blocks s = some g := by
  obtain ⟨g', h1, h2⟩ := To_content t path s w (by rw [hto])
  rw [hto] at h1
  simp only [Option.some.injEq] at h1
  rw [h1]; exact h2

/-! ## Lemmas: the fields and members of a struct -/

theorem BUILD_not_ok : ∀ (P : Platform) (fs : CFields) (source : AGENT_DATA_TYPE)
    (path : List Nat) (j : Nat) (result : AGENT_DATA_TYPES_RESULT) (ds : NativeFields fs)
    (w : World), result ≠ AGENT_DATA_TYPES_OK →
    BUILD_DESTINATION_FIELD P fs source path j result ds w = (result, ds, w)
  | _, .nil, _, _, _, _, _, _, _ => by simp [BUILD_DESTINATION_FIELD]
  | P, .cons _ _ rest, source, path, j, result, (d, ds), w, h => by
      simp only [BUILD_DESTINATION_FIELD, if_neg h,
        BUILD_not_ok P rest source path (j + 1) result ds w h]

theorem BUILD_eq_convertFields : ∀ (P : Platform) (fs : CFields) (source : AGENT_DATA_TYPE)
    (path : List Nat) (j : Nat) (ds : NativeFields fs) (w : World),
    BUILD_DESTINATION_FIELD P fs source path j AGENT_DATA_TYPES_OK ds w =
      ((if (convertFields P source path fs j ds w).1 = fs.length then AGENT_DATA_TYPES_OK
        else AGENT_DATA_TYPES_INVALID_ARG),
       (convertFields P source path fs j ds w).2.1, (convertFields P source path fs j ds w).2.2)
  | _, .nil, _, _, _, _, _ => by simp [BUILD_DESTINATION_FIELD, convertFields, CFields.length]
  | P, .cons t name rest, source, path, j, (d, ds), w => by
      simp only [BUILD_DESTINATION_FIELD, convertFields, if_true, CFields.length]
      rcases hm : findMember source name with _ | m
      · simp only
        rw [BUILD_not_ok P rest source path (j + 1) _ ds w (by decide)]
        simp
      · simp only
        by_cases hok : (FromAGENT_DATA_TYPE P t m.2 (path ++ [j]) d
            (w.log (.FromAGENT_DATA_TYPE (path ++ [j])))).1 = AGENT_DATA_TYPES_OK
        · simp only [hok, decide_True, if_true]
          rw [BUILD_eq_convertFields P rest source path (j + 1) ds _]
          simp
        · simp only [hok, decide_False, if_false]
          rw [BUILD_not_ok P rest source path (j + 1) _ ds _ (by decide)]
          simp

theorem convertFields_le : ∀ (P : Platform) (fs : CFields) (source : AGENT_DATA_TYPE)
    (path : List Nat) (j : Nat) (ds : NativeFields fs) (w : World),
    (convertFields P source path fs j ds w).1 ≤ fs.length
  | _, .nil, _, _, _, _, _ => by simp [convertFields]
  | P, .cons t name rest, source, path, j, (d, ds), w => by
      simp only [convertFields, CFields.length]
      rcases hm : findMember source name with _ | m
      · simp
      · simp only
        split
        · have := convertFields_le P rest source path (j + 1) ds
            (FromAGENT_DATA_TYPE P t m.2 (path ++ [j]) d
              (w.log (.FromAGENT_DATA_TYPE (path ++ [j])))).2.2
          simp only; omega
        · simp

/-- When every field was converted, every declared field has a member of its
name and the conversion of the first such member returned OK in some state. -/
theorem convertFields_all : ∀ (P : Platform) (fs : CFields) (source : AGENT_DATA_TYPE)
    (path : List Nat) (j : Nat) (ds : NativeFields fs) (w : World),
    (convertFields P source path fs j ds w).1 = fs.length →
    ∀ t n, (t, n) ∈ fs.toList → ∃ m, findMember source n = some m ∧
      ∃ (p : List Nat) (d : Native t) (w1 : World),
        (FromAGENT_DATA_TYPE P t m.2 p d w1).1 = AGENT_DATA_TYPES_OK
  | _, .nil, _, _, _, _, _, _, _, _, hmem => by simp [CFields.toList] at hmem
  | P, .cons t name rest, source, path, j, (d, ds), w, h, t1, n1, hmem => by
      simp only [convertFields, CFields.length] at h
      rcases hm : findMember source name with _ | m
      · rw [hm] at h; simp at h
      · rw [hm] at h
        simp only at h
        by_cases hok : (FromAGENT_DATA_TYPE P t m.2 (path ++ [j]) d
            (w.log (.FromAGENT_DATA_TYPE (path ++ [j])))).1 = AGENT_DATA_TYPES_OK
        · rw [if_pos hok] at h
          simp only [CFields.toList, List.mem_cons] at hmem
          rcases hmem with heq | hmem
          · injection heq with h1 h2
            subst h1; subst h2
            exact ⟨m, hm, _, _, _, hok⟩
          · exact convertFields_all P rest source path (j + 1) ds _ (by simpa using h) t1 n1 hmem
        · rw [if_neg hok] at h; simp at h

theorem From_ok_tag (P : Platform) (t : CType) (g : AGENT_DATA_TYPE) (path : List Nat)
    (out : Native t) (w : World)
    (h : (FromAGENT_DATA_TYPE P t g path out w).1 = AGENT_DATA_TYPES_OK) :
    g.type = expectedTag t := by
  cases t with
  | struct n fs =>
    by_contra hne
    have hne' : g.type ≠ EDM_COMPLEX_TYPE_TYPE := hne
    simp [FromAGENT_DATA_TYPE, hne'] at h
  | ascii_char_ptr =>
    by_contra hne
    have := (From_ascii_char_ptr_tag g out w).1.mpr hne
    simp only [FromAGENT_DATA_TYPE] at h
    rw [h] at this; cases this
  | ascii_char_ptr_no_quotes =>
    by_contra hne
    have := (From_ascii_char_ptr_no_quotes_tag g out w).1.mpr hne
    simp only [FromAGENT_DATA_TYPE] at h
    rw [h] at this; cases this
  | EDM_BINARY =>
    by_contra hne
    have := (From_EDM_BINARY_tag g out w).1.mpr hne
    simp only [FromAGENT_DATA_TYPE] at h
    rw [h] at this; cases this
  | _ =>
    revert h
    cases g <;> simp [FromAGENT_DATA_TYPE, expectedTag, AGENT_DATA_TYPE.type,
      FromAGENT_DATA_TYPE_double, FromAGENT_DATA_TYPE_float, FromAGENT_DATA_TYPE_int,
      FromAGENT_DATA_TYPE_long, FromAGENT_DATA_TYPE_int8_t, FromAGENT_DATA_TYPE_uint8_t,
      FromAGENT_DATA_TYPE_int16_t, FromAGENT_DATA_TYPE_int32_t, FromAGENT_DATA_TYPE_int64_t,
      FromAGENT_DATA_TYPE_bool, FromAGENT_DATA_TYPE_EDM_DATE_TIME_OFFSET,
      FromAGENT_DATA_TYPE_EDM_GUID]

theorem CFields_mem_names : ∀ (fs : CFields) (n : String), n ∈ fs.names →
    ∃ t, (t, n) ∈ fs.toList
  | .nil, _, h => by simp [CFields.names] at h
  | .cons t n1 rest, n, h => by
      simp only [CFields.names, List.mem_cons] at h
      rcases h with h | h
      · exact ⟨t, by simp [CFields.toList, h]⟩
      · obtain ⟨t1, h1⟩ := CFields_mem_names rest n h
        exact ⟨t1, by simp [CFields.toList, h1]⟩

theorem findMember_perm {members members' : List (String × AGENT_DATA_TYPE)}
    (hnd : (members.map Prod.fst).Nodup) (hperm : members'.Perm members) (name : String) :
    findMember (.edmComplexType members') name = findMember (.edmComplexType members) name := by
  have hnd' : (members'.map Prod.fst).Nodup := ((hperm.map Prod.fst).nodup_iff).mpr hnd
  simp only [findMember, AGENT_DATA_TYPE.fields]
  rcases hf : members.find? (fun m => m.1 == name) with _ | x
  · have hall := List.find?_eq_none.mp hf
    rw [hf]
    exact List.find?_eq_none.mpr (fun y hy => hall y (hperm.mem_iff.mp hy))
  · have hx := List.mem_of_find?_eq_some hf
    have hp := List.find?_some hf
    have hname : x.1 = name := by simpa using hp
    have hx' : (name, x.2) ∈ members' := by
      rw [hperm.mem_iff, ← hname]; exact hx
    rw [hf, find?_of_mem_nodup_keys hnd' hx', ← hname]

theorem BUILD_congr (P : Platform) {s1 s2 : AGENT_DATA_TYPE}
    (hs : ∀ name, findMember s1 name = findMember s2 name) :
    ∀ (fs : CFields) (path : List Nat) (j : Nat) (result : AGENT_DATA_TYPES_RESULT)
      (ds : NativeFields fs) (w : World),
      BUILD_DESTINATION_FIELD P fs s1 path j result ds w =
        BUILD_DESTINATION_FIELD P fs s2 path j result ds w
  | .nil, _, _, _, _, _ => by simp [BUILD_DESTINATION_FIELD]
  | .cons t name rest, path, j, result, (d, ds), w => by
      simp only [BUILD_DESTINATION_FIELD, hs name]
      split
      · rcases findMember s2 name with _ | m
        · simp only [BUILD_congr P hs rest]
        · simp only [BUILD_congr P hs rest]
      · simp only [BUILD_congr P hs rest]

theorem storeFrom_split {α : Type} : ∀ (xs : List (Option α)) (pre post : List (Option α)),
    storeFrom (pre ++ List.replicate xs.length none ++ post) pre.length xs = pre ++ xs ++ post
  | [], pre, post => by simp [storeFrom]
  | x :: xs, pre, post => by
      have ih := storeFrom_split xs (pre ++ [x]) post
      simp only [List.length_append, List.length_singleton, List.append_assoc,
        List.singleton_append] at ih
      cases x with
      | none =>
        simp only [storeFrom, List.length_cons, List.replicate_succ, List.append_assoc,
          List.cons_append]
        exact ih
      | some g =>
        simp only [storeFrom, List.length_cons, List.replicate_succ, List.append_assoc,
          List.cons_append]
        rw [List.set_append_right _ _ (le_refl _)]
        simp only [Nat.sub_self, List.set_cons_zero]
        exact ih

theorem storeFrom_replicate {α : Type} (xs : List (Option α)) :
    storeFrom (List.replicate xs.length none) 0 xs = xs := by
  have := storeFrom_split xs [] []
  simpa using this

theorem CREATE_eq_convertMembers : ∀ (fs : CFields) (path : List Nat) (j : Nat)
    (vs : NativeFields fs) (i : Nat) (m : List (Option AGENT_DATA_TYPE)) (w : World),
    CREATE_AGENT_DATA_TYPE fs path j vs AGENT_DATA_TYPES_OK i m w =
      ((if (convertMembers fs path j vs w).1 = fs.length then AGENT_DATA_TYPES_OK
        else AGENT_DATA_TYPES_ERROR),
       i + (convertMembers fs path j vs w).1,
       storeFrom m i (convertMembers fs path j vs w).2.1,
       (convertMembers fs path j vs w).2.2)
  | .nil, _, _, _, _, _, _ => by
      simp [CREATE_AGENT_DATA_TYPE, convertMembers, CFields.length, storeFrom]
  | .cons t _ rest, path, j, (v, vs), i, m, w => by
      simp only [CREATE_AGENT_DATA_TYPE, convertMembers, if_true, CFields.length]
      by_cases hok : (ToAGENT_DATA_TYPE t (path ++ [j]) v
          (w.log (.ToAGENT_DATA_TYPE (path ++ [j])))).1 = AGENT_DATA_TYPES_OK
      · simp only [hok, if_true]
        rw [CREATE_eq_convertMembers rest path (j + 1) vs]
        simp only [storeFrom, Nat.add_right_cancel_iff, Prod.mk.injEq, true_and, and_true]
        refine ⟨by omega, ?_⟩
        generalize (ToAGENT_DATA_TYPE t (path ++ [j]) v
          (w.log (.ToAGENT_DATA_TYPE (path ++ [j])))).2.1 = o
        cases o <;> rfl
      · simp only [hok, if_false]
        rw [CREATE_error]
        simp only [storeFrom]
        rw [if_neg (by decide), if_neg (by omega)]
        generalize (ToAGENT_DATA_TYPE t (path ++ [j]) v
          (w.log (.ToAGENT_DATA_TYPE (path ++ [j])))).2.1 = o
        cases o <;> rfl

theorem convertMembers_le : ∀ (fs : CFields) (path : List Nat) (j : Nat)
    (vs : NativeFields fs) (w : World), (convertMembers fs path j vs w).1 ≤ fs.length
  | .nil, _, _, _, _ => by simp [convertMembers]
  | .cons t _ rest, path, j, (v, vs), w => by
      simp only [convertMembers, CFields.length]
      split
      · have := convertMembers_le rest path (j + 1) vs
          (ToAGENT_DATA_TYPE t (path ++ [j]) v (w.log (.ToAGENT_DATA_TYPE (path ++ [j])))).2.2
        simp only; omega
      · simp

theorem convertMembers_length : ∀ (fs : CFields) (path : List Nat) (j : Nat)
    (vs : NativeFields fs) (w : World), (convertMembers fs path j vs w).1 = fs.length →
    (convertMembers fs path j vs w).2.1.length = fs.length
  | .nil, _, _, _, _, _ => by simp [convertMembers, CFields.length]
  | .cons t _ rest, path, j, (v, vs), w, h => by
      simp only [convertMembers, CFields.length] at h ⊢
      split at h
      · rename_i hok
        simp only [hok, if_true, List.length_cons, Nat.add_right_cancel_iff]
        exact convertMembers_length rest path (j + 1) vs _ (by simpa using h)
      · simp at h

theorem destroyMembers_trace : ∀ (n : Nat) (w : World) (j : Nat),
    (destroyMembers w j n).trace =
      w.trace ++ (List.range' j n).map Event.Destroy_AGENT_DATA_TYPE
  | 0, _, _ => by simp [destroyMembers]
  | n + 1, w, j => by
      rw [destroyMembers, destroyMembers_trace n]
      simp [World.log, List.range'_succ]

theorem Create_from_Members_trace (name : String) (n : Nat) (ns : List (Option String))
    (vs : List (Option AGENT_DATA_TYPE)) (w : World) :
    (Create_AGENT_DATA_TYPE_from_Members name n ns vs w).2.2.trace = w.trace := by
  unfold Create_AGENT_DATA_TYPE_from_Members
  simp only
  split
  · rfl
  · split
    · have hb := request_trace w
      rcases hr : w.request with ⟨b, w1⟩
      rw [hr] at hb
      cases b <;> exact hb
    · rfl

theorem MU_IF_eq_max (n : Nat) : MU_IF n n 1 = max n 1 := by
  unfold MU_IF
  split <;> omega

theorem replicate_max {α : Type} (n : Nat) (x : α) :
    List.replicate (max n 1) x = List.replicate n x ++ List.replicate (1 - n) x := by
  rw [← List.replicate_add]
  congr 1
  omega

/-- What `ToAGENT_DATA_TYPE_<struct>` does, in terms of the conversions of
the members and of the call of the constructor. -/
theorem To_struct_eq (name : String) (fs : CFields) (path : List Nat)
    (value : NativeFields fs) (w : World) :
    ToAGENT_DATA_TYPE (.struct name fs) path value w =
      if (convertMembers fs path 0 value w).1 = fs.length then
        ((if (constructorCall name fs (convertMembers fs path 0 value w).2.1
              (convertMembers fs path 0 value w).2.2).1 = AGENT_DATA_TYPES_OK
          then AGENT_DATA_TYPES_OK else AGENT_DATA_TYPES_ERROR),
         (constructorCall name fs (convertMembers fs path 0 value w).2.1
              (convertMembers fs path 0 value w).2.2).2.1,
         destroyMembers (constructorCall name fs (convertMembers fs path 0 value w).2.1
              (convertMembers fs path 0 value w).2.2).2.2 0 fs.length)
      else
        (AGENT_DATA_TYPES_ERROR, none,
          destroyMembers (convertMembers fs path 0 value w).2.2 0
            (convertMembers fs path 0 value w).1) := by
  have hcount : MU_IF (MU_DIV2 (MU_COUNT_ARG fs)) (MU_DIV2 (MU_COUNT_ARG fs)) 1 =
      max fs.length 1 := by
    rw [MU_DIV2_MU_COUNT_ARG, MU_IF_eq_max]
  have hnames : FIELD_AS_STRING fs 0 (List.replicate (max fs.length 1) none) =
      fs.names.map some ++ List.replicate (1 - fs.length) none := by
    rw [FIELD_AS_STRING_eq, replicate_max]
    have := writeFrom_split fs.names [] (List.replicate fs.length none)
      (List.replicate (1 - fs.length) none) (by simp [CFields_length_names])
    simpa using this
  simp only [ToAGENT_DATA_TYPE, hcount, List.length_replicate, hnames,
    CREATE_eq_convertMembers, Nat.zero_add]
  rw [if_neg (by omega)]
  by_cases hall : (convertMembers fs path 0 value w).1 = fs.length
  · have hlen := convertMembers_length fs path 0 value w hall
    have hst : storeFrom (List.replicate (max fs.length 1) none) 0
        (convertMembers fs path 0 value w).2.1 =
        (convertMembers fs path 0 value w).2.1 ++ List.replicate (1 - fs.length) none := by
      rw [replicate_max]
      have := storeFrom_split (convertMembers fs path 0 value w).2.1 []
        (List.replicate (1 - fs.length) none)
      rw [hlen] at this
      simpa using this
    simp only [hall, if_true, hst, constructorCall]
  · simp only [hall, if_false]
    simp

theorem constructorCall_of_pos (name : String) (fs : CFields)
    (values : List (Option AGENT_DATA_TYPE)) (w : World) (hN : 1 ≤ fs.length) :
    constructorCall name fs values w =
      Create_AGENT_DATA_TYPE_from_Members name fs.length (fs.names.map some) values
        (w.log (.Create_AGENT_DATA_TYPE_from_Members name fs.length (fs.names.map some)
          values)) := by
  have h1 : max fs.length 1 = fs.length := by omega
  have h2 : 1 - fs.length = 0 := by omega
  simp [constructorCall, h1, h2]

theorem constructorCall_trace (name : String) (fs : CFields)
    (values : List (Option AGENT_DATA_TYPE)) (w : World) :
    (constructorCall name fs values w).2.2.trace =
      w.trace ++ [.Create_AGENT_DATA_TYPE_from_Members name (max fs.length 1)
        (fs.names.map some ++ List.replicate (1 - fs.length) none)
        (values ++ List.replicate (1 - fs.length) none)] := by
  simp [constructorCall, Create_from_Members_trace, World.log]

/-! ## Lemmas: failing allocations -/

theorem free_request (w : World) (p : Nat) :
    (w.free p).request.1 = w.request.1 := by
  by_cases hp : p = 0
  · simp [World.free, hp]
  · simp only [World.free, hp, if_false, World.request]
    split <;> rfl

theorem malloc_of_fail {w : World} (h : nextAllocationFails w) (c : Block) :
    (w.malloc c).1 = 0 := by
  unfold nextAllocationFails at h
  unfold World.malloc
  rcases hr : w.request with ⟨b, w1⟩
  rw [hr] at h
  simp only at h
  subst h
  rfl

theorem mallocAndStrcpy_s_of_fail {w : World} (h : nextAllocationFails w) (d : Nat)
    (chars : String) :
    ∃ w1, mallocAndStrcpy_s d chars w = (12, d, w1) := by
  have hm := malloc_of_fail h (.chars chars)
  unfold mallocAndStrcpy_s
  rcases hmm : w.malloc (.chars chars) with ⟨p, w1⟩
  rw [hmm] at hm
  simp only at hm
  subst hm
  exact ⟨w1, rfl⟩

theorem request_freed (w : World) : w.request.2.freed = w.freed := by
  unfold World.request; split <;> rfl

theorem malloc_freed (w : World) (c : Block) : (w.malloc c).2.freed = w.freed := by
  have := request_freed w
  unfold World.malloc
  rcases hr : w.request with ⟨b, w1⟩
  rw [hr] at this
  cases b <;> simpa using this

/-! ## Lemmas: models and the registry -/

theorem CFields_ofList_toList : ∀ (l : List (CType × String)), (CFields.ofList l).toList = l
  | [] => rfl
  | (t, n) :: rest => by simp [CFields.ofList, CFields.toList, CFields_ofList_toList rest]

theorem CFields_names_toList : ∀ (fs : CFields), fs.names = fs.toList.map Prod.snd
  | .nil => rfl
  | .cons _ _ rest => by simp [CFields.names, CFields.toList, CFields_names_toList rest]

theorem CFields_length_toList : ∀ (fs : CFields), fs.length = fs.toList.length
  | .nil => rfl
  | .cons _ _ rest => by simp [CFields.length, CFields.toList, CFields_length_toList rest]

theorem EXPAND_MODEL_ARGS_eq : ∀ (elements : List ModelElement),
    EXPAND_MODEL_ARGS elements = elements.filterMap ModelElement.property?
  | [] => rfl
  | e :: rest => by
      cases e <;>
        simp [EXPAND_MODEL_ARGS, TO_AGENT_DT_EXPAND_ELEMENT_ARGS, ModelElement.property?,
          EXPAND_MODEL_ARGS_eq rest]

theorem modelMembers_toList (elements : List ModelElement) :
    (modelMembers elements).toList = elements.filterMap ModelElement.property? := by
  simp [modelMembers, DROP_FIRST_COMMA_FROM_ARGS, CFields_ofList_toList, EXPAND_MODEL_ARGS_eq]

theorem chainFrom_append : ∀ (bs : List (REFLECTION_TYPE × REFLECTED_WHAT)) (k : Nat)
    (b : REFLECTION_TYPE × REFLECTED_WHAT),
    chainFrom k (bs ++ [b]) = chainFrom k bs ++
      [(k + 2 * bs.length + 2, { type := b.1, next := some (k + 2 * bs.length), what := b.2 })]
  | [], k, b => by simp [chainFrom]
  | a :: bs, k, b => by
      have ih := chainFrom_append bs (k + 2) b
      have h1 : k + 2 + 2 * bs.length + 2 = k + 2 * (bs.length + 1) + 2 := by omega
      have h2 : k + 2 + 2 * bs.length = k + 2 * (bs.length + 1) := by omega
      rw [h1, h2] at ih
      show chainFrom k (a :: (bs ++ [b])) = _
      rw [chainFrom, ih]
      rfl

theorem chainFrom_getElem? : ∀ (bs : List (REFLECTION_TYPE × REFLECTED_WHAT)) (k i : Nat),
    (chainFrom k bs)[i]? =
      bs[i]?.map (fun b => (k + 2 * (i + 1), { type := b.1, next := some (k + 2 * i), what := b.2 }))
  | [], _, _ => by simp [chainFrom]
  | b :: bs, k, 0 => by simp [chainFrom]
  | b :: bs, k, i + 1 => by
      simp only [chainFrom, List.getElem?_cons_succ, chainFrom_getElem? bs (k + 2) i]
      have h1 : k + 2 + 2 * (i + 1) = k + 2 * (i + 1 + 1) := by omega
      have h2 : k + 2 + 2 * i = k + 2 * (i + 1) := by omega
      rw [h1, h2]

theorem chainFrom_length : ∀ (bs : List (REFLECTION_TYPE × REFLECTED_WHAT)) (k : Nat),
    (chainFrom k bs).length = bs.length
  | [], _ => rfl
  | _ :: bs, k => by simp [chainFrom, chainFrom_length bs (k + 2)]

theorem chainFrom_symbol_le : ∀ (bs : List (REFLECTION_TYPE × REFLECTED_WHAT)) (k : Nat)
    (d : Nat × REFLECTED_SOMETHING), d ∈ chainFrom k bs → d.1 ≤ k + 2 * bs.length
  | [], _, _, h => by simp [chainFrom] at h
  | _ :: bs, k, d, h => by
      simp only [chainFrom, List.mem_cons] at h
      rcases h with h | h
      · subst h; simp only [List.length_cons]; omega
      · have := chainFrom_symbol_le bs (k + 2) d h
        simp only [List.length_cons]; omega

theorem Registered_reflect {k : Nat} {bs : List (REFLECTION_TYPE × REFLECTED_WHAT)}
    {u : TranslationUnit} (h : Registered k bs u) (type : REFLECTION_TYPE)
    (what : REFLECTED_WHAT) : Registered k (bs ++ [(type, what)]) (reflect type what u) := by
  obtain ⟨hc, hr, ha⟩ := h
  refine ⟨?_, ?_, ?_⟩
  · simp [reflect, TranslationUnit.readCounter, TranslationUnit.define, hc]; omega
  · simp only [reflect, TranslationUnit.readCounter, TranslationUnit.define, hr, hc,
      chainFrom_append, MU_INC, MU_DEC, List.cons_append]
    have h1 : k + 2 * bs.length + 1 + 1 = k + 2 * bs.length + 2 := by omega
    have h2 : k + 2 * bs.length + 1 + 1 - 1 - 1 = k + 2 * bs.length := by omega
    rw [h1, h2]
  · simpa [reflect, TranslationUnit.readCounter, TranslationUnit.define] using ha

theorem REFLECTED_DESIRED_PROPERTY_eq (type : CType) (name modelName : String)
    (callback : Option String) (u : TranslationUnit) :
    REFLECTED_DESIRED_PROPERTY type name modelName callback u =
      reflect REFLECTION_DESIRED_PROPERTY_TYPE
        (.desiredProperty callback ("DesiredPropertyInitialize_" ++ modelName ++ name)
          ("DesiredPropertyDeinitialize_" ++ modelName ++ name) name (MU_TOSTRING type)
          ("FromAGENT_DATA_TYPE_" ++ MU_TOSTRING type)
          { aggregate := modelName, member := name } { type := MU_TOSTRING type } modelName)
        u := by
  cases callback <;>
    simp [REFLECTED_DESIRED_PROPERTY, REFLECTED_DESIRED_PROPERTY_WITH_ON_DESIRED_PROPERTY_CHANGE,
      reflect, TranslationUnit.readCounter, TranslationUnit.define, MU_INC, MU_DEC]

theorem Registered_fields (name : String) : ∀ (fs : CFields) {k : Nat}
    {bs : List (REFLECTION_TYPE × REFLECTED_WHAT)} {u : TranslationUnit}, Registered k bs u →
    ∃ bs1, Registered k (bs ++ bs1) (REFLECTED_FIELDS name fs u) ∧
      bodyEntries bs1 = fs.names.map (fun f => (REFLECTION_FIELD_TYPE, some f))
  | .nil, _, _, _, h => ⟨[], by simpa [REFLECTED_FIELDS] using h, rfl⟩
  | .cons t f rest, _, bs, u, h => by
      obtain ⟨bs1, h1, h2⟩ := Registered_fields name rest
        (Registered_reflect h REFLECTION_FIELD_TYPE (.field f (MU_TOSTRING t) name))
      refine ⟨(REFLECTION_FIELD_TYPE, .field f (MU_TOSTRING t) name) :: bs1, ?_, ?_⟩
      · simpa [REFLECTED_FIELDS, REFLECTED_FIELD] using h1
      · simp [bodyEntries, CFields.names, REFLECTED_WHAT.name] at h2 ⊢
        exact h2

theorem CREATE_MODEL_ELEMENT_eq (modelName : String) (e : ModelElement) (u : TranslationUnit) :
    ∃ what, what.name = some e.name ∧
      CREATE_MODEL_ELEMENT modelName e u = reflect e.kind what u := by
  cases e with
  | MODEL_PROPERTY t n => refine ⟨_, ?_, rfl⟩; rfl
  | MODEL_REPORTED_PROPERTY t n => refine ⟨_, ?_, rfl⟩; rfl
  | MODEL_DESIRED_PROPERTY t n cb =>
    refine ⟨_, ?_, REFLECTED_DESIRED_PROPERTY_eq t n modelName cb u⟩; rfl
  | MODEL_ACTION n ps => refine ⟨_, ?_, rfl⟩; rfl
  | MODEL_METHOD n ps => refine ⟨_, ?_, rfl⟩; rfl

theorem Registered_elements (modelName : String) : ∀ (es : List ModelElement) {k : Nat}
    {bs : List (REFLECTION_TYPE × REFLECTED_WHAT)} {u : TranslationUnit}, Registered k bs u →
    ∃ bs1, Registered k (bs ++ bs1)
        (es.foldl (fun u1 elem => CREATE_MODEL_ELEMENT modelName elem u1) u) ∧
      bodyEntries bs1 = es.map (fun e => (e.kind, some e.name))
  | [], _, _, _, h => ⟨[], by simpa using h, rfl⟩
  | e :: rest, _, bs, u, h => by
      obtain ⟨what, hname, heq⟩ := CREATE_MODEL_ELEMENT_eq modelName e u
      obtain ⟨bs1, h1, h2⟩ := Registered_elements modelName rest
        (Registered_reflect h e.kind what)
      refine ⟨(e.kind, what) :: bs1, ?_, ?_⟩
      · simpa [List.foldl, heq] using h1
      · simp [bodyEntries, hname] at h2 ⊢
        exact h2

theorem Registered_declaration (d : Declaration) {k : Nat}
    {bs : List (REFLECTION_TYPE × REFLECTED_WHAT)} {u : TranslationUnit}
    (h : Registered k bs u) :
    ∃ bs1, Registered k (bs ++ bs1) (d.expand u) ∧
      bodyEntries bs1 = d.entries.map (fun e => (e.1, some e.2)) := by
  cases d with
  | struct name fields =>
    obtain ⟨bs1, h1, h2⟩ := Registered_fields name fields
      (Registered_reflect h REFLECTION_STRUCT_TYPE (.struct name))
    refine ⟨(REFLECTION_STRUCT_TYPE, .struct name) :: bs1, ?_, ?_⟩
    · simpa [Declaration.expand, DECLARE_STRUCT, REFLECTED_STRUCT] using h1
    · simp [bodyEntries, Declaration.entries, REFLECTED_WHAT.name] at h2 ⊢
      exact h2
  | model name elements =>
    obtain ⟨bs1, h1, h2⟩ := Registered_elements name elements
      (Registered_reflect h REFLECTION_MODEL_TYPE (.model name))
    refine ⟨(REFLECTION_MODEL_TYPE, .model name) :: bs1, ?_, ?_⟩
    · simpa [Declaration.expand, DECLARE_MODEL, REFLECTED_MODEL] using h1
    · simp [bodyEntries, Declaration.entries, REFLECTED_WHAT.name] at h2 ⊢
      exact h2

theorem Registered_declarations : ∀ (ds : List Declaration) {k : Nat}
    {bs : List (REFLECTION_TYPE × REFLECTED_WHAT)} {u : TranslationUnit}, Registered k bs u →
    ∃ bs1, Registered k (bs ++ bs1) (ds.foldl (fun u1 d => d.expand u1) u) ∧
      bodyEntries bs1 = (entriesOf ds).map (fun e => (e.1, some e.2))
  | [], _, _, _, h => ⟨[], by simpa using h, rfl⟩
  | d :: rest, _, bs, u, h => by
      obtain ⟨bs1, h1, h2⟩ := Registered_declaration d h
      obtain ⟨bs2, h3, h4⟩ := Registered_declarations rest h1
      refine ⟨bs1 ++ bs2, ?_, ?_⟩
      · simpa [List.foldl] using h3
      · simp only [bodyEntries, List.map_append, entriesOf] at h2 h4 ⊢
        rw [h2, h4]

/-- The translation unit after a namespace declared from counter value `k`. -/
theorem declareNamespace_eq (schemaNamespace : String) (ds : List Declaration) (k : Nat) :
    ∃ bs, bodyEntries bs = (entriesOf ds).map (fun e => (e.1, some e.2)) ∧
      declareNamespace schemaNamespace ds (TranslationUnit.startingAt k) =
        { COUNTER := k + 2 * bs.length + 2,
          REFLECTED :=
            (k, { type := REFLECTION_NOTHING, next := none, what := .nothing }) ::
              chainFrom k bs,
          ALL_REFLECTED := [(schemaNamespace, k + 2 * bs.length)] } := by
  have h0 : Registered k [] (BEGIN_NAMESPACE schemaNamespace (TranslationUnit.startingAt k)) :=
    ⟨rfl, rfl, rfl⟩
  obtain ⟨bs, ⟨hc, hr, ha⟩, he⟩ := Registered_declarations ds h0
  refine ⟨bs, he, ?_⟩
  simp only [List.nil_append] at hc hr ha
  simp only [declareNamespace, END_NAMESPACE, REFLECTED_LIST_HEAD, TranslationUnit.readCounter,
    hc, hr, ha, MU_DEC, List.nil_append]
  rfl

theorem walk_chain (k : Nat) (bs : List (REFLECTION_TYPE × REFLECTED_WHAT)) :
    ∀ (extra : List (Nat × REFLECTED_SOMETHING)) (fuel : Nat), bs.length + 1 ≤ fuel →
    walk ((k, { type := REFLECTION_NOTHING, next := none, what := .nothing }) ::
        (chainFrom k bs ++ extra)) fuel (some (k + 2 * bs.length)) =
      ((chainFrom k bs).map (fun d => d.2)).reverse ++
        [{ type := REFLECTION_NOTHING, next := none, what := .nothing }] := by
  induction bs using List.reverseRecOn with
  | nil =>
    intro extra fuel hf
    obtain ⟨f, rfl⟩ : ∃ f, fuel = f + 1 := ⟨fuel - 1, by simp at hf; omega⟩
    cases f <;> simp [walk, lookupReflected, chainFrom]
  | append_singleton bs b ih =>
    intro extra fuel hf
    obtain ⟨f, rfl⟩ : ∃ f, fuel = f + 1 := ⟨fuel - 1, by omega⟩
    simp only [List.length_append, List.length_singleton] at hf ⊢
    have hlook : lookupReflected
        ((k, { type := REFLECTION_NOTHING, next := none, what := .nothing }) ::
          (chainFrom k (bs ++ [b]) ++ extra)) (k + 2 * (bs.length + 1)) =
        some { type := b.1, next := some (k + 2 * bs.length), what := b.2 } := by
      rw [chainFrom_append]
      unfold lookupReflected
      rw [List.find?_cons_of_neg _ (by simp)]
      rw [List.append_assoc, List.find?_append]
      have hnone : (chainFrom k bs).find? (fun d => d.1 == k + 2 * (bs.length + 1)) = none := by
        rw [List.find?_eq_none]
        intro d hd
        have := chainFrom_symbol_le bs k d hd
        simp; omega
      rw [hnone]
      have : k + 2 * bs.length + 2 = k + 2 * (bs.length + 1) := by omega
      simp [this]
    rw [walk, hlook]
    simp only
    have := ih ([(k + 2 * bs.length + 2,
      { type := b.1, next := some (k + 2 * bs.length), what := b.2 })] ++ extra) f (by omega)
    rw [chainFrom_append, List.append_assoc, this]
    simp

/-! ## Lemmas: initialisation and release -/

mutual
theorem GlobalInitialize_eq_zero (P : Platform) : ∀ (t : CType) (d : Native t),
    GlobalInitialize P t d = zeroValue P t
  | .double, _ => rfl
  | .float, _ => rfl
  | .int, _ => rfl
  | .long, _ => rfl
  | .int8_t, _ => rfl
  | .uint8_t, _ => rfl
  | .int16_t, _ => rfl
  | .int32_t, _ => rfl
  | .int64_t, _ => rfl
  | .bool, _ => rfl
  | .ascii_char_ptr, _ => rfl
  | .ascii_char_ptr_no_quotes, _ => rfl
  | .EDM_DATE_TIME_OFFSET, _ => rfl
  | .EDM_GUID, _ => rfl
  | .EDM_BINARY, _ => rfl
  | .struct _ fs, d => by
      simp only [GlobalInitialize, zeroValue]
      exact GLOBAL_INITIALIZE_eq_zero P fs d
theorem GLOBAL_INITIALIZE_eq_zero (P : Platform) : ∀ (fs : CFields) (d : NativeFields fs),
    GLOBAL_INITIALIZE_STRUCT_FIELD P fs d = zeroFields P fs
  | .nil, _ => rfl
  | .cons t _ rest, (d, ds) => by
      simp only [GLOBAL_INITIALIZE_STRUCT_FIELD, zeroFields, GlobalInitialize_eq_zero P t d,
        GLOBAL_INITIALIZE_eq_zero P rest ds]
end

theorem release_zero (P : Platform) (t : CType) (ht : t.isPrimitive = true) (path : List Nat)
    (w : World) :
    GlobalDeinitialize t (zeroValue P t) w = (zeroValue P t, w) ∧
    destroyLocalParameter t path (zeroValue P t) w = (zeroValue P t, w) := by
  cases t <;> first
    | (simp [CType.isPrimitive] at ht; done)
    | exact ⟨rfl, rfl⟩

theorem malloc_spec (w : World) (c : Block) :
    (nextAllocationFails w ∧ (w.malloc c).1 = 0 ∧ (w.malloc c).2.blocks = w.blocks ∧
      (w.malloc c).2.freed = w.freed) ∨
    ((w.malloc c).1 = w.blocks.length + 1 ∧ (w.malloc c).2.blocks = w.blocks ++ [c] ∧
      (w.malloc c).2.freed = w.freed) := by
  have hb := request_blocks w
  have hf := request_freed w
  unfold nextAllocationFails World.malloc
  rcases hr : w.request with ⟨b, w1⟩
  rw [hr] at hb hf
  simp only at hb hf
  cases b
  · left; exact ⟨rfl, rfl, hb, hf⟩
  · right; simp [hb, hf]

theorem stringAt_pos {blocks : List Block} {p : Nat} {s : String}
    (h : stringAt blocks p = some s) : p ≠ 0 ∧ p ≤ blocks.length := by
  unfold stringAt blockAt at h
  by_cases hp : p = 0
  · simp [hp] at h
  · refine ⟨hp, ?_⟩
    simp only [hp, if_false] at h
    by_contra hlt
    have : blocks.get? (p - 1) = none := by
      rw [List.get?_eq_none]; omega
    rw [this] at h
    simp at h

theorem From_ascii_char_ptr_replace (chars old : String) (dest : Nat) (w : World)
    (hold : w.string dest = some old) :
    FromAGENT_DATA_TYPE_ascii_char_ptr (.edmString chars) dest w =
      FromAGENT_DATA_TYPE_ascii_char_ptr (.edmString chars) 0 (w.free dest) ∧
    (FromAGENT_DATA_TYPE_ascii_char_ptr (.edmString chars) dest w).2.2.freed = w.freed ++ [dest] ∧
    (FromAGENT_DATA_TYPE_ascii_char_ptr (.edmString chars) dest w).2.1 ≠ dest ∧
    ((FromAGENT_DATA_TYPE_ascii_char_ptr (.edmString chars) dest w).1 = AGENT_DATA_TYPES_OK →
      (FromAGENT_DATA_TYPE_ascii_char_ptr (.edmString chars) dest w).2.2.string
        (FromAGENT_DATA_TYPE_ascii_char_ptr (.edmString chars) dest w).2.1 = some chars) := by
  obtain ⟨hd, hle⟩ := stringAt_pos hold
  have hfree : (w.free dest).freed = w.freed ++ [dest] ∧ (w.free dest).blocks = w.blocks := by
    simp [World.free, hd]
  have hm := malloc_spec (w.free dest) (.chars chars)
  have heq : FromAGENT_DATA_TYPE_ascii_char_ptr (.edmString chars) dest w =
      FromAGENT_DATA_TYPE_ascii_char_ptr (.edmString chars) 0 (w.free dest) := by
    simp [FromAGENT_DATA_TYPE_ascii_char_ptr, hd]
  refine ⟨heq, ?_⟩
  rw [heq]
  rcases hmm : (w.free dest).malloc (.chars chars) with ⟨p, w1⟩
  rw [hmm] at hm
  simp only at hm
  rcases hm with ⟨-, h1, h2, h3⟩ | ⟨h1, h2, h3⟩
  · subst h1
    simp [FromAGENT_DATA_TYPE_ascii_char_ptr, mallocAndStrcpy_s, hmm, World.log, h3, hfree.1]
    exact fun h => hd h.symm
  · subst h1
    have hne : w.blocks.length + 1 ≠ 0 := by omega
    simp only [FromAGENT_DATA_TYPE_ascii_char_ptr, mallocAndStrcpy_s, hmm, hfree.2, ne_eq,
      not_true_eq_false, if_false]
    refine ⟨by rw [h3, hfree.1], by omega, fun _ => ?_⟩
    simp only [World.string, h2, hfree.2]
    exact stringAt_last _ _

theorem From_ascii_char_ptr_no_quotes_replace (chars old : String) (dest : Nat) (w : World)
    (hold : w.string dest = some old) :
    FromAGENT_DATA_TYPE_ascii_char_ptr_no_quotes (.edmStringNoQuotes chars) dest w =
      FromAGENT_DATA_TYPE_ascii_char_ptr_no_quotes (.edmStringNoQuotes chars) 0 (w.free dest) ∧
    (FromAGENT_DATA_TYPE_ascii_char_ptr_no_quotes (.edmStringNoQuotes chars) dest w).2.2.freed = w.freed ++ [dest] ∧
    (FromAGENT_DATA_TYPE_ascii_char_ptr_no_quotes (.edmStringNoQuotes chars) dest w).2.1 ≠ dest ∧
    ((FromAGENT_DATA_TYPE_ascii_char_ptr_no_quotes (.edmStringNoQuotes chars) dest w).1 = AGENT_DATA_TYPES_OK →
      (FromAGENT_DATA_TYPE_ascii_char_ptr_no_quotes (.edmStringNoQuotes chars) dest w).2.2.string
        (FromAGENT_DATA_TYPE_ascii_char_ptr_no_quotes (.edmStringNoQuotes chars) dest w).2.1 = some chars) := by
  obtain ⟨hd, hle⟩ := stringAt_pos hold
  have hfree : (w.free dest).freed = w.freed ++ [dest] ∧ (w.free dest).blocks = w.blocks := by
    simp [World.free, hd]
  have hm := malloc_spec (w.free dest) (.chars chars)
  have heq : FromAGENT_DATA_TYPE_ascii_char_ptr_no_quotes (.edmStringNoQuotes chars) dest w =
      FromAGENT_DATA_TYPE_ascii_char_ptr_no_quotes (.edmStringNoQuotes chars) 0 (w.free dest) := by
    simp [FromAGENT_DATA_TYPE_ascii_char_ptr_no_quotes, hd]
  refine ⟨heq, ?_⟩
  rw [heq]
  rcases hmm : (w.free dest).malloc (.chars chars) with ⟨p, w1⟩
  rw [hmm] at hm
  simp only at hm
  rcases hm with ⟨-, h1, h2, h3⟩ | ⟨h1, h2, h3⟩
  · subst h1
    simp [FromAGENT_DATA_TYPE_ascii_char_ptr_no_quotes, mallocAndStrcpy_s, hmm, World.log, h3, hfree.1]
    exact fun h => hd h.symm
  · subst h1
    have hne : w.blocks.length + 1 ≠ 0 := by omega
    simp only [FromAGENT_DATA_TYPE_ascii_char_ptr_no_quotes, mallocAndStrcpy_s, hmm, hfree.2, ne_eq,
      not_true_eq_false, if_false]
    refine ⟨by rw [h3, hfree.1], by omega, fun _ => ?_⟩
    simp only [World.string, h2, hfree.2]
    exact stringAt_last _ _

mutual
theorem destroy_trace : ∀ (t : CType) (path : List Nat) (v : Native t) (w : World),
    (destroyLocalParameter t path v w).2.trace = w.trace ++ releaseCalls t path
  | .double, _, _, w => by simp [destroyLocalParameter, releaseCalls]
  | .float, _, _, w => by simp [destroyLocalParameter, releaseCalls]
  | .int, _, _, w => by simp [destroyLocalParameter, releaseCalls]
  | .long, _, _, w => by simp [destroyLocalParameter, releaseCalls]
  | .int8_t, _, _, w => by simp [destroyLocalParameter, releaseCalls]
  | .uint8_t, _, _, w => by simp [destroyLocalParameter, releaseCalls]
  | .int16_t, _, _, w => by simp [destroyLocalParameter, releaseCalls]
  | .int32_t, _, _, w => by simp [destroyLocalParameter, releaseCalls]
  | .int64_t, _, _, w => by simp [destroyLocalParameter, releaseCalls]
  | .bool, _, _, w => by simp [destroyLocalParameter, releaseCalls]
  | .ascii_char_ptr, _, v, w => by
      simp [destroyLocalParameter, releaseCalls, destroyLocalParameterascii_char_ptr, free_trace]
  | .ascii_char_ptr_no_quotes, _, v, w => by
      simp [destroyLocalParameter, releaseCalls, destroyLocalParameterascii_char_ptr_no_quotes,
        free_trace]
  | .EDM_DATE_TIME_OFFSET, _, _, w => by simp [destroyLocalParameter, releaseCalls]
  | .EDM_GUID, _, _, w => by simp [destroyLocalParameter, releaseCalls]
  | .EDM_BINARY, _, v, w => by
      simp [destroyLocalParameter, releaseCalls, destroyLocalParameterEDM_BINARY, free_trace]
  | .struct _ fs, path, v, w => by
      simp only [destroyLocalParameter, releaseCalls]
      exact UNBUILD_trace fs path 0 v w
theorem UNBUILD_trace : ∀ (fs : CFields) (path : List Nat) (j : Nat) (v : NativeFields fs)
    (w : World),
    (UNBUILD_DESTINATION_FIELD fs path j v w).2.trace = w.trace ++ fieldReleaseCalls fs path j
  | .nil, _, _, _, w => by simp [UNBUILD_DESTINATION_FIELD, fieldReleaseCalls]
  | .cons t _ rest, path, j, (v, vs), w => by
      simp only [UNBUILD_DESTINATION_FIELD, fieldReleaseCalls]
      rw [UNBUILD_trace rest path (j + 1) vs, destroy_trace t (path ++ [j]) v]
      simp [World.log]
end

mutual
theorem releaseCalls_deep : ∀ (t : CType) (path : List Nat), 1 ≤ path.length →
    ∀ e ∈ releaseCalls t path, e.deep
  | .double, _, _, e, he => by simp [releaseCalls] at he
  | .float, _, _, e, he => by simp [releaseCalls] at he
  | .int, _, _, e, he => by simp [releaseCalls] at he
  | .long, _, _, e, he => by simp [releaseCalls] at he
  | .int8_t, _, _, e, he => by simp [releaseCalls] at he
  | .uint8_t, _, _, e, he => by simp [releaseCalls] at he
  | .int16_t, _, _, e, he => by simp [releaseCalls] at he
  | .int32_t, _, _, e, he => by simp [releaseCalls] at he
  | .int64_t, _, _, e, he => by simp [releaseCalls] at he
  | .bool, _, _, e, he => by simp [releaseCalls] at he
  | .ascii_char_ptr, _, _, e, he => by simp [releaseCalls] at he
  | .ascii_char_ptr_no_quotes, _, _, e, he => by simp [releaseCalls] at he
  | .EDM_DATE_TIME_OFFSET, _, _, e, he => by simp [releaseCalls] at he
  | .EDM_GUID, _, _, e, he => by simp [releaseCalls] at he
  | .EDM_BINARY, _, _, e, he => by simp [releaseCalls] at he
  | .struct _ fs, path, hp, e, he => by
      simp only [releaseCalls] at he
      exact fieldReleaseCalls_deep fs path 0 hp e he
theorem fieldReleaseCalls_deep : ∀ (fs : CFields) (path : List Nat) (j : Nat),
    1 ≤ path.length → ∀ e ∈ fieldReleaseCalls fs path j, e.deep
  | .nil, _, _, _, e, he => by simp [fieldReleaseCalls] at he
  | .cons t _ rest, path, j, hp, e, he => by
      simp only [fieldReleaseCalls, List.mem_cons, List.mem_append] at he
      rcases he with he | he | he
      · subst he; simp [Event.deep]; omega
      · exact releaseCalls_deep t (path ++ [j]) (by simp) e he
      · exact fieldReleaseCalls_deep rest path (j + 1) hp e he
end

theorem destroyedParams_append (a b : List Event) :
    destroyedParams (a ++ b) = destroyedParams a ++ destroyedParams b := by
  simp [destroyedParams]

theorem fieldReleaseCalls_top : ∀ (fs : CFields) (j : Nat),
    destroyedParams (fieldReleaseCalls fs [] j) = List.range' j fs.length
  | .nil, _ => by simp [fieldReleaseCalls, destroyedParams, CFields.length]
  | .cons t _ rest, j => by
      have hdeep := releaseCalls_deep t [j] (by simp)
      have h0 := (deep_projections _ hdeep).2.1
      have ih := fieldReleaseCalls_top rest (j + 1)
      simp only [fieldReleaseCalls, List.nil_append, CFields.length]
      rw [show (Event.destroyLocalParameter [j] ::
          (releaseCalls t [j] ++ fieldReleaseCalls rest [] (j + 1))) =
        [Event.destroyLocalParameter [j]] ++
          (releaseCalls t [j] ++ fieldReleaseCalls rest [] (j + 1)) from rfl]
      rw [destroyedParams_append, destroyedParams_append, h0, ih]
      simp [destroyedParams, List.range'_succ]

mutual
theorem releaseCalls_shape : ∀ (t : CType) (path : List Nat),
    ∀ e ∈ releaseCalls t path, ∃ p, e = .destroyLocalParameter p ∧ path.length < p.length
  | .double, _, e, he => by simp [releaseCalls] at he
  | .float, _, e, he => by simp [releaseCalls] at he
  | .int, _, e, he => by simp [releaseCalls] at he
  | .long, _, e, he => by simp [releaseCalls] at he
  | .int8_t, _, e, he => by simp [releaseCalls] at he
  | .uint8_t, _, e, he => by simp [releaseCalls] at he
  | .int16_t, _, e, he => by simp [releaseCalls] at he
  | .int32_t, _, e, he => by simp [releaseCalls] at he
  | .int64_t, _, e, he => by simp [releaseCalls] at he
  | .bool, _, e, he => by simp [releaseCalls] at he
  | .ascii_char_ptr, _, e, he => by simp [releaseCalls] at he
  | .ascii_char_ptr_no_quotes, _, e, he => by simp [releaseCalls] at he
  | .EDM_DATE_TIME_OFFSET, _, e, he => by simp [releaseCalls] at he
  | .EDM_GUID, _, e, he => by simp [releaseCalls] at he
  | .EDM_BINARY, _, e, he => by simp [releaseCalls] at he
  | .struct _ fs, path, e, he => by
      simp only [releaseCalls] at he
      exact fieldReleaseCalls_shape fs path 0 e he
theorem fieldReleaseCalls_shape : ∀ (fs : CFields) (path : List Nat) (j : Nat),
    ∀ e ∈ fieldReleaseCalls fs path j, ∃ p, e = .destroyLocalParameter p ∧ path.length < p.length
  | .nil, _, _, e, he => by simp [fieldReleaseCalls] at he
  | .cons t _ rest, path, j, e, he => by
      simp only [fieldReleaseCalls, List.mem_cons, List.mem_append] at he
      rcases he with he | he | he
      · exact ⟨path ++ [j], he, by simp⟩
      · obtain ⟨p, hp, hlt⟩ := releaseCalls_shape t (path ++ [j]) e he
        exact ⟨p, hp, by simp at hlt; omega⟩
      · exact fieldReleaseCalls_shape rest path (j + 1) e he
end

/-! ## Lemmas: descriptors, the argument table and member names -/

theorem lastReflected_reflect (type : REFLECTION_TYPE) (what : REFLECTED_WHAT)
    (u : TranslationUnit) :
    lastReflected (reflect type what u) =
      some { type := type, next := some (u.COUNTER - 1), what := what } := by
  simp [lastReflected, reflect, TranslationUnit.readCounter, TranslationUnit.define, MU_DEC]

theorem MAKE_WRAPPER_ARGUMENT_eq : ∀ (params : CFields),
    MAKE_WRAPPER_ARGUMENT params = argumentPairs params
  | .nil => rfl
  | .cons t n rest => by
      have ih := MAKE_WRAPPER_ARGUMENT_eq rest
      simp only [argumentPairs] at ih
      simp [MAKE_WRAPPER_ARGUMENT, argumentPairs, CFields.toList, ih]

/-- The tokens of the entries of the parameters followed by what comes after
them: every entry but the last is followed by a comma. -/
theorem FOR_EACH_tokens : ∀ (params : CFields), params.length ≤ 64 →
    ∃ ts, MU_FOR_EACH_2_COUNTED_MAKE_WRAPPER_ARGUMENT params = some ts ∧
      ∀ (z : WRAPPER_ARGUMENT),
        (params.length = 0 →
          initializedElements (ts ++ InitializerToken.entry z :: []) = some [z]) ∧
        (1 ≤ params.length →
          initializedElements (ts ++ .comma :: .entry z :: []) =
            some (MAKE_WRAPPER_ARGUMENT params ++ [z]))
  | .nil, _ => ⟨[], rfl, fun z => ⟨fun _ => rfl, fun h => by simp [CFields.length] at h⟩⟩
  | .cons t n rest, h => by
      simp only [CFields.length] at h
      obtain ⟨ts, hts, hspec⟩ := FOR_EACH_tokens rest (by omega)
      by_cases hr : rest.length = 0
      · have hif : MU_IFCOMMA (MU_COUNT_ARG (.cons t n rest)) = some [] := by
          simp [MU_IFCOMMA, MU_COUNT_ARG, CFields.length, hr]
        have hrest : rest = .nil := by
          cases rest with
          | nil => rfl
          | cons _ _ _ => simp [CFields.length] at hr
        subst hrest
        refine ⟨[.entry { type := some (MU_TOSTRING t), name := some n }], ?_, ?_⟩
        · simp [MU_FOR_EACH_2_COUNTED_MAKE_WRAPPER_ARGUMENT, MAKE_WRAPPER_ARGUMENT_N, hif]
        · intro z
          refine ⟨fun h0 => by simp [CFields.length] at h0, fun _ => ?_⟩
          simp [initializedElements, MAKE_WRAPPER_ARGUMENT]
      · have hif : MU_IFCOMMA (MU_COUNT_ARG (.cons t n rest)) = some [.comma] := by
          simp only [MU_IFCOMMA, MU_COUNT_ARG, CFields.length]
          rw [if_neg (by omega), if_pos ⟨by omega, by omega⟩]
        refine ⟨.entry { type := some (MU_TOSTRING t), name := some n } :: .comma :: ts, ?_, ?_⟩
        · simp [MU_FOR_EACH_2_COUNTED_MAKE_WRAPPER_ARGUMENT, MAKE_WRAPPER_ARGUMENT_N, hif, hts]
        · intro z
          refine ⟨fun h0 => by simp [CFields.length] at h0, fun _ => ?_⟩
          have := (hspec z).2 (by omega)
          simp [initializedElements, MAKE_WRAPPER_ARGUMENT, this]

theorem WRAPPERARGUMENTS_tokens_spec (params : CFields) (h : params.length ≤ 63) :
    ∃ ts, WRAPPERARGUMENTS_tokens params = some ts ∧
      initializedElements ts = some (WRAPPERARGUMENTS params) := by
  obtain ⟨ts, hts, hspec⟩ := FOR_EACH_tokens params (by omega)
  by_cases h0 : params.length = 0
  · have hif : MU_IFCOMMA (MU_INC (MU_INC (MU_COUNT_ARG params))) = some [] := by
      simp [MU_IFCOMMA, MU_COUNT_ARG, MU_INC, h0]
    have hp : params = .nil := by
      cases params with
      | nil => rfl
      | cons _ _ _ => simp [CFields.length] at h0
    refine ⟨ts ++ [] ++ [.entry { type := none, name := none }], ?_, ?_⟩
    · simp [WRAPPERARGUMENTS_tokens, hts, hif]
    · have := (hspec { type := none, name := none }).1 h0
      subst hp
      simpa [WRAPPERARGUMENTS, MAKE_WRAPPER_ARGUMENT] using this
  · have hif : MU_IFCOMMA (MU_INC (MU_INC (MU_COUNT_ARG params))) = some [.comma] := by
      simp only [MU_IFCOMMA, MU_COUNT_ARG, MU_INC]
      rw [if_neg (by omega), if_pos ⟨by omega, by omega⟩]
    refine ⟨ts ++ [.comma] ++ [.entry { type := none, name := none }], ?_, ?_⟩
    · simp [WRAPPERARGUMENTS_tokens, hts, hif]
    · have := (hspec { type := none, name := none }).2 (by omega)
      simpa [WRAPPERARGUMENTS] using this

theorem WRAPPERARGUMENTS_tokens_none (params : CFields) (h : 64 ≤ params.length) :
    WRAPPERARGUMENTS_tokens params = none := by
  have hif : MU_IFCOMMA (MU_INC (MU_INC (MU_COUNT_ARG params))) = none := by
    simp only [MU_IFCOMMA, MU_COUNT_ARG, MU_INC]
    rw [if_neg (by omega), if_neg (by omega)]
  unfold WRAPPERARGUMENTS_tokens
  rw [hif]
  cases MU_FOR_EACH_2_COUNTED_MAKE_WRAPPER_ARGUMENT params <;> rfl

theorem WRAPPERARGUMENTS_eq (params : CFields) :
    WRAPPERARGUMENTS params = argumentPairs params ++ [{ type := none, name := none }] := by
  simp [WRAPPERARGUMENTS, MAKE_WRAPPER_ARGUMENT_eq]

theorem findMember_mem {source : AGENT_DATA_TYPE} {n : String} {m : String × AGENT_DATA_TYPE}
    (h : findMember source n = some m) : n ∈ source.memberNames := by
  unfold findMember at h
  have h1 := List.find?_some h
  have h2 := List.mem_of_find?_eq_some h
  simp only [beq_iff_eq] at h1
  subst h1
  exact List.mem_map_of_mem Prod.fst h2

theorem From_struct_ok (P : Platform) (name : String) (fs : CFields) (source : AGENT_DATA_TYPE)
    (path : List Nat) (dest : NativeFields fs) (w : World)
    (hok : (FromAGENT_DATA_TYPE P (.struct name fs) source path dest w).1 =
      AGENT_DATA_TYPES_OK) :
    source.type = EDM_COMPLEX_TYPE_TYPE ∧ source.nMembers = fs.length ∧
      (convertFields P source path fs 0 dest w).1 = fs.length := by
  simp only [FromAGENT_DATA_TYPE, MU_DIV2_MU_COUNT_ARG] at hok
  by_cases h1 : source.type = EDM_COMPLEX_TYPE_TYPE
  · by_cases h2 : fs.length = source.nMembers
    · simp only [h1, h2, ne_eq, not_true_eq_false, if_false] at hok
      rw [BUILD_eq_convertFields] at hok
      simp only at hok
      refine ⟨h1, h2.symm, ?_⟩
      by_contra hne
      rw [if_neg hne] at hok
      cases hok
    · simp [h1, h2] at hok
  · simp [h1] at hok

/-! ## Lemmas: what the struct and model functions leave unchanged -/

theorem convertFields_frame : ∀ (P : Platform) (fs : CFields) (source : AGENT_DATA_TYPE)
    (path : List Nat) (j : Nat) (ds : NativeFields fs) (w : World),
    (fieldValues fs (convertFields P source path fs j ds w).2.1).drop
        ((convertFields P source path fs j ds w).1 + 1) =
      (fieldValues fs ds).drop ((convertFields P source path fs j ds w).1 + 1)
  | _, .nil, _, _, _, _, _ => by simp [convertFields, fieldValues]
  | P, .cons t name rest, source, path, j, (d, ds), w => by
      simp only [convertFields]
      rcases hm : findMember source name with _ | m
      · rfl
      · simp only
        split
        · simp only [fieldValues, List.drop_succ_cons]
          exact convertFields_frame P rest source path (j + 1) ds _
        · simp [fieldValues]

theorem convertFields_prefix : ∀ (P : Platform) (fs : CFields) (source : AGENT_DATA_TYPE)
    (path : List Nat) (j : Nat) (ds : NativeFields fs) (w : World) (i : Nat),
    i < (convertFields P source path fs j ds w).1 →
    ∃ (t : CType) (n : String) (m : String × AGENT_DATA_TYPE) (old : Native t) (w1 : World),
      fs.toList[i]? = some (t, n) ∧ findMember source n = some m ∧
      (fieldValues fs ds)[i]? = some ⟨t, old⟩ ∧
      (FromAGENT_DATA_TYPE P t m.2 (path ++ [j + i]) old w1).1 = AGENT_DATA_TYPES_OK ∧
      (fieldValues fs (convertFields P source path fs j ds w).2.1)[i]? =
        some ⟨t, (FromAGENT_DATA_TYPE P t m.2 (path ++ [j + i]) old w1).2.1⟩
  | _, .nil, _, _, _, _, _, _, h => by simp [convertFields] at h
  | P, .cons t name rest, source, path, j, (d, ds), w, i, h => by
      simp only [convertFields] at h ⊢
      rcases hm : findMember source name with _ | m
      · rw [hm] at h; simp at h
      · rw [hm] at h
        simp only at h ⊢
        by_cases hok : (FromAGENT_DATA_TYPE P t m.2 (path ++ [j]) d
            (w.log (.FromAGENT_DATA_TYPE (path ++ [j])))).1 = AGENT_DATA_TYPES_OK
        · rw [if_pos hok] at h ⊢
          cases i with
          | zero =>
            exact ⟨t, name, m, d, w.log (.FromAGENT_DATA_TYPE (path ++ [j])),
              by simp [CFields.toList], hm, by simp [fieldValues], by simpa using hok,
              by simp [fieldValues]⟩
          | succ i =>
            obtain ⟨t1, n1, m1, old, w1, h1, h2, h3, h4, h5⟩ :=
              convertFields_prefix P rest source path (j + 1) ds _ i (by simpa using h)
            have hj : j + 1 + i = j + (i + 1) := by omega
            rw [hj] at h4 h5
            exact ⟨t1, n1, m1, old, w1, by simpa [CFields.toList] using h1, h2,
              by simpa [fieldValues] using h3, h4, by simpa [fieldValues] using h5⟩
        · rw [if_neg hok] at h; simp at h

theorem convertFields_calls (P : Platform) (source : AGENT_DATA_TYPE) :
    ∀ (fs : CFields) (j : Nat) (ds : NativeFields fs) (w : World),
    ∃ c, (convertFields P source [] fs j ds w).1 ≤ c ∧
      c ≤ (convertFields P source [] fs j ds w).1 + 1 ∧ c ≤ fs.length ∧
      Calls w (convertFields P source [] fs j ds w).2.2 (List.range' j c) [] []
  | .nil, j, _, w => ⟨0, by simp [convertFields], by simp [convertFields], by simp,
      by simpa [convertFields] using Calls_refl w⟩
  | .cons t name rest, j, (d, ds), w => by
      simp only [convertFields]
      rcases hm : findMember source name with _ | m
      · exact ⟨0, by simp, by simp, by simp, by simpa using Calls_refl w⟩
      · simp only
        have hconv := Calls_trans (Calls_logFrom w j)
          (Calls_of_deep (From_deep P t m.2 [j] d
            (w.log (.FromAGENT_DATA_TYPE [j])) (by simp)))
        simp only [List.nil_append] at hconv ⊢
        split
        · obtain ⟨c, h1, h2, h3, h4⟩ := convertFields_calls P source rest (j + 1) ds
            (FromAGENT_DATA_TYPE P t m.2 [j] d (w.log (.FromAGENT_DATA_TYPE [j]))).2.2
          refine ⟨c + 1, by simpa using h1, by simpa using h2,
            by simp only [CFields.length]; omega, ?_⟩
          have := Calls_trans hconv h4
          simpa [List.range'_succ] using this
        · exact ⟨1, by simp, by simp, by simp [CFields.length], by simpa using hconv⟩

theorem To_struct_no_fields (name : String) : ∀ (fs : CFields), fs.length = 0 →
    ∀ (path : List Nat) (value : NativeFields fs) (w : World),
    ToAGENT_DATA_TYPE (.struct name fs) path value w =
      ((if (Create_AGENT_DATA_TYPE_from_Members name 1 [none] [none]
            (w.log (.Create_AGENT_DATA_TYPE_from_Members name 1 [none] [none]))).1 =
          AGENT_DATA_TYPES_OK then AGENT_DATA_TYPES_OK else AGENT_DATA_TYPES_ERROR),
        (Create_AGENT_DATA_TYPE_from_Members name 1 [none] [none]
            (w.log (.Create_AGENT_DATA_TYPE_from_Members name 1 [none] [none]))).2.1,
        (Create_AGENT_DATA_TYPE_from_Members name 1 [none] [none]
            (w.log (.Create_AGENT_DATA_TYPE_from_Members name 1 [none] [none]))).2.2)
  | .nil, _, path, value, w => by
      simp [ToAGENT_DATA_TYPE, MU_IF, MU_DIV2, MU_COUNT_ARG, CFields.length,
        CREATE_AGENT_DATA_TYPE, FIELD_AS_STRING, destroyMembers]
  | .cons _ _ _, h, _, _, _ => by simp [CFields.length] at h

theorem modelMembers_no_property (elements : List ModelElement)
    (h : ∀ e ∈ elements, e.property? = none) : (modelMembers elements).length = 0 := by
  rw [CFields_length_toList, modelMembers_toList]
  simp only [List.length_eq_zero, List.filterMap_eq_nil_iff]
  exact h

theorem wrapSigned_spec (w : Nat) (v : Int) :
    (2 : Int) ^ w ∣ wrapSigned w v - v ∧
    (1 ≤ w → -(2 : Int) ^ (w - 1) ≤ wrapSigned w v ∧ wrapSigned w v < (2 : Int) ^ (w - 1)) := by
  unfold wrapSigned
  constructor
  · have h := Int.dvd_sub_of_emod_eq (rfl : (v + 2 ^ (w - 1)) % 2 ^ w = (v + 2 ^ (w - 1)) % 2 ^ w)
    have heq : (v + 2 ^ (w - 1)) % 2 ^ w - 2 ^ (w - 1) - v =
        -((v + 2 ^ (w - 1)) - (v + 2 ^ (w - 1)) % 2 ^ w) := by ring
    rw [heq]
    exact (Int.dvd_neg).mpr h
  · intro hw
    have hpow : (2 : Int) ^ w = 2 * 2 ^ (w - 1) := by
      obtain ⟨k, rfl⟩ : ∃ k, w = k + 1 := ⟨w - 1, by omega⟩
      simp [pow_succ, mul_comm]
    have hpos : (0 : Int) < 2 ^ (w - 1) := by positivity
    have h1 := Int.emod_nonneg (v + 2 ^ (w - 1)) (by omega : (2 : Int) ^ w ≠ 0)
    have h2 := Int.emod_lt_of_pos (v + 2 ^ (w - 1)) (by omega : (0 : Int) < 2 ^ w)
    omega

theorem From_ok_or_error (P : Platform) (t : CType) (ht : t.isPrimitive = true)
    (g : AGENT_DATA_TYPE) (path : List Nat) (out : Native t) (w : World)
    (h : g.type = expectedTag t) :
    (FromAGENT_DATA_TYPE P t g path out w).1 = AGENT_DATA_TYPES_OK ∨
      (FromAGENT_DATA_TYPE P t g path out w).1 = AGENT_DATA_TYPES_ERROR := by
  cases t with
  | struct n fs => simp [CType.isPrimitive] at ht
  | ascii_char_ptr =>
    have := (From_ascii_char_ptr_tag g out w).2
    simpa [FromAGENT_DATA_TYPE, expectedTag, h] using this
  | ascii_char_ptr_no_quotes =>
    have := (From_ascii_char_ptr_no_quotes_tag g out w).2
    simpa [FromAGENT_DATA_TYPE, expectedTag, h] using this
  | EDM_BINARY =>
    have := (From_EDM_BINARY_tag g out w).2
    simpa [FromAGENT_DATA_TYPE, expectedTag, h] using this
  | _ =>
    revert h
    cases g <;> simp [FromAGENT_DATA_TYPE, expectedTag, AGENT_DATA_TYPE.type,
      FromAGENT_DATA_TYPE_double, FromAGENT_DATA_TYPE_float, FromAGENT_DATA_TYPE_int,
      FromAGENT_DATA_TYPE_long, FromAGENT_DATA_TYPE_int8_t, FromAGENT_DATA_TYPE_uint8_t,
      FromAGENT_DATA_TYPE_int16_t, FromAGENT_DATA_TYPE_int32_t, FromAGENT_DATA_TYPE_int64_t,
      FromAGENT_DATA_TYPE_bool, FromAGENT_DATA_TYPE_EDM_DATE_TIME_OFFSET,
      FromAGENT_DATA_TYPE_EDM_GUID]

theorem GlobalInitialize_model_eq (P : Platform) : ∀ (elements : List ModelElement)
    (v : NativeFields (modelMembers elements)),
    fieldValues _ (GlobalInitialize_model P elements v) =
      initializeWhere P (reportedFlags elements) (fieldValues _ v)
  | [], v => by
      cases h : fieldValues (modelMembers []) v <;>
        simp [GlobalInitialize_model, reportedFlags, initializeWhere, h]
  | .MODEL_PROPERTY _ _ :: rest, (d, ds) => by
      have ih := GlobalInitialize_model_eq P rest ds
      simp only [GlobalInitialize_model, reportedFlags]
      show _ :: fieldValues _ (GlobalInitialize_model P rest ds) = _
      rw [ih]; rfl
  | .MODEL_REPORTED_PROPERTY _ _ :: rest, (d, ds) => by
      have ih := GlobalInitialize_model_eq P rest ds
      simp only [GlobalInitialize_model, reportedFlags]
      show _ :: fieldValues _ (GlobalInitialize_model P rest ds) = _
      rw [ih]; rfl
  | .MODEL_DESIRED_PROPERTY _ _ _ :: rest, (d, ds) => by
      have ih := GlobalInitialize_model_eq P rest ds
      simp only [GlobalInitialize_model, reportedFlags]
      show _ :: fieldValues _ (GlobalInitialize_model P rest ds) = _
      rw [ih]; rfl
  | .MODEL_ACTION _ _ :: rest, v => by
      simp only [GlobalInitialize_model, reportedFlags]
      exact GlobalInitialize_model_eq P rest v
  | .MODEL_METHOD _ _ :: rest, v => by
      simp only [GlobalInitialize_model, reportedFlags]
      exact GlobalInitialize_model_eq P rest v

theorem GlobalDeinitialize_model_eq : ∀ (elements : List ModelElement)
    (v : NativeFields (modelMembers elements)) (w : World),
    (fieldValues _ (GlobalDeinitialize_model elements v w).1,
        (GlobalDeinitialize_model elements v w).2) =
      releaseWhere (reportedFlags elements) (fieldValues _ v) w
  | [], v, w => by
      cases h : fieldValues (modelMembers []) v <;>
        simp [GlobalDeinitialize_model, reportedFlags, releaseWhere, h]
  | .MODEL_PROPERTY _ _ :: rest, (d, ds), w => by
      have ih := GlobalDeinitialize_model_eq rest ds w
      simp only [GlobalDeinitialize_model, reportedFlags]
      have h1 := congrArg Prod.fst ih
      have h2 := congrArg Prod.snd ih
      refine Prod.ext ?_ ?_
      · exact congrArg (List.cons _) h1
      · exact h2
  | .MODEL_REPORTED_PROPERTY t _ :: rest, (d, ds), w => by
      have ih := GlobalDeinitialize_model_eq rest ds ( GlobalDeinitialize t d w).2
      simp only [GlobalDeinitialize_model, reportedFlags]
      have h1 := congrArg Prod.fst ih
      have h2 := congrArg Prod.snd ih
      refine Prod.ext ?_ ?_
      · exact congrArg (List.cons _) h1
      · exact h2
  | .MODEL_DESIRED_PROPERTY _ _ _ :: rest, (d, ds), w => by
      have ih := GlobalDeinitialize_model_eq rest ds w
      simp only [GlobalDeinitialize_model, reportedFlags]
      have h1 := congrArg Prod.fst ih
      have h2 := congrArg Prod.snd ih
      refine Prod.ext ?_ ?_
      · exact congrArg (List.cons _) h1
      · exact h2
  | .MODEL_ACTION _ _ :: rest, v, w => by
      simp only [GlobalDeinitialize_model, reportedFlags]
      exact GlobalDeinitialize_model_eq rest v w
  | .MODEL_METHOD _ _ :: rest, v, w => by
      simp only [GlobalDeinitialize_model, reportedFlags]
      exact GlobalDeinitialize_model_eq rest v w

theorem initializeWhere_frame (P : Platform) : ∀ (flags : List Bool)
    (xs : List ((t : CType) × Native t)) (i : Nat), flags[i]? = some false →
    (initializeWhere P flags xs)[i]? = xs[i]?
  | [], _, _, h => by simp at h
  | _ :: _, [], _, _ => by simp [initializeWhere]
  | flag :: flags, x :: xs, 0, h => by
      simp only [List.getElem?_cons_zero, Option.some.injEq] at h
      simp [initializeWhere, h]
  | flag :: flags, x :: xs, i + 1, h => by
      simp only [List.getElem?_cons_succ] at h
      simpa [initializeWhere] using initializeWhere_frame P flags xs i h

theorem releaseWhere_frame : ∀ (flags : List Bool) (xs : List ((t : CType) × Native t))
    (w : World) (i : Nat), flags[i]? = some false →
    (releaseWhere flags xs w).1[i]? = xs[i]?
  | [], _, _, _, h => by simp at h
  | _ :: _, [], _, _, _ => by simp [releaseWhere]
  | flag :: flags, x :: xs, w, 0, h => by
      simp only [List.getElem?_cons_zero, Option.some.injEq] at h
      simp [releaseWhere, h]
  | flag :: flags, x :: xs, w, i + 1, h => by
      simp only [List.getElem?_cons_succ] at h
      cases flag
      · simpa [releaseWhere] using releaseWhere_frame flags xs w i h
      · simpa [releaseWhere] using releaseWhere_frame flags xs _ i h

theorem model_no_reported (P : Platform) : ∀ (elements : List ModelElement),
    (∀ e ∈ elements, e.kind ≠ REFLECTION_REPORTED_PROPERTY_TYPE) →
    ∀ (v : NativeFields (modelMembers elements)) (w : World),
    GlobalInitialize_model P elements v = v ∧ GlobalDeinitialize_model elements v w = (v, w)
  | [], _, v, w => ⟨rfl, rfl⟩
  | .MODEL_PROPERTY _ _ :: rest, h, (d, ds), w => by
      obtain ⟨h1, h2⟩ := model_no_reported P rest
        (fun e he => h e (List.mem_cons_of_mem _ he)) ds w
      simp [GlobalInitialize_model, GlobalDeinitialize_model, h1, h2]
  | .MODEL_REPORTED_PROPERTY _ _ :: rest, h, _, _ => by
      exact absurd rfl (h _ (List.mem_cons_self _ _))
  | .MODEL_DESIRED_PROPERTY _ _ _ :: rest, h, (d, ds), w => by
      obtain ⟨h1, h2⟩ := model_no_reported P rest
        (fun e he => h e (List.mem_cons_of_mem _ he)) ds w
      simp [GlobalInitialize_model, GlobalDeinitialize_model, h1, h2]
  | .MODEL_ACTION _ _ :: rest, h, v, w => by
      simp only [GlobalInitialize_model, GlobalDeinitialize_model]
      exact model_no_reported P rest (fun e he => h e (List.mem_cons_of_mem _ he)) v w
  | .MODEL_METHOD _ _ :: rest, h, v, w => by
      simp only [GlobalInitialize_model, GlobalDeinitialize_model]
      exact model_no_reported P rest (fun e he => h e (List.mem_cons_of_mem _ he)) v w

theorem reportedFlags_length : ∀ (elements : List ModelElement),
    (reportedFlags elements).length = (modelMembers elements).length
  | [] => rfl
  | .MODEL_PROPERTY _ _ :: rest => by
      have := reportedFlags_length rest
      simp only [reportedFlags, List.length_cons, this]; rfl
  | .MODEL_REPORTED_PROPERTY _ _ :: rest => by
      have := reportedFlags_length rest
      simp only [reportedFlags, List.length_cons, this]; rfl
  | .MODEL_DESIRED_PROPERTY _ _ _ :: rest => by
      have := reportedFlags_length rest
      simp only [reportedFlags, List.length_cons, this]; rfl
  | .MODEL_ACTION _ _ :: rest => by
      simp only [reportedFlags]; exact reportedFlags_length rest
  | .MODEL_METHOD _ _ :: rest => by
      simp only [reportedFlags]; exact reportedFlags_length rest

/-! ## Lemmas: the allocations of a reverse conversion -/

theorem nextAllocationsSucceed_zero (w : World) : nextAllocationsSucceed 0 w := by
  simp [nextAllocationsSucceed]

theorem nextAllocationsSucceed_add (a b : Nat) (w w1 : World)
    (h1 : w1.oracle = w.oracle.drop a) :
    nextAllocationsSucceed (a + b) w ↔
      nextAllocationsSucceed a w ∧ nextAllocationsSucceed b w1 := by
  unfold nextAllocationsSucceed
  rw [h1, List.take_add]
  simp only [List.mem_append]
  constructor
  · intro h
    exact ⟨fun x hx => h x (Or.inl hx), fun x hx => h x (Or.inr hx)⟩
  · rintro ⟨ha, hb⟩ x (hx | hx)
    · exact ha x hx
    · exact hb x hx

theorem malloc_next (w : World) (c : Block) :
    (nextAllocationsSucceed 1 w →
      w.malloc c = (w.blocks.length + 1, (w.malloc c).2) ∧
      (w.malloc c).2.blocks = w.blocks ++ [c] ∧
      (w.malloc c).2.oracle = w.oracle.drop 1) ∧
    (¬ nextAllocationsSucceed 1 w → (w.malloc c).1 = 0) := by
  rcases w with ⟨⟨blocks, oracle, freed⟩, trace⟩
  cases oracle with
  | nil => simp [nextAllocationsSucceed, World.malloc, World.request]
  | cons b rest =>
    cases b <;> simp [nextAllocationsSucceed, World.malloc, World.request]

theorem From_ascii_char_ptr_next (s : String) (w : World) :
    (nextAllocationsSucceed 1 w →
      FromAGENT_DATA_TYPE_ascii_char_ptr (.edmString s) 0 w =
        (AGENT_DATA_TYPES_OK, w.blocks.length + 1, (w.malloc (.chars s)).2)) ∧
    (¬ nextAllocationsSucceed 1 w →
      (FromAGENT_DATA_TYPE_ascii_char_ptr (.edmString s) 0 w).1 = AGENT_DATA_TYPES_ERROR) := by
  obtain ⟨h1, h2⟩ := malloc_next w (.chars s)
  constructor
  · intro h
    obtain ⟨e, -, -⟩ := h1 h
    rcases hm : w.malloc (.chars s) with ⟨p, w1⟩
    rw [hm] at e
    simp only [Prod.mk.injEq, and_true] at e
    subst e
    simp [FromAGENT_DATA_TYPE_ascii_char_ptr, mallocAndStrcpy_s, hm]
  · intro h
    have e := h2 h
    rcases hm : w.malloc (.chars s) with ⟨p, w1⟩
    rw [hm] at e
    simp only at e
    subst e
    simp [FromAGENT_DATA_TYPE_ascii_char_ptr, mallocAndStrcpy_s, hm]

theorem From_ascii_char_ptr_no_quotes_next (s : String) (w : World) :
    (nextAllocationsSucceed 1 w →
      FromAGENT_DATA_TYPE_ascii_char_ptr_no_quotes (.edmStringNoQuotes s) 0 w =
        (AGENT_DATA_TYPES_OK, w.blocks.length + 1, (w.malloc (.chars s)).2)) ∧
    (¬ nextAllocationsSucceed 1 w →
      (FromAGENT_DATA_TYPE_ascii_char_ptr_no_quotes (.edmStringNoQuotes s) 0 w).1 =
        AGENT_DATA_TYPES_ERROR) := by
  obtain ⟨h1, h2⟩ := malloc_next w (.chars s)
  constructor
  · intro h
    obtain ⟨e, -, -⟩ := h1 h
    rcases hm : w.malloc (.chars s) with ⟨p, w1⟩
    rw [hm] at e
    simp only [Prod.mk.injEq, and_true] at e
    subst e
    simp [FromAGENT_DATA_TYPE_ascii_char_ptr_no_quotes, mallocAndStrcpy_s, hm]
  · intro h
    have e := h2 h
    rcases hm : w.malloc (.chars s) with ⟨p, w1⟩
    rw [hm] at e
    simp only at e
    subst e
    simp [FromAGENT_DATA_TYPE_ascii_char_ptr_no_quotes, mallocAndStrcpy_s, hm]

theorem From_EDM_BINARY_next (b : List Nat) (d : EDM_BINARY) (w : World) :
    (nextAllocationsSucceed 1 w →
      FromAGENT_DATA_TYPE_EDM_BINARY (.edmBinary b) d w =
        (AGENT_DATA_TYPES_OK, { size := b.length, data := w.blocks.length + 1 },
          (w.malloc (.bytes b)).2)) ∧
    (¬ nextAllocationsSucceed 1 w →
      (FromAGENT_DATA_TYPE_EDM_BINARY (.edmBinary b) d w).1 = AGENT_DATA_TYPES_ERROR) := by
  obtain ⟨h1, h2⟩ := malloc_next w (.bytes b)
  constructor
  · intro h
    obtain ⟨e, -, -⟩ := h1 h
    rcases hm : w.malloc (.bytes b) with ⟨p, w1⟩
    rw [hm] at e
    simp only [Prod.mk.injEq, and_true] at e
    subst e
    simp [FromAGENT_DATA_TYPE_EDM_BINARY, hm]
  · intro h
    have e := h2 h
    rcases hm : w.malloc (.bytes b) with ⟨p, w1⟩
    rw [hm] at e
    simp only at e
    subst e
    simp [FromAGENT_DATA_TYPE_EDM_BINARY, hm]

mutual
theorem From_requests (P : Platform) : ∀ (t : CType) (b : List Block) (s : Native t)
    (g : AGENT_DATA_TYPE), content t b s = some g → InRange P t s → WellDeclared t →
    ∀ (path : List Nat) (garbage : Native t) (w2 : World),
      (nextAllocationsSucceed (allocationRequests t) w2 →
        (FromAGENT_DATA_TYPE P t g path (GlobalInitialize P t garbage) w2).1 =
          AGENT_DATA_TYPES_OK ∧
        SameValue t (FromAGENT_DATA_TYPE P t g path (GlobalInitialize P t garbage) w2).2.2.blocks
          (FromAGENT_DATA_TYPE P t g path (GlobalInitialize P t garbage) w2).2.1 b s ∧
        (FromAGENT_DATA_TYPE P t g path (GlobalInitialize P t garbage) w2).2.2.oracle =
          w2.oracle.drop (allocationRequests t) ∧
        ∃ extra, (FromAGENT_DATA_TYPE P t g path (GlobalInitialize P t garbage) w2).2.2.blocks =
          w2.blocks ++ extra) ∧
      (¬ nextAllocationsSucceed (allocationRequests t) w2 →
        (FromAGENT_DATA_TYPE P t g path (GlobalInitialize P t garbage) w2).1 =
          if t.isPrimitive = true then AGENT_DATA_TYPES_ERROR
          else AGENT_DATA_TYPES_INVALID_ARG)
  | .double, _, _, _, hc, _, _, _, _, w2 => by
      simp only [content, Option.some.injEq] at hc; subst hc
      exact ⟨fun _ => ⟨rfl, rfl, rfl, [], by simp [FromAGENT_DATA_TYPE]⟩,
        fun h => absurd (nextAllocationsSucceed_zero w2) h⟩
  | .float, _, _, _, hc, _, _, _, _, w2 => by
      simp only [content, Option.some.injEq] at hc; subst hc
      exact ⟨fun _ => ⟨rfl, rfl, rfl, [], by simp [FromAGENT_DATA_TYPE]⟩,
        fun h => absurd (nextAllocationsSucceed_zero w2) h⟩
  | .int, _, _, _, hc, _, _, _, _, w2 => by
      simp only [content, Option.some.injEq] at hc; subst hc
      exact ⟨fun _ => ⟨rfl, rfl, rfl, [], by simp [FromAGENT_DATA_TYPE]⟩,
        fun h => absurd (nextAllocationsSucceed_zero w2) h⟩
  | .long, _, s, _, hc, hr, _, _, _, w2 => by
      simp only [content, Option.some.injEq] at hc; subst hc
      simp only [InRange] at hr
      refine ⟨fun _ => ⟨rfl, ?_, rfl, [], by simp [FromAGENT_DATA_TYPE]⟩,
        fun h => absurd (nextAllocationsSucceed_zero w2) h⟩
      simp only [SameValue, FromAGENT_DATA_TYPE, FromAGENT_DATA_TYPE_long]
      obtain ⟨h1, h2, h3, h4⟩ := hr
      have hpow : (2 : Int) ^ (P.LONG_BIT - 1) ≤ 2 ^ (64 - 1) :=
        pow_le_pow_right₀ (by norm_num) (by omega)
      have e64 : wrapSigned 64 s = s :=
        wrapSigned_of_inRange (by norm_num) (by omega) (by omega)
      rw [e64]
      exact wrapSigned_of_inRange h1 h3 h4
  | .int8_t, _, _, _, hc, _, _, _, _, w2 => by
      simp only [content, Option.some.injEq] at hc; subst hc
      exact ⟨fun _ => ⟨rfl, rfl, rfl, [], by simp [FromAGENT_DATA_TYPE]⟩,
        fun h => absurd (nextAllocationsSucceed_zero w2) h⟩
  | .uint8_t, _, _, _, hc, _, _, _, _, w2 => by
      simp only [content, Option.some.injEq] at hc; subst hc
      exact ⟨fun _ => ⟨rfl, rfl, rfl, [], by simp [FromAGENT_DATA_TYPE]⟩,
        fun h => absurd (nextAllocationsSucceed_zero w2) h⟩
  | .int16_t, _, _, _, hc, _, _, _, _, w2 => by
      simp only [content, Option.some.injEq] at hc; subst hc
      exact ⟨fun _ => ⟨rfl, rfl, rfl, [], by simp [FromAGENT_DATA_TYPE]⟩,
        fun h => absurd (nextAllocationsSucceed_zero w2) h⟩
  | .int32_t, _, _, _, hc, _, _, _, _, w2 => by
      simp only [content, Option.some.injEq] at hc; subst hc
      exact ⟨fun _ => ⟨rfl, rfl, rfl, [], by simp [FromAGENT_DATA_TYPE]⟩,
        fun h => absurd (nextAllocationsSucceed_zero w2) h⟩
  | .int64_t, _, _, _, hc, _, _, _, _, w2 => by
      simp only [content, Option.some.injEq] at hc; subst hc
      exact ⟨fun _ => ⟨rfl, rfl, rfl, [], by simp [FromAGENT_DATA_TYPE]⟩,
        fun h => absurd (nextAllocationsSucceed_zero w2) h⟩
  | .bool, _, s, _, hc, _, _, _, _, w2 => by
      simp only [content, Option.some.injEq] at hc; subst hc
      refine ⟨fun _ => ⟨rfl, ?_, rfl, [], by simp [FromAGENT_DATA_TYPE]⟩,
        fun h => absurd (nextAllocationsSucceed_zero w2) h⟩
      simp only [SameValue, FromAGENT_DATA_TYPE, FromAGENT_DATA_TYPE_bool]
      cases s <;> simp
  | .ascii_char_ptr, b, s, _, hc, _, _, _, _, w2 => by
      simp only [content, Option.map_eq_some'] at hc
      obtain ⟨str, hstr, rfl⟩ := hc
      obtain ⟨m1, -⟩ := malloc_next w2 (.chars str)
      obtain ⟨f1, f2⟩ := From_ascii_char_ptr_next str w2
      simp only [FromAGENT_DATA_TYPE, GlobalInitialize, GlobalInitialize_ascii_char_ptr, allocationRequests,
        CType.isPrimitive, if_true]
      refine ⟨fun h => ?_, f2⟩
      obtain ⟨-, m2, m3⟩ := m1 h
      rw [f1 h]
      simp only [SameValue, m2]
      exact ⟨trivial, ⟨str, stringAt_last _ _, hstr⟩, m3, [.chars str], rfl⟩
  | .ascii_char_ptr_no_quotes, b, s, _, hc, _, _, _, _, w2 => by
      simp only [content, Option.map_eq_some'] at hc
      obtain ⟨str, hstr, rfl⟩ := hc
      obtain ⟨m1, -⟩ := malloc_next w2 (.chars str)
      obtain ⟨f1, f2⟩ := From_ascii_char_ptr_no_quotes_next str w2
      simp only [FromAGENT_DATA_TYPE, GlobalInitialize, GlobalInitialize_ascii_char_ptr_no_quotes, allocationRequests,
        CType.isPrimitive, if_true]
      refine ⟨fun h => ?_, f2⟩
      obtain ⟨-, m2, m3⟩ := m1 h
      rw [f1 h]
      simp only [SameValue, m2]
      exact ⟨trivial, ⟨str, stringAt_last _ _, hstr⟩, m3, [.chars str], rfl⟩
  | .EDM_DATE_TIME_OFFSET, _, _, _, hc, _, _, _, _, w2 => by
      simp only [content, Option.some.injEq] at hc; subst hc
      exact ⟨fun _ => ⟨rfl, rfl, rfl, [], by simp [FromAGENT_DATA_TYPE]⟩,
        fun h => absurd (nextAllocationsSucceed_zero w2) h⟩
  | .EDM_GUID, _, _, _, hc, _, _, _, _, w2 => by
      simp only [content, Option.some.injEq] at hc; subst hc
      exact ⟨fun _ => ⟨rfl, rfl, rfl, [], by simp [FromAGENT_DATA_TYPE]⟩,
        fun h => absurd (nextAllocationsSucceed_zero w2) h⟩
  | .EDM_BINARY, b, s, _, hc, _, _, _, garbage, w2 => by
      simp only [content, Option.map_eq_some'] at hc
      obtain ⟨bs, hbs, rfl⟩ := hc
      obtain ⟨m1, -⟩ := malloc_next w2 (.bytes bs)
      obtain ⟨f1, f2⟩ := From_EDM_BINARY_next bs (GlobalInitialize P .EDM_BINARY garbage) w2
      simp only [FromAGENT_DATA_TYPE, allocationRequests, CType.isPrimitive, if_true]
      refine ⟨fun h => ?_, f2⟩
      obtain ⟨-, m2, m3⟩ := m1 h
      rw [f1 h]
      simp only [SameValue, m2]
      exact ⟨trivial, ⟨binaryAt_length hbs, bs, binaryAt_last _ _, hbs⟩, m3, [.bytes bs], rfl⟩
  | .struct name fs, b, s, g, hc, hr, hd, path, garbage, w2 => by
      simp only [content] at hc
      split at hc
      · rename_i gs hgs
        split at hc
        · simp at hc
        · rename_i hlen
          simp only [Option.some.injEq] at hc; subst hc
          have hl := contentFields_length fs b s gs hgs
          simp only [WellDeclared] at hd
          simp only [InRange] at hr
          have hkeys : ((fs.names.zip gs).map Prod.fst) = fs.names := by
            apply List.map_fst_zip
            rw [CFields_length_names, hl]
          have hlook : Lookup (.edmComplexType (fs.names.zip gs)) fs gs :=
            lookup_of_mem (by rw [hkeys]; exact hd.1) fs gs hl (fun x hx => hx)
          have hcount : MU_DIV2 (MU_COUNT_ARG fs) =
              (AGENT_DATA_TYPE.edmComplexType (fs.names.zip gs)).nMembers := by
            simp [MU_DIV2, MU_COUNT_ARG, AGENT_DATA_TYPE.nMembers, AGENT_DATA_TYPE.fields,
              CFields_length_names, hl]
          simp only [FromAGENT_DATA_TYPE, GlobalInitialize, AGENT_DATA_TYPE.type, ne_eq,
            not_true_eq_false, if_false, hcount, SameValue, allocationRequests,
            CType.isPrimitive, Bool.false_eq_true]
          exact BUILD_requests P fs b s gs hgs hr hd.2 _ hlook path 0 garbage w2
      · simp at hc
theorem BUILD_requests (P : Platform) : ∀ (fs : CFields) (b : List Block)
    (vs : NativeFields fs) (gs : List AGENT_DATA_TYPE), contentFields fs b vs = some gs →
    InRangeFields P fs vs → WellDeclaredFields fs →
    ∀ (source : AGENT_DATA_TYPE), Lookup source fs gs →
    ∀ (path : List Nat) (j : Nat) (garbage : NativeFields fs) (w2 : World),
      (nextAllocationsSucceed (allocationRequestsFields fs) w2 →
        (BUILD_DESTINATION_FIELD P fs source path j AGENT_DATA_TYPES_OK
          (GLOBAL_INITIALIZE_STRUCT_FIELD P fs garbage) w2).1 = AGENT_DATA_TYPES_OK ∧
        SameFields fs (BUILD_DESTINATION_FIELD P fs source path j AGENT_DATA_TYPES_OK
            (GLOBAL_INITIALIZE_STRUCT_FIELD P fs garbage) w2).2.2.blocks
          (BUILD_DESTINATION_FIELD P fs source path j AGENT_DATA_TYPES_OK
            (GLOBAL_INITIALIZE_STRUCT_FIELD P fs garbage) w2).2.1 b vs ∧
        (BUILD_DESTINATION_FIELD P fs source path j AGENT_DATA_TYPES_OK
          (GLOBAL_INITIALIZE_STRUCT_FIELD P fs garbage) w2).2.2.oracle =
            w2.oracle.drop (allocationRequestsFields fs) ∧
        ∃ extra, (BUILD_DESTINATION_FIELD P fs source path j AGENT_DATA_TYPES_OK
          (GLOBAL_INITIALIZE_STRUCT_FIELD P fs garbage) w2).2.2.blocks = w2.blocks ++ extra) ∧
      (¬ nextAllocationsSucceed (allocationRequestsFields fs) w2 →
        (BUILD_DESTINATION_FIELD P fs source path j AGENT_DATA_TYPES_OK
          (GLOBAL_INITIALIZE_STRUCT_FIELD P fs garbage) w2).1 = AGENT_DATA_TYPES_INVALID_ARG)
  | .nil, _, _, _, _, _, _, _, _, _, _, _, w2 => by
      simp only [BUILD_DESTINATION_FIELD, SameFields, allocationRequestsFields]
      exact ⟨fun _ => ⟨trivial, trivial, rfl, [], by simp⟩,
        fun h => absurd (nextAllocationsSucceed_zero w2) h⟩
  | .cons t n rest, b, (v, vs), gs, hc, hr, hd, source, hl, path, j, (g0, gs0), w2 => by
      simp only [contentFields] at hc
      split at hc
      · rename_i g gs' hg hgs
        simp only [Option.some.injEq] at hc; subst hc
        simp only [Lookup] at hl
        simp only [InRangeFields] at hr
        simp only [WellDeclaredFields] at hd
        obtain ⟨hs1, hf1⟩ := From_requests P t b v g hg hr.1 hd.1 (path ++ [j]) g0
          (w2.log (.FromAGENT_DATA_TYPE (path ++ [j])))
        obtain ⟨hs2, hf2⟩ := BUILD_requests P rest b vs gs' hgs hr.2 hd.2 source
          hl.2 path (j + 1) gs0
          (FromAGENT_DATA_TYPE P t g (path ++ [j]) (GlobalInitialize P t g0)
            (w2.log (.FromAGENT_DATA_TYPE (path ++ [j])))).2.2
        have hlog : ∀ k, nextAllocationsSucceed k (w2.log (.FromAGENT_DATA_TYPE (path ++ [j]))) ↔
            nextAllocationsSucceed k w2 := fun k => Iff.rfl
        simp only [allocationRequestsFields]
        by_cases ha : nextAllocationsSucceed (allocationRequests t) w2
        · obtain ⟨h1, h2, h3, extra1, h4⟩ := hs1 ((hlog _).mpr ha)
          have hsplit := nextAllocationsSucceed_add (allocationRequests t)
            (allocationRequestsFields rest) w2 _ h3
          simp only [BUILD_DESTINATION_FIELD, GLOBAL_INITIALIZE_STRUCT_FIELD, hl.1, h1,
            if_true, decide_True, SameFields]
          constructor
          · intro hall
            obtain ⟨k1, k2, k3, extra2, k4⟩ := hs2 (hsplit.mp hall).2
            refine ⟨k1, ⟨?_, k2⟩, ?_, extra1 ++ extra2, ?_⟩
            · rw [k4]
              exact SameValue_append t _ _ _ _ extra2 h2
            · rw [k3, h3]
              simp [World.log, List.drop_drop, Nat.add_comm]
            · rw [k4, h4]
              simp [World.log]
          · intro hnot
            apply hf2
            intro hb
            exact hnot (hsplit.mpr ⟨ha, hb⟩)
        · have hfail := hf1 (fun h => ha ((hlog _).mp h))
          have hne : (FromAGENT_DATA_TYPE P t g (path ++ [j]) (GlobalInitialize P t g0)
              (w2.log (.FromAGENT_DATA_TYPE (path ++ [j])))).1 ≠ AGENT_DATA_TYPES_OK := by
            rw [hfail]; split <;> decide
          constructor
          · intro hall
            exact absurd (fun x hx => hall x (by
              rw [List.take_add]; exact List.mem_append_left _ hx)) ha
          · intro _
            simp only [BUILD_DESTINATION_FIELD, GLOBAL_INITIALIZE_STRUCT_FIELD, hl.1, hne,
              if_true, decide_False]
            rw [BUILD_not_ok P rest source path (j + 1) _ _ _ (by decide)]
            simp
      · simp at hc
end

theorem DEFINE_LOCAL_PARAMETER_eq_zero (P : Platform) : ∀ (ps : CFields)
    (stack : NativeFields ps), DEFINE_LOCAL_PARAMETER P ps stack = zeroFields P ps
  | .nil, _ => rfl
  | .cons t _ rest, (l, ls) => by
      simp only [DEFINE_LOCAL_PARAMETER, zeroFields, GlobalInitialize_eq_zero P t l,
        DEFINE_LOCAL_PARAMETER_eq_zero P rest ls]

/-! ## The claims -/

/-- C1 as stated fails: the struct `S { int a; ascii_char_ptr b; }` converts
to a record, but when the allocation of the copy of `b` fails the reverse
conversion into a zero-initialised destination returns
`AGENT_DATA_TYPES_INVALID_ARG`, not OK. -/
theorem C1_counterexample :
    (ToAGENT_DATA_TYPE exampleStruct [] exampleValue (widgetWorld [true, true, false])).1 =
        AGENT_DATA_TYPES_OK ∧
      (ToAGENT_DATA_TYPE exampleStruct [] exampleValue (widgetWorld [true, true, false])).2.1 =
        some (.edmComplexType [("a", .edmInt32 5), ("b", .edmString "widget-7")]) ∧
      (FromAGENT_DATA_TYPE examplePlatform exampleStruct
        (.edmComplexType [("a", .edmInt32 5), ("b", .edmString "widget-7")]) []
        (GlobalInitialize examplePlatform exampleStruct exampleValue)
        (ToAGENT_DATA_TYPE exampleStruct [] exampleValue
          (widgetWorld [true, true, false])).2.2).1 = AGENT_DATA_TYPES_INVALID_ARG :=
  ⟨by decide, rfl, by decide⟩

/-- C1 (amended). For every struct declared with `DECLARE_STRUCT` (field
names pairwise distinct, in the structs it nests too) and every value `s` of
it (its `long` fields within the range of `long`) for which
`ToAGENT_DATA_TYPE_<struct>` returns OK with record `r`, take
`FromAGENT_DATA_TYPE_<struct>` applied to `r`, or to any record obtained by
permuting the members of `r`, into a zero-initialised destination. Its
allocation requests are one for each string and each binary field of the
struct, nested fields included. If none of these requests fails, it returns
OK, leaves every destination field equal to the corresponding field of `s`
(strings and binary blobs by content) and has made exactly these requests;
if one of them fails, it returns `AGENT_DATA_TYPES_INVALID_ARG`. -/
theorem C1_struct_round_trip (P : Platform) (name : String) (fs : CFields)
    (hdecl : WellDeclared (.struct name fs)) (s : Native (.struct name fs))
    (hs : InRange P (.struct name fs) s) (path : List Nat) (w w1 : World)
    (r : AGENT_DATA_TYPE)
    (hto : ToAGENT_DATA_TYPE (.struct name fs) path s w = (AGENT_DATA_TYPES_OK, some r, w1))
    (members : List (String × AGENT_DATA_TYPE)) (hperm : members.Perm r.fields)
    (path' : List Nat) (out : Native (.struct name fs)) (w2 : World) :
    (nextAllocationsSucceed (allocationRequests (.struct name fs)) w2 →
      (FromAGENT_DATA_TYPE P (.struct name fs) (.edmComplexType members) path'
          (GlobalInitialize P (.struct name fs) out) w2).1 = AGENT_DATA_TYPES_OK ∧
        SameValue (.struct name fs)
          (FromAGENT_DATA_TYPE P (.struct name fs) (.edmComplexType members) path'
            (GlobalInitialize P (.struct name fs) out) w2).2.2.blocks
          (FromAGENT_DATA_TYPE P (.struct name fs) (.edmComplexType members) path'
            (GlobalInitialize P (.struct name fs) out) w2).2.1 w.blocks s ∧
        (FromAGENT_DATA_TYPE P (.struct name fs) (.edmComplexType members) path'
          (GlobalInitialize P (.struct name fs) out) w2).2.2.oracle =
            w2.oracle.drop (allocationRequests (.struct name fs))) ∧
    (¬ nextAllocationsSucceed (allocationRequests (.struct name fs)) w2 →
      (FromAGENT_DATA_TYPE P (.struct name fs) (.edmComplexType members) path'
          (GlobalInitialize P (.struct name fs) out) w2).1 = AGENT_DATA_TYPES_INVALID_ARG) := by
  have hc := content_of_To hto
  simp only [content] at hc
  split at hc
  · rename_i gs hgs
    split at hc
    · simp at hc
    · simp only [Option.some.injEq] at hc
      subst hc
      simp only [AGENT_DATA_TYPE.fields] at hperm
      have hl := contentFields_length fs w.blocks s gs hgs
      simp only [WellDeclared] at hdecl
      simp only [InRange] at hs
      have hkeys : ((fs.names.zip gs).map Prod.fst) = fs.names := by
        apply List.map_fst_zip
        rw [CFields_length_names, hl]
      have hnd : (members.map Prod.fst).Nodup := by
        have hp : (members.map Prod.fst).Perm fs.names := by
          rw [← hkeys]; exact hperm.map _
        exact hp.nodup_iff.mpr hdecl.1
      have hlook : Lookup (.edmComplexType members) fs gs :=
        lookup_of_mem hnd fs gs hl (fun x hx => hperm.mem_iff.mpr hx)
      have hcount : MU_DIV2 (MU_COUNT_ARG fs) =
          (AGENT_DATA_TYPE.edmComplexType members).nMembers := by
        simp [MU_DIV2, MU_COUNT_ARG, AGENT_DATA_TYPE.nMembers, AGENT_DATA_TYPE.fields,
          hperm.length_eq, CFields_length_names, hl]
      simp only [FromAGENT_DATA_TYPE, GlobalInitialize, AGENT_DATA_TYPE.type, ne_eq,
        not_true_eq_false, if_false, hcount, SameValue, allocationRequests]
      obtain ⟨h1, h2⟩ := BUILD_requests P fs w.blocks s gs hgs hs hdecl.2 _ hlook path' 0
        out w2
      exact ⟨fun h => ⟨(h1 h).1, (h1 h).2.1, (h1 h).2.2.1⟩, h2⟩
  · simp at hc

/-- C1 (amended) at a concrete input: the struct `S { int a; ascii_char_ptr
b; }` with `a = 5` and `b = "widget-7"` converts to the record
`{a: 5, b: "widget-7"}`. The reverse conversion of the record with its
members swapped returns OK and gives `a = 5` and a `b` with the same
characters when the allocation of the copy succeeds, and returns
`AGENT_DATA_TYPES_INVALID_ARG` when it fails. -/
theorem C1_witness :
    ((FromAGENT_DATA_TYPE examplePlatform exampleStruct
          (.edmComplexType [("b", .edmString "widget-7"), ("a", .edmInt32 5)]) []
          (GlobalInitialize examplePlatform exampleStruct exampleValue)
          (widgetWorld [])).1 = AGENT_DATA_TYPES_OK ∧
        SameValue exampleStruct
          (FromAGENT_DATA_TYPE examplePlatform exampleStruct
            (.edmComplexType [("b", .edmString "widget-7"), ("a", .edmInt32 5)]) []
            (GlobalInitialize examplePlatform exampleStruct exampleValue)
            (widgetWorld [])).2.2.blocks
          (FromAGENT_DATA_TYPE examplePlatform exampleStruct
            (.edmComplexType [("b", .edmString "widget-7"), ("a", .edmInt32 5)]) []
            (GlobalInitialize examplePlatform exampleStruct exampleValue)
            (widgetWorld [])).2.1 (widgetWorld []).blocks exampleValue) ∧
      (FromAGENT_DATA_TYPE examplePlatform exampleStruct
          (.edmComplexType [("b", .edmString "widget-7"), ("a", .edmInt32 5)]) []
          (GlobalInitialize examplePlatform exampleStruct exampleValue)
          (widgetWorld [false])).1 = AGENT_DATA_TYPES_INVALID_ARG :=
  ⟨⟨((C1_struct_round_trip examplePlatform "S"
        (.cons .int "a" (.cons .ascii_char_ptr "b" .nil))
        (by simp [WellDeclared, WellDeclaredFields, CFields.names])
        exampleValue (by simp [InRange, InRangeFields]) [] (widgetWorld [])
        (ToAGENT_DATA_TYPE exampleStruct [] exampleValue (widgetWorld [])).2.2
        (.edmComplexType [("a", .edmInt32 5), ("b", .edmString "widget-7")]) rfl
        [("b", .edmString "widget-7"), ("a", .edmInt32 5)] (List.Perm.swap _ _ _)
        [] exampleValue (widgetWorld [])).1
        (by simp [nextAllocationsSucceed, widgetWorld])).1,
      ((C1_struct_round_trip examplePlatform "S"
        (.cons .int "a" (.cons .ascii_char_ptr "b" .nil))
        (by simp [WellDeclared, WellDeclaredFields, CFields.names])
        exampleValue (by simp [InRange, InRangeFields]) [] (widgetWorld [])
        (ToAGENT_DATA_TYPE exampleStruct [] exampleValue (widgetWorld [])).2.2
        (.edmComplexType [("a", .edmInt32 5), ("b", .edmString "widget-7")]) rfl
        [("b", .edmString "widget-7"), ("a", .edmInt32 5)] (List.Perm.swap _ _ _)
        [] exampleValue (widgetWorld [])).1
        (by simp [nextAllocationsSucceed, widgetWorld])).2.1⟩,
    (C1_struct_round_trip examplePlatform "S"
        (.cons .int "a" (.cons .ascii_char_ptr "b" .nil))
        (by simp [WellDeclared, WellDeclaredFields, CFields.names])
        exampleValue (by simp [InRange, InRangeFields]) [] (widgetWorld [])
        (ToAGENT_DATA_TYPE exampleStruct [] exampleValue (widgetWorld [])).2.2
        (.edmComplexType [("a", .edmInt32 5), ("b", .edmString "widget-7")]) rfl
        [("b", .edmString "widget-7"), ("a", .edmInt32 5)] (List.Perm.swap _ _ _)
        [] exampleValue (widgetWorld [false])).2
        (by simp [nextAllocationsSucceed, widgetWorld, allocationRequests,
          allocationRequestsFields, exampleStruct])⟩

/-- C2 as stated fails: the string "widget-7" converts to a generic value,
but when the allocation of the copy fails the reverse conversion into a
zero-initialised destination returns `AGENT_DATA_TYPES_ERROR`, not OK. -/
theorem C2_counterexample :
    (ToAGENT_DATA_TYPE .ascii_char_ptr [] (1 : Nat) (widgetWorld [true, false])).1 =
        AGENT_DATA_TYPES_OK ∧
      (ToAGENT_DATA_TYPE .ascii_char_ptr [] (1 : Nat) (widgetWorld [true, false])).2.1 =
        some (.edmString "widget-7") ∧
      (FromAGENT_DATA_TYPE examplePlatform .ascii_char_ptr (.edmString "widget-7") []
        (GlobalInitialize examplePlatform .ascii_char_ptr (7 : Nat))
        (ToAGENT_DATA_TYPE .ascii_char_ptr [] (1 : Nat) (widgetWorld [true, false])).2.2).1 =
        AGENT_DATA_TYPES_ERROR :=
  ⟨by decide, rfl, by decide⟩

/-- C2 (amended). For every primitive codec `t` and every native value `v`
of it (a `long` within the range of `long`) for which `ToAGENT_DATA_TYPE_t`
succeeds producing `g`, take `FromAGENT_DATA_TYPE_t(g, out)` with `out`
zero-initialised. It requests one allocation, for the copy, when `t` is a
string type or `EDM_BINARY`, and none otherwise. If that request does not
fail, it returns OK, stores a value equal to `v` (scalars, GUIDs and
date-time offsets are equal, strings have the same characters, binary blobs
the same size and bytes) and has made exactly that request; if it fails, the
result is `AGENT_DATA_TYPES_ERROR`. -/
theorem C2_primitive_round_trip (P : Platform) (t : CType) (ht : t.isPrimitive = true)
    (v : Native t) (hv : InRange P t v) (path : List Nat) (w w1 : World)
    (g : AGENT_DATA_TYPE)
    (hto : ToAGENT_DATA_TYPE t path v w = (AGENT_DATA_TYPES_OK, some g, w1))
    (path' : List Nat) (out : Native t) (w2 : World) :
    allocationRequests t ≤ 1 ∧
    (nextAllocationsSucceed (allocationRequests t) w2 →
      (FromAGENT_DATA_TYPE P t g path' (GlobalInitialize P t out) w2).1 =
        AGENT_DATA_TYPES_OK ∧
      SameValue t (FromAGENT_DATA_TYPE P t g path' (GlobalInitialize P t out) w2).2.2.blocks
        (FromAGENT_DATA_TYPE P t g path' (GlobalInitialize P t out) w2).2.1 w.blocks v ∧
      (FromAGENT_DATA_TYPE P t g path' (GlobalInitialize P t out) w2).2.2.oracle =
        w2.oracle.drop (allocationRequests t)) ∧
    (¬ nextAllocationsSucceed (allocationRequests t) w2 →
      (FromAGENT_DATA_TYPE P t g path' (GlobalInitialize P t out) w2).1 =
        AGENT_DATA_TYPES_ERROR) := by
  have hd : WellDeclared t := by
    cases t <;> trivial
  obtain ⟨h1, h2⟩ := From_requests P t w.blocks v g (content_of_To hto) hv hd path' out w2
  refine ⟨?_, fun h => ⟨(h1 h).1, (h1 h).2.1, (h1 h).2.2.1⟩, fun h => ?_⟩
  · cases t <;> first
      | (simp [CType.isPrimitive] at ht; done)
      | simp [allocationRequests]
  · have := h2 h
    rw [if_pos ht] at this
    exact this

/-- C2 (amended) at a concrete input: the string "widget-7" at address 1
round-trips into a fresh block that holds the same characters when the
allocation succeeds, and the result is `AGENT_DATA_TYPES_ERROR` when it
fails. -/
theorem C2_witness :
    ((FromAGENT_DATA_TYPE examplePlatform .ascii_char_ptr (.edmString "widget-7") []
          (GlobalInitialize examplePlatform .ascii_char_ptr (7 : Nat))
          (widgetWorld [])).1 = AGENT_DATA_TYPES_OK ∧
        SameValue .ascii_char_ptr
          (FromAGENT_DATA_TYPE examplePlatform .ascii_char_ptr (.edmString "widget-7") []
            (GlobalInitialize examplePlatform .ascii_char_ptr (7 : Nat))
            (widgetWorld [])).2.2.blocks
          (FromAGENT_DATA_TYPE examplePlatform .ascii_char_ptr (.edmString "widget-7") []
            (GlobalInitialize examplePlatform .ascii_char_ptr (7 : Nat))
            (widgetWorld [])).2.1 (widgetWorld []).blocks (1 : Nat)) ∧
      (FromAGENT_DATA_TYPE examplePlatform .ascii_char_ptr (.edmString "widget-7") []
          (GlobalInitialize examplePlatform .ascii_char_ptr (7 : Nat))
          (widgetWorld [false])).1 = AGENT_DATA_TYPES_ERROR :=
  ⟨⟨((C2_primitive_round_trip examplePlatform .ascii_char_ptr rfl (1 : Nat) trivial []
        (widgetWorld []) (widgetWorld []) (.edmString "widget-7") rfl [] (7 : Nat)
        (widgetWorld [])).2.1 (by simp [nextAllocationsSucceed, widgetWorld])).1,
      ((C2_primitive_round_trip examplePlatform .ascii_char_ptr rfl (1 : Nat) trivial []
        (widgetWorld []) (widgetWorld []) (.edmString "widget-7") rfl [] (7 : Nat)
        (widgetWorld [])).2.1 (by simp [nextAllocationsSucceed, widgetWorld])).2.1⟩,
    (C2_primitive_round_trip examplePlatform .ascii_char_ptr rfl (1 : Nat) trivial []
        (widgetWorld []) (widgetWorld []) (.edmString "widget-7") rfl [] (7 : Nat)
        (widgetWorld [false])).2.2
        (by simp [nextAllocationsSucceed, widgetWorld, allocationRequests])⟩

/-- C3 (tag check). For every primitive codec `t`, every generic value `g`
and every destination, `FromAGENT_DATA_TYPE_t(g, out)` returns
`AGENT_DATA_TYPES_INVALID_ARG` exactly when the tag of `g` differs from the
tag expected for `t`, and when the tag matches the result is
`AGENT_DATA_TYPES_OK` or `AGENT_DATA_TYPES_ERROR`. -/
theorem C3_tag_check (P : Platform) (t : CType) (ht : t.isPrimitive = true)
    (g : AGENT_DATA_TYPE) (path : List Nat) (out : Native t) (w : World) :
    ((FromAGENT_DATA_TYPE P t g path out w).1 = AGENT_DATA_TYPES_INVALID_ARG ↔
        g.type ≠ expectedTag t) ∧
      (g.type = expectedTag t →
        (FromAGENT_DATA_TYPE P t g path out w).1 = AGENT_DATA_TYPES_OK ∨
        (FromAGENT_DATA_TYPE P t g path out w).1 = AGENT_DATA_TYPES_ERROR) := by
  cases t with
  | struct n fs => simp [CType.isPrimitive] at ht
  | ascii_char_ptr =>
    simpa [FromAGENT_DATA_TYPE, expectedTag] using From_ascii_char_ptr_tag g out w
  | ascii_char_ptr_no_quotes =>
    simpa [FromAGENT_DATA_TYPE, expectedTag] using From_ascii_char_ptr_no_quotes_tag g out w
  | EDM_BINARY => simpa [FromAGENT_DATA_TYPE, expectedTag] using From_EDM_BINARY_tag g out w
  | _ =>
    cases g <;> simp [FromAGENT_DATA_TYPE, expectedTag, AGENT_DATA_TYPE.type,
      FromAGENT_DATA_TYPE_double, FromAGENT_DATA_TYPE_float, FromAGENT_DATA_TYPE_int,
      FromAGENT_DATA_TYPE_long, FromAGENT_DATA_TYPE_int8_t, FromAGENT_DATA_TYPE_uint8_t,
      FromAGENT_DATA_TYPE_int16_t, FromAGENT_DATA_TYPE_int32_t, FromAGENT_DATA_TYPE_int64_t,
      FromAGENT_DATA_TYPE_bool, FromAGENT_DATA_TYPE_EDM_DATE_TIME_OFFSET,
      FromAGENT_DATA_TYPE_EDM_GUID]

/-- C3 at a concrete input: requesting an `int` (Int32) from a string value
is rejected with `AGENT_DATA_TYPES_INVALID_ARG`, as the tag `EDM_STRING_TYPE`
is not `EDM_INT32_TYPE`. -/
theorem C3_witness :
    (FromAGENT_DATA_TYPE examplePlatform .int (.edmString "19.99") [] (0 : Int)
      emptyWorld).1 = AGENT_DATA_TYPES_INVALID_ARG :=
  (C3_tag_check examplePlatform .int rfl (.edmString "19.99") [] (0 : Int) emptyWorld).1.mpr
    (by decide)

/-- C4 (model-level from_generic), evaluated: for every source, destination
and state, `FromAGENT_DATA_TYPE_<model>` logs an error and returns 0, the
number of the success code `AGENT_DATA_TYPES_OK`. -/
theorem C4_model_from_generic_returns_success_code {Destination : Type}
    (source : AGENT_DATA_TYPE) (destination : Destination) (w : World) :
    (FromAGENT_DATA_TYPE_model source destination w).1 =
        AGENT_DATA_TYPES_RESULT.toInt AGENT_DATA_TYPES_OK ∧
      (FromAGENT_DATA_TYPE_model source destination w).2.trace =
        w.trace ++ [.LogError "SHOULD NOT GET CALLED... EVER" []] :=
  ⟨rfl, rfl⟩

/-- C5 (wrapper success path). For an action or a method declared with the
parameters `params`, if `ParameterCount` is the number of parameters and
every positional conversion succeeds (`convertLocals` counts them all), the
wrapper returns the result of the user function applied to the device
pointer and to the converted locals in declared order, and the calls it
makes contain exactly one call of the user function, with these
arguments. -/
theorem C5_wrapper_success_path (P : Platform) (params : CFields)
    (actionName : Nat → NativeFields params → Heap → EXECUTE_COMMAND_RESULT × Heap)
    (methodName : Nat → NativeFields params → Heap → Nat × Heap)
    (stack : NativeFields params) (device : Nat) (ParameterCount : Nat)
    (values : List AGENT_DATA_TYPE) (w : World)
    (hcount : ParameterCount = params.length)
    (hconv : (convertLocals P values params 0 (DEFINE_LOCAL_PARAMETER P params stack) w).1 =
      params.length) :
    ((actionWRAPPER P params actionName stack device ParameterCount values w).1 =
        (actionName device
          (convertLocals P values params 0 (DEFINE_LOCAL_PARAMETER P params stack) w).2.1
          (convertLocals P values params 0
            (DEFINE_LOCAL_PARAMETER P params stack) w).2.2.toHeap).1 ∧
      invocations (callsSince w.trace.length
          (actionWRAPPER P params actionName stack device ParameterCount values w).2) =
        [.invoke device params
          (convertLocals P values params 0 (DEFINE_LOCAL_PARAMETER P params stack) w).2.1]) ∧
    ((methodWRAPPER P params methodName stack device ParameterCount values w).1 =
        (methodName device
          (convertLocals P values params 0 (DEFINE_LOCAL_PARAMETER P params stack) w).2.1
          (convertLocals P values params 0
            (DEFINE_LOCAL_PARAMETER P params stack) w).2.2.toHeap).1 ∧
      invocations (callsSince w.trace.length
          (methodWRAPPER P params methodName stack device ParameterCount values w).2) =
        [.invoke device params
          (convertLocals P values params 0 (DEFINE_LOCAL_PARAMETER P params stack) w).2.1]) := by
  have key : ∀ {R : Type} (err : R) (fn : Nat → NativeFields params → Heap → R × Heap),
      (BUILD_LOCAL_PARAMETER P err values params 0 (DEFINE_LOCAL_PARAMETER P params stack)
          (callUser params fn device) w).1 =
        (fn device
          (convertLocals P values params 0 (DEFINE_LOCAL_PARAMETER P params stack) w).2.1
          (convertLocals P values params 0
            (DEFINE_LOCAL_PARAMETER P params stack) w).2.2.toHeap).1 ∧
      invocations (callsSince w.trace.length
          (BUILD_LOCAL_PARAMETER P err values params 0 (DEFINE_LOCAL_PARAMETER P params stack)
            (callUser params fn device) w).2) =
        [.invoke device params
          (convertLocals P values params 0 (DEFINE_LOCAL_PARAMETER P params stack) w).2.1] := by
    intro R err fn
    obtain ⟨h1, pre, post, h2, -, -, h3, -, -, h4⟩ :=
      (wrapper_body P err params fn (DEFINE_LOCAL_PARAMETER P params stack) device values w).1
        hconv
    refine ⟨h1, ?_⟩
    rw [h2]
    simp only [invocations, List.filter_append] at h3 h4 ⊢
    rw [h3, h4]
    rfl
  simp only [actionWRAPPER, methodWRAPPER, MU_DIV2_MU_COUNT_ARG, hcount, ne_eq,
    not_true_eq_false, if_false]
  exact ⟨key EXECUTE_COMMAND_ERROR actionName, key 0 methodName⟩

/-- C5 at the input of the spec: `SetPrice` called with the positional
arguments "widget-7" and "19.99" returns what the user function returns,
the user function is called once, and its two arguments point to the
strings "widget-7" and "19.99". -/
theorem C5_witness :
    ((actionWRAPPER examplePlatform SetPrice_params (SetPrice EXECUTE_COMMAND_FAILED)
        ((7 : Nat), ((9 : Nat), ())) 1 2 SetPrice_values emptyWorld).1 = EXECUTE_COMMAND_FAILED ∧
      invocations (callsSince 0
        (actionWRAPPER examplePlatform SetPrice_params (SetPrice EXECUTE_COMMAND_FAILED)
          ((7 : Nat), ((9 : Nat), ())) 1 2 SetPrice_values emptyWorld).2) =
        [.invoke 1 SetPrice_params ((1 : Nat), ((2 : Nat), ()))]) ∧
    stringAt (actionWRAPPER examplePlatform SetPrice_params (SetPrice EXECUTE_COMMAND_FAILED)
        ((7 : Nat), ((9 : Nat), ())) 1 2 SetPrice_values emptyWorld).2.blocks 1 =
      some "widget-7" ∧
    stringAt (actionWRAPPER examplePlatform SetPrice_params (SetPrice EXECUTE_COMMAND_FAILED)
        ((7 : Nat), ((9 : Nat), ())) 1 2 SetPrice_values emptyWorld).2.blocks 2 =
      some "19.99" :=
  ⟨(C5_wrapper_success_path examplePlatform SetPrice_params (SetPrice EXECUTE_COMMAND_FAILED)
      SetPriceMethod ((7 : Nat), ((9 : Nat), ())) 1 2 SetPrice_values emptyWorld rfl
      (by decide)).1, by decide, by decide⟩

/-- C6 (wrapper argument-count check). For an action or a method declared
with the parameters `params`, when `ParameterCount` differs from the number
of parameters the wrapper returns the malformed-call result
(`EXECUTE_COMMAND_ERROR` for an action, `NULL` for a method), and the calls
it makes contain no conversion of an argument and no call of the user
function. -/
theorem C6_wrapper_argument_count_check (P : Platform) (params : CFields)
    (actionName : Nat → NativeFields params → Heap → EXECUTE_COMMAND_RESULT × Heap)
    (methodName : Nat → NativeFields params → Heap → Nat × Heap)
    (stack : NativeFields params) (device : Nat) (ParameterCount : Nat)
    (values : List AGENT_DATA_TYPE) (w : World)
    (hcount : ParameterCount ≠ params.length) :
    ((actionWRAPPER P params actionName stack device ParameterCount values w).1 =
        EXECUTE_COMMAND_ERROR ∧
      convertedParams (callsSince w.trace.length
        (actionWRAPPER P params actionName stack device ParameterCount values w).2) = [] ∧
      invocations (callsSince w.trace.length
        (actionWRAPPER P params actionName stack device ParameterCount values w).2) = []) ∧
    ((methodWRAPPER P params methodName stack device ParameterCount values w).1 = 0 ∧
      convertedParams (callsSince w.trace.length
        (methodWRAPPER P params methodName stack device ParameterCount values w).2) = [] ∧
      invocations (callsSince w.trace.length
        (methodWRAPPER P params methodName stack device ParameterCount values w).2) = []) := by
  simp only [actionWRAPPER, methodWRAPPER, MU_DIV2_MU_COUNT_ARG, ne_eq, hcount,
    not_false_eq_true, if_true]
  refine ⟨⟨trivial, ?_, ?_⟩, trivial, ?_, ?_⟩
  · simp [callsSince, convertedParams]
  · simp [callsSince, invocations]
  · simp [callsSince, World.log, convertedParams]
  · simp [callsSince, World.log, invocations]

/-- C6 at the inputs of the spec: a wrapper declared for two parameters,
called with one argument and with three, returns the malformed-call result
without converting an argument or calling the user function. -/
theorem C6_witness :
    ((actionWRAPPER examplePlatform SetPrice_params (SetPrice EXECUTE_COMMAND_SUCCESS)
        ((7 : Nat), ((9 : Nat), ())) 1 1 [.edmString "widget-7"] emptyWorld).1 =
        EXECUTE_COMMAND_ERROR ∧
      invocations (callsSince 0
        (actionWRAPPER examplePlatform SetPrice_params (SetPrice EXECUTE_COMMAND_SUCCESS)
          ((7 : Nat), ((9 : Nat), ())) 1 1 [.edmString "widget-7"] emptyWorld).2) = []) ∧
    ((methodWRAPPER examplePlatform SetPrice_params SetPriceMethod
        ((7 : Nat), ((9 : Nat), ())) 1 3
        [.edmString "widget-7", .edmString "19.99", .edmString "x"] emptyWorld).1 = 0 ∧
      invocations (callsSince 0
        (methodWRAPPER examplePlatform SetPrice_params SetPriceMethod
          ((7 : Nat), ((9 : Nat), ())) 1 3
          [.edmString "widget-7", .edmString "19.99", .edmString "x"] emptyWorld).2) = []) :=
  ⟨⟨(C6_wrapper_argument_count_check examplePlatform SetPrice_params
        (SetPrice EXECUTE_COMMAND_SUCCESS) SetPriceMethod ((7 : Nat), ((9 : Nat), ())) 1 1
        [.edmString "widget-7"] emptyWorld (by decide)).1.1,
      (C6_wrapper_argument_count_check examplePlatform SetPrice_params
        (SetPrice EXECUTE_COMMAND_SUCCESS) SetPriceMethod ((7 : Nat), ((9 : Nat), ())) 1 1
        [.edmString "widget-7"] emptyWorld (by decide)).1.2.2⟩,
    ⟨(C6_wrapper_argument_count_check examplePlatform SetPrice_params
        (SetPrice EXECUTE_COMMAND_SUCCESS) SetPriceMethod ((7 : Nat), ((9 : Nat), ())) 1 3
        [.edmString "widget-7", .edmString "19.99", .edmString "x"] emptyWorld
        (by decide)).2.1,
      (C6_wrapper_argument_count_check examplePlatform SetPrice_params
        (SetPrice EXECUTE_COMMAND_SUCCESS) SetPriceMethod ((7 : Nat), ((9 : Nat), ())) 1 3
        [.edmString "widget-7", .edmString "19.99", .edmString "x"] emptyWorld
        (by decide)).2.2.2⟩⟩

/-- C7 (a conversion failure short-circuits). For a wrapper called with the
right `ParameterCount`, let parameter `K` be the first whose conversion does
not return OK (`convertLocals` counts `K - 1` successes, fewer than there are
parameters). The wrapper returns the error result (`EXECUTE_COMMAND_ERROR`,
`NULL`), the conversions it attempts are those of the parameters 1 to `K`,
in order, and none after, and it does not call the user function. -/
theorem C7_wrapper_conversion_failure (P : Platform) (params : CFields)
    (actionName : Nat → NativeFields params → Heap → EXECUTE_COMMAND_RESULT × Heap)
    (methodName : Nat → NativeFields params → Heap → Nat × Heap)
    (stack : NativeFields params) (device : Nat) (ParameterCount : Nat)
    (values : List AGENT_DATA_TYPE) (w : World)
    (hcount : ParameterCount = params.length)
    (hfail : (convertLocals P values params 0 (DEFINE_LOCAL_PARAMETER P params stack) w).1 <
      params.length) :
    ((actionWRAPPER P params actionName stack device ParameterCount values w).1 =
        EXECUTE_COMMAND_ERROR ∧
      convertedParams (callsSince w.trace.length
          (actionWRAPPER P params actionName stack device ParameterCount values w).2) =
        List.range ((convertLocals P values params 0
          (DEFINE_LOCAL_PARAMETER P params stack) w).1 + 1) ∧
      invocations (callsSince w.trace.length
        (actionWRAPPER P params actionName stack device ParameterCount values w).2) = []) ∧
    ((methodWRAPPER P params methodName stack device ParameterCount values w).1 = 0 ∧
      convertedParams (callsSince w.trace.length
          (methodWRAPPER P params methodName stack device ParameterCount values w).2) =
        List.range ((convertLocals P values params 0
          (DEFINE_LOCAL_PARAMETER P params stack) w).1 + 1) ∧
      invocations (callsSince w.trace.length
        (methodWRAPPER P params methodName stack device ParameterCount values w).2) = []) := by
  have hmin : min ((convertLocals P values params 0
      (DEFINE_LOCAL_PARAMETER P params stack) w).1 + 1) params.length =
      (convertLocals P values params 0 (DEFINE_LOCAL_PARAMETER P params stack) w).1 + 1 := by
    omega
  have key : ∀ {R : Type} (err : R) (fn : Nat → NativeFields params → Heap → R × Heap),
      (BUILD_LOCAL_PARAMETER P err values params 0 (DEFINE_LOCAL_PARAMETER P params stack)
          (callUser params fn device) w).1 = err ∧
      convertedParams (callsSince w.trace.length
          (BUILD_LOCAL_PARAMETER P err values params 0 (DEFINE_LOCAL_PARAMETER P params stack)
            (callUser params fn device) w).2) =
        List.range ((convertLocals P values params 0
          (DEFINE_LOCAL_PARAMETER P params stack) w).1 + 1) ∧
      invocations (callsSince w.trace.length
          (BUILD_LOCAL_PARAMETER P err values params 0 (DEFINE_LOCAL_PARAMETER P params stack)
            (callUser params fn device) w).2) = [] := by
    intro R err fn
    obtain ⟨h1, h2, -, h4⟩ :=
      (wrapper_body P err params fn (DEFINE_LOCAL_PARAMETER P params stack) device values w).2
        (Nat.ne_of_lt hfail)
    rw [hmin] at h2
    exact ⟨h1, h2, h4⟩
  simp only [actionWRAPPER, methodWRAPPER, MU_DIV2_MU_COUNT_ARG, hcount, ne_eq,
    not_true_eq_false, if_false]
  exact ⟨key EXECUTE_COMMAND_ERROR actionName, key 0 methodName⟩

/-- C7 at a concrete input: `SetPrice` called with a string and an integer.
The conversion of the second parameter fails, so both conversions are
attempted, the result is `EXECUTE_COMMAND_ERROR` and the user function is
not called. -/
theorem C7_witness :
    (actionWRAPPER examplePlatform SetPrice_params (SetPrice EXECUTE_COMMAND_SUCCESS)
        ((7 : Nat), ((9 : Nat), ())) 1 2 [.edmString "widget-7", .edmInt32 1999]
        emptyWorld).1 = EXECUTE_COMMAND_ERROR ∧
      convertedParams (callsSince 0
        (actionWRAPPER examplePlatform SetPrice_params (SetPrice EXECUTE_COMMAND_SUCCESS)
          ((7 : Nat), ((9 : Nat), ())) 1 2 [.edmString "widget-7", .edmInt32 1999]
          emptyWorld).2) = [0, 1] ∧
      invocations (callsSince 0
        (actionWRAPPER examplePlatform SetPrice_params (SetPrice EXECUTE_COMMAND_SUCCESS)
          ((7 : Nat), ((9 : Nat), ())) 1 2 [.edmString "widget-7", .edmInt32 1999]
          emptyWorld).2) = [] :=
  (C7_wrapper_conversion_failure examplePlatform SetPrice_params
    (SetPrice EXECUTE_COMMAND_SUCCESS) SetPriceMethod ((7 : Nat), ((9 : Nat), ())) 1 2
    [.edmString "widget-7", .edmInt32 1999] emptyWorld rfl (by decide)).1

/-- C8, evaluated. Before the first conversion every local of a wrapper holds
its zero value, whatever the stack held. When the wrapper of an action or of
a method is called with the right `ParameterCount` and the conversion of
parameter number `K`, counting from 0, is the first that does not return OK,
the conversions attempted are those of the parameters 0 to `K`, and the
locals passed to `destroyLocalParameter` before the wrapper returns are
those of the parameters `K - 1`, ..., 0, in this order: the local of the
failing parameter is not released. -/
theorem C8_wrapper_does_not_release_failing_local (P : Platform) (params : CFields)
    (actionName : Nat → NativeFields params → Heap → EXECUTE_COMMAND_RESULT × Heap)
    (methodName : Nat → NativeFields params → Heap → Nat × Heap)
    (stack : NativeFields params) (device : Nat) (ParameterCount : Nat)
    (values : List AGENT_DATA_TYPE) (w : World) (K : Nat)
    (hcount : ParameterCount = params.length)
    (hK : (convertLocals P values params 0 (zeroFields P params) w).1 = K)
    (hfail : K < params.length) :
    DEFINE_LOCAL_PARAMETER P params stack = zeroFields P params ∧
    (convertedParams (callsSince w.trace.length
          (actionWRAPPER P params actionName stack device ParameterCount values w).2) =
        List.range (K + 1) ∧
      destroyedParams (callsSince w.trace.length
          (actionWRAPPER P params actionName stack device ParameterCount values w).2) =
        (List.range K).reverse ∧
      K ∉ destroyedParams (callsSince w.trace.length
          (actionWRAPPER P params actionName stack device ParameterCount values w).2)) ∧
    (convertedParams (callsSince w.trace.length
          (methodWRAPPER P params methodName stack device ParameterCount values w).2) =
        List.range (K + 1) ∧
      destroyedParams (callsSince w.trace.length
          (methodWRAPPER P params methodName stack device ParameterCount values w).2) =
        (List.range K).reverse ∧
      K ∉ destroyedParams (callsSince w.trace.length
          (methodWRAPPER P params methodName stack device ParameterCount values w).2)) := by
  have hzero := DEFINE_LOCAL_PARAMETER_eq_zero P params stack
  refine ⟨hzero, ?_⟩
  have key : ∀ {R : Type} (err : R) (fn : Nat → NativeFields params → Heap → R × Heap),
      convertedParams (callsSince w.trace.length
          (BUILD_LOCAL_PARAMETER P err values params 0 (zeroFields P params)
            (callUser params fn device) w).2) = List.range (K + 1) ∧
      destroyedParams (callsSince w.trace.length
          (BUILD_LOCAL_PARAMETER P err values params 0 (zeroFields P params)
            (callUser params fn device) w).2) = (List.range K).reverse ∧
      K ∉ destroyedParams (callsSince w.trace.length
          (BUILD_LOCAL_PARAMETER P err values params 0 (zeroFields P params)
            (callUser params fn device) w).2) := by
    intro R err fn
    obtain ⟨-, h2, h3, -⟩ :=
      (wrapper_body P err params fn (zeroFields P params) device values w).2 (by omega)
    rw [hK] at h2 h3
    rw [show min (K + 1) params.length = K + 1 by omega] at h2
    rw [show min K params.length = K by omega] at h3
    refine ⟨h2, h3, ?_⟩
    rw [h3]
    simp
  simp only [actionWRAPPER, methodWRAPPER, MU_DIV2_MU_COUNT_ARG, hcount, ne_eq,
    not_true_eq_false, if_false, hzero]
  exact ⟨key EXECUTE_COMMAND_ERROR actionName, key 0 methodName⟩

/-- C8 at a concrete input: an action with one parameter of the struct type
`L { ascii_char_ptr b; int a; }` is called with a record whose member `b` is
the string "leaked" and whose member `a` is a string too. The conversion of
the parameter copies "leaked" into the field `b` of the local and then fails
at `a`; the wrapper returns `EXECUTE_COMMAND_ERROR` without passing the local
to `destroyLocalParameter`, so the copy stays allocated and nothing is
freed. -/
theorem C8_witness :
    (actionWRAPPER examplePlatform structParameter (fun _ _ h => (EXECUTE_COMMAND_SUCCESS, h))
      (((7 : Nat), ((9 : Int), ())), ()) 1 1
      [.edmComplexType [("b", .edmString "leaked"), ("a", .edmString "x")]]
      emptyWorld).1 = EXECUTE_COMMAND_ERROR ∧
    (actionWRAPPER examplePlatform structParameter (fun _ _ h => (EXECUTE_COMMAND_SUCCESS, h))
      (((7 : Nat), ((9 : Int), ())), ()) 1 1
      [.edmComplexType [("b", .edmString "leaked"), ("a", .edmString "x")]]
      emptyWorld).2.blocks = [.chars "leaked"] ∧
    (actionWRAPPER examplePlatform structParameter (fun _ _ h => (EXECUTE_COMMAND_SUCCESS, h))
      (((7 : Nat), ((9 : Int), ())), ()) 1 1
      [.edmComplexType [("b", .edmString "leaked"), ("a", .edmString "x")]]
      emptyWorld).2.freed = [] ∧
    destroyedParams (callsSince 0
      (actionWRAPPER examplePlatform structParameter
        (fun _ _ h => (EXECUTE_COMMAND_SUCCESS, h))
        (((7 : Nat), ((9 : Int), ())), ()) 1 1
        [.edmComplexType [("b", .edmString "leaked"), ("a", .edmString "x")]]
        emptyWorld).2) = [] ∧
    (actionWRAPPER examplePlatform structParameter (fun _ _ h => (EXECUTE_COMMAND_SUCCESS, h))
      (((7 : Nat), ((9 : Int), ())), ()) 1 1
      [.edmComplexType [("b", .edmString "leaked"), ("a", .edmString "x")]]
      emptyWorld).2.trace =
        [.FromAGENT_DATA_TYPE [0], .FromAGENT_DATA_TYPE [0, 0], .FromAGENT_DATA_TYPE [0, 1]] :=
  ⟨by decide, by decide, by decide,
    (C8_wrapper_does_not_release_failing_local examplePlatform structParameter
      (fun _ _ h => (EXECUTE_COMMAND_SUCCESS, h)) (fun _ _ h => (1, h))
      (((7 : Nat), ((9 : Int), ())), ()) 1 1
      [.edmComplexType [("b", .edmString "leaked"), ("a", .edmString "x")]]
      emptyWorld 0 rfl (by decide) (by decide)).2.1.2.1,
    rfl⟩

/-- C9 (wrapper releases on success). Whenever the wrapper of an action or of
a method calls the user function, whatever that function returns, the calls
made after it and before the wrapper returns pass every one of the N
parameter locals to `destroyLocalParameter` exactly once (the last parameter
first), no local is released before the call, and the user function is not
called again. -/
theorem C9_wrapper_releases_on_success (P : Platform) (params : CFields)
    (actionName : Nat → NativeFields params → Heap → EXECUTE_COMMAND_RESULT × Heap)
    (methodName : Nat → NativeFields params → Heap → Nat × Heap)
    (stack : NativeFields params) (device : Nat) (ParameterCount : Nat)
    (values : List AGENT_DATA_TYPE) (w : World) :
    (invocations (callsSince w.trace.length
        (actionWRAPPER P params actionName stack device ParameterCount values w).2) ≠ [] →
      ∃ pre args post,
        callsSince w.trace.length
            (actionWRAPPER P params actionName stack device ParameterCount values w).2 =
          pre ++ [.invoke device params args] ++ post ∧
        destroyedParams pre = [] ∧
        destroyedParams post = (List.range params.length).reverse ∧
        (∀ i, i < params.length → (destroyedParams post).count i = 1) ∧
        invocations post = []) ∧
    (invocations (callsSince w.trace.length
        (methodWRAPPER P params methodName stack device ParameterCount values w).2) ≠ [] →
      ∃ pre args post,
        callsSince w.trace.length
            (methodWRAPPER P params methodName stack device ParameterCount values w).2 =
          pre ++ [.invoke device params args] ++ post ∧
        destroyedParams pre = [] ∧
        destroyedParams post = (List.range params.length).reverse ∧
        (∀ i, i < params.length → (destroyedParams post).count i = 1) ∧
        invocations post = []) := by
  have hcountOne : ∀ (l : List Nat), l = (List.range params.length).reverse →
      ∀ i, i < params.length → l.count i = 1 := by
    intro l hl i hi
    subst hl
    rw [List.count_reverse]
    exact List.count_eq_one_of_mem (List.nodup_range _) (List.mem_range.mpr hi)
  constructor
  · intro h
    by_cases hc : ParameterCount = params.length
    · simp only [actionWRAPPER, MU_DIV2_MU_COUNT_ARG, hc, ne_eq, not_true_eq_false,
        if_false] at h ⊢
      obtain ⟨pre, args, post, h1, h2, h3, h4⟩ := invocations_nonempty_success P _ params
        actionName _ device values w h
      exact ⟨pre, args, post, h1, h2, h3, hcountOne _ h3, h4⟩
    · exfalso
      apply h
      simp [actionWRAPPER, MU_DIV2_MU_COUNT_ARG, hc, callsSince, invocations]
  · intro h
    by_cases hc : ParameterCount = params.length
    · simp only [methodWRAPPER, MU_DIV2_MU_COUNT_ARG, hc, ne_eq, not_true_eq_false,
        if_false] at h ⊢
      obtain ⟨pre, args, post, h1, h2, h3, h4⟩ := invocations_nonempty_success P _ params
        methodName _ device values w h
      exact ⟨pre, args, post, h1, h2, h3, hcountOne _ h3, h4⟩
    · exfalso
      apply h
      simp [methodWRAPPER, MU_DIV2_MU_COUNT_ARG, hc, callsSince, invocations, World.log]

/-- C9 at the input of the spec: `SetPrice` called with "widget-7" and
"19.99" calls the user function, so after the call both locals are released,
the second first, here with a user function that returns
`EXECUTE_COMMAND_FAILED`. -/
theorem C9_witness :
    ∃ pre args post,
      callsSince 0
          (actionWRAPPER examplePlatform SetPrice_params (SetPrice EXECUTE_COMMAND_FAILED)
            ((7 : Nat), ((9 : Nat), ())) 1 2 SetPrice_values emptyWorld).2 =
        pre ++ [.invoke 1 SetPrice_params args] ++ post ∧
      destroyedParams pre = [] ∧
      destroyedParams post = [1, 0] ∧
      (∀ i, i < 2 → (destroyedParams post).count i = 1) ∧
      invocations post = [] :=
  (C9_wrapper_releases_on_success examplePlatform SetPrice_params
    (SetPrice EXECUTE_COMMAND_FAILED) SetPriceMethod ((7 : Nat), ((9 : Nat), ())) 1 2
    SetPrice_values emptyWorld).1
    (by
      have : invocations (callsSince emptyWorld.trace.length
          (actionWRAPPER examplePlatform SetPrice_params (SetPrice EXECUTE_COMMAND_FAILED)
            ((7 : Nat), ((9 : Nat), ())) 1 2 SetPrice_values emptyWorld).2) =
          [.invoke 1 SetPrice_params ((1 : Nat), ((2 : Nat), ()))] := rfl
      rw [this]
      exact List.cons_ne_nil _ _)

/-- C10 (struct from_generic shape check). For every declared struct with
fields `fs`, `FromAGENT_DATA_TYPE_<struct>(src, dest)` returns
`AGENT_DATA_TYPES_INVALID_ARG` when the tag of `src` is not
`EDM_COMPLEX_TYPE_TYPE`, and when `src` is a complex record whose member
count differs from the number of declared fields. -/
theorem C10_struct_shape_check (P : Platform) (name : String) (fs : CFields)
    (src : AGENT_DATA_TYPE) (path : List Nat) (dest : Native (.struct name fs)) (w : World)
    (h : src.type ≠ EDM_COMPLEX_TYPE_TYPE ∨
      (src.type = EDM_COMPLEX_TYPE_TYPE ∧ src.nMembers ≠ fs.length)) :
    (FromAGENT_DATA_TYPE P (.struct name fs) src path dest w).1 =
      AGENT_DATA_TYPES_INVALID_ARG := by
  rcases h with h | ⟨h1, h2⟩
  · simp [FromAGENT_DATA_TYPE, h]
  · simp only [FromAGENT_DATA_TYPE, h1, ne_eq, not_true_eq_false, if_false,
      MU_DIV2_MU_COUNT_ARG]
    rw [if_pos (fun h3 => h2 h3.symm)]

/-- C10 at concrete inputs: a struct declared with two fields rejects a
record with one member, a record with three members and a string. -/
theorem C10_witness :
    (FromAGENT_DATA_TYPE examplePlatform
        (.struct "S" (.cons .int "a" (.cons .int "b" .nil)))
        (.edmComplexType [("a", .edmInt32 1)]) [] ((0 : Int), ((0 : Int), ()))
        emptyWorld).1 = AGENT_DATA_TYPES_INVALID_ARG ∧
    (FromAGENT_DATA_TYPE examplePlatform
        (.struct "S" (.cons .int "a" (.cons .int "b" .nil)))
        (.edmComplexType [("a", .edmInt32 1), ("b", .edmInt32 2), ("c", .edmInt32 3)]) []
        ((0 : Int), ((0 : Int), ())) emptyWorld).1 = AGENT_DATA_TYPES_INVALID_ARG ∧
    (FromAGENT_DATA_TYPE examplePlatform
        (.struct "S" (.cons .int "a" (.cons .int "b" .nil)))
        (.edmString "a") [] ((0 : Int), ((0 : Int), ()))
        emptyWorld).1 = AGENT_DATA_TYPES_INVALID_ARG :=
  ⟨C10_struct_shape_check examplePlatform "S" _ _ [] _ emptyWorld (Or.inr ⟨rfl, by decide⟩),
    C10_struct_shape_check examplePlatform "S" _ _ [] _ emptyWorld (Or.inr ⟨rfl, by decide⟩),
    C10_struct_shape_check examplePlatform "S" _ _ [] _ emptyWorld (Or.inl (by decide))⟩

/-- C11 (struct from_generic, field failure). For every declared struct with
fields `fs` and every complex record `src` with as many members as `fs` has
fields: if some declared field has no member of exactly its name, or the
first member of its name is one that the codec of the field never converts
with `AGENT_DATA_TYPES_OK` (such as a member with the wrong tag), or the run
of the conversions stops before the last field because the conversion it
reached did not return OK (`convertFields` counts the fields converted), then
`FromAGENT_DATA_TYPE_<struct>` does not return OK: it returns
`AGENT_DATA_TYPES_INVALID_ARG`, whatever the code of the failing codec was. -/
theorem C11_struct_field_failure (P : Platform) (name : String) (fs : CFields)
    (src : AGENT_DATA_TYPE) (path : List Nat) (dest : Native (.struct name fs)) (w : World)
    (htag : src.type = EDM_COMPLEX_TYPE_TYPE) (hcount : src.nMembers = fs.length)
    (hfail : (∃ n ∈ fs.names, findMember src n = none) ∨
      (∃ t n m, (t, n) ∈ fs.toList ∧ findMember src n = some m ∧
        ∀ (p : List Nat) (d : Native t) (w1 : World),
          (FromAGENT_DATA_TYPE P t m.2 p d w1).1 ≠ AGENT_DATA_TYPES_OK) ∨
      (convertFields P src path fs 0 dest w).1 < fs.length) :
    (FromAGENT_DATA_TYPE P (.struct name fs) src path dest w).1 =
      AGENT_DATA_TYPES_INVALID_ARG := by
  have hlt : (convertFields P src path fs 0 dest w).1 ≠ fs.length := by
    intro hall
    have hfields := convertFields_all P fs src path 0 dest w hall
    rcases hfail with ⟨n, hn, hnone⟩ | ⟨t, n, m, hmem, hm, hbad⟩ | hlt
    · obtain ⟨t, ht⟩ := CFields_mem_names fs n hn
      obtain ⟨m, hm, _⟩ := hfields t n ht
      rw [hnone] at hm; cases hm
    · obtain ⟨m1, hm1, p, d, w1, hok⟩ := hfields t n hmem
      rw [hm] at hm1
      injection hm1 with hm1
      subst hm1
      exact hbad p d w1 hok
    · omega
  simp only [FromAGENT_DATA_TYPE, htag, ne_eq, not_true_eq_false, if_false,
    MU_DIV2_MU_COUNT_ARG]
  rw [if_neg (fun h3 => h3 hcount.symm), BUILD_eq_convertFields]
  exact if_neg hlt

/-- C11 at concrete inputs, for the struct `S { int a; ascii_char_ptr b; }`:
a record with the members `a` and `B` (no member named `b`), a record whose
member `b` is an Int32, and a record whose string member `b` cannot be copied
because the allocation fails, are all answered with
`AGENT_DATA_TYPES_INVALID_ARG`. -/
theorem C11_witness :
    (FromAGENT_DATA_TYPE examplePlatform exampleStruct
        (.edmComplexType [("a", .edmInt32 5), ("B", .edmString "x")]) [] exampleValue
        emptyWorld).1 = AGENT_DATA_TYPES_INVALID_ARG ∧
    (FromAGENT_DATA_TYPE examplePlatform exampleStruct
        (.edmComplexType [("a", .edmInt32 5), ("b", .edmInt32 7)]) []
        exampleValue emptyWorld).1 = AGENT_DATA_TYPES_INVALID_ARG ∧
    (FromAGENT_DATA_TYPE examplePlatform exampleStruct
        (.edmComplexType [("a", .edmInt32 5), ("b", .edmString "x")]) []
        exampleValue (widgetWorld [false])).1 = AGENT_DATA_TYPES_INVALID_ARG :=
  ⟨C11_struct_field_failure examplePlatform "S" _ _ [] exampleValue emptyWorld rfl rfl
      (Or.inl ⟨"b", by decide, rfl⟩),
    C11_struct_field_failure examplePlatform "S" _ _ [] exampleValue emptyWorld rfl rfl
      (Or.inr (Or.inl ⟨.ascii_char_ptr, "b", ("b", .edmInt32 7), by simp [CFields.toList], rfl,
        fun p d w1 h => by
          have := From_ok_tag examplePlatform .ascii_char_ptr (.edmInt32 7) p d w1 h
          cases this⟩)),
    C11_struct_field_failure examplePlatform "S" _ _ [] exampleValue (widgetWorld [false])
      rfl rfl (Or.inr (Or.inr (by decide)))⟩

/-- C12 (struct from_generic is order-independent). For every declared
struct, every complex record with the members `members` whose names are
pairwise distinct, every permutation `members'` of them, every initial
destination `d` and every state `w`, converting the permuted record gives
the same result, the same destination and the same state (heap and calls) as
converting the record itself. -/
theorem C12_struct_from_generic_order_independent (P : Platform) (name : String) (fs : CFields)
    (members members' : List (String × AGENT_DATA_TYPE))
    (hnd : (members.map Prod.fst).Nodup) (hperm : members'.Perm members)
    (path : List Nat) (d : Native (.struct name fs)) (w : World) :
    FromAGENT_DATA_TYPE P (.struct name fs) (.edmComplexType members') path d w =
      FromAGENT_DATA_TYPE P (.struct name fs) (.edmComplexType members) path d w := by
  simp only [FromAGENT_DATA_TYPE, AGENT_DATA_TYPE.type, AGENT_DATA_TYPE.nMembers,
    AGENT_DATA_TYPE.fields, hperm.length_eq]
  rw [BUILD_congr P (findMember_perm hnd hperm)]

/-- C12 at a concrete input: the record with the members `b`, `a` and the
record with the members `a`, `b` convert alike into `S { int a;
ascii_char_ptr b; }`. -/
theorem C12_witness :
    FromAGENT_DATA_TYPE examplePlatform exampleStruct
        (.edmComplexType [("b", .edmString "x"), ("a", .edmInt32 5)]) [] exampleValue
        (widgetWorld []) =
      FromAGENT_DATA_TYPE examplePlatform exampleStruct
        (.edmComplexType [("a", .edmInt32 5), ("b", .edmString "x")]) [] exampleValue
        (widgetWorld []) :=
  C12_struct_from_generic_order_independent examplePlatform "S" _
    [("a", .edmInt32 5), ("b", .edmString "x")] [("b", .edmString "x"), ("a", .edmInt32 5)]
    (by decide) (List.Perm.swap _ _ _) [] exampleValue (widgetWorld [])

/-- C13 (struct to_generic content). For a struct `name` with `N >= 1` fields
`fs`, when the conversion of every field succeeds (`convertMembers` converts
the fields in turn with `ToAGENT_DATA_TYPE_<t_i>` and reaches the count `N`),
`ToAGENT_DATA_TYPE_<struct>` calls `Create_AGENT_DATA_TYPE_from_Members`,
right after those conversions, with the type name `name`, the member count
`N`, the names of the fields in declared order and, as member values, the
`N` values the conversions stored, in the same order; all it does afterwards
is destroy temporaries. -/
theorem C13_struct_to_generic_content (name : String) (fs : CFields) (path : List Nat)
    (value : Native (.struct name fs)) (w : World) (hN : 1 ≤ fs.length)
    (hall : (convertMembers fs path 0 value w).1 = fs.length) :
    (convertMembers fs path 0 value w).2.1.length = fs.length ∧
    ∃ post, (ToAGENT_DATA_TYPE (.struct name fs) path value w).2.2.trace =
        (convertMembers fs path 0 value w).2.2.trace ++
          Event.Create_AGENT_DATA_TYPE_from_Members name fs.length (fs.names.map some)
            (convertMembers fs path 0 value w).2.1 :: post ∧
      ∀ e ∈ post, ∃ j, e = Event.Destroy_AGENT_DATA_TYPE j := by
  refine ⟨convertMembers_length fs path 0 value w hall, ?_⟩
  rw [To_struct_eq name fs path value w, if_pos hall, constructorCall_of_pos _ _ _ _ hN]
  refine ⟨(List.range' 0 fs.length).map Event.Destroy_AGENT_DATA_TYPE, ?_, ?_⟩
  · simp only [destroyMembers_trace, Create_from_Members_trace, World.log]
    simp
  · intro e he
    obtain ⟨j, _, hj⟩ := List.mem_map.mp he
    exact ⟨j, hj.symm⟩

/-- C13 at a concrete input: for `S { int a = 5; ascii_char_ptr b =
"widget-7"; }` the constructor is called with the name `S`, the count 2, the
names `a`, `b` and the values Int32 5 and the string "widget-7". -/
theorem C13_witness :
    ∃ post, (ToAGENT_DATA_TYPE exampleStruct [] exampleValue (widgetWorld [])).2.2.trace =
        [.ToAGENT_DATA_TYPE [0], .ToAGENT_DATA_TYPE [1]] ++
          Event.Create_AGENT_DATA_TYPE_from_Members "S" 2 [some "a", some "b"]
            [some (.edmInt32 5), some (.edmString "widget-7")] :: post ∧
      ∀ e ∈ post, ∃ j, e = Event.Destroy_AGENT_DATA_TYPE j :=
  (C13_struct_to_generic_content "S" _ [] exampleValue (widgetWorld []) (by decide) rfl).2

/-- C14 (struct to_generic result). `ToAGENT_DATA_TYPE_<struct>` returns
`AGENT_DATA_TYPES_OK` exactly when the conversion of every field returned OK
(`convertMembers` reaches the number of fields) and the call of
`Create_AGENT_DATA_TYPE_from_Members` on the converted members
(`constructorCall`) returned OK; in every other case it returns
`AGENT_DATA_TYPES_ERROR`; and when a field fails, everything that happens
after the failing conversion is a call of `Destroy_AGENT_DATA_TYPE`: no later
field is converted and the constructor is not called. -/
theorem C14_struct_to_generic_result (name : String) (fs : CFields) (path : List Nat)
    (value : Native (.struct name fs)) (w : World) :
    ((ToAGENT_DATA_TYPE (.struct name fs) path value w).1 = AGENT_DATA_TYPES_OK ↔
      (convertMembers fs path 0 value w).1 = fs.length ∧
      (constructorCall name fs (convertMembers fs path 0 value w).2.1
        (convertMembers fs path 0 value w).2.2).1 = AGENT_DATA_TYPES_OK) ∧
    ((ToAGENT_DATA_TYPE (.struct name fs) path value w).1 ≠ AGENT_DATA_TYPES_OK →
      (ToAGENT_DATA_TYPE (.struct name fs) path value w).1 = AGENT_DATA_TYPES_ERROR) ∧
    ((convertMembers fs path 0 value w).1 < fs.length →
      ∃ post, (ToAGENT_DATA_TYPE (.struct name fs) path value w).2.2.trace =
          (convertMembers fs path 0 value w).2.2.trace ++ post ∧
        ∀ e ∈ post, ∃ j, e = Event.Destroy_AGENT_DATA_TYPE j) := by
  rw [To_struct_eq name fs path value w]
  by_cases hall : (convertMembers fs path 0 value w).1 = fs.length
  · rw [if_pos hall]
    by_cases hc : (constructorCall name fs (convertMembers fs path 0 value w).2.1
        (convertMembers fs path 0 value w).2.2).1 = AGENT_DATA_TYPES_OK
    · simp [hall, hc]
    · simp [hall, hc]
  · rw [if_neg hall]
    refine ⟨⟨fun h => (by cases h), fun h => absurd h.1 hall⟩, fun _ => rfl, fun _ => ?_⟩
    refine ⟨(List.range' 0 (convertMembers fs path 0 value w).1).map
      Event.Destroy_AGENT_DATA_TYPE, destroyMembers_trace _ _ _, ?_⟩
    intro e he
    obtain ⟨j, _, hj⟩ := List.mem_map.mp he
    exact ⟨j, hj.symm⟩

/-- C14 at concrete inputs: `S { int a = 5; ascii_char_ptr b = "widget-7"; }`
converts with OK when the allocations succeed and with
`AGENT_DATA_TYPES_ERROR` when the first allocation fails; a declaration
without fields gets `AGENT_DATA_TYPES_ERROR`, the constructor rejecting its
unset member. -/
theorem C14_witness :
    (ToAGENT_DATA_TYPE exampleStruct [] exampleValue (widgetWorld [])).1 =
      AGENT_DATA_TYPES_OK ∧
    (ToAGENT_DATA_TYPE exampleStruct [] exampleValue (widgetWorld [false])).1 =
      AGENT_DATA_TYPES_ERROR ∧
    (ToAGENT_DATA_TYPE (.struct "E" .nil) [] () (widgetWorld [])).1 =
      AGENT_DATA_TYPES_ERROR :=
  ⟨(C14_struct_to_generic_result "S" _ [] exampleValue (widgetWorld [])).1.mpr ⟨rfl, rfl⟩,
    (C14_struct_to_generic_result "S" _ [] exampleValue (widgetWorld [false])).2.1
      (by decide),
    (C14_struct_to_generic_result "E" .nil [] () (widgetWorld [])).2.1 (by decide)⟩

/-- C15 (rollback accounting). In `ToAGENT_DATA_TYPE_<struct>`, `iMember`
ends as the number of members created, a prefix of the declared fields. When
every member was created, the constructor is called right after the
conversions and the calls made after it are exactly
`Destroy_AGENT_DATA_TYPE(&members[j])` for `j = 0, ..., N - 1`, whether the
constructor succeeded or not; when the conversion of member `K` failed, the
calls made after it are exactly the `Destroy_AGENT_DATA_TYPE` of the members
`0`, ..., `K - 1` created before it. Each created member is thus destroyed
once, and no other slot is. -/
theorem C15_rollback_accounting (name : String) (fs : CFields) (path : List Nat)
    (value : Native (.struct name fs)) (w : World) :
    (CREATE_AGENT_DATA_TYPE fs path 0 value AGENT_DATA_TYPES_OK 0
        (List.replicate (max fs.length 1) none) w).2.1 = (convertMembers fs path 0 value w).1 ∧
    (convertMembers fs path 0 value w).1 ≤ fs.length ∧
    ((convertMembers fs path 0 value w).1 = fs.length →
      (ToAGENT_DATA_TYPE (.struct name fs) path value w).2.2.trace =
        (constructorCall name fs (convertMembers fs path 0 value w).2.1
          (convertMembers fs path 0 value w).2.2).2.2.trace ++
          (List.range fs.length).map Event.Destroy_AGENT_DATA_TYPE ∧
      (constructorCall name fs (convertMembers fs path 0 value w).2.1
          (convertMembers fs path 0 value w).2.2).2.2.trace =
        (convertMembers fs path 0 value w).2.2.trace ++
          [.Create_AGENT_DATA_TYPE_from_Members name (max fs.length 1)
            (fs.names.map some ++ List.replicate (1 - fs.length) none)
            ((convertMembers fs path 0 value w).2.1 ++ List.replicate (1 - fs.length) none)]) ∧
    ((convertMembers fs path 0 value w).1 < fs.length →
      (ToAGENT_DATA_TYPE (.struct name fs) path value w).2.2.trace =
        (convertMembers fs path 0 value w).2.2.trace ++
          (List.range (convertMembers fs path 0 value w).1).map
            Event.Destroy_AGENT_DATA_TYPE) := by
  refine ⟨by rw [CREATE_eq_convertMembers]; simp, convertMembers_le fs path 0 value w, ?_, ?_⟩
  · intro hall
    rw [To_struct_eq name fs path value w, if_pos hall]
    exact ⟨by simp only [destroyMembers_trace, List.range_eq_range'],
      constructorCall_trace _ _ _ _⟩
  · intro hlt
    rw [To_struct_eq name fs path value w, if_neg (by omega)]
    simp only [destroyMembers_trace, List.range_eq_range']

/-- C15 at concrete inputs: all the calls of a conversion that succeeds (two
members created, two destroyed), and of one whose second field is a `NULL`
string (one member created, one destroyed). -/
theorem C15_witness :
    (ToAGENT_DATA_TYPE exampleStruct [] exampleValue (widgetWorld [])).2.2.trace =
      [.ToAGENT_DATA_TYPE [0], .ToAGENT_DATA_TYPE [1],
        .Create_AGENT_DATA_TYPE_from_Members "S" 2 [some "a", some "b"]
          [some (.edmInt32 5), some (.edmString "widget-7")]] ++
        [.Destroy_AGENT_DATA_TYPE 0, .Destroy_AGENT_DATA_TYPE 1] ∧
    (ToAGENT_DATA_TYPE exampleStruct [] ((5 : Int), ((0 : Nat), ())) (widgetWorld [])).2.2.trace =
      [.ToAGENT_DATA_TYPE [0], .ToAGENT_DATA_TYPE [1], .Destroy_AGENT_DATA_TYPE 0] :=
  ⟨((C15_rollback_accounting "S" _ [] exampleValue (widgetWorld [])).2.2.1 rfl).1,
    (C15_rollback_accounting "S" (.cons .int "a" (.cons .ascii_char_ptr "b" .nil)) []
      ((5 : Int), ((0 : Nat), ())) (widgetWorld [])).2.2.2 (by decide)⟩

/-- C16 (model to_generic draws only from properties). For every model
declaration, the member list handed to `TO_AGENT_DATA_TYPE` is the list of
the (type, name) pairs of the `WITH_DATA`, `WITH_REPORTED_PROPERTY` and
`WITH_DESIRED_PROPERTY` elements in declaration order: an action or a method
contributes no member and the callback of a desired property none. When the
model has a property and the conversion of every member succeeds,
`ToAGENT_DATA_TYPE_<model>` calls the record constructor with the number and
the names of these properties. -/
theorem C16_model_to_generic_members (name : String) (elements : List ModelElement) :
    (modelMembers elements).toList = elements.filterMap ModelElement.property? ∧
    ∀ (path : List Nat) (value : NativeFields (modelMembers elements)) (w : World),
      1 ≤ (elements.filterMap ModelElement.property?).length →
      (convertMembers (modelMembers elements) path 0 value w).1 =
        (elements.filterMap ModelElement.property?).length →
      ∃ pre post,
        (ToAGENT_DATA_TYPE_model name elements path value w).2.2.trace =
          pre ++ Event.Create_AGENT_DATA_TYPE_from_Members name
            (elements.filterMap ModelElement.property?).length
            ((elements.filterMap ModelElement.property?).map (fun p => some p.2))
            (convertMembers (modelMembers elements) path 0 value w).2.1 :: post := by
  have hl := modelMembers_toList elements
  refine ⟨hl, ?_⟩
  intro path value w hN hall
  have hlen : (modelMembers elements).length =
      (elements.filterMap ModelElement.property?).length := by
    rw [CFields_length_toList, hl]
  have hnames : (modelMembers elements).names.map some =
      (elements.filterMap ModelElement.property?).map (fun p => some p.2) := by
    rw [CFields_names_toList, hl, List.map_map]; rfl
  unfold ToAGENT_DATA_TYPE_model
  rw [To_struct_eq name _ path value w, if_pos (by omega),
    constructorCall_of_pos _ _ _ _ (by omega), hnames, hlen]
  refine ⟨(convertMembers (modelMembers elements) path 0 value w).2.2.trace,
    (List.range' 0 (elements.filterMap ModelElement.property?).length).map
      Event.Destroy_AGENT_DATA_TYPE, ?_⟩
  simp only [destroyMembers_trace, Create_from_Members_trace, World.log]
  rw [List.append_assoc]
  rfl

/-- C16 at a concrete input: the model `Thermostat` has the members
`temperature`, `target`, `limit` and `firmware`; its action and its method
give none. -/
theorem C16_witness :
    (modelMembers exampleModel).toList =
      [(.int, "temperature"), (.int, "target"), (.double, "limit"),
       (.ascii_char_ptr, "firmware")] :=
  (C16_model_to_generic_members "Thermostat" exampleModel).1

/-- C17 (registry ordering). For a namespace declared from any counter value
`k` whose declarations emit the entries `e_1, ..., e_n` (`entriesOf`: a
struct its struct entry and one field entry per field in field order, a
model its model entry and one entry per element in element order), walking
the back-pointers from the list head, with fuel for `n + 1` steps or more,
visits `e_n, ..., e_1` and then the terminator; reversing the walk gives the
terminator followed by the entries in declaration order. -/
theorem C17_registry_ordering (schemaNamespace : String) (ds : List Declaration) (k fuel : Nat)
    (hfuel : (entriesOf ds).length + 1 ≤ fuel) :
    (walk (declareNamespace schemaNamespace ds (TranslationUnit.startingAt k)).REFLECTED fuel
        ((declareNamespace schemaNamespace ds (TranslationUnit.startingAt k)).listHead
          schemaNamespace)).map REFLECTED_SOMETHING.entry =
      ((entriesOf ds).map (fun e => (e.1, some e.2))).reverse ++ [(REFLECTION_NOTHING, none)] ∧
    ((walk (declareNamespace schemaNamespace ds (TranslationUnit.startingAt k)).REFLECTED fuel
        ((declareNamespace schemaNamespace ds (TranslationUnit.startingAt k)).listHead
          schemaNamespace)).map REFLECTED_SOMETHING.entry).reverse =
      (REFLECTION_NOTHING, none) :: (entriesOf ds).map (fun e => (e.1, some e.2)) := by
  obtain ⟨bs, he, hu⟩ := declareNamespace_eq schemaNamespace ds k
  have hlen : bs.length = (entriesOf ds).length := by
    have := congrArg List.length he
    simpa [bodyEntries] using this
  have hwalk := walk_chain k bs [] fuel (by omega)
  have hmap : ((chainFrom k bs).map (fun d => d.2)).map REFLECTED_SOMETHING.entry =
      bodyEntries bs := by
    apply List.ext_getElem?
    intro i
    simp only [List.getElem?_map, chainFrom_getElem?, bodyEntries]
    cases bs[i]? <;> rfl
  have key : (walk (declareNamespace schemaNamespace ds (TranslationUnit.startingAt k)).REFLECTED
        fuel ((declareNamespace schemaNamespace ds (TranslationUnit.startingAt k)).listHead
          schemaNamespace)).map REFLECTED_SOMETHING.entry =
      ((entriesOf ds).map (fun e => (e.1, some e.2))).reverse ++ [(REFLECTION_NOTHING, none)] := by
    rw [hu]
    simp only [TranslationUnit.listHead, List.find?_cons_of_pos, beq_self_eq_true, Option.map_some']
    rw [List.append_nil] at hwalk
    rw [hwalk, List.map_append, List.map_reverse, hmap, he]
    rfl
  exact ⟨key, by rw [key]; simp⟩

/-- C17 at a concrete input: for the struct `S` with the fields `A`, `B`,
`C`, the reversed walk is the terminator, `S`, `A`, `B`, `C`. -/
theorem C17_witness :
    ((walk (declareNamespace "ns" abcNamespace (TranslationUnit.startingAt 7)).REFLECTED 5
        ((declareNamespace "ns" abcNamespace (TranslationUnit.startingAt 7)).listHead
          "ns")).map REFLECTED_SOMETHING.entry).reverse =
      [(REFLECTION_NOTHING, none), (REFLECTION_STRUCT_TYPE, some "S"),
        (REFLECTION_FIELD_TYPE, some "A"), (REFLECTION_FIELD_TYPE, some "B"),
        (REFLECTION_FIELD_TYPE, some "C")] :=
  (C17_registry_ordering "ns" abcNamespace 7 5 (by decide)).2

/-- C18 (registry back-pointer chain). For a namespace declared from any
counter value `k` whose declarations emit `n` entries, `__COUNTER__` being
read by the registry macros only: the first record is the terminator, named
`REFLECTED_k`, with a `NULL` back-pointer and the kind `REFLECTION_NOTHING`;
for `1 <= i <= n` the `i`-th record after it is named `REFLECTED_(k + 2i)`,
its back-pointer is `&REFLECTED_(k + 2(i - 1))` and it is the `i`-th entry,
whatever its kind (a desired property with or without a change callback
included); and the list head emitted by `END_NAMESPACE` points to
`REFLECTED_(k + 2n)`. -/
theorem C18_registry_back_pointer_chain (schemaNamespace : String) (ds : List Declaration)
    (k : Nat) :
    (declareNamespace schemaNamespace ds (TranslationUnit.startingAt k)).REFLECTED.length =
      (entriesOf ds).length + 1 ∧
    (declareNamespace schemaNamespace ds (TranslationUnit.startingAt k)).REFLECTED[0]? =
      some (k, { type := REFLECTION_NOTHING, next := none, what := .nothing }) ∧
    (∀ i, 1 ≤ i → i ≤ (entriesOf ds).length →
      ∃ r, (declareNamespace schemaNamespace ds (TranslationUnit.startingAt k)).REFLECTED[i]? =
          some (k + 2 * i, r) ∧
        r.next = some (k + 2 * (i - 1)) ∧
        ((entriesOf ds).map (fun e => (e.1, some e.2)))[i - 1]? = some r.entry) ∧
    (declareNamespace schemaNamespace ds (TranslationUnit.startingAt k)).ALL_REFLECTED =
      [(schemaNamespace, k + 2 * (entriesOf ds).length)] := by
  obtain ⟨bs, he, hu⟩ := declareNamespace_eq schemaNamespace ds k
  have hlen : bs.length = (entriesOf ds).length := by
    have := congrArg List.length he
    simpa [bodyEntries] using this
  rw [hu]
  refine ⟨by simp [chainFrom_length, hlen], by simp, ?_, by simp [hlen]⟩
  intro i h1 h2
  obtain ⟨j, rfl⟩ : ∃ j, i = j + 1 := ⟨i - 1, by omega⟩
  have hj : j < bs.length := by omega
  refine ⟨{ type := (bs[j]).1, next := some (k + 2 * j), what := (bs[j]).2 }, ?_, ?_, ?_⟩
  · simp only [List.getElem?_cons_succ, chainFrom_getElem?, List.getElem?_eq_getElem hj,
      Option.map_some']
  · simp
  · rw [← he]
    simp only [bodyEntries, Nat.add_sub_cancel, List.getElem?_map, List.getElem?_eq_getElem hj,
      Option.map_some']
    rfl

/-- C18 at a concrete input: the names, back-pointers and entries of the
records of a namespace with a struct of three fields and a model of six
elements, declared from the counter value 7. -/
theorem C18_witness :
    (declareNamespace "ns" exampleNamespace (TranslationUnit.startingAt 7)).REFLECTED.map
        (fun d => (d.1, d.2.next, d.2.entry)) =
      [(7, none, REFLECTION_NOTHING, none),
       (9, some 7, REFLECTION_STRUCT_TYPE, some "S"),
       (11, some 9, REFLECTION_FIELD_TYPE, some "A"),
       (13, some 11, REFLECTION_FIELD_TYPE, some "B"),
       (15, some 13, REFLECTION_FIELD_TYPE, some "C"),
       (17, some 15, REFLECTION_MODEL_TYPE, some "Thermostat"),
       (19, some 17, REFLECTION_PROPERTY_TYPE, some "temperature"),
       (21, some 19, REFLECTION_ACTION_TYPE, some "SetPrice"),
       (23, some 21, REFLECTION_DESIRED_PROPERTY_TYPE, some "target"),
       (25, some 23, REFLECTION_DESIRED_PROPERTY_TYPE, some "limit"),
       (27, some 25, REFLECTION_METHOD_TYPE, some "Reboot"),
       (29, some 27, REFLECTION_REPORTED_PROPERTY_TYPE, some "firmware")] ∧
    (declareNamespace "ns" exampleNamespace (TranslationUnit.startingAt 7)).ALL_REFLECTED =
      [("ns", 29)] :=
  ⟨by decide, (C18_registry_back_pointer_chain "ns" exampleNamespace 7).2.2.2⟩

/-- C19 (string from_generic fails atomically). For both string codecs,
every initial destination pointer (`NULL` or not) and every state in which
the next allocation request fails, so that `mallocAndStrcpy_s` fails: when
the source has the tag of the codec, the codec returns
`AGENT_DATA_TYPES_ERROR` and the destination pointer is `NULL` afterwards. -/
theorem C19_string_from_generic_fails_atomically (g : AGENT_DATA_TYPE) (dest : Nat) (w : World)
    (hfail : nextAllocationFails w) :
    (g.type = EDM_STRING_TYPE →
      (FromAGENT_DATA_TYPE_ascii_char_ptr g dest w).1 = AGENT_DATA_TYPES_ERROR ∧
      (FromAGENT_DATA_TYPE_ascii_char_ptr g dest w).2.1 = 0) ∧
    (g.type = EDM_STRING_NO_QUOTES_TYPE →
      (FromAGENT_DATA_TYPE_ascii_char_ptr_no_quotes g dest w).1 = AGENT_DATA_TYPES_ERROR ∧
      (FromAGENT_DATA_TYPE_ascii_char_ptr_no_quotes g dest w).2.1 = 0) := by
  have hfree : nextAllocationFails (w.free dest) := by
    unfold nextAllocationFails; rw [free_request]; exact hfail
  constructor
  · intro htag
    cases g <;> simp [AGENT_DATA_TYPE.type] at htag
    rename_i chars
    by_cases hd : dest = 0
    · subst hd
      obtain ⟨w1, h1⟩ := mallocAndStrcpy_s_of_fail hfail 0 chars
      simp [FromAGENT_DATA_TYPE_ascii_char_ptr, h1]
    · obtain ⟨w1, h1⟩ := mallocAndStrcpy_s_of_fail hfree 0 chars
      simp [FromAGENT_DATA_TYPE_ascii_char_ptr, hd, h1]
  · intro htag
    cases g <;> simp [AGENT_DATA_TYPE.type] at htag
    rename_i chars
    by_cases hd : dest = 0
    · subst hd
      obtain ⟨w1, h1⟩ := mallocAndStrcpy_s_of_fail hfail 0 chars
      simp [FromAGENT_DATA_TYPE_ascii_char_ptr_no_quotes, h1]
    · obtain ⟨w1, h1⟩ := mallocAndStrcpy_s_of_fail hfree 0 chars
      simp [FromAGENT_DATA_TYPE_ascii_char_ptr_no_quotes, hd, h1]

/-- C19 at a concrete input: a destination that points to the string
"widget-7" is `NULL` after a conversion whose allocation fails, and the
result is `AGENT_DATA_TYPES_ERROR`, for both string codecs. -/
theorem C19_witness :
    ((FromAGENT_DATA_TYPE_ascii_char_ptr (.edmString "19.99") 1 (widgetWorld [false])).1 =
        AGENT_DATA_TYPES_ERROR ∧
      (FromAGENT_DATA_TYPE_ascii_char_ptr (.edmString "19.99") 1 (widgetWorld [false])).2.1 = 0) ∧
    ((FromAGENT_DATA_TYPE_ascii_char_ptr_no_quotes (.edmStringNoQuotes "19.99") 1
        (widgetWorld [false])).1 = AGENT_DATA_TYPES_ERROR ∧
      (FromAGENT_DATA_TYPE_ascii_char_ptr_no_quotes (.edmStringNoQuotes "19.99") 1
        (widgetWorld [false])).2.1 = 0) :=
  ⟨(C19_string_from_generic_fails_atomically (.edmString "19.99") 1 (widgetWorld [false])
      rfl).1 rfl,
    (C19_string_from_generic_fails_atomically (.edmStringNoQuotes "19.99") 1
      (widgetWorld [false]) rfl).2 rfl⟩

/-- C20 (binary from_generic, failing allocation). For every source with
the tag `EDM_BINARY_TYPE`, every initial destination and every state in which
the next allocation request fails, `FromAGENT_DATA_TYPE_EDM_BINARY` returns
`AGENT_DATA_TYPES_ERROR` and leaves `data` `NULL`, but it leaves `size` as it
was and frees nothing: a destination that held a non-zero size does not end
up empty. -/
theorem C20_binary_from_generic_failure_keeps_size (data : List Nat) (dest : EDM_BINARY)
    (w : World) (hfail : nextAllocationFails w) :
    (FromAGENT_DATA_TYPE_EDM_BINARY (.edmBinary data) dest w).1 = AGENT_DATA_TYPES_ERROR ∧
    (FromAGENT_DATA_TYPE_EDM_BINARY (.edmBinary data) dest w).2.1.data = 0 ∧
    (FromAGENT_DATA_TYPE_EDM_BINARY (.edmBinary data) dest w).2.1.size = dest.size ∧
    (FromAGENT_DATA_TYPE_EDM_BINARY (.edmBinary data) dest w).2.2.freed = w.freed := by
  have hm := malloc_of_fail hfail (.bytes data)
  have hf := malloc_freed w (.bytes data)
  rcases hmm : w.malloc (.bytes data) with ⟨p, w1⟩
  rw [hmm] at hm hf
  simp only at hm hf
  subst hm
  simp [FromAGENT_DATA_TYPE_EDM_BINARY, hmm, hf]

/-- C20 at the failing input: the destination `{ size = 3, data = <block 1> }`
ends as `{ size = 3, data = NULL }`, and block 1 is not freed. -/
theorem C20_witness :
    (FromAGENT_DATA_TYPE_EDM_BINARY (.edmBinary [1, 2]) { size := 3, data := 1 } blobWorld).1 =
      AGENT_DATA_TYPES_ERROR ∧
    (FromAGENT_DATA_TYPE_EDM_BINARY (.edmBinary [1, 2]) { size := 3, data := 1 }
      blobWorld).2.1.data = 0 ∧
    (FromAGENT_DATA_TYPE_EDM_BINARY (.edmBinary [1, 2]) { size := 3, data := 1 }
      blobWorld).2.1.size = 3 ∧
    (FromAGENT_DATA_TYPE_EDM_BINARY (.edmBinary [1, 2]) { size := 3, data := 1 }
      blobWorld).2.2.freed = [] :=
  C20_binary_from_generic_failure_keeps_size [1, 2] { size := 3, data := 1 } blobWorld rfl

/-- C21 (string assignment transfers ownership). For both string codecs, when
the source carries the matching tag and the destination holds a non-NULL
string `old` at address `dest`: the conversion is the conversion into a NULL
destination in the state reached by `free(dest)`, so the previous storage is
released before anything is written; the log of released addresses grows by
exactly `dest`, once; the destination never keeps the address `dest`; and
when the result is `AGENT_DATA_TYPES_OK` the destination points to a block
whose characters are those of the source. Addresses are never handed out
twice in the heap of this development. -/
theorem C21_string_assignment_transfers_ownership (P : Platform) (chars old : String)
    (path : List Nat) (dest : Nat) (w : World) (hold : w.string dest = some old) :
    (FromAGENT_DATA_TYPE P .ascii_char_ptr (.edmString chars) path dest w =
        FromAGENT_DATA_TYPE P .ascii_char_ptr (.edmString chars) path (0 : Nat) (w.free dest) ∧
      (FromAGENT_DATA_TYPE P .ascii_char_ptr (.edmString chars) path dest w).2.2.freed =
        w.freed ++ [dest] ∧
      (FromAGENT_DATA_TYPE P .ascii_char_ptr (.edmString chars) path dest w).2.1 ≠ dest ∧
      ((FromAGENT_DATA_TYPE P .ascii_char_ptr (.edmString chars) path dest w).1 =
          AGENT_DATA_TYPES_OK →
        (FromAGENT_DATA_TYPE P .ascii_char_ptr (.edmString chars) path dest w).2.2.string
          (FromAGENT_DATA_TYPE P .ascii_char_ptr (.edmString chars) path dest w).2.1 =
            some chars)) ∧
    (FromAGENT_DATA_TYPE P .ascii_char_ptr_no_quotes (.edmStringNoQuotes chars) path dest w =
        FromAGENT_DATA_TYPE P .ascii_char_ptr_no_quotes (.edmStringNoQuotes chars) path
          (0 : Nat) (w.free dest) ∧
      (FromAGENT_DATA_TYPE P .ascii_char_ptr_no_quotes (.edmStringNoQuotes chars) path dest
        w).2.2.freed = w.freed ++ [dest] ∧
      (FromAGENT_DATA_TYPE P .ascii_char_ptr_no_quotes (.edmStringNoQuotes chars) path dest
        w).2.1 ≠ dest ∧
      ((FromAGENT_DATA_TYPE P .ascii_char_ptr_no_quotes (.edmStringNoQuotes chars) path dest
          w).1 = AGENT_DATA_TYPES_OK →
        (FromAGENT_DATA_TYPE P .ascii_char_ptr_no_quotes (.edmStringNoQuotes chars) path dest
          w).2.2.string
          (FromAGENT_DATA_TYPE P .ascii_char_ptr_no_quotes (.edmStringNoQuotes chars) path dest
            w).2.1 = some chars)) := by
  constructor
  · simp only [FromAGENT_DATA_TYPE]
    exact From_ascii_char_ptr_replace chars old dest w hold
  · simp only [FromAGENT_DATA_TYPE]
    exact From_ascii_char_ptr_no_quotes_replace chars old dest w hold

/-- C21 at a concrete input: the destination holds "widget-7" at address 1
and the source is the string "19.99"; address 1 is released once and the
destination points to the new block 2 holding "19.99". -/
theorem C21_witness :
    (widgetWorld []).string 1 = some "widget-7" ∧
    (FromAGENT_DATA_TYPE examplePlatform .ascii_char_ptr (.edmString "19.99") [0] (1 : Nat)
      (widgetWorld [])).1 = AGENT_DATA_TYPES_OK ∧
    (FromAGENT_DATA_TYPE examplePlatform .ascii_char_ptr (.edmString "19.99") [0] (1 : Nat)
      (widgetWorld [])).2.1 = (2 : Nat) ∧
    (FromAGENT_DATA_TYPE examplePlatform .ascii_char_ptr (.edmString "19.99") [0] (1 : Nat)
      (widgetWorld [])).2.2.freed = [1] ∧
    (FromAGENT_DATA_TYPE examplePlatform .ascii_char_ptr (.edmString "19.99") [0] (1 : Nat)
      (widgetWorld [])).2.2.string 2 = some "19.99" :=
  ⟨by decide, by decide, rfl,
   (C21_string_assignment_transfers_ownership examplePlatform "19.99" "widget-7" [0] 1
      (widgetWorld []) (by decide)).1.2.1,
   by decide⟩

/-- C22 (zero initialisation). Whatever the destination held,
`GlobalInitialize_<T>` stores 0 for the integer types, the all-zero bit
pattern 0.0 for `float` and `double`, `false` for `bool`, `NULL` for both
string types, all-zero bytes for `EDM_DATE_TIME_OFFSET` and `EDM_GUID`, and
`data = NULL`, `size = 0` for `EDM_BINARY`; `GlobalInitialize_<struct>` applies
the `GlobalInitialize_` of the field type to every declared field; hence for
every declared type the destination holds the zero value afterwards. -/
theorem C22_zero_initialisation (P : Platform) :
    (∀ d, GlobalInitialize P .double d = (0 : Nat)) ∧
    (∀ d, GlobalInitialize P .float d = (0 : Nat)) ∧
    (∀ d, GlobalInitialize P .int d = (0 : Int)) ∧
    (∀ d, GlobalInitialize P .long d = (0 : Int)) ∧
    (∀ d, GlobalInitialize P .int8_t d = (0 : Int)) ∧
    (∀ d, GlobalInitialize P .uint8_t d = (0 : Nat)) ∧
    (∀ d, GlobalInitialize P .int16_t d = (0 : Int)) ∧
    (∀ d, GlobalInitialize P .int32_t d = (0 : Int)) ∧
    (∀ d, GlobalInitialize P .int64_t d = (0 : Int)) ∧
    (∀ d, GlobalInitialize P .bool d = false) ∧
    (∀ d, GlobalInitialize P .ascii_char_ptr d = (0 : Nat)) ∧
    (∀ d, GlobalInitialize P .ascii_char_ptr_no_quotes d = (0 : Nat)) ∧
    (∀ d, (GlobalInitialize P .EDM_DATE_TIME_OFFSET d : LokiSDK.EDM_DATE_TIME_OFFSET).bytes =
      List.replicate P.sizeof_EDM_DATE_TIME_OFFSET 0) ∧
    (∀ d, (GlobalInitialize P .EDM_GUID d : LokiSDK.EDM_GUID).GUID = List.replicate 16 0) ∧
    (∀ d, GlobalInitialize P .EDM_BINARY d =
      ({ size := 0, data := 0 } : LokiSDK.EDM_BINARY)) ∧
    (∀ (name : String) (t : CType) (field : String) (rest : CFields) (d : Native t)
        (ds : NativeFields rest),
      GlobalInitialize P (.struct name (.cons t field rest)) (d, ds) =
        (GlobalInitialize P t d, GlobalInitialize P (.struct name rest) ds)) ∧
    (∀ (t : CType) (d : Native t), GlobalInitialize P t d = zeroValue P t) := by
  refine ⟨fun _ => rfl, fun _ => rfl, fun _ => rfl, fun _ => rfl, fun _ => rfl, fun _ => rfl,
    fun _ => rfl, fun _ => rfl, fun _ => rfl, fun _ => rfl, fun _ => rfl, fun _ => rfl,
    fun _ => rfl, fun _ => rfl, fun _ => rfl, ?_, GlobalInitialize_eq_zero P⟩
  intro name t field rest d ds
  simp only [GlobalInitialize, GLOBAL_INITIALIZE_STRUCT_FIELD]

/-- C23 (release is idempotent on a zeroed value). For every primitive codec
`T`, `GlobalDeinitialize_<T>` and `destroyLocalParameter<T>` applied to a value
just produced by `GlobalInitialize_<T>` return that value and leave the state
as it was, the log of released addresses included; applying either of them
`n` times, for any `n`, gives the same value and state. -/
theorem C23_release_idempotent_on_zeroed_value (P : Platform) (t : CType)
    (ht : t.isPrimitive = true) (d : Native t) (path : List Nat) (w : World) (n : Nat) :
    GlobalDeinitialize t (GlobalInitialize P t d) w = (GlobalInitialize P t d, w) ∧
    destroyLocalParameter t path (GlobalInitialize P t d) w = (GlobalInitialize P t d, w) ∧
    (fun s : Native t × World => GlobalDeinitialize t s.1 s.2)^[n] (GlobalInitialize P t d, w) =
      (GlobalInitialize P t d, w) ∧
    (fun s : Native t × World => destroyLocalParameter t path s.1 s.2)^[n]
      (GlobalInitialize P t d, w) = (GlobalInitialize P t d, w) := by
  rw [GlobalInitialize_eq_zero]
  obtain ⟨h1, h2⟩ := release_zero P t ht path w
  exact ⟨h1, h2, Function.iterate_fixed h1 n, Function.iterate_fixed h2 n⟩

/-- C23 at a concrete input: `GlobalDeinitialize_EDM_BINARY` applied three
times to an initialised binary value. -/
theorem C23_witness :
    (fun s : Native .EDM_BINARY × World => GlobalDeinitialize .EDM_BINARY s.1 s.2)^[3]
      (GlobalInitialize examplePlatform .EDM_BINARY
        ({ size := 3, data := 1 } : LokiSDK.EDM_BINARY), blobWorld) =
      (({ size := 0, data := 0 } : LokiSDK.EDM_BINARY), blobWorld) :=
  (C23_release_idempotent_on_zeroed_value examplePlatform .EDM_BINARY rfl
    ({ size := 3, data := 1 } : LokiSDK.EDM_BINARY) [] blobWorld 3).2.2.1

/-- C24 (struct destroy releases every field). The calls made inside
`destroyLocalParameter<struct>` for the object at `path` are exactly the
releaser calls of the declared fields: one call per field, in declared order,
each followed by the calls made inside it for a field that is itself a
struct, and nothing else; every such call is a `destroyLocalParameter` call
on an access path below `path`; and the calls on the fields of the struct
itself are those of fields 0, 1, ..., N-1, each once. -/
theorem C24_struct_destroy_releases_every_field (name : String) (fs : CFields)
    (path : List Nat) (value : Native (.struct name fs)) (w : World) :
    (destroyLocalParameter (.struct name fs) path value w).2.trace =
      w.trace ++ fieldReleaseCalls fs path 0 ∧
    (∀ e ∈ fieldReleaseCalls fs path 0,
      ∃ p, e = Event.destroyLocalParameter p ∧ path.length < p.length) ∧
    destroyedParams (callsSince w.trace.length
      (destroyLocalParameter (.struct name fs) [] value w).2) = List.range fs.length := by
  refine ⟨?_, fieldReleaseCalls_shape fs path 0, ?_⟩
  · simp only [destroyLocalParameter]
    exact UNBUILD_trace fs path 0 value w
  · have h : (destroyLocalParameter (.struct name fs) [] value w).2.trace =
        w.trace ++ fieldReleaseCalls fs [] 0 := by
      simp only [destroyLocalParameter]
      exact UNBUILD_trace fs [] 0 value w
    rw [callsSince_of_trace h, fieldReleaseCalls_top, List.range_eq_range']

/-- C24 at a concrete input: a struct with a nested struct, a binary blob and
a flag; the string of the nested struct (address 1) and the blob (address 2)
are released. -/
theorem C24_witness :
    callsSince 0 (destroyLocalParameter nestedStruct [] nestedValue (widgetWorld [])).2 =
      [.destroyLocalParameter [0], .destroyLocalParameter [0, 0], .destroyLocalParameter [0, 1],
        .destroyLocalParameter [1], .destroyLocalParameter [2]] ∧
    destroyedParams (callsSince 0
      (destroyLocalParameter nestedStruct [] nestedValue (widgetWorld [])).2) = [0, 1, 2] ∧
    (destroyLocalParameter nestedStruct [] nestedValue (widgetWorld [])).2.freed = [1, 2] :=
  ⟨(C24_struct_destroy_releases_every_field "T" _ [] nestedValue (widgetWorld [])).1,
   (C24_struct_destroy_releases_every_field "T" _ [] nestedValue (widgetWorld [])).2.2,
   by decide⟩

/-- C25 (the property accessor is a thin adapter).
`Create_AGENT_DATA_TYPE_From_Ptr_<M><p>(param, dest)` returns the result of
`ToAGENT_DATA_TYPE_<T>(dest, *param)` as an `int`, stores the same generic
value through `dest`, reaches the same state, leaves the field that `param`
points to as it was, and leaves every block of the heap as it was. -/
theorem C25_property_accessor_is_thin_adapter (T : CType) (path : List Nat) (v : Native T)
    (w : World) :
    (Create_AGENT_DATA_TYPE_From_Ptr_ T path v w).1 =
      (ToAGENT_DATA_TYPE T path v w).1.toInt ∧
    (Create_AGENT_DATA_TYPE_From_Ptr_ T path v w).2.1 = (ToAGENT_DATA_TYPE T path v w).2.1 ∧
    (Create_AGENT_DATA_TYPE_From_Ptr_ T path v w).2.2.2 = (ToAGENT_DATA_TYPE T path v w).2.2 ∧
    (Create_AGENT_DATA_TYPE_From_Ptr_ T path v w).2.2.1 = v ∧
    (Create_AGENT_DATA_TYPE_From_Ptr_ T path v w).2.2.2.blocks = w.blocks :=
  ⟨rfl, rfl, rfl, rfl, To_blocks T path v w⟩

/-- C26 (desired-property descriptor). The record that `CREATE_MODEL_ELEMENT`
defines for a desired property `p` of type `T` of model `M` is a
desired-property record holding the change callback given in the declaration
(`NULL` when none was given), the hooks `DesiredPropertyInitialize_<M><p>` and
`DesiredPropertyDeinitialize_<M><p>`, the name, the type name,
`FromAGENT_DATA_TYPE_<T>`, `offsetof(M, p)`, `sizeof(T)` and the model name;
and the two hooks have exactly the effect of `GlobalInitialize_<T>` and
`GlobalDeinitialize_<T>` on the destination. -/
theorem C26_desired_property_descriptor (P : Platform) (M p : String) (T : CType)
    (callback : Option String) (u : TranslationUnit) :
    lastReflected (CREATE_MODEL_ELEMENT M (.MODEL_DESIRED_PROPERTY T p callback) u) =
      some { type := REFLECTION_DESIRED_PROPERTY_TYPE, next := some (u.COUNTER - 1),
             what := .desiredProperty callback ("DesiredPropertyInitialize_" ++ M ++ p)
               ("DesiredPropertyDeinitialize_" ++ M ++ p) p (MU_TOSTRING T)
               ("FromAGENT_DATA_TYPE_" ++ MU_TOSTRING T) { aggregate := M, member := p }
               { type := MU_TOSTRING T } M } ∧
    (∀ destination : Native T,
      DesiredPropertyInitialize_ P T destination = GlobalInitialize P T destination) ∧
    (∀ (destination : Native T) (w : World),
      DesiredPropertyDeinitialize_ T destination w = GlobalDeinitialize T destination w) := by
  refine ⟨?_, fun _ => rfl, fun _ _ => rfl⟩
  simp only [CREATE_MODEL_ELEMENT, REFLECTED_DESIRED_PROPERTY_eq, lastReflected_reflect]

/-- C27 (descriptor and wrapper agree on arity). For an action or a method
declared with n parameters: the record of the declaration stores the count n
together with the table `<name>WRAPPERARGUMENTS` and the wrapper; the wrapper
takes its error branch exactly when `ParameterCount` differs from n; the
table has the n (type name, parameter name) entries in declared order
followed by one zeroed entry, and its declared length is n + 1. The
initialiser of the table, token by token, gives this array whenever
`MU_IFCOMMA` is defined for 2n + 2, that is for n up to 63; for larger n
the initialiser has no expansion. -/
theorem C27_descriptor_and_wrapper_agree_on_arity (P : Platform) (M name : String)
    (params : CFields) (u : TranslationUnit) :
    lastReflected (CREATE_MODEL_ELEMENT M (.MODEL_ACTION name params) u) =
      some { type := REFLECTION_ACTION_TYPE, next := some (u.COUNTER - 1),
             what := .action name params.length
               (argumentPairs params ++ [{ type := none, name := none }])
               (name ++ "WRAPPER") M } ∧
    lastReflected (CREATE_MODEL_ELEMENT M (.MODEL_METHOD name params) u) =
      some { type := REFLECTION_METHOD_TYPE, next := some (u.COUNTER - 1),
             what := .method name params.length
               (argumentPairs params ++ [{ type := none, name := none }])
               (name ++ "WRAPPER") M } ∧
    (∀ (actionName : Nat → NativeFields params → Heap → EXECUTE_COMMAND_RESULT × Heap)
        (stack : NativeFields params) (device ParameterCount : Nat)
        (values : List AGENT_DATA_TYPE) (w : World),
      actionWRAPPER P params actionName stack device ParameterCount values w =
        if ParameterCount ≠ params.length then (EXECUTE_COMMAND_ERROR, w)
        else BUILD_LOCAL_PARAMETER P EXECUTE_COMMAND_ERROR values params 0
          (DEFINE_LOCAL_PARAMETER P params stack) (callUser params actionName device) w) ∧
    (∀ (methodName : Nat → NativeFields params → Heap → Nat × Heap)
        (stack : NativeFields params) (device ParameterCount : Nat)
        (values : List AGENT_DATA_TYPE) (w : World),
      methodWRAPPER P params methodName stack device ParameterCount values w =
        if ParameterCount ≠ params.length then
          (0, w.log (.LogError
            "expected parameter count (%lu) does not match the actual parameter count (%lu)"
            [ParameterCount % 2 ^ P.LONG_BIT, MU_COUNT_ARG params % 2 ^ P.LONG_BIT]))
        else BUILD_LOCAL_PARAMETER P 0 values params 0
          (DEFINE_LOCAL_PARAMETER P params stack) (callUser params methodName device) w) ∧
    (argumentPairs params).length = params.length ∧
    WRAPPERARGUMENTS_length params = params.length + 1 ∧
    (params.length ≤ 63 →
      ∃ ts, WRAPPERARGUMENTS_tokens params = some ts ∧
        initializedElements ts =
          some (argumentPairs params ++ [{ type := none, name := none }])) ∧
    (64 ≤ params.length → WRAPPERARGUMENTS_tokens params = none) := by
  refine ⟨?_, ?_, ?_, ?_, ?_, ?_, ?_, WRAPPERARGUMENTS_tokens_none params⟩
  · simp only [CREATE_MODEL_ELEMENT, REFLECTED_ACTION, lastReflected_reflect,
      MU_DIV2_MU_COUNT_ARG, WRAPPERARGUMENTS_eq]
  · simp only [CREATE_MODEL_ELEMENT, REFLECTED_METHOD, lastReflected_reflect,
      MU_DIV2_MU_COUNT_ARG, WRAPPERARGUMENTS_eq]
  · intro actionName stack device ParameterCount values w
    simp only [actionWRAPPER, MU_DIV2_MU_COUNT_ARG]
  · intro methodName stack device ParameterCount values w
    simp only [methodWRAPPER, MU_DIV2_MU_COUNT_ARG]
  · simp [argumentPairs, CFields_length_toList]
  · simp only [WRAPPERARGUMENTS_length, MU_DIV2, MU_INC, MU_COUNT_ARG]
    omega
  · intro h
    obtain ⟨ts, h1, h2⟩ := WRAPPERARGUMENTS_tokens_spec params h
    exact ⟨ts, h1, by rw [h2, WRAPPERARGUMENTS_eq]⟩

/-- C27 at a concrete input: the two parameters of `SetPrice`. -/
theorem C27_witness :
    WRAPPERARGUMENTS_tokens SetPrice_params =
      some [.entry { type := some "ascii_char_ptr", name := some "itemId" }, .comma,
        .entry { type := some "ascii_char_ptr", name := some "price" }, .comma,
        .entry { type := none, name := none }] ∧
    (WRAPPERARGUMENTS_tokens SetPrice_params).bind initializedElements =
      some [{ type := some "ascii_char_ptr", name := some "itemId" },
        { type := some "ascii_char_ptr", name := some "price" },
        { type := none, name := none }] ∧
    SetPrice_params.length ≤ 63 ∧
    ∃ ts, WRAPPERARGUMENTS_tokens SetPrice_params = some ts ∧
      initializedElements ts =
        some (argumentPairs SetPrice_params ++ [{ type := none, name := none }]) :=
  ⟨by decide, by decide, by decide,
    (C27_descriptor_and_wrapper_agree_on_arity examplePlatform "Thermostat" "SetPrice"
      SetPrice_params (TranslationUnit.startingAt 0)).2.2.2.2.2.2.1 (by decide)⟩

/-- C28, counterexample: the record that `REFLECTED_FIELD(S, int, A)` defines
does not hold the byte offset of `A` within `S` nor the size of `int`; it
holds no offset and no size at all. -/
theorem C28_counterexample :
    lastDescriptor (REFLECTED_FIELD "S" .int "A" (TranslationUnit.startingAt 8)) ≠
      some { type := "int", name := "A", offset := some { aggregate := "S", member := "A" },
             size := some { type := "int" }, owner := "S" } ∧
    (lastDescriptor (REFLECTED_FIELD "S" .int "A" (TranslationUnit.startingAt 8))).map
        (fun d => (d.offset, d.size)) = some (none, none) := by
  decide

/-- C28 (field descriptor contents), amended. The record of a field of a
`DECLARE_STRUCT` struct holds the type name, the field name and the name of
the struct, and neither an offset nor a size; the record of a property, a
reported property or a desired property of a model holds the type name, the
property name, `offsetof(model, name)`, `sizeof(type)` and the model name. -/
theorem C28_field_descriptor_contents (owner name : String) (T : CType)
    (callback : Option String) (u : TranslationUnit) :
    lastDescriptor (REFLECTED_FIELD owner T name u) =
      some { type := MU_TOSTRING T, name := name, offset := none, size := none,
             owner := owner } ∧
    lastDescriptor (CREATE_MODEL_ELEMENT owner (.MODEL_PROPERTY T name) u) =
      some { type := MU_TOSTRING T, name := name,
             offset := some { aggregate := owner, member := name },
             size := some { type := MU_TOSTRING T }, owner := owner } ∧
    lastDescriptor (CREATE_MODEL_ELEMENT owner (.MODEL_REPORTED_PROPERTY T name) u) =
      some { type := MU_TOSTRING T, name := name,
             offset := some { aggregate := owner, member := name },
             size := some { type := MU_TOSTRING T }, owner := owner } ∧
    lastDescriptor (CREATE_MODEL_ELEMENT owner (.MODEL_DESIRED_PROPERTY T name callback) u) =
      some { type := MU_TOSTRING T, name := name,
             offset := some { aggregate := owner, member := name },
             size := some { type := MU_TOSTRING T }, owner := owner } := by
  refine ⟨?_, ?_, ?_, ?_⟩
  · simp [lastDescriptor, REFLECTED_FIELD, lastReflected_reflect, REFLECTED_WHAT.fieldDescriptor]
  · simp [lastDescriptor, CREATE_MODEL_ELEMENT, REFLECTED_PROPERTY, lastReflected_reflect,
      REFLECTED_WHAT.fieldDescriptor]
  · simp [lastDescriptor, CREATE_MODEL_ELEMENT, REFLECTED_REPORTED_PROPERTY,
      lastReflected_reflect, REFLECTED_WHAT.fieldDescriptor]
  · simp [lastDescriptor, CREATE_MODEL_ELEMENT, REFLECTED_DESIRED_PROPERTY_eq,
      lastReflected_reflect, REFLECTED_WHAT.fieldDescriptor]

/-- C28 at a concrete input: the property `int Temperature` of the model
`Thermostat`. -/
theorem C28_witness :
    lastDescriptor (CREATE_MODEL_ELEMENT "Thermostat" (.MODEL_PROPERTY .int "Temperature")
      (TranslationUnit.startingAt 0)) =
      some { type := "int", name := "Temperature",
             offset := some { aggregate := "Thermostat", member := "Temperature" },
             size := some { type := "int" }, owner := "Thermostat" } :=
  (C28_field_descriptor_contents "Thermostat" "Temperature" .int none
    (TranslationUnit.startingAt 0)).2.1

/-- C29 (wire-visible constants). The eight string constants of
`iothub_internal_consts.h` have the values given in the claim, character for
character, and the four keys `SECURITY_INTERFACE_INTERNAL_ID`,
`SECURITY_INTERFACE_ID`, `SECURITY_INTERFACE_ID_MQTT` and
`SECURITY_MESSAGE_SCHEMA` are pairwise distinct. -/
theorem C29_wire_constants_verbatim :
    IOTHUB_API_VERSION = "2020-09-30" ∧
    SECURITY_INTERFACE_INTERNAL_ID = "iothub-interface-internal-id" ∧
    SECURITY_INTERFACE_INTERNAL_ID_VALUE = "security*azureiot*com^SecurityAgent^1*0*0" ∧
    SECURITY_INTERFACE_ID = "iothub-interface-id" ∧
    SECURITY_INTERFACE_ID_MQTT = "ifid" ∧
    SECURITY_INTERFACE_ID_VALUE = "urn:azureiot:Security:SecurityAgent:1" ∧
    SECURITY_MESSAGE_SCHEMA = "iothub-message-schema" ∧
    SECURITY_MESSAGE_SCHEMA_VALUE = "sevent" ∧
    [SECURITY_INTERFACE_INTERNAL_ID, SECURITY_INTERFACE_ID, SECURITY_INTERFACE_ID_MQTT,
      SECURITY_MESSAGE_SCHEMA].Nodup := by
  refine ⟨rfl, rfl, rfl, rfl, rfl, rfl, rfl, rfl, ?_⟩
  decide

/-- C30 (success implies an exact name match). For a struct whose declared
field names are pairwise distinct, if `FromAGENT_DATA_TYPE_<struct>(source,
dest)` returns `AGENT_DATA_TYPES_OK` then the member names of `source` are
pairwise distinct, they are a permutation of the declared field names, and
every member of `source` carries a declared field name; so a record with a
duplicated or an undeclared member name is never accepted. -/
theorem C30_success_implies_exact_name_match (P : Platform) (name : String) (fs : CFields)
    (source : AGENT_DATA_TYPE) (path : List Nat) (dest : NativeFields fs) (w : World)
    (hdistinct : fs.names.Nodup)
    (hok : (FromAGENT_DATA_TYPE P (.struct name fs) source path dest w).1 =
      AGENT_DATA_TYPES_OK) :
    source.memberNames.Nodup ∧ source.memberNames.Perm fs.names ∧
    (∀ m ∈ source.fields, m.1 ∈ fs.names) := by
  obtain ⟨-, hn, hc⟩ := From_struct_ok P name fs source path dest w hok
  have hsub : fs.names ⊆ source.memberNames := by
    intro n hmem
    obtain ⟨t, ht⟩ := CFields_mem_names fs n hmem
    obtain ⟨m, hm, -⟩ := convertFields_all P fs source path 0 dest w hc t n ht
    exact findMember_mem hm
  have hlen : source.memberNames.length ≤ fs.names.length := by
    have hl := CFields_length_toList fs
    simp only [AGENT_DATA_TYPE.nMembers] at hn
    simp only [AGENT_DATA_TYPE.memberNames, List.length_map, CFields_names_toList]
    omega
  have hperm : fs.names.Perm source.memberNames :=
    (List.subperm_of_subset hdistinct hsub).perm_of_length_le hlen
  refine ⟨hperm.nodup_iff.mp hdistinct, hperm.symm, ?_⟩
  intro m hm
  exact hperm.symm.subset (List.mem_map_of_mem Prod.fst hm)

/-- C30 at concrete inputs: a record with the members `b`, `a` is accepted
by the struct with the fields `a`, `b`; a record with the member `a` twice
and a record with an undeclared member `c` are rejected. -/
theorem C30_witness :
    (FromAGENT_DATA_TYPE examplePlatform exampleStruct
      (.edmComplexType [("b", .edmString "x"), ("a", .edmInt32 5)]) [] exampleValue
      (widgetWorld [])).1 = AGENT_DATA_TYPES_OK ∧
    (AGENT_DATA_TYPE.memberNames
      (.edmComplexType [("b", .edmString "x"), ("a", .edmInt32 5)])).Perm ["a", "b"] ∧
    (FromAGENT_DATA_TYPE examplePlatform exampleStruct
      (.edmComplexType [("a", .edmInt32 5), ("a", .edmInt32 6)]) [] exampleValue
      (widgetWorld [])).1 = AGENT_DATA_TYPES_INVALID_ARG ∧
    (FromAGENT_DATA_TYPE examplePlatform exampleStruct
      (.edmComplexType [("a", .edmInt32 5), ("c", .edmString "x")]) [] exampleValue
      (widgetWorld [])).1 = AGENT_DATA_TYPES_INVALID_ARG :=
  ⟨by decide,
   (C30_success_implies_exact_name_match examplePlatform "S"
      (.cons .int "a" (.cons .ascii_char_ptr "b" .nil))
      (.edmComplexType [("b", .edmString "x"), ("a", .edmInt32 5)]) [] exampleValue
      (widgetWorld []) (by decide) (by decide)).2.1,
   by decide, by decide⟩

/-- C31 (struct from_generic is prefix-bounded, not atomic). For a complex
record with the right member count, let field number `K`, counting from 0,
be the first declared field that fails, for want of a member of its name or
because its conversion does not return OK (`convertFields` counts `K`
conversions, fewer than there are fields). Then the result is
`AGENT_DATA_TYPES_INVALID_ARG`; every field declared after field `K` is
exactly as it was before the call; every field declared before field `K`
holds the value that the conversion of the member of its name stored, so the
destination is not rolled back; and, for the object converted at the top
level, the conversions attempted are those of the fields 0 to `K` at most,
in declared order, none being attempted for a later field. -/
theorem C31_struct_from_generic_prefix_bounded (P : Platform) (name : String) (fs : CFields)
    (src : AGENT_DATA_TYPE) (path : List Nat) (dest : NativeFields fs) (w : World) (K : Nat)
    (htag : src.type = EDM_COMPLEX_TYPE_TYPE) (hcount : src.nMembers = fs.length)
    (hK : (convertFields P src path fs 0 dest w).1 = K) (hlt : K < fs.length) :
    (FromAGENT_DATA_TYPE P (.struct name fs) src path dest w).1 =
      AGENT_DATA_TYPES_INVALID_ARG ∧
    (fieldValues fs (FromAGENT_DATA_TYPE P (.struct name fs) src path dest w).2.1).drop
        (K + 1) = (fieldValues fs dest).drop (K + 1) ∧
    (∀ i, i < K →
      ∃ (t : CType) (n : String) (m : String × AGENT_DATA_TYPE) (old : Native t) (w1 : World),
        fs.toList[i]? = some (t, n) ∧ findMember src n = some m ∧
        (fieldValues fs dest)[i]? = some ⟨t, old⟩ ∧
        (FromAGENT_DATA_TYPE P t m.2 (path ++ [i]) old w1).1 = AGENT_DATA_TYPES_OK ∧
        (fieldValues fs (FromAGENT_DATA_TYPE P (.struct name fs) src path dest w).2.1)[i]? =
          some ⟨t, (FromAGENT_DATA_TYPE P t m.2 (path ++ [i]) old w1).2.1⟩) ∧
    (path = [] →
      ∃ c, K ≤ c ∧ c ≤ K + 1 ∧
        convertedParams (callsSince w.trace.length
          (FromAGENT_DATA_TYPE P (.struct name fs) src path dest w).2.2) = List.range c) := by
  have heq : FromAGENT_DATA_TYPE P (.struct name fs) src path dest w =
      (AGENT_DATA_TYPES_INVALID_ARG, (convertFields P src path fs 0 dest w).2.1,
        (convertFields P src path fs 0 dest w).2.2) := by
    simp only [FromAGENT_DATA_TYPE, htag, ne_eq, not_true_eq_false, if_false,
      MU_DIV2_MU_COUNT_ARG]
    rw [if_neg (fun h3 => h3 hcount.symm), BUILD_eq_convertFields, if_neg (by omega)]
  rw [heq]
  refine ⟨rfl, ?_, ?_, ?_⟩
  · have := convertFields_frame P fs src path 0 dest w
    rw [hK] at this
    exact this
  · intro i hi
    obtain ⟨t, n, m, old, w1, h1, h2, h3, h4, h5⟩ :=
      convertFields_prefix P fs src path 0 dest w i (by omega)
    rw [Nat.zero_add] at h4 h5
    exact ⟨t, n, m, old, w1, h1, h2, h3, h4, h5⟩
  · intro hp
    subst hp
    obtain ⟨c, h1, h2, -, evs, h4, h5, -, -⟩ := convertFields_calls P src fs 0 dest w
    refine ⟨c, by omega, by omega, ?_⟩
    rw [callsSince_of_trace h4, h5, List.range_eq_range']

/-- C31 at a concrete input: `V { int a; int b; int c; }` holding 1, 2, 3 is
converted from a record whose member `b` is a string. Field `a` becomes 7,
fields `b` and `c` keep 2 and 3, and only the conversions of `a` and `b` are
attempted. -/
theorem C31_witness :
    (FromAGENT_DATA_TYPE examplePlatform (.struct "V" threeInts)
      (.edmComplexType [("a", .edmInt32 7), ("b", .edmString "x"), ("c", .edmInt32 9)]) []
      ((1 : Int), ((2 : Int), ((3 : Int), ()))) emptyWorld).2.1 =
        ((7 : Int), ((2 : Int), ((3 : Int), ()))) ∧
    (fieldValues threeInts (FromAGENT_DATA_TYPE examplePlatform (.struct "V" threeInts)
      (.edmComplexType [("a", .edmInt32 7), ("b", .edmString "x"), ("c", .edmInt32 9)]) []
      ((1 : Int), ((2 : Int), ((3 : Int), ()))) emptyWorld).2.1).drop 2 =
        [⟨.int, (3 : Int)⟩] ∧
    (FromAGENT_DATA_TYPE examplePlatform (.struct "V" threeInts)
      (.edmComplexType [("a", .edmInt32 7), ("b", .edmString "x"), ("c", .edmInt32 9)]) []
      ((1 : Int), ((2 : Int), ((3 : Int), ()))) emptyWorld).2.2.trace =
        [.FromAGENT_DATA_TYPE [0], .FromAGENT_DATA_TYPE [1]] :=
  ⟨rfl,
   (C31_struct_from_generic_prefix_bounded examplePlatform "V" threeInts
      (.edmComplexType [("a", .edmInt32 7), ("b", .edmString "x"), ("c", .edmInt32 9)]) []
      ((1 : Int), ((2 : Int), ((3 : Int), ()))) emptyWorld 1 rfl rfl (by decide)
      (by decide)).2.1,
   rfl⟩

/-- C32 (exact release set of a wrapper). For the wrapper of an action or of
a method with `N` parameters called with `ParameterCount = N`: when the
conversion of parameter `K` (counting from 1) is the first to fail, the
locals passed to `destroyLocalParameter` are exactly those of the parameters
`K - 1`, `K - 2`, ..., 1, in this order (numbers `K - 2`, ..., 0 counting from
0), and neither the local of parameter `K` nor that of any later parameter
is among them; when every conversion succeeds, no local is released before
the call of the user function and the locals released after it are those of
the parameters `N`, `N - 1`, ..., 1, in this order. -/
theorem C32_exact_release_set (P : Platform) (params : CFields)
    (actionName : Nat → NativeFields params → Heap → EXECUTE_COMMAND_RESULT × Heap)
    (methodName : Nat → NativeFields params → Heap → Nat × Heap)
    (stack : NativeFields params) (device : Nat) (ParameterCount : Nat)
    (values : List AGENT_DATA_TYPE) (w : World)
    (hcount : ParameterCount = params.length) :
    (∀ K, 1 ≤ K → K ≤ params.length →
      (convertLocals P values params 0 (DEFINE_LOCAL_PARAMETER P params stack) w).1 = K - 1 →
      (destroyedParams (callsSince w.trace.length
          (actionWRAPPER P params actionName stack device ParameterCount values w).2) =
        (List.range (K - 1)).reverse ∧
       destroyedParams (callsSince w.trace.length
          (methodWRAPPER P params methodName stack device ParameterCount values w).2) =
        (List.range (K - 1)).reverse ∧
       ∀ i, K - 1 ≤ i →
         i ∉ destroyedParams (callsSince w.trace.length
           (actionWRAPPER P params actionName stack device ParameterCount values w).2) ∧
         i ∉ destroyedParams (callsSince w.trace.length
           (methodWRAPPER P params methodName stack device ParameterCount values w).2))) ∧
    ((convertLocals P values params 0 (DEFINE_LOCAL_PARAMETER P params stack) w).1 =
        params.length →
      (∃ pre post,
        callsSince w.trace.length
            (actionWRAPPER P params actionName stack device ParameterCount values w).2 =
          pre ++ [.invoke device params (convertLocals P values params 0
            (DEFINE_LOCAL_PARAMETER P params stack) w).2.1] ++ post ∧
        destroyedParams pre = [] ∧
        destroyedParams post = (List.range params.length).reverse) ∧
      (∃ pre post,
        callsSince w.trace.length
            (methodWRAPPER P params methodName stack device ParameterCount values w).2 =
          pre ++ [.invoke device params (convertLocals P values params 0
            (DEFINE_LOCAL_PARAMETER P params stack) w).2.1] ++ post ∧
        destroyedParams pre = [] ∧
        destroyedParams post = (List.range params.length).reverse)) := by
  simp only [actionWRAPPER, methodWRAPPER, MU_DIV2_MU_COUNT_ARG, hcount, ne_eq,
    not_true_eq_false, if_false]
  constructor
  · intro K hK1 hKN hfail
    have hne : (convertLocals P values params 0
        (DEFINE_LOCAL_PARAMETER P params stack) w).1 ≠ params.length := by omega
    have hmin : min (convertLocals P values params 0
        (DEFINE_LOCAL_PARAMETER P params stack) w).1 params.length = K - 1 := by omega
    have key : ∀ {R : Type} (err : R) (fn : Nat → NativeFields params → Heap → R × Heap),
        destroyedParams (callsSince w.trace.length
            (BUILD_LOCAL_PARAMETER P err values params 0 (DEFINE_LOCAL_PARAMETER P params stack)
              (callUser params fn device) w).2) = (List.range (K - 1)).reverse := by
      intro R err fn
      obtain ⟨-, -, h3, -⟩ :=
        (wrapper_body P err params fn (DEFINE_LOCAL_PARAMETER P params stack) device values
          w).2 hne
      rw [hmin] at h3
      exact h3
    refine ⟨key _ actionName, key _ methodName, ?_⟩
    intro i hi
    rw [key _ actionName, key _ methodName]
    simp only [List.mem_reverse, List.mem_range]
    omega
  · intro hall
    have key : ∀ {R : Type} (err : R) (fn : Nat → NativeFields params → Heap → R × Heap),
        ∃ pre post,
          callsSince w.trace.length
              (BUILD_LOCAL_PARAMETER P err values params 0
                (DEFINE_LOCAL_PARAMETER P params stack) (callUser params fn device) w).2 =
            pre ++ [.invoke device params (convertLocals P values params 0
              (DEFINE_LOCAL_PARAMETER P params stack) w).2.1] ++ post ∧
          destroyedParams pre = [] ∧
          destroyedParams post = (List.range params.length).reverse := by
      intro R err fn
      obtain ⟨-, pre, post, h2, -, h3, -, -, h4, -⟩ :=
        (wrapper_body P err params fn (DEFINE_LOCAL_PARAMETER P params stack) device values
          w).1 hall
      exact ⟨pre, post, h2, h3, h4⟩
    exact ⟨key _ actionName, key _ methodName⟩

/-- C32 at a concrete input: an action with three string parameters whose
second argument is an integer releases the local of the first parameter and
no other. -/
theorem C32_witness :
    destroyedParams (callsSince 0
      (actionWRAPPER examplePlatform
        (.cons .ascii_char_ptr "a" (.cons .ascii_char_ptr "b" (.cons .ascii_char_ptr "c" .nil)))
        (fun _ _ h => (EXECUTE_COMMAND_SUCCESS, h)) ((7 : Nat), ((8 : Nat), ((9 : Nat), ())))
        1 3 [.edmString "x", .edmInt32 2, .edmString "z"] emptyWorld).2) = [0] :=
  ((C32_exact_release_set examplePlatform
    (.cons .ascii_char_ptr "a" (.cons .ascii_char_ptr "b" (.cons .ascii_char_ptr "c" .nil)))
    (fun _ _ h => (EXECUTE_COMMAND_SUCCESS, h)) (fun _ _ h => (1, h))
    ((7 : Nat), ((8 : Nat), ((9 : Nat), ()))) 1 3
    [.edmString "x", .edmInt32 2, .edmString "z"] emptyWorld rfl).1 2 (by decide) (by decide)
    (by decide)).1

/-- C33 (the empty-member branch of to_generic is unreachable). For every
argument list the length of `memberNames` is `max(1, N)`, N being the number
of declared data fields, so `memberCount` is never 0. For a model none of
whose elements is a property (actions and methods only),
`ToAGENT_DATA_TYPE_<model>` therefore calls
`Create_AGENT_DATA_TYPE_from_Members` with the member count 1, one member
name that is `NULL` and one member value that was never created; its result
is OK or ERROR as that call returns OK or not; and the only call it makes is
that one, no member being destroyed afterwards. -/
theorem C33_empty_member_branch_unreachable (name : String) (elements : List ModelElement)
    (path : List Nat) (value : NativeFields (modelMembers elements)) (w : World) :
    (∀ fs : CFields,
      MU_IF (MU_DIV2 (MU_COUNT_ARG fs)) (MU_DIV2 (MU_COUNT_ARG fs)) 1 = max 1 fs.length ∧
      (List.replicate (MU_IF (MU_DIV2 (MU_COUNT_ARG fs)) (MU_DIV2 (MU_COUNT_ARG fs)) 1)
        (none : Option String)).length ≠ 0) ∧
    ((∀ e ∈ elements, e.property? = none) →
      ToAGENT_DATA_TYPE_model name elements path value w =
        ((if (Create_AGENT_DATA_TYPE_from_Members name 1 [none] [none]
              (w.log (.Create_AGENT_DATA_TYPE_from_Members name 1 [none] [none]))).1 =
            AGENT_DATA_TYPES_OK then AGENT_DATA_TYPES_OK else AGENT_DATA_TYPES_ERROR),
          (Create_AGENT_DATA_TYPE_from_Members name 1 [none] [none]
              (w.log (.Create_AGENT_DATA_TYPE_from_Members name 1 [none] [none]))).2.1,
          (Create_AGENT_DATA_TYPE_from_Members name 1 [none] [none]
              (w.log (.Create_AGENT_DATA_TYPE_from_Members name 1 [none] [none]))).2.2) ∧
      (ToAGENT_DATA_TYPE_model name elements path value w).2.2.trace =
        w.trace ++ [.Create_AGENT_DATA_TYPE_from_Members name 1 [none] [none]]) := by
  constructor
  · intro fs
    have h : MU_IF (MU_DIV2 (MU_COUNT_ARG fs)) (MU_DIV2 (MU_COUNT_ARG fs)) 1 =
        max 1 fs.length := by
      rw [MU_DIV2_MU_COUNT_ARG, MU_IF_eq_max, Nat.max_comm]
    refine ⟨h, ?_⟩
    rw [List.length_replicate, h]
    omega
  · intro hnone
    have heq := To_struct_no_fields name (modelMembers elements)
      (modelMembers_no_property elements hnone) path value w
    unfold ToAGENT_DATA_TYPE_model
    refine ⟨heq, ?_⟩
    rw [heq]
    simp only
    rw [Create_from_Members_trace]
    rfl

/-- C33 at a concrete input: a model with one action and one method. -/
theorem C33_witness :
    (ToAGENT_DATA_TYPE_model "Panel" actionsOnly [] () emptyWorld).2.2.trace =
      [.Create_AGENT_DATA_TYPE_from_Members "Panel" 1 [none] [none]] :=
  ((C33_empty_member_branch_unreachable "Panel" actionsOnly [] () emptyWorld).2
    (by simp [actionsOnly, WITH_ACTION, WITH_METHOD, ModelElement.property?])).2

/-- C34 (rejection leaves the destination untouched). Whenever the
`FromAGENT_DATA_TYPE_<T>` of a primitive codec returns
`AGENT_DATA_TYPES_INVALID_ARG`, the destination and the state are as they
were before the call; in particular the string codecs free nothing. And
whenever the source is not a complex record, or is one whose member count
differs from the number of declared fields, `FromAGENT_DATA_TYPE_<struct>`
returns `AGENT_DATA_TYPES_INVALID_ARG` with every field of the destination
and the state as they were. -/
theorem C34_rejection_leaves_destination_untouched (P : Platform) (t : CType)
    (ht : t.isPrimitive = true) (g : AGENT_DATA_TYPE) (path : List Nat) (dest : Native t)
    (w : World)
    (hrejected : (FromAGENT_DATA_TYPE P t g path dest w).1 = AGENT_DATA_TYPES_INVALID_ARG) :
    FromAGENT_DATA_TYPE P t g path dest w = (AGENT_DATA_TYPES_INVALID_ARG, dest, w) ∧
    (∀ (name : String) (fs : CFields) (destination : NativeFields fs),
      g.type ≠ EDM_COMPLEX_TYPE_TYPE ∨ g.nMembers ≠ fs.length →
      FromAGENT_DATA_TYPE P (.struct name fs) g path destination w =
        (AGENT_DATA_TYPES_INVALID_ARG, destination, w)) := by
  constructor
  · have htag : g.type ≠ expectedTag t := by
      cases t with
      | struct n fs => simp [CType.isPrimitive] at ht
      | _ =>
        intro heq
        have := From_ok_or_error P _ ht g path dest w heq
        rw [hrejected] at this
        rcases this with h | h <;> cases h
    revert htag
    cases t <;> first
      | (simp [CType.isPrimitive] at ht; done)
      | (cases g <;> intro htag <;> first
          | (exfalso; exact htag rfl)
          | rfl)
  · intro name fs destination h
    rcases h with h | h
    · simp [FromAGENT_DATA_TYPE, h]
    · by_cases h1 : g.type = EDM_COMPLEX_TYPE_TYPE
      · simp only [FromAGENT_DATA_TYPE, h1, ne_eq, not_true_eq_false, if_false,
          MU_DIV2_MU_COUNT_ARG]
        rw [if_pos (fun h3 => h h3.symm)]
      · simp [FromAGENT_DATA_TYPE, h1]

/-- C34 at concrete inputs: an Int32 value is rejected by the string codec,
whose destination keeps pointing to "widget-7", and by the struct
`S { int a; ascii_char_ptr b; }`, whose fields are unchanged; nothing is
freed. -/
theorem C34_witness :
    FromAGENT_DATA_TYPE examplePlatform .ascii_char_ptr (.edmInt32 7) [0] (1 : Nat)
        (widgetWorld []) = (AGENT_DATA_TYPES_INVALID_ARG, (1 : Nat), widgetWorld []) ∧
    FromAGENT_DATA_TYPE examplePlatform exampleStruct (.edmInt32 7) [0] exampleValue
        (widgetWorld []) = (AGENT_DATA_TYPES_INVALID_ARG, exampleValue, widgetWorld []) :=
  ⟨(C34_rejection_leaves_destination_untouched examplePlatform .ascii_char_ptr rfl
      (.edmInt32 7) [0] (1 : Nat) (widgetWorld []) rfl).1,
   (C34_rejection_leaves_destination_untouched examplePlatform .ascii_char_ptr rfl
      (.edmInt32 7) [0] (1 : Nat) (widgetWorld []) rfl).2 "S"
      (.cons .int "a" (.cons .ascii_char_ptr "b" .nil)) exampleValue (Or.inl (by decide))⟩

/-- C35 (the `long` codec narrows without a range check). For every generic
value with the tag `EDM_INT64_TYPE` and payload `value`,
`FromAGENT_DATA_TYPE_long` returns OK and stores `(long)value`, while
`FromAGENT_DATA_TYPE_int64_t` returns OK and stores `value` itself. With
`long` being `LONG_BIT` bits wide, the stored `long` differs from `value` by
a multiple of `2 ^ LONG_BIT` and lies in the range of `long`: it is `value`
when `value` is in that range, and a different number, with the result still
OK, when it is not. -/
theorem C35_long_codec_narrows (P : Platform) (g : AGENT_DATA_TYPE) (path : List Nat)
    (dest : Int) (w : World) (htag : g.type = EDM_INT64_TYPE) :
    ∃ value : Int, g = .edmInt64 value ∧
      FromAGENT_DATA_TYPE P .long g path dest w =
        (AGENT_DATA_TYPES_OK, wrapSigned P.LONG_BIT value, w) ∧
      FromAGENT_DATA_TYPE P .int64_t g path dest w = (AGENT_DATA_TYPES_OK, value, w) ∧
      (2 : Int) ^ P.LONG_BIT ∣ wrapSigned P.LONG_BIT value - value ∧
      (1 ≤ P.LONG_BIT →
        (-(2 : Int) ^ (P.LONG_BIT - 1) ≤ wrapSigned P.LONG_BIT value ∧
          wrapSigned P.LONG_BIT value < (2 : Int) ^ (P.LONG_BIT - 1)) ∧
        (-(2 : Int) ^ (P.LONG_BIT - 1) ≤ value ∧ value < (2 : Int) ^ (P.LONG_BIT - 1) →
          wrapSigned P.LONG_BIT value = value) ∧
        (¬ (-(2 : Int) ^ (P.LONG_BIT - 1) ≤ value ∧ value < (2 : Int) ^ (P.LONG_BIT - 1)) →
          wrapSigned P.LONG_BIT value ≠ value)) := by
  cases g <;> simp [AGENT_DATA_TYPE.type] at htag
  rename_i value
  obtain ⟨h1, h2⟩ := wrapSigned_spec P.LONG_BIT value
  refine ⟨value, rfl, rfl, rfl, h1, fun hw => ⟨h2 hw, fun hr => wrapSigned_of_inRange hw hr.1 hr.2,
    fun hout heq => hout ?_⟩⟩
  have := h2 hw
  rw [heq] at this
  exact this

/-- C35 at a concrete input: with a 32-bit `long` the payload `2 ^ 32 + 5`
is stored as 5 by the `long` codec and unchanged by the `int64_t` codec. -/
theorem C35_witness :
    FromAGENT_DATA_TYPE platform32 .long (.edmInt64 4294967301) [] (0 : Int) emptyWorld =
      (AGENT_DATA_TYPES_OK, (5 : Int), emptyWorld) ∧
    FromAGENT_DATA_TYPE platform32 .int64_t (.edmInt64 4294967301) [] (0 : Int) emptyWorld =
      (AGENT_DATA_TYPES_OK, (4294967301 : Int), emptyWorld) ∧
    ∃ value : Int, AGENT_DATA_TYPE.edmInt64 4294967301 = .edmInt64 value ∧
      FromAGENT_DATA_TYPE platform32 .long (.edmInt64 4294967301) [] (0 : Int) emptyWorld =
        (AGENT_DATA_TYPES_OK, wrapSigned platform32.LONG_BIT value, emptyWorld) :=
  ⟨rfl, rfl,
    (C35_long_codec_narrows platform32 (.edmInt64 4294967301) [] 0 emptyWorld rfl).imp
      (fun _ h => ⟨h.1, h.2.1⟩)⟩

/-- C36 (model-level initialisation touches only reported properties). Every
field of the struct of a model has a flag telling whether it is a reported
property. `GlobalInitialize_<model>` leaves the fields of the struct as
`GlobalInitialize_<type>` applied to the reported properties, and to them
alone, leaves them; `GlobalDeinitialize_<model>` leaves the fields and the
state as `GlobalDeinitialize_<type>` applied in turn to the reported
properties, and to them alone, leaves them; a field that is a `WITH_DATA`
property or a desired property is unchanged by both; and for a model without
a reported property both functions change nothing at all. -/
theorem C36_model_initialisation_touches_only_reported (P : Platform)
    (elements : List ModelElement) (v : NativeFields (modelMembers elements)) (w : World) :
    (reportedFlags elements).length = (modelMembers elements).length ∧
    fieldValues _ (GlobalInitialize_model P elements v) =
      initializeWhere P (reportedFlags elements) (fieldValues _ v) ∧
    (fieldValues _ (GlobalDeinitialize_model elements v w).1,
        (GlobalDeinitialize_model elements v w).2) =
      releaseWhere (reportedFlags elements) (fieldValues _ v) w ∧
    (∀ i : Nat, (reportedFlags elements)[i]? = some false →
      (fieldValues (modelMembers elements) (GlobalInitialize_model P elements v))[i]? =
          (fieldValues (modelMembers elements) v)[i]? ∧
      (fieldValues (modelMembers elements) (GlobalDeinitialize_model elements v w).1)[i]? =
          (fieldValues (modelMembers elements) v)[i]?) ∧
    ((∀ e ∈ elements, e.kind ≠ REFLECTION_REPORTED_PROPERTY_TYPE) →
      GlobalInitialize_model P elements v = v ∧
      GlobalDeinitialize_model elements v w = (v, w)) := by
  refine ⟨reportedFlags_length elements, GlobalInitialize_model_eq P elements v,
    GlobalDeinitialize_model_eq elements v w, ?_, fun h => model_no_reported P elements h v w⟩
  intro i hi
  constructor
  · rw [GlobalInitialize_model_eq]
    exact initializeWhere_frame P _ _ i hi
  · have := congrArg Prod.fst (GlobalDeinitialize_model_eq elements v w)
    simp only at this
    rw [this]
    exact releaseWhere_frame _ _ w i hi

/-- C36 at a concrete input: the model `Thermostat`, whose only reported
property is the string `firmware`. Initialisation sets `firmware` to `NULL`
and keeps the other three fields; deinitialisation frees the string at
address 1 and changes no field. -/
theorem C36_witness :
    GlobalInitialize_model examplePlatform exampleModel
        ((21 : Int), ((22 : Int), ((3 : Nat), ((1 : Nat), ())))) =
      ((21 : Int), ((22 : Int), ((3 : Nat), ((0 : Nat), ())))) ∧
    (GlobalDeinitialize_model exampleModel
        ((21 : Int), ((22 : Int), ((3 : Nat), ((1 : Nat), ())))) (widgetWorld [])).1 =
      ((21 : Int), ((22 : Int), ((3 : Nat), ((1 : Nat), ())))) ∧
    (GlobalDeinitialize_model exampleModel
        ((21 : Int), ((22 : Int), ((3 : Nat), ((1 : Nat), ())))) (widgetWorld [])).2.freed =
      [1] ∧
    reportedFlags exampleModel = [false, false, false, true] ∧
    fieldValues _ (GlobalInitialize_model examplePlatform exampleModel
        ((21 : Int), ((22 : Int), ((3 : Nat), ((1 : Nat), ()))))) =
      initializeWhere examplePlatform (reportedFlags exampleModel)
        (fieldValues (modelMembers exampleModel)
          ((21 : Int), ((22 : Int), ((3 : Nat), ((1 : Nat), ()))))) :=
  ⟨rfl, rfl, rfl, rfl,
    (C36_model_initialisation_touches_only_reported examplePlatform exampleModel
      ((21 : Int), ((22 : Int), ((3 : Nat), ((1 : Nat), ())))) (widgetWorld [])).2.1⟩

/-- C37 (releasers differ in whether they reset the value).
`destroyLocalParameterEDM_BINARY` leaves `data = NULL`, `size = 0` for every
input, and applying it a second time changes neither the value nor the
state, so a buffer `p` is freed once. `destroyLocalParameter` and
`GlobalDeinitialize_` for both string types, and `GlobalDeinitialize_EDM_BINARY`,
free a non-NULL pointer `p` and leave the value as it was, so a second
application frees `p` again. -/
theorem C37_releasers_differ (p size : Nat) (path : List Nat) (w : World) (hp : p ≠ 0) :
    (∀ value : LokiSDK.EDM_BINARY,
      (destroyLocalParameter .EDM_BINARY path value w).1 =
        ({ size := 0, data := 0 } : LokiSDK.EDM_BINARY) ∧
      destroyLocalParameter .EDM_BINARY path
          (destroyLocalParameter .EDM_BINARY path value w).1
          (destroyLocalParameter .EDM_BINARY path value w).2 =
        destroyLocalParameter .EDM_BINARY path value w) ∧
    (destroyLocalParameter .EDM_BINARY path
        ({ size := size, data := p } : LokiSDK.EDM_BINARY) w).2.freed = w.freed ++ [p] ∧
    (destroyLocalParameter .ascii_char_ptr path p w = (p, w.free p) ∧
      (destroyLocalParameter .ascii_char_ptr path
        (destroyLocalParameter .ascii_char_ptr path p w).1
        (destroyLocalParameter .ascii_char_ptr path p w).2).2.freed = w.freed ++ [p, p]) ∧
    (destroyLocalParameter .ascii_char_ptr_no_quotes path p w = (p, w.free p) ∧
      (destroyLocalParameter .ascii_char_ptr_no_quotes path
        (destroyLocalParameter .ascii_char_ptr_no_quotes path p w).1
        (destroyLocalParameter .ascii_char_ptr_no_quotes path p w).2).2.freed =
          w.freed ++ [p, p]) ∧
    ( GlobalDeinitialize .ascii_char_ptr p w = (p, w.free p) ∧
      ( GlobalDeinitialize .ascii_char_ptr
        ( GlobalDeinitialize .ascii_char_ptr p w).1
        ( GlobalDeinitialize .ascii_char_ptr p w).2).2.freed = w.freed ++ [p, p]) ∧
    ( GlobalDeinitialize .ascii_char_ptr_no_quotes p w = (p, w.free p) ∧
      ( GlobalDeinitialize .ascii_char_ptr_no_quotes
        ( GlobalDeinitialize .ascii_char_ptr_no_quotes p w).1
        ( GlobalDeinitialize .ascii_char_ptr_no_quotes p w).2).2.freed = w.freed ++ [p, p]) ∧
    ( GlobalDeinitialize .EDM_BINARY ({ size := size, data := p } : LokiSDK.EDM_BINARY) w =
        (({ size := size, data := p } : LokiSDK.EDM_BINARY), w.free p) ∧
      ( GlobalDeinitialize .EDM_BINARY
        ( GlobalDeinitialize .EDM_BINARY ({ size := size, data := p } : LokiSDK.EDM_BINARY) w).1
        ( GlobalDeinitialize .EDM_BINARY
          ({ size := size, data := p } : LokiSDK.EDM_BINARY) w).2).2.freed =
        w.freed ++ [p, p]) := by
  refine ⟨fun value => ⟨rfl, ?_⟩, ?_, ⟨rfl, ?_⟩, ⟨rfl, ?_⟩, ⟨?_, ?_⟩, ⟨?_, ?_⟩, ⟨?_, ?_⟩⟩
  · simp [destroyLocalParameter, destroyLocalParameterEDM_BINARY, World.free]
  · simp [destroyLocalParameter, destroyLocalParameterEDM_BINARY, World.free, hp]
  · simp [destroyLocalParameter, destroyLocalParameterascii_char_ptr, World.free, hp]
  · simp [destroyLocalParameter, destroyLocalParameterascii_char_ptr_no_quotes, World.free, hp]
  · simp [ GlobalDeinitialize, GlobalDeinitialize_ascii_char_ptr, hp]
  · simp [ GlobalDeinitialize, GlobalDeinitialize_ascii_char_ptr, World.free, hp]
  · simp [ GlobalDeinitialize, GlobalDeinitialize_ascii_char_ptr_no_quotes, hp]
  · simp [ GlobalDeinitialize, GlobalDeinitialize_ascii_char_ptr_no_quotes, World.free, hp]
  · simp [ GlobalDeinitialize, GlobalDeinitialize_EDM_BINARY, hp]
  · simp [ GlobalDeinitialize, GlobalDeinitialize_EDM_BINARY, World.free, hp]

/-- C37 at concrete inputs: releasing the string at address 1 twice frees
address 1 twice; destroying the binary value at address 1 twice frees it
once. -/
theorem C37_witness :
    (destroyLocalParameter .ascii_char_ptr [0]
      (destroyLocalParameter .ascii_char_ptr [0] (1 : Nat) (widgetWorld [])).1
      (destroyLocalParameter .ascii_char_ptr [0] (1 : Nat) (widgetWorld [])).2).2.freed =
        [1, 1] ∧
    (destroyLocalParameter .EDM_BINARY [0]
      (destroyLocalParameter .EDM_BINARY [0]
        ({ size := 3, data := 1 } : LokiSDK.EDM_BINARY) blobWorld).1
      (destroyLocalParameter .EDM_BINARY [0]
        ({ size := 3, data := 1 } : LokiSDK.EDM_BINARY) blobWorld).2).2.freed = [1] :=
  ⟨(C37_releasers_differ 1 3 [0] (widgetWorld []) (by decide)).2.2.1.2, by decide⟩

/-- C38, evaluated. When the wrapper of a method declared with `n` parameters
is called with `ParameterCount` other than `n` (both counts fitting an
`unsigned long`), it returns `NULL` and logs the message with the arguments
`ParameterCount` and `2 * n`, in this order: the number printed as the
expected count is the count received, the number printed as the actual count
is twice the declared count, and this pair is never the pair `n`,
`ParameterCount` of the claim. -/
theorem C38_method_arity_message (P : Platform) (params : CFields)
    (methodName : Nat → NativeFields params → Heap → Nat × Heap)
    (stack : NativeFields params) (device : Nat) (ParameterCount : Nat)
    (values : List AGENT_DATA_TYPE) (w : World)
    (hmismatch : ParameterCount ≠ params.length)
    (hcount : ParameterCount < 2 ^ P.LONG_BIT) (hparams : 2 * params.length < 2 ^ P.LONG_BIT) :
    methodWRAPPER P params methodName stack device ParameterCount values w =
      (0, w.log (.LogError
        "expected parameter count (%lu) does not match the actual parameter count (%lu)"
        [ParameterCount, 2 * params.length])) ∧
    [ParameterCount, 2 * params.length] ≠ [params.length, ParameterCount] := by
  constructor
  · unfold methodWRAPPER
    rw [MU_DIV2_MU_COUNT_ARG, if_pos hmismatch]
    simp only [MU_COUNT_ARG, Nat.mod_eq_of_lt hcount, Nat.mod_eq_of_lt hparams]
  · intro h
    simp only [List.cons.injEq, and_true] at h
    exact hmismatch h.1

/-- C38 at a concrete input: `SetPrice`, declared with two parameters and
called with three arguments, logs the counts 3 and 4. -/
theorem C38_witness :
    (methodWRAPPER examplePlatform SetPrice_params SetPriceMethod ((7 : Nat), ((9 : Nat), ()))
      1 3 [.edmString "widget-7", .edmString "19.99", .edmString "x"] emptyWorld).2.trace =
      [.LogError
        "expected parameter count (%lu) does not match the actual parameter count (%lu)"
        [3, 4]] :=
  congrArg (fun r => r.2.trace)
    (C38_method_arity_message examplePlatform SetPrice_params SetPriceMethod
      ((7 : Nat), ((9 : Nat), ())) 1 3
      [.edmString "widget-7", .edmString "19.99", .edmString "x"] emptyWorld (by decide)
      (by decide) (by decide)).1

end LokiSDK
